import Mathlib

/-!
# ShaderGlass frame pipeline: a shallow embedding of `ShaderGlass::Process`

Sources: `src/ShaderGlass/ShaderGlass.cpp`, and for the session and window parts
`src/ShaderGlass/CaptureManager.cpp`, `src/ShaderGlass/CaptureManager.h` and
`src/ShaderGlass/ShaderWindow.cpp`.

Conventions of the embedding.

* C++ `float`/`double` values are rationals (`ℚ`).  The pass sizes are truncations of
  `float` products, and there the product is rounded to binary32 (`floatMul`); a
  quotient whose divisor can be zero is a `FloatValue`.  Elsewhere the arithmetic is
  exact.  Conversions to integers truncate toward zero as in C++.
* `UINT` is a natural number below `2^32`; conversions into it keep the low
  32 bits.  `LONG`/`int` values are integers.
* A `winrt::com_ptr<T>` or raw view pointer is an `Option`; `nullptr` is `none`.
* Direct3D objects are records that carry the descriptor they were created
  from and a device-unique id; device calls are appended to a call log.
* Keys of `m_passResources` and `m_textureSizes` are values of `Name`, a normal
  form of the `std::string` keys: the strings the code builds by concatenation
  with an index are constructors of their own, and a string chosen by a preset
  (alias, static texture) becomes a key through `Name.ofString`, which gives the
  key the code builds when the string is one of those.
* What Windows and the capture source report during one call of `Process`
  is the `FrameInput` argument.
-/

namespace ShaderGlass

/-! ## Numeric conversions -/

/-- Truncation toward zero of a rational: the integer a C++ conversion from
`float` to an integer type produces. -/
def truncToInt (x : ℚ) : Int := Int.tdiv x.num x.den

/-- Conversion `static_cast<UINT>(x)` of a float: truncate toward zero and keep the
low 32 bits. -/
def castUINT (x : ℚ) : Nat := (truncToInt x % 4294967296).toNat

/-- Conversion `static_cast<UINT>(n)` of a `LONG`: keep the low 32 bits. -/
def longToUINT (n : Int) : Nat := (n % 4294967296).toNat

/-- Conversions `static_cast<long>(x)`, `(LONG)x`, `(int)x`, `static_cast<int>(x)` of
a float. -/
def castLong (x : ℚ) : Int := truncToInt x

/-- C `roundf`: nearest integer, halfway cases away from zero. -/
def roundf (x : ℚ) : ℚ :=
  if 0 ≤ x then (truncToInt (x + 1 / 2) : ℚ) else (truncToInt (x - 1 / 2) : ℚ)

/-- The number of binary digits of `n`, found by halving at most `fuel` times. -/
def bitLength : Nat → Nat → Nat
  | 0, _ => 0
  | fuel + 1, n => if n = 0 then 0 else bitLength fuel (n / 2) + 1

/-- The power `2^e` for an integer exponent. -/
def pow2 (e : Int) : ℚ :=
  if 0 ≤ e then ((2 ^ e.toNat : Nat) : ℚ) else 1 / ((2 ^ (-e).toNat : Nat) : ℚ)

/-- The binary exponent of a rational that is not zero: the `e` with
`2^e ≤ |x| < 2^(e+1)`. -/
def binaryExponent (x : ℚ) : Int :=
  let e0 : Int := (bitLength x.num.natAbs x.num.natAbs : Int) - (bitLength x.den x.den : Int)
  if |x| < pow2 e0 then e0 - 1 else e0

/-- Rounding of a rational to the nearest integer, halfway cases to the even one. -/
def roundEven (m : ℚ) : Int :=
  if m - ⌊m⌋ < 1 / 2 then ⌊m⌋
  else if 1 / 2 < m - ⌊m⌋ then ⌊m⌋ + 1
  else if ⌊m⌋ % 2 = 0 then ⌊m⌋ else ⌊m⌋ + 1

/-- Rounding of a real value to `float`, IEEE 754 binary32 with round to nearest and ties
to even: 24 significant binary digits and a least exponent of -126.  A value beyond the
largest finite `float`, which the code would turn into an infinity, is rounded as if the
exponent had no upper bound. -/
def roundFloat (x : ℚ) : ℚ :=
  if x = 0 then 0
  else
    let e := max (binaryExponent x) (-126)
    (roundEven (x / pow2 (e - 23)) : ℚ) * pow2 (e - 23)

/-- Conversion of a `UINT` to `float`, which `UINT * float` applies to its left
operand. -/
def floatOfUINT (n : Nat) : ℚ := roundFloat n

/-- The `float` product `a * b` of two floats. -/
def floatMul (a b : ℚ) : ℚ := roundFloat (a * b)

/-- Windows `max` on integers as used for the history depth. -/
def maxNat (a b : Nat) : Nat := if a > b then a else b

/-! ## Windows and Direct3D data -/

/-- Win32 `POINT`. -/
structure POINT where
  x : Int
  y : Int
  deriving DecidableEq, Repr

/-- Win32 `RECT`. -/
structure RECT where
  left : Int
  top : Int
  right : Int
  bottom : Int
  deriving DecidableEq, Repr

/-- The `DXGI_FORMAT` values the pipeline distinguishes. -/
inductive Format where
  | B8G8R8A8_UNORM
  | B8G8R8A8_UNORM_SRGB
  | R16G16B16A16_FLOAT
  | other (code : Nat)
  deriving DecidableEq, Repr

/-- The fields of `D3D11_TEXTURE2D_DESC` that `Process` sets or reads. -/
structure TextureDesc where
  Width : Nat
  Height : Nat
  Format : Format
  bindShaderResource : Bool
  bindRenderTarget : Bool
  deriving DecidableEq, Repr

/-- An `ID3D11Texture2D`: its descriptor and a device-unique id. -/
structure Texture2D where
  id : Nat
  desc : TextureDesc
  deriving DecidableEq, Repr

/-- An `ID3D11RenderTargetView` of a texture. -/
structure RenderTargetView where
  texture : Texture2D
  deriving DecidableEq, Repr

/-- An `ID3D11ShaderResourceView` of a texture. -/
structure ShaderResourceView where
  texture : Texture2D
  deriving DecidableEq, Repr

/-- What a texture holds, by provenance. -/
inductive Pixels where
  | undefined
  | background
  | captured (frame : Nat)
  | original (frame : Nat)
  | passOutput (pass : Nat) (frame : Nat)
  | region (src : Pixels)
  deriving DecidableEq, Repr

/-- Device and window-system calls issued by the pipeline, in order of issue. -/
inductive Call where
  | present
  | resizeBuffers (width height : Nat)
  | getBuffer (id : Nat)
  | createTexture2D (t : Texture2D)
  | createRenderTargetView (textureId : Option Nat)
  | createShaderResourceView (textureId : Option Nat)
  | clearRenderTargetView (textureId : Option Nat)
  | createCapturedView (frame : Nat)
  | renderPreprocess
  | renderPass (index : Nat)
  | copyResource (dst src : Nat)
  | copySubresourceRegion (dst src : Nat)
  | postUpdateParams
  deriving DecidableEq, Repr

/-- The keys of `m_passResources` and `m_textureSizes`, which are `std::string`s.  The
strings the code builds are the first five constructors; `user` is every other string.
A string that comes from a preset becomes a key through `Name.ofString`. -/
inductive Name where
  | original
  | finalViewport
  | passOutput (index : Nat)
  | passFeedback (index : Nat)
  | originalHistory (index : Nat)
  | user (name : String)
  deriving DecidableEq, Repr

/-- The number a string of decimal digits writes. -/
def digitsValue (ds : List Char) : Nat :=
  ds.foldl (fun a c => 10 * a + (c.toNat - 48)) 0

/-- The index `k` for which the string is `pre` followed by `std::to_string(k)`, if
there is one. -/
def indexAfter (pre : String) (s : String) : Option Nat :=
  if pre.data ++ Nat.toDigits 10 (digitsValue (s.data.drop pre.length)) = s.data then
    some (digitsValue (s.data.drop pre.length))
  else none

/-- The key a `std::string` is in `m_passResources` and `m_textureSizes`: a string the
code also builds, `Original`, `FinalViewport`, or `PassOutput`, `PassFeedback` or
`OriginalHistory` followed by an index as `std::to_string` writes it, is the key the code
builds; every other string is a key of its own. -/
def Name.ofString (s : String) : Name :=
  if s = "Original" then Name.original
  else if s = "FinalViewport" then Name.finalViewport
  else
    match indexAfter "PassOutput" s with
    | some k => Name.passOutput k
    | none =>
      match indexAfter "PassFeedback" s with
      | some k => Name.passFeedback k
      | none =>
        match indexAfter "OriginalHistory" s with
        | some k => Name.originalHistory k
        | none => Name.user s

/-- The `std::string` a key is. -/
def Name.render : Name → String
  | Name.original => "Original"
  | Name.finalViewport => "FinalViewport"
  | Name.passOutput k => String.mk ("PassOutput".data ++ Nat.toDigits 10 k)
  | Name.passFeedback k => String.mk ("PassFeedback".data ++ Nat.toDigits 10 k)
  | Name.originalHistory k => String.mk ("OriginalHistory".data ++ Nat.toDigits 10 k)
  | Name.user s => s

/-- The `float4` stored in `m_textureSizes`. -/
structure float4 where
  x : ℚ
  y : ℚ
  z : ℚ
  w : ℚ
  deriving DecidableEq

/-! ## `std::map` operations on association lists -/

/-- Lookup `std::map::find`: the value stored under a key, if any. -/
def mapFind {κ ν : Type} [DecidableEq κ] (m : List (κ × ν)) (k : κ) : Option ν :=
  match m with
  | [] => none
  | (k', v) :: rest => if k' = k then some v else mapFind rest k

/-- Insertion `std::map::insert`: adds the pair unless the key is already present. -/
def mapInsert {κ ν : Type} [DecidableEq κ] (m : List (κ × ν)) (k : κ) (v : ν) :
    List (κ × ν) :=
  match m with
  | [] => [(k, v)]
  | (k', v') :: rest => if k' = k then (k', v') :: rest else (k', v') :: mapInsert rest k v

/-- Assignment `m[k] = v`: overwrites the value of a present key, else adds the pair. -/
def mapAssign {κ ν : Type} [DecidableEq κ] (m : List (κ × ν)) (k : κ) (v : ν) :
    List (κ × ν) :=
  match m with
  | [] => [(k, v)]
  | (k', v') :: rest => if k' = k then (k', v) :: rest else (k', v') :: mapAssign rest k v

/-- The keys of a map. -/
def mapKeys {κ ν : Type} (m : List (κ × ν)) : List κ := m.map Prod.fst

/-- Replace element `i` of a vector by `f` of it; out of range leaves it as is. -/
def modifyAt {α : Type} (f : α → α) : Nat → List α → List α
  | _, [] => []
  | 0, a :: rest => f a :: rest
  | i + 1, a :: rest => a :: modifyAt f i rest

/-! ## Shaders, presets and passes -/

/-- A `ShaderParam`: a named numeric parameter of a shader. -/
structure ShaderParam where
  name : String
  size : Nat
  currentValue : ℚ
  defaultValue : ℚ
  deriving DecidableEq

/-- A `Shader` of a preset: the declared attributes `Process` reads through
`ShaderPass::m_shader`, its parameters, and the declared feedback and history
requirements that `RequiresFeedback()` and `RequiresHistory()` report. -/
structure Shader where
  m_scaleX : ℚ
  m_scaleY : ℚ
  m_scaleViewportX : Bool
  m_scaleViewportY : Bool
  m_scaleAbsoluteX : Bool
  m_scaleAbsoluteY : Bool
  m_alias : String
  m_formatFloat : Bool
  m_formatSRGB : Bool
  m_params : List ShaderParam
  requiresFeedback : Bool
  requiresHistory : Nat
  deriving DecidableEq

/-- An entry of `PresetDef::Overrides`. -/
structure ParamOverride where
  name : String
  value : ℚ
  deriving DecidableEq

/-- A static texture of a preset, after `Preset::Create`. -/
structure PresetTexture where
  m_name : String
  m_textureView : Option ShaderResourceView
  deriving DecidableEq

/-- A `Preset`: shaders in declared order, static textures, parameter overrides. -/
structure Preset where
  m_shaders : List Shader
  m_textures : List PresetTexture
  Overrides : List ParamOverride
  deriving DecidableEq

/-- A `ShaderPass`.  In C++ `m_shader` is a reference to the shader of the preset;
`Process` reads only declaration fields through it, so the pass carries the
declaration. -/
structure ShaderPass where
  m_shader : Shader
  m_sourceWidth : Nat
  m_sourceHeight : Nat
  m_destWidth : Nat
  m_destHeight : Nat
  m_targetView : Option RenderTargetView
  m_sourceView : Option ShaderResourceView
  deriving DecidableEq

/-- The preprocessing pass `m_preprocessPass`: sizes, target and the transform last
given to `UpdateMVP`. -/
structure PreprocessPass where
  m_sourceWidth : Nat
  m_sourceHeight : Nat
  m_destWidth : Nat
  m_destHeight : Nat
  m_targetView : Option RenderTargetView
  sx : ℚ
  sy : ℚ
  tx : ℚ
  ty : ℚ
  deriving DecidableEq

/-- One element of the local vector `passSizes`: source width and height, then
destination width and height (array slots 0 to 3). -/
structure PassSize where
  sourceWidth : Nat
  sourceHeight : Nat
  destWidth : Nat
  destHeight : Nat
  deriving DecidableEq, Repr

/-- Member `RequiresFeedback()` of a pass. -/
def ShaderPass.RequiresFeedback (pass : ShaderPass) : Bool := pass.m_shader.requiresFeedback

/-- Member `RequiresHistory()` of a pass. -/
def ShaderPass.RequiresHistory (pass : ShaderPass) : Nat := pass.m_shader.requiresHistory

/-- Modelled from the spec: `ShaderPass::Resize` is not under src/; it records the
resolved source and destination size of the pass. -/
def ShaderPass.Resize (pass : ShaderPass) (sourceWidth sourceHeight destWidth destHeight : Nat) :
    ShaderPass :=
  { pass with m_sourceWidth := sourceWidth, m_sourceHeight := sourceHeight,
              m_destWidth := destWidth, m_destHeight := destHeight }

/-- Modelled from the spec: `ShaderPass::Resize` of the preprocessing pass, as above. -/
def PreprocessPass.Resize (pass : PreprocessPass)
    (sourceWidth sourceHeight destWidth destHeight : Nat) : PreprocessPass :=
  { pass with m_sourceWidth := sourceWidth, m_sourceHeight := sourceHeight,
              m_destWidth := destWidth, m_destHeight := destHeight }

/-- Modelled from the spec: `ShaderPass::UpdateMVP` is not under src/; it uploads the
scale and translation of the preprocess transform. -/
def PreprocessPass.UpdateMVP (pass : PreprocessPass) (sx sy tx ty : ℚ) : PreprocessPass :=
  { pass with sx := sx, sy := sy, tx := tx, ty := ty }

/-- The captured frame handed to `Process`: its descriptor and which frame it shows. -/
structure CapturedTexture where
  desc : TextureDesc
  frame : Nat
  deriving DecidableEq, Repr

/-- What Windows and the capture source report during one call of `Process`. -/
structure FrameInput where
  texture : Option CapturedTexture
  lockAcquired : Bool
  topLeft : POINT
  clientRect : RECT
  captureTopLeft : POINT
  captureClient : RECT
  captureRect : RECT
  ticks : Nat
  deriving DecidableEq

/-- The members of `ShaderGlass` that `Process` reads or writes, and the device. -/
structure State where
  m_running : Bool
  m_frameCounter : Int
  m_frameSkip : Int
  m_captureWindow : Bool
  m_clone : Bool
  m_image : Bool
  m_monitorOffset : POINT
  m_lastCaptureWindowPos : POINT
  m_lastSize : POINT
  m_lastPos : POINT
  m_inputRescaled : Bool
  m_outputRescaled : Bool
  m_inputScaleW : ℚ
  m_inputScaleH : ℚ
  m_outputScaleW : ℚ
  m_outputScaleH : ℚ
  m_flipHorizontal : Bool
  m_flipVertical : Bool
  m_freeScale : Bool
  m_lockedArea : RECT
  m_lockedAreaUpdated : Bool
  m_boxX : Int
  m_boxY : Int
  m_displayTexture : Option Texture2D
  m_displayRenderTarget : Option RenderTargetView
  m_preprocessedTexture : Option Texture2D
  m_preprocessedRenderTarget : Option RenderTargetView
  m_originalView : Option ShaderResourceView
  m_preprocessPass : PreprocessPass
  m_shaderPreset : Preset
  m_newShaderPreset : Option Preset
  m_newParams : List (Int × String × ℚ)
  m_shaderPasses : List ShaderPass
  m_presetTextures : List (String × Option ShaderResourceView)
  m_textureSizes : List (Name × float4)
  m_passResources : List (Name × Option ShaderResourceView)
  m_passTargets : List (Option RenderTargetView)
  m_passTextures : List Texture2D
  m_requiresFeedback : Bool
  m_requiresHistory : Nat
  m_renderCounter : Nat
  m_prevRenderCounter : Nat
  m_prevTicks : Nat
  m_fps : ℚ
  nextId : Nat
  pixels : List (Nat × Pixels)
  calls : List Call
  deriving DecidableEq

/-! ## Assignments to single members

Every change of the state is one of these assignments; the members and `Process`
below are compositions of them.  They are reducible, so that reading a member of an
assigned state reduces by definitional simplification. -/

/-- Append device calls to the log. -/
@[reducible] def logCalls (cs : List Call) (s : State) : State := { s with calls := s.calls ++ cs }

/-- Take the next free device id. -/
@[reducible] def allocId (s : State) : State := { s with nextId := s.nextId + 1 }

/-- Store `p` as the content of texture `id`. -/
@[reducible] def writePixels (id : Nat) (p : Pixels) (s : State) : State :=
  { s with pixels := mapAssign s.pixels id p }

/-- Assign `m_frameCounter`. -/
@[reducible] def setFrameCounter (n : Int) (s : State) : State := { s with m_frameCounter := n }

/-- Assign `m_lastCaptureWindowPos`. -/
@[reducible] def setLastCaptureWindowPos (p : POINT) (s : State) : State :=
  { s with m_lastCaptureWindowPos := p }

/-- Assign `m_lastSize`. -/
@[reducible] def setLastSize (p : POINT) (s : State) : State := { s with m_lastSize := p }

/-- Assign `m_lastPos`. -/
@[reducible] def setLastPos (p : POINT) (s : State) : State := { s with m_lastPos := p }

/-- Assign `m_inputRescaled` and `m_outputRescaled`. -/
@[reducible] def setRescaleFlags (input output : Bool) (s : State) : State :=
  { s with m_inputRescaled := input, m_outputRescaled := output }

/-- Assign `m_lockedAreaUpdated`. -/
@[reducible] def setLockedAreaUpdated (b : Bool) (s : State) : State := { s with m_lockedAreaUpdated := b }

/-- Assign `m_boxX` and `m_boxY`. -/
@[reducible] def setBox (x y : Int) (s : State) : State := { s with m_boxX := x, m_boxY := y }

/-- Assign `m_displayTexture`. -/
@[reducible] def setDisplayTexture (t : Option Texture2D) (s : State) : State :=
  { s with m_displayTexture := t }

/-- Assign `m_displayRenderTarget`. -/
@[reducible] def setDisplayRenderTarget (v : Option RenderTargetView) (s : State) : State :=
  { s with m_displayRenderTarget := v }

/-- Assign `m_preprocessedTexture`. -/
@[reducible] def setPreprocessedTexture (t : Option Texture2D) (s : State) : State :=
  { s with m_preprocessedTexture := t }

/-- Assign `m_originalView`. -/
@[reducible] def setOriginalView (v : Option ShaderResourceView) (s : State) : State :=
  { s with m_originalView := v }

/-- Assign `m_preprocessedRenderTarget`. -/
@[reducible] def setPreprocessedRenderTarget (v : Option RenderTargetView) (s : State) : State :=
  { s with m_preprocessedRenderTarget := v }

/-- Assign `m_preprocessPass`. -/
@[reducible] def setPreprocessPass (p : PreprocessPass) (s : State) : State := { s with m_preprocessPass := p }

/-- Assign `m_shaderPreset`. -/
@[reducible] def setShaderPreset (p : Preset) (s : State) : State := { s with m_shaderPreset := p }

/-- Assign `m_newShaderPreset`. -/
@[reducible] def setNewShaderPreset (p : Option Preset) (s : State) : State :=
  { s with m_newShaderPreset := p }

/-- Assign `m_newParams`. -/
@[reducible] def setNewParams (l : List (Int × String × ℚ)) (s : State) : State := { s with m_newParams := l }

/-- Assign `m_shaderPasses`. -/
@[reducible] def setShaderPasses (l : List ShaderPass) (s : State) : State := { s with m_shaderPasses := l }

/-- Assign `m_presetTextures`. -/
@[reducible] def setPresetTextures (m : List (String × Option ShaderResourceView)) (s : State) : State :=
  { s with m_presetTextures := m }

/-- Assign `m_textureSizes`. -/
@[reducible] def setTextureSizes (m : List (Name × float4)) (s : State) : State :=
  { s with m_textureSizes := m }

/-- Assign `m_passResources`. -/
@[reducible] def setPassResources (m : List (Name × Option ShaderResourceView)) (s : State) : State :=
  { s with m_passResources := m }

/-- Assign `m_passTargets`. -/
@[reducible] def setPassTargets (l : List (Option RenderTargetView)) (s : State) : State :=
  { s with m_passTargets := l }

/-- Assign `m_passTextures`. -/
@[reducible] def setPassTextures (l : List Texture2D) (s : State) : State := { s with m_passTextures := l }

/-- Assign `m_requiresFeedback`. -/
@[reducible] def setRequiresFeedback (b : Bool) (s : State) : State := { s with m_requiresFeedback := b }

/-- Assign `m_requiresHistory`. -/
@[reducible] def setRequiresHistory (n : Nat) (s : State) : State := { s with m_requiresHistory := n }

/-- Assign `m_renderCounter`. -/
@[reducible] def setRenderCounter (n : Nat) (s : State) : State := { s with m_renderCounter := n }

/-- Assign `m_fps`, `m_prevRenderCounter` and `m_prevTicks`. -/
@[reducible] def setFps (fps : ℚ) (prevRenderCounter prevTicks : Nat) (s : State) : State :=
  { s with m_fps := fps, m_prevRenderCounter := prevRenderCounter, m_prevTicks := prevTicks }

/-! ## Device calls -/

/-- Device call `CreateTexture2D`: a new texture with the next free id. -/
@[reducible] def CreateTexture2D (desc : TextureDesc) (s : State) : State × Texture2D :=
  (logCalls [Call.createTexture2D ⟨s.nextId, desc⟩] (allocId s), ⟨s.nextId, desc⟩)

/-- Device call `CreateRenderTargetView`. -/
@[reducible] def CreateRenderTargetView (t : Option Texture2D) (s : State) :
    State × Option RenderTargetView :=
  (logCalls [Call.createRenderTargetView (t.map Texture2D.id)] s, t.map RenderTargetView.mk)

/-- Device call `CreateShaderResourceView`. -/
@[reducible] def CreateShaderResourceView (t : Option Texture2D) (s : State) :
    State × Option ShaderResourceView :=
  (logCalls [Call.createShaderResourceView (t.map Texture2D.id)] s,
    t.map ShaderResourceView.mk)

/-- What texture `id` holds. -/
def pixelsOf (s : State) (id : Nat) : Pixels := (mapFind s.pixels id).getD Pixels.undefined

/-- Device call `ClearRenderTargetView` with the background colour. -/
def ClearRenderTargetView (v : Option RenderTargetView) (s : State) : State :=
  match v with
  | some view =>
    writePixels view.texture.id Pixels.background
      (logCalls [Call.clearRenderTargetView (some view.texture.id)] s)
  | none => logCalls [Call.clearRenderTargetView none] s

/-- The typeless group of a format, within which Direct3D 11 copies: the two
`B8G8R8A8` formats share one; a format the pipeline does not distinguish is taken to be
alone in its group. -/
def formatGroup : Format → Format
  | Format.B8G8R8A8_UNORM_SRGB => Format.B8G8R8A8_UNORM
  | f => f

/-- What Direct3D 11 requires of the two resources of `CopyResource`: identical
dimensions and compatible formats. -/
def copyCompatible (dst src : TextureDesc) : Bool :=
  dst.Width == src.Width && dst.Height == src.Height &&
    formatGroup dst.Format == formatGroup src.Format

/-- Device call `CopyResource`.  With resources that do not meet the requirement the
call is invalid, and what the destination holds afterwards is not specified. -/
def CopyResource (dst src : Texture2D) (s : State) : State :=
  logCalls [Call.copyResource dst.id src.id]
    (writePixels dst.id
      (if copyCompatible dst.desc src.desc then pixelsOf s src.id else Pixels.undefined) s)

/-- Device call `CopySubresourceRegion` from a region of the source. -/
def CopySubresourceRegion (dst src : Nat) (s : State) : State :=
  logCalls [Call.copySubresourceRegion dst src]
    (writePixels dst (Pixels.region (pixelsOf s src)) s)

/-! ## Members of `ShaderGlass` other than `Process` -/

/-- Member `ShaderGlass::SetInputScale`. -/
def SetInputScale (w h : ℚ) (s : State) : State :=
  { s with m_inputScaleW := w, m_inputScaleH := h, m_inputRescaled := true }

/-- Member `ShaderGlass::SetOutputScale`. -/
def SetOutputScale (w h : ℚ) (s : State) : State :=
  { s with m_outputScaleW := w, m_outputScaleH := h, m_outputRescaled := true }

/-- Member `ShaderGlass::SetOutputFlip`. -/
def SetOutputFlip (h v : Bool) (s : State) : State :=
  { s with m_flipHorizontal := h, m_flipVertical := v, m_outputRescaled := true }

/-- Member `ShaderGlass::SetShaderPreset`. -/
def SetShaderPreset (p : Preset) (params : List (Int × String × ℚ)) (s : State) : State :=
  setNewParams params (setNewShaderPreset (some p) s)

/-- Member `ShaderGlass::SetFrameSkip`. -/
def SetFrameSkip (skip : Int) (s : State) : State := { s with m_frameSkip := skip }

/-- Member `ShaderGlass::SetLockedArea`. -/
def SetLockedArea (lockedArea : RECT) (s : State) : State :=
  { s with m_lockedArea := lockedArea, m_lockedAreaUpdated := true }

/-- Member `ShaderGlass::SetFreeScale`. -/
def SetFreeScale (freeScale : Bool) (s : State) : State :=
  { s with m_freeScale := freeScale, m_outputRescaled := true }

/-- Member `ShaderGlass::Stop`. -/
def Stop (s : State) : State := { s with m_running := false }

/-- Member `ShaderGlass::DestroyTargets`. -/
def DestroyTargets (s : State) : State :=
  if s.m_preprocessedRenderTarget.isSome then
    setPreprocessedTexture none (setOriginalView none (setPreprocessedRenderTarget none s))
  else s

/-- The test `p->size == 4 && p->name != "FrameCount"` on a parameter. -/
def isTunable (p : ShaderParam) : Bool := p.size == 4 && p.name != "FrameCount"

/-- Modelled from the spec: `Shader::SetParam` is not under src/; it makes the given
value the value of the parameter. -/
def SetParam (p : ShaderParam) (value : ℚ) : ShaderParam := { p with currentValue := value }

/-- The body of the parameter loops of `ShaderGlass::UpdateParams`. -/
def updateParam (p : ShaderParam) : ShaderParam :=
  if isTunable p then SetParam p p.currentValue else p

/-- Member `ShaderGlass::UpdateParams`. -/
def UpdateParams (s : State) : State :=
  let shaders := s.m_shaderPreset.m_shaders.map
    (fun sh => { sh with m_params := sh.m_params.map updateParam })
  setShaderPreset { s.m_shaderPreset with m_shaders := shaders } s

/-- The body of the parameter loops of `ShaderGlass::ResetParams`: the first override
of the same name, else the default value. -/
def resetParam (overrides : List ParamOverride) (p : ShaderParam) : ShaderParam :=
  if isTunable p then
    match overrides.find? (fun o => o.name == p.name) with
    | some o => SetParam p o.value
    | none => SetParam p p.defaultValue
  else p

/-- Member `ShaderGlass::ResetParams`. -/
def ResetParams (s : State) : State :=
  let shaders := s.m_shaderPreset.m_shaders.map
    (fun sh => { sh with m_params := sh.m_params.map (resetParam s.m_shaderPreset.Overrides) })
  setShaderPreset { s.m_shaderPreset with m_shaders := shaders } s

/-- The tunable parameters of one shader as `Params()` lists them: the pass index and
the position of the parameter in the shader (the pointer of the C++ tuple). -/
def shaderParamRefs (i : Nat) (sh : Shader) : List (Nat × Nat) :=
  ((List.range sh.m_params.length).filter
    (fun j => match sh.m_params[j]? with
              | some p => isTunable p
              | none => false)).map (fun j => (i, j))

/-- Member `ShaderGlass::Params`: for every pass in order, its tunable parameters. -/
def Params (s : State) : List (Nat × Nat) :=
  ((List.range s.m_shaderPreset.m_shaders.length).map
    (fun i => match s.m_shaderPreset.m_shaders[i]? with
              | some sh => shaderParamRefs i sh
              | none => [])).flatten

/-- The parameter a reference returned by `Params()` points to. -/
def paramAt (s : State) (ref : Nat × Nat) : Option ShaderParam :=
  match s.m_shaderPreset.m_shaders[ref.1]? with
  | some sh => sh.m_params[ref.2]?
  | none => none

/-- Assignment `std::get<1>(sp)->currentValue = value` through a parameter reference. -/
def setCurrentValue (ref : Nat × Nat) (value : ℚ) (s : State) : State :=
  let assign : ShaderParam → ShaderParam := fun p => { p with currentValue := value }
  let shaders := modifyAt (fun sh => { sh with m_params := modifyAt assign ref.2 sh.m_params })
    ref.1 s.m_shaderPreset.m_shaders
  setShaderPreset { s.m_shaderPreset with m_shaders := shaders } s

/-- Member `ShaderGlass::DestroyShaders`. -/
def DestroyShaders (s : State) : State := setShaderPasses [] s

/-- Modelled from the spec: the constructor of `ShaderPass` is not under src/; a new
pass refers to its shader and has no size and no views yet. -/
def newShaderPass (sh : Shader) : ShaderPass :=
  { m_shader := sh, m_sourceWidth := 0, m_sourceHeight := 0, m_destWidth := 0,
    m_destHeight := 0, m_targetView := none, m_sourceView := none }

/-- Member `ShaderGlass::RebuildShaders`: one pass per shader of the preset in order,
the static textures of the preset by name, then `ResetParams`. -/
def RebuildShaders (s : State) : State :=
  let passes := s.m_shaderPasses ++ s.m_shaderPreset.m_shaders.map newShaderPass
  let textures := s.m_shaderPreset.m_textures.foldl
    (fun m t => mapInsert m t.m_name t.m_textureView) []
  ResetParams (setPresetTextures textures (setShaderPasses passes s))

/-- The prefix test of `DestroyPasses` on a key: does it start with `PassOutput` or
`PassFeedback`. -/
def isPassKey : Name → Bool
  | Name.passOutput _ => true
  | Name.passFeedback _ => true
  | Name.user n =>
      List.isPrefixOf "PassOutput".toList n.toList || List.isPrefixOf "PassFeedback".toList n.toList
  | _ => false

/-- Member `ShaderGlass::DestroyPasses`: null the views of pass outputs and feedback,
then clear the vectors, the table and the requirements. -/
def DestroyPasses (s : State) : State :=
  let released := s.m_passResources.map (fun rs => if isPassKey rs.1 then (rs.1, none) else rs)
  setRequiresHistory 0 (setRequiresFeedback false (setPassResources []
    (setPassTextures [] (setPassTargets [] (setPassResources released s)))))

/-- Member `ShaderGlass::PresentFrame`. -/
def PresentFrame (s : State) : State := logCalls [Call.present] s

/-- Source lines 275 to 282 of `TryResizeSwapChain`: resize the buffers of the swap
chain, get buffer 0 as the display texture and create its render target view. -/
def acquireDisplay (clientRect : RECT) (s : State) : State :=
  let w := longToUINT clientRect.right
  let h := longToUINT clientRect.bottom
  let t : Texture2D := ⟨s.nextId, ⟨w, h, Format.B8G8R8A8_UNORM, false, true⟩⟩
  let s1 := setDisplayTexture (some t)
    (logCalls [Call.resizeBuffers w h, Call.getBuffer t.id] (allocId s))
  let r := CreateRenderTargetView (some t) s1
  setDisplayRenderTarget r.2 r.1

/-- Member `ShaderGlass::TryResizeSwapChain`: the new state and the returned flag. -/
def TryResizeSwapChain (clientRect : RECT) (force : Bool) (s : State) : State × Bool :=
  if force || clientRect.right != s.m_lastSize.x || clientRect.bottom != s.m_lastSize.y then
    let s1 := setDisplayRenderTarget none (setDisplayTexture none
      (setLastSize ⟨clientRect.right, clientRect.bottom⟩ (DestroyTargets s)))
    if clientRect.right > 0 ∧ clientRect.bottom > 0 then (acquireDisplay clientRect s1, true)
    else (s1, true)
  else (s, false)

/-! ## `Process`, part 1: geometry of the frame (source lines 347 to 465) -/

/-- Locals of `Process` that describe the output window, the captured texture and
the captured window. -/
structure Geometry where
  topLeft : POINT
  clientRect : RECT
  capturedWidth : Nat
  capturedHeight : Nat
  captureRect : RECT
  captureTopLeft : POINT
  captureClient : RECT
  outputMoved : Bool
  deriving DecidableEq

/-- Source lines 347 to 399 of `Process`: the window queries.  Without a capture window
and without an image the locals `captureRect` and `captureClient` stay unset and
are never read; they are given the reported values. -/
def captureGeometry (inp : FrameInput) (texture : CapturedTexture) (s : State) :
    State × Geometry :=
  let topLeft : POINT :=
    if !s.m_captureWindow && !s.m_clone then
      ⟨inp.topLeft.x - s.m_monitorOffset.x, inp.topLeft.y - s.m_monitorOffset.y⟩
    else inp.topLeft
  if s.m_captureWindow then
    let outputMoved := s.m_lastCaptureWindowPos.x != inp.captureRect.left ||
      s.m_lastCaptureWindowPos.y != inp.captureRect.bottom
    let s1 := if outputMoved then
        setLastCaptureWindowPos ⟨inp.captureRect.left, inp.captureRect.bottom⟩ s
      else s
    (s1, ⟨topLeft, inp.clientRect, texture.desc.Width, texture.desc.Height, inp.captureRect,
          inp.captureTopLeft, inp.captureClient, outputMoved⟩)
  else if s.m_image then
    let captureRect : RECT := ⟨0, 0, texture.desc.Width, texture.desc.Height⟩
    (s, ⟨topLeft, inp.clientRect, texture.desc.Width, texture.desc.Height, captureRect,
         ⟨0, 0⟩, captureRect, false⟩)
  else
    (s, ⟨topLeft, inp.clientRect, texture.desc.Width, texture.desc.Height, inp.captureRect,
         ⟨0, 0⟩, inp.captureClient, false⟩)

/-- Locals `clientWidth`, `clientHeight`, `boxX`, `boxY` after the boxing block. -/
structure Letterbox where
  clientWidth : Int
  clientHeight : Int
  boxX : ℚ
  boxY : ℚ
  deriving DecidableEq

/-- The value of a `float` quotient whose divisor may be zero: a finite value, an
infinity or not-a-number. -/
inductive FloatValue where
  | finite (value : ℚ)
  | posInf
  | negInf
  | nan
  deriving DecidableEq

/-- The IEEE 754 quotient `a / b` of two finite values.  A divisor that is zero gives an
infinity with the sign of `a`, reversed when the zero has its sign bit set (`negZero`),
and not-a-number when `a` is zero as well. -/
def floatDiv (a b : ℚ) (negZero : Bool) : FloatValue :=
  if b ≠ 0 then FloatValue.finite (a / b)
  else if a = 0 then FloatValue.nan
  else if (decide (0 < a)) != negZero then FloatValue.posInf
  else FloatValue.negInf

/-- The comparison `x > y` of floats, `y` finite: false for not-a-number. -/
def FloatValue.gt (x : FloatValue) (y : ℚ) : Bool :=
  match x with
  | FloatValue.finite v => decide (v > y)
  | FloatValue.posInf => true
  | FloatValue.negInf => false
  | FloatValue.nan => false

/-- The comparison `x < y` of floats, `y` finite: false for not-a-number. -/
def FloatValue.lt (x : FloatValue) (y : ℚ) : Bool :=
  match x with
  | FloatValue.finite v => decide (v < y)
  | FloatValue.posInf => false
  | FloatValue.negInf => true
  | FloatValue.nan => false

/-- Local `outputAspectRatio` of source line 432: the quotient of the two products.  The
client height is an integer converted to `float`, so as a zero it has no sign bit; the
product `clientHeight * m_outputScaleH` has the sign bit set when exactly one of its
factors is negative, also when it is zero. -/
def outputAspect (clientWidth clientHeight : Int) (scaleW scaleH : ℚ) : FloatValue :=
  floatDiv (clientWidth * scaleW) (clientHeight * scaleH)
    (decide (clientHeight < 0) != decide (scaleH < 0))

/-- Source lines 411 to 453 of `Process`: size of the content and letterbox offsets.
The capture height is not zero where `inputAspectRatio` is computed, and the capture
width is not zero where it is divided by; the quotient `outputAspectRatio` has a divisor
that is zero when the content height has rounded to zero, and is compared as a float.  An
output scale of zero, with which the code converts an infinity to `LONG`, is not
modelled. -/
def letterbox (s : State) (g : Geometry) : Letterbox :=
  if s.m_captureWindow || s.m_image then
    let captureW : Int := g.captureClient.right - g.captureClient.left
    let captureH : Int := g.captureClient.bottom - g.captureClient.top
    let clientWidth : Int :=
      if !s.m_freeScale then castLong (roundf (captureW / s.m_outputScaleW)) else g.clientRect.right
    let clientHeight : Int :=
      if !s.m_freeScale then castLong (roundf (captureH / s.m_outputScaleH)) else g.clientRect.bottom
    if captureW != 0 && captureH != 0 then
      let inputAspectRatio : ℚ := captureW / captureH
      let outputAspectRatio : FloatValue :=
        outputAspect clientWidth clientHeight s.m_outputScaleW s.m_outputScaleH
      let boxed : Letterbox :=
        if outputAspectRatio.gt inputAspectRatio then
          let newWidth : Int := castLong (roundf
            (clientHeight * (s.m_outputScaleH / s.m_outputScaleW) * inputAspectRatio))
          ⟨newWidth, clientHeight, ((clientWidth - newWidth : Int) : ℚ) / 2, 0⟩
        else if outputAspectRatio.lt inputAspectRatio then
          let newHeight : Int := castLong (roundf
            (clientWidth * (s.m_outputScaleW / s.m_outputScaleH) / inputAspectRatio))
          ⟨clientWidth, newHeight, 0, ((clientHeight - newHeight : Int) : ℚ) / 2⟩
        else ⟨clientWidth, clientHeight, 0, 0⟩
      if !s.m_freeScale then
        { boxed with
            boxX := boxed.boxX + (g.clientRect.right - captureW / s.m_outputScaleW) / 2,
            boxY := boxed.boxY + (g.clientRect.bottom - captureH / s.m_outputScaleH) / 2 }
      else boxed
    else ⟨clientWidth, clientHeight, 0, 0⟩
  else ⟨g.clientRect.right, g.clientRect.bottom, 0, 0⟩

/-- Local `destWidth` (and `destHeight`): the content size times the output scale. -/
def destSize (client : Int) (outputScale : ℚ) : Int := castLong (client * outputScale)

/-- The minimum-size check of source line 464: true when the frame is dropped. -/
def belowMinimumSize (s : State) (destWidth destHeight : Int) : Bool :=
  destWidth ≤ castLong s.m_inputScaleW || destHeight ≤ castLong s.m_inputScaleH

/-- Locals `inputRescaled`, `outputResized`, `rebuildPasses` of `Process`. -/
structure FrameFlags where
  inputRescaled : Bool
  outputResized : Bool
  rebuildPasses : Bool
  deriving DecidableEq

/-! ## `Process`, part 2: flags, preset swap, preprocessed texture (lines 467 to 555) -/

/-- Source lines 467 to 483: consume the rescale flags; on input rescale destroy the
targets or clear the display. -/
def consumeRescaleFlags (s : State) : State × Bool :=
  let inputRescaled := s.m_inputRescaled
  let s1 := setRescaleFlags false false s
  if inputRescaled then
    if s1.m_preprocessedRenderTarget.isSome then (DestroyTargets s1, inputRescaled)
    else (ClearRenderTargetView s1.m_displayRenderTarget s1, inputRescaled)
  else (s1, inputRescaled)

/-- The inner loop of source lines 498 to 505 for one queued parameter `ip`: the first
reference of `shaderParams` with the same pass index and name gets the value. -/
def applyNewParam (shaderParams : List (Nat × Nat)) (s : State) (ip : Int × String × ℚ) :
    State :=
  match shaderParams.find? (fun sp => ip.1 == (sp.1 : Int) &&
      (match paramAt s sp with
       | some p => ip.2.1 == p.name
       | none => false)) with
  | some sp => setCurrentValue sp ip.2.2 s
  | none => s

/-- Source lines 487 to 514: swap in a queued preset.  The flag tells whether one was
queued. -/
def swapPreset (s : State) : State × Bool :=
  match s.m_newShaderPreset with
  | none => (s, false)
  | some newPreset =>
    let s1 := DestroyShaders s
    let s2 := RebuildShaders (setNewShaderPreset none (setShaderPreset newPreset s1))
    let s3 :=
      if s2.m_newParams.length != 0 then
        UpdateParams (setNewParams [] (s2.m_newParams.foldl (applyNewParam (Params s2)) s2))
      else s2
    (logCalls [Call.postUpdateParams] s3, true)

/-- Source lines 517 to 526: the logical input size `originalWidth`, `originalHeight`. -/
def originalSize (s : State) (g : Geometry) (destWidth destHeight : Int) : Nat × Nat :=
  if s.m_captureWindow || s.m_image then
    (castUINT (g.captureClient.right / s.m_inputScaleW),
     castUINT (g.captureClient.bottom / s.m_inputScaleH))
  else
    (castUINT (destWidth / s.m_inputScaleW), castUINT (destHeight / s.m_inputScaleH))

/-- Source lines 529 to 555: create the preprocessed texture, its view and its render
target when missing. -/
def createPreprocessed (texture : CapturedTexture) (originalWidth originalHeight : Nat)
    (flags : FrameFlags) (s : State) : State × FrameFlags :=
  let r : State × FrameFlags :=
    if s.m_preprocessedTexture.isNone then
      let desc2 : TextureDesc :=
        { texture.desc with bindShaderResource := true, bindRenderTarget := true,
                            Width := originalWidth, Height := originalHeight }
      let c := CreateTexture2D desc2 s
      let s1 := setPreprocessedTexture (some c.2) c.1
      let v := CreateShaderResourceView (some c.2) s1
      (setOriginalView v.2 v.1, { flags with outputResized := true, rebuildPasses := true })
    else (s, flags)
  if r.1.m_preprocessedRenderTarget.isNone then
    let v := CreateRenderTargetView r.1.m_preprocessedTexture r.1
    (setPreprocessedRenderTarget v.2 v.1, { r.2 with rebuildPasses := true })
  else r

/-! ## `Process`, part 3: pass sizes (source lines 557 to 606) -/

/-- The `float4` of a size: width, height and their reciprocals. -/
def sizeEntry (width height : Nat) : float4 :=
  ⟨width, height, 1 / (width : ℚ), 1 / (height : ℚ)⟩

/-- Mutable locals of the pass-size loop of source lines 567 to 598. -/
structure ResizeLoop where
  sourceWidth : Nat
  sourceHeight : Nat
  passSizes : List PassSize
  textureSizes : List (Name × float4)
  deriving DecidableEq

/-- Body of the pass-size loop for index `p` (source lines 571 to 597). -/
def passSizeStep (passes : List ShaderPass) (viewportWidth viewportHeight : Nat)
    (st : ResizeLoop) (p : Nat) : ResizeLoop :=
  match passes[p]? with
  | none => st
  | some shaderPass =>
    if p = passes.length - 1 then
      { st with passSizes := st.passSizes ++
          [⟨st.sourceWidth, st.sourceHeight, viewportWidth, viewportHeight⟩] }
    else
      let outputWidth : Nat :=
        if shaderPass.m_shader.m_scaleViewportX then
          castUINT (floatMul (floatOfUINT viewportWidth) shaderPass.m_shader.m_scaleX)
        else if shaderPass.m_shader.m_scaleAbsoluteX then
          castUINT shaderPass.m_shader.m_scaleX
        else castUINT (floatMul (floatOfUINT st.sourceWidth) shaderPass.m_shader.m_scaleX)
      let outputHeight : Nat :=
        if shaderPass.m_shader.m_scaleViewportY then
          castUINT (floatMul (floatOfUINT viewportHeight) shaderPass.m_shader.m_scaleY)
        else if shaderPass.m_shader.m_scaleAbsoluteY then
          castUINT shaderPass.m_shader.m_scaleY
        else castUINT (floatMul (floatOfUINT st.sourceHeight) shaderPass.m_shader.m_scaleY)
      { sourceWidth := outputWidth,
        sourceHeight := outputHeight,
        passSizes := st.passSizes ++ [⟨st.sourceWidth, st.sourceHeight, outputWidth, outputHeight⟩],
        textureSizes :=
          if shaderPass.m_shader.m_alias != "" then
            mapInsert st.textureSizes (Name.ofString shaderPass.m_shader.m_alias)
              (sizeEntry outputWidth outputHeight)
          else st.textureSizes }

/-- The pass-size loop of source lines 567 to 598, run over `p = 0 .. size - 1`. -/
def resolvePassSizes (passes : List ShaderPass) (viewportWidth viewportHeight : Nat)
    (originalWidth originalHeight : Nat) (textureSizes : List (Name × float4)) : ResizeLoop :=
  (List.range passes.length).foldl (passSizeStep passes viewportWidth viewportHeight)
    ⟨originalWidth, originalHeight, [], textureSizes⟩

/-- Body of the loop of source lines 601 to 605: `Resize` of pass `p` with `passSizes[p]`. -/
def resizeStep (passSizes : List PassSize) (passes : List ShaderPass) (p : Nat) :
    List ShaderPass :=
  match passSizes[p]? with
  | none => passes
  | some z =>
    modifyAt (fun pass => pass.Resize z.sourceWidth z.sourceHeight z.destWidth z.destHeight)
      p passes

/-- Source lines 559 to 605: the block run when `inputRescaled || outputResized`. -/
def resizePasses (texture : CapturedTexture)
    (originalWidth originalHeight viewportWidth viewportHeight : Nat) (s : State) : State :=
  let sizes0 : List (Name × float4) :=
    mapInsert (mapInsert [] Name.original (sizeEntry originalWidth originalHeight))
      Name.finalViewport (sizeEntry viewportWidth viewportHeight)
  let pre := s.m_preprocessPass.Resize texture.desc.Width texture.desc.Height
    originalWidth originalHeight
  let loop := resolvePassSizes s.m_shaderPasses viewportWidth viewportHeight
    originalWidth originalHeight sizes0
  let passes := (List.range s.m_shaderPasses.length).foldl (resizeStep loop.passSizes)
    s.m_shaderPasses
  setShaderPasses passes (setPreprocessPass pre (setTextureSizes loop.textureSizes s))

/-! ## `Process`, part 4: topology rebuild (source lines 608 to 753) -/

/-- The format chosen in source lines 640 to 645. -/
def passFormat (sh : Shader) : Format :=
  if sh.m_formatFloat then Format.R16G16B16A16_FLOAT
  else if sh.m_formatSRGB then Format.B8G8R8A8_UNORM_SRGB
  else Format.B8G8R8A8_UNORM

/-- Body of the flag loop of source lines 630 to 634. -/
def requirementStep (s : State) (pass : ShaderPass) : State :=
  setRequiresHistory (maxNat s.m_requiresHistory pass.RequiresHistory)
    (setRequiresFeedback (s.m_requiresFeedback || pass.RequiresFeedback) s)

/-- The feedback block of source lines 672 to 688 for pass `index` with descriptor
`desc2`. -/
def createFeedback (desc2 : TextureDesc) (index : Nat) (aliasName : String) (s : State) :
    State :=
  let fdesc : TextureDesc := { desc2 with bindShaderResource := true, bindRenderTarget := false }
  let c := CreateTexture2D fdesc s
  let s1 := setPassTextures (s.m_passTextures ++ [c.2]) c.1
  let v := CreateShaderResourceView (some c.2) s1
  let r1 := mapInsert s.m_passResources (Name.passFeedback index) v.2
  if aliasName != "" then
    setPassResources (mapInsert r1 (Name.ofString (aliasName ++ "Feedback")) v.2) v.1
  else setPassResources r1 v.1

/-- Body of the loop of source lines 636 to 692 for `p` (from 1 to `size - 1`). -/
def rebuildPassStep (texture : CapturedTexture) (s : State) (p : Nat) : State :=
  match s.m_shaderPasses[p - 1]? with
  | none => s
  | some pass =>
    let desc2 : TextureDesc :=
      { texture.desc with Format := passFormat pass.m_shader, Width := pass.m_destWidth,
                          Height := pass.m_destHeight, bindShaderResource := true,
                          bindRenderTarget := true }
    let c := CreateTexture2D desc2 s
    let s1 := setPassTextures (s.m_passTextures ++ [c.2]) c.1
    let passTarget := CreateRenderTargetView (some c.2) s1
    let s2 := setPassTargets (s.m_passTargets ++ [passTarget.2]) passTarget.1
    let passResource := CreateShaderResourceView (some c.2) s2
    let r1 := mapInsert s.m_passResources (Name.passOutput (p - 1)) passResource.2
    let r2 :=
      if pass.m_shader.m_alias != "" then
        mapInsert r1 (Name.ofString pass.m_shader.m_alias) passResource.2
      else r1
    let s4 := setPassResources r2 passResource.1
    let s5 :=
      if s.m_requiresFeedback then createFeedback desc2 (p - 1) pass.m_shader.m_alias s4
      else s4
    let targeted := modifyAt (fun q => { q with m_targetView := passTarget.2 }) (p - 1)
      s.m_shaderPasses
    let sourced := modifyAt (fun q => { q with m_sourceView := passResource.2 }) p targeted
    setShaderPasses sourced s5

/-- Body of the history loop of source lines 710 to 720 for `h`. -/
def createHistory (desc2 : TextureDesc) (s : State) (h : Nat) : State :=
  let c := CreateTexture2D desc2 s
  let s1 := setPassTextures (s.m_passTextures ++ [c.2]) c.1
  let v := CreateShaderResourceView (some c.2) s1
  setPassResources (mapInsert s.m_passResources (Name.originalHistory (h + 1)) v.2) v.1

/-- Source lines 725 to 752: feedback texture of the last pass. -/
def createLastFeedback (texture : CapturedTexture) (s : State) : State :=
  let p := s.m_shaderPasses.length - 1
  match s.m_shaderPasses[p]? with
  | none => s
  | some lastPass =>
    let desc2 : TextureDesc :=
      { texture.desc with bindShaderResource := true, bindRenderTarget := false,
                          Width := lastPass.m_destWidth, Height := lastPass.m_destHeight }
    createFeedback desc2 p lastPass.m_shader.m_alias s

/-- Source lines 610 to 620: release the old graph, then seed `m_passResources` with the
static textures of the preset and `Original`, and target the preprocessing pass. -/
def seedResources (s : State) : State :=
  let s1 := DestroyPasses s
  let r1 := s.m_presetTextures.foldl (fun m pt => mapInsert m (Name.ofString pt.1) pt.2) []
  let r2 := mapInsert r1 Name.original s.m_originalView
  let pre := { s.m_preprocessPass with m_targetView := s.m_preprocessedRenderTarget }
  setPreprocessPass pre (setPassResources r2 s1)

/-- Source lines 621 to 697: with more than one pass, collect the requirements of all
passes and create the targets of the passes before the last; with one pass, take its
history requirement. -/
def createPassTargets (texture : CapturedTexture) (s : State) : State :=
  if s.m_shaderPasses.length > 1 then
    let s1 := s.m_shaderPasses.foldl requirementStep s
    (List.range (s1.m_shaderPasses.length - 1)).foldl
      (fun st i => rebuildPassStep texture st (i + 1)) s1
  else
    match s.m_shaderPasses.head? with
    | some pass => setRequiresHistory pass.RequiresHistory s
    | none => s

/-- Source lines 699 to 721: create the history textures. -/
def createHistories (texture : CapturedTexture) (originalWidth originalHeight : Nat)
    (s : State) : State :=
  if s.m_requiresHistory != 0 then
    let desc2 : TextureDesc :=
      { texture.desc with bindShaderResource := true, bindRenderTarget := false,
                          Width := originalWidth, Height := originalHeight }
    (List.range s.m_requiresHistory).foldl (createHistory desc2) s
  else s

/-- Source line 723: the last pass draws into the display render target. -/
def targetDisplay (s : State) : State :=
  let targeted := modifyAt (fun q => { q with m_targetView := s.m_displayRenderTarget })
    (s.m_shaderPasses.length - 1) s.m_shaderPasses
  setShaderPasses targeted s

/-- Source lines 610 to 752: the block run when `rebuildPasses` is set. -/
def rebuildGraph (texture : CapturedTexture) (originalWidth originalHeight : Nat)
    (s : State) : State :=
  let s1 := targetDisplay
    (createHistories texture originalWidth originalHeight
      (createPassTargets texture (seedResources s)))
  if s1.m_requiresFeedback then createLastFeedback texture s1 else s1

/-! ## `Process`, part 5: preprocess transform (source lines 755 to 835) -/

/-- The arguments of `UpdateMVP`: scale and translation. -/
structure Transform where
  sx : ℚ
  sy : ℚ
  tx : ℚ
  ty : ℚ
  deriving DecidableEq

/-- Source lines 758 to 830: the preprocess transform from the geometry of the frame,
the capture mode, the locked area and the flip flags. -/
def preprocessTransform (s : State) (g : Geometry) (destWidth destHeight : Int) : Transform :=
  let finalTopLeft : POINT :=
    if s.m_lockedArea.right - s.m_lockedArea.left != 0 then
      ⟨s.m_lockedArea.left, s.m_lockedArea.top⟩
    else g.topLeft
  let width : ℚ := g.capturedWidth
  let height : ℚ := g.capturedHeight
  let base : Transform :=
    if !s.m_captureWindow && !s.m_image then
      let clientW : ℚ := destWidth
      let clientH : ℚ := destHeight
      if s.m_clone then
        ⟨1 * width / clientW, 1 * height / clientH,
         1 * width / clientW - 1, -1 * height / clientH + 1⟩
      else
        ⟨1 * width / clientW, 1 * height / clientH,
         -(2 * finalTopLeft.x - width) / clientW - 1,
         (2 * finalTopLeft.y - height) / clientH + 1⟩
    else
      if s.m_clone then
        let clientW : ℚ := if s.m_freeScale then g.captureClient.right else destWidth
        let clientH : ℚ := if s.m_freeScale then g.captureClient.bottom else destHeight
        ⟨1 * width / clientW, 1 * height / clientH,
         -(2 * ((g.captureTopLeft.x - g.captureRect.left : Int) : ℚ) - width) / clientW - 1,
         (2 * ((g.captureTopLeft.y - g.captureRect.top : Int) : ℚ) - height) / clientH + 1⟩
      else
        let clientW : ℚ := destWidth
        let clientH : ℚ := destHeight
        ⟨1 * width / clientW, 1 * height / clientH,
         -(2 * ((finalTopLeft.x - g.captureRect.left : Int) : ℚ) - width) / clientW - 1,
         (2 * ((finalTopLeft.y - g.captureRect.top : Int) : ℚ) - height) / clientH + 1⟩
  let flippedH : Transform :=
    if s.m_flipHorizontal then { base with sx := base.sx * -1, tx := base.tx * -1 } else base
  let flippedV : Transform :=
    if s.m_flipVertical then { flippedH with sy := flippedH.sy * -1, ty := flippedH.ty * -1 }
    else flippedH
  { flippedV with tx := flippedV.tx + 1 / 10000, ty := flippedV.ty + 1 / 10000 }

/-- Source lines 755 to 835: recompute and upload the transform when the geometry
changed. -/
def updateTransform (g : Geometry) (outputResized : Bool) (destWidth destHeight : Int)
    (s : State) : State :=
  if g.outputMoved || outputResized ||
      (s.m_lastPos.x != g.topLeft.x || s.m_lastPos.y != g.topLeft.y) ||
      s.m_lockedAreaUpdated then
    let t := preprocessTransform s g destWidth destHeight
    setLastPos g.topLeft
      (setPreprocessPass (s.m_preprocessPass.UpdateMVP t.sx t.sy t.tx t.ty)
        (setLockedAreaUpdated false s))
  else s

/-! ## `Process`, part 6: rendering, feedback, history (source lines 837 to 961) -/

/-- Modelled from the spec: `ShaderPass::Render` is not under src/; it draws into the
target view of the pass.  This is the draw of the preprocessing pass. -/
def renderPreprocess (texture : CapturedTexture) (s : State) : State :=
  let s1 := logCalls [Call.renderPreprocess] s
  match s.m_preprocessPass.m_targetView with
  | some target => writePixels target.texture.id (Pixels.original texture.frame) s1
  | none => s1

/-- Modelled from the spec: `ShaderPass::Render` is not under src/; it draws into the
target view of the pass.  This is the draw of shader pass `p`. -/
def renderPass (texture : CapturedTexture) (s : State) (p : Nat) : State :=
  let s1 := logCalls [Call.renderPass p] s
  match s.m_shaderPasses[p]? with
  | some shaderPass =>
    match shaderPass.m_targetView with
    | some target => writePixels target.texture.id (Pixels.passOutput p texture.frame) s1
    | none => s1
  | none => s1

/-- Source lines 837 to 863: clear, draw the preprocessing pass, draw every pass. -/
def renderPasses (texture : CapturedTexture) (s : State) : State :=
  let s1 : State :=
    if s.m_captureWindow && !s.m_clone then
      ClearRenderTargetView s.m_preprocessedRenderTarget s
    else s
  let s2 := renderPreprocess texture (logCalls [Call.createCapturedView texture.frame] s1)
  (List.range s.m_shaderPasses.length).foldl (renderPass texture) s2

/-- Body of the loop of source lines 868 to 877 for `q`.  A key that is not found, or a
null view, is undefined behaviour in C++; the state is then left as it is. -/
def copyPassFeedback (s : State) (q : Nat) : State :=
  match mapFind s.m_passResources (Name.passOutput q),
        mapFind s.m_passResources (Name.passFeedback q) with
  | some (some passOutput), some (some passFeedback) =>
    CopyResource passFeedback.texture passOutput.texture s
  | _, _ => s

/-- Source lines 880 to 921: copy the displayed frame into the feedback of the last
pass. -/
def copyDisplayFeedback (s : State) : State :=
  match s.m_displayTexture with
  | none => s
  | some displayTexture =>
    let p := s.m_shaderPasses.length - 1
    match s.m_shaderPasses[p]?, mapFind s.m_passResources (Name.passFeedback p) with
    | some lastPass, some (some lastPassFeedback) =>
      if s.m_boxX != 0 || s.m_boxY != 0 then
        let left : Nat := longToUINT (if 0 > s.m_boxX then 0 else s.m_boxX)
        let right : Nat := min displayTexture.desc.Width
          (longToUINT (s.m_boxX + lastPass.m_destWidth))
        let top : Nat := longToUINT (if 0 > s.m_boxY then 0 else s.m_boxY)
        let bottom : Nat := min displayTexture.desc.Height
          (longToUINT (s.m_boxY + lastPass.m_destHeight))
        if right > left && bottom > top then
          if displayTexture.desc.Format = lastPassFeedback.texture.desc.Format then
            CopySubresourceRegion lastPassFeedback.texture.id displayTexture.id s
          else s
        else s
      else CopyResource lastPassFeedback.texture displayTexture s
    | _, _ => s

/-- Source lines 865 to 922: feedback copy-back. -/
def copyFeedback (s : State) : State :=
  if s.m_requiresFeedback then
    copyDisplayFeedback
      ((List.range (s.m_shaderPasses.length - 1)).foldl copyPassFeedback s)
  else s

/-- The read `m[k]` of a map of views: the value, and the map, which gains a null
entry when the key was absent. -/
def mapSubscript {κ ν : Type} [DecidableEq κ] (m : List (κ × Option ν)) (k : κ) :
    List (κ × Option ν) × Option ν :=
  match mapFind m k with
  | some v => (m, v)
  | none => (mapInsert m k none, none)

/-- Body of the loop of source lines 932 to 936 for `h`:
`m[OriginalHistory h] = m[OriginalHistory (h - 1)]`. -/
def remapHistoryStep (m : List (Name × Option ShaderResourceView)) (h : Nat) :
    List (Name × Option ShaderResourceView) :=
  let r := mapSubscript m (Name.originalHistory (h - 1))
  mapAssign r.1 (Name.originalHistory h) r.2

/-- The loop of source lines 932 to 936: `for (h = N; h > 1; h--)`. -/
def remapHistory (m : List (Name × Option ShaderResourceView)) :
    Nat → List (Name × Option ShaderResourceView)
  | 0 => m
  | h + 1 => if h + 1 > 1 then remapHistory (remapHistoryStep m (h + 1)) h else m

/-- Source lines 924 to 948: rotate the history.  A key that is not found, or a null
view, is undefined behaviour in C++; the state is then left as it is. -/
def rotateHistory (s : State) : State :=
  if s.m_requiresHistory != 0 then
    match mapFind s.m_passResources (Name.originalHistory s.m_requiresHistory) with
    | some (some lastHistoryView) =>
      let remapped := remapHistory s.m_passResources s.m_requiresHistory
      let s1 : State := setPassResources remapped s
      match mapFind remapped Name.original with
      | some (some original) =>
        let s2 := CopyResource lastHistoryView.texture original.texture s1
        if s.m_requiresHistory > 1 then
          setPassResources (mapAssign remapped (Name.originalHistory 1) (some lastHistoryView))
            s2
        else s2
      | _ => s1
    | _ => s
  else s

/-- Source lines 950 to 961: present, count the frame, refresh the rate once a second. -/
def finishFrame (ticks : Nat) (s : State) : State :=
  let s2 : State := setRenderCounter (s.m_renderCounter + 1) (PresentFrame s)
  if ticks - s.m_prevTicks > 1000 then
    let deltaTicks : Nat := ticks - s.m_prevTicks
    let deltaFrames : Nat := s.m_renderCounter + 1 - s.m_prevRenderCounter
    setFps (deltaFrames * 1000 / (deltaTicks : ℚ)) (s.m_renderCounter + 1) ticks s2
  else s2

/-! ## `Process` -/

/-- Source lines 467 to 961 of `Process`: the frame after the minimum-size check. -/
def renderFrame (inp : FrameInput) (texture : CapturedTexture) (g : Geometry)
    (outputResized : Bool) (viewportWidth viewportHeight : Nat) (destWidth destHeight : Int)
    (s : State) : State :=
  let cf := consumeRescaleFlags s
  let sp := swapPreset cf.1
  let flags0 : FrameFlags :=
    if sp.2 then ⟨true, true, true⟩ else ⟨cf.2, outputResized, false⟩
  let orig := originalSize sp.1 g destWidth destHeight
  let cp := createPreprocessed texture orig.1 orig.2 flags0 sp.1
  let s1 : State :=
    if cp.2.inputRescaled || cp.2.outputResized then
      resizePasses texture orig.1 orig.2 viewportWidth viewportHeight cp.1
    else cp.1
  let s2 : State := if cp.2.rebuildPasses then rebuildGraph texture orig.1 orig.2 s1 else s1
  let s3 := updateTransform g cp.2.outputResized destWidth destHeight s2
  let s4 := renderPasses texture s3
  let s5 := copyFeedback s4
  let s6 := rotateHistory s5
  finishFrame inp.ticks s6

/-- Where a call of `Process` returns: at the skip test of line 333, at the lock test of
line 341, at the client-area test of line 404, at the minimum-size test of line 464,
or at the end of the function. -/
inductive Outcome where
  | skipped
  | lockBusy
  | noClientArea
  | belowMinimumSize
  | completed
  deriving DecidableEq, Repr

/-- Source lines 347 to 465 of `Process`, then the frame: the part run under the lock,
with the place of return. -/
def processLocked (inp : FrameInput) (texture : CapturedTexture) (s : State) :
    State × Outcome :=
  let cg := captureGeometry inp texture s
  let rs := TryResizeSwapChain cg.2.clientRect cg.1.m_outputRescaled cg.1
  if cg.2.clientRect.right ≤ 0 || cg.2.clientRect.bottom ≤ 0 then
    (PresentFrame rs.1, Outcome.noClientArea)
  else
    let lb := letterbox rs.1 cg.2
    let s1 : State := setBox (castLong lb.boxX) (castLong lb.boxY) rs.1
    let viewportWidth := longToUINT lb.clientWidth
    let viewportHeight := longToUINT lb.clientHeight
    let destWidth := destSize lb.clientWidth s1.m_outputScaleW
    let destHeight := destSize lb.clientHeight s1.m_outputScaleH
    if belowMinimumSize s1 destWidth destHeight then (s1, Outcome.belowMinimumSize)
    else
      (renderFrame inp texture cg.2 rs.2 viewportWidth viewportHeight destWidth destHeight s1,
       Outcome.completed)

/-- The frame-skip test of source line 333 on the incremented counter: true when the
frame is skipped. -/
def frameSkipped (s : State) : Bool :=
  s.m_frameSkip != 0 && s.m_frameCounter.tmod (s.m_frameSkip + 1) != 0

/-- Member `ShaderGlass::Process` together with the place where it returns.
`inp.lockAcquired` is the result of the `try_to_lock` on `m_mutex`. -/
def ProcessTraced (inp : FrameInput) (s0 : State) : State × Outcome :=
  let s : State := setFrameCounter (s0.m_frameCounter + 1) s0
  if !s.m_running || inp.texture.isNone || frameSkipped s then
    (PresentFrame s, Outcome.skipped)
  else
    match inp.texture with
    | none => (PresentFrame s, Outcome.skipped)
    | some texture =>
      if !inp.lockAcquired then (s, Outcome.lockBusy) else processLocked inp texture s

/-- Member `ShaderGlass::Process`. -/
def Process (inp : FrameInput) (s : State) : State := (ProcessTraced inp s).1

/-- Frames delivered one after the other. -/
def runFrames (s : State) : List FrameInput → State
  | [] => s
  | inp :: rest => runFrames (Process inp s) rest

/-- The source size the pass-size loop has when it reaches pass `p`, read off the vector
of sizes: the logical input size for the first pass, else the destination size of the
pass before. -/
def sourceOf (originalWidth originalHeight : Nat) (passSizes : List PassSize) :
    Nat → Nat × Nat
  | 0 => (originalWidth, originalHeight)
  | p + 1 =>
    match passSizes[p]? with
    | some z => (z.destWidth, z.destHeight)
    | none => (0, 0)

/-- The two entries of `m_textureSizes` written before the pass-size loop. -/
def initialSizes (originalWidth originalHeight viewportWidth viewportHeight : Nat) :
    List (Name × float4) :=
  mapInsert (mapInsert [] Name.original (sizeEntry originalWidth originalHeight))
    Name.finalViewport (sizeEntry viewportWidth viewportHeight)

/-- The members the skip test of source line 333 reads. -/
def skipControl (s : State) : Bool × Int × Int :=
  (s.m_running, s.m_frameSkip, s.m_frameCounter)

/-- The members that make up the render graph: the passes with their sizes, the
named resources, the pass targets, the pass textures and the texture sizes. -/
def graphOf (s : State) :=
  (s.m_shaderPasses, s.m_passResources, s.m_passTargets, s.m_passTextures, s.m_textureSizes)

/-! ## Reading the history out of the render graph -/

/-- The value the local `rebuildPasses` has at source line 608 when the call
`Process` with this input reaches that line: true when the frame rebuilds the
topology.  Without a texture the call returns at line 333. -/
def rebuildsPasses (inp : FrameInput) (s0 : State) : Bool :=
  match inp.texture with
  | none => false
  | some texture =>
    let s : State := setFrameCounter (s0.m_frameCounter + 1) s0
    let cg := captureGeometry inp texture s
    let rs := TryResizeSwapChain cg.2.clientRect cg.1.m_outputRescaled cg.1
    let lb := letterbox rs.1 cg.2
    let s1 : State := setBox (castLong lb.boxX) (castLong lb.boxY) rs.1
    let destWidth := destSize lb.clientWidth s1.m_outputScaleW
    let destHeight := destSize lb.clientHeight s1.m_outputScaleH
    let cf := consumeRescaleFlags s1
    let sp := swapPreset cf.1
    let flags0 : FrameFlags :=
      if sp.2 then ⟨true, true, true⟩ else ⟨cf.2, rs.2, false⟩
    let orig := originalSize sp.1 cg.2 destWidth destHeight
    (createPreprocessed texture orig.1 orig.2 flags0 sp.1).2.rebuildPasses

/-- Frames delivered one after the other, every one of which runs `Process` to its end
without a topology rebuild. -/
def steadyFrames : State → List FrameInput → Bool
  | _, [] => true
  | s, inp :: rest =>
    decide ((ProcessTraced inp s).2 = Outcome.completed) && !rebuildsPasses inp s &&
      steadyFrames (Process inp s) rest

/-- The view registered in `m_passResources` under a name, when there is one. -/
def viewOf (s : State) (name : Name) : Option ShaderResourceView :=
  (mapFind s.m_passResources name).join

/-- The view registered as `OriginalHistory<j>`. -/
def historyView (s : State) (j : Nat) : Option ShaderResourceView :=
  viewOf s (Name.originalHistory j)

/-- The texture behind the view registered as `Original`. -/
def originalId (s : State) : Option Nat := (viewOf s Name.original).map (fun v => v.texture.id)

/-- The texture the preprocessing pass draws into. -/
def preprocessId (s : State) : Option Nat :=
  s.m_preprocessPass.m_targetView.map (fun v => v.texture.id)

/-- The texture behind `m_preprocessedRenderTarget`, which line 840 clears. -/
def clearId (s : State) : Option Nat :=
  s.m_preprocessedRenderTarget.map (fun v => v.texture.id)

/-- The textures the passes draw into. -/
def passTargetIds (s : State) : List (Option Nat) :=
  s.m_shaderPasses.map (fun pass => pass.m_targetView.map (fun v => v.texture.id))

/-- The textures behind the views registered as `PassFeedback<q>`. -/
def feedbackIds (s : State) : List (Option Nat) :=
  (List.range s.m_shaderPasses.length).map
    (fun q => (viewOf s (Name.passFeedback q)).map (fun v => v.texture.id))

/-- The textures behind `OriginalHistory1` to `OriginalHistory<m_requiresHistory>`. -/
def historyIds (s : State) : List (Option Nat) :=
  (List.range s.m_requiresHistory).map
    (fun j => (historyView s (j + 1)).map (fun v => v.texture.id))

/-- The shape a topology rebuild gives the history: `Original` is registered and is a
view of the texture the preprocessing pass draws into; every `OriginalHistory<j>` up to
the depth is registered, each with a texture of its own, none of which is the texture
of `Original`, the cleared preprocessed target, a pass target or a feedback texture;
and no pass target or feedback texture is the texture of `Original`. -/
def historyWF (s : State) : Bool :=
  decide ((originalId s).isSome = true ∧ preprocessId s = originalId s ∧
    (∀ h ∈ historyIds s, h.isSome = true) ∧ (historyIds s).Nodup ∧
    originalId s ∉ historyIds s ∧ clearId s ∉ historyIds s ∧
    (∀ w ∈ passTargetIds s ++ feedbackIds s, w ∉ historyIds s ∧ w ≠ originalId s))

/-- Every history texture can take a copy of the texture of `Original`: the two have
the same dimensions and compatible formats. -/
def historySized (s : State) : Bool :=
  (List.range s.m_requiresHistory).all (fun j =>
    match historyView s (j + 1), viewOf s Name.original with
    | some v, some o => copyCompatible v.texture.desc o.texture.desc
    | _, _ => true)

/-- The members the history reading depends on. -/
def wiring (s : State) :=
  (s.m_passResources, s.m_shaderPasses, s.m_preprocessPass.m_targetView,
    s.m_preprocessedRenderTarget, s.m_requiresHistory)

/-- The history holds the Originals of the frames `recent` (most recent first): for
every `j` within the depth and within the list, the texture behind
`OriginalHistory<j+1>` holds the Original of frame `recent[j]`. -/
def historyHolds (s : State) (recent : List Nat) : Prop :=
  ∀ j f, j < s.m_requiresHistory → recent[j]? = some f →
    ∃ v, historyView s (j + 1) = some v ∧ pixelsOf s v.texture.id = Pixels.original f

/-- The frame a delivered texture shows (0 without a texture). -/
def frameOf (inp : FrameInput) : Nat :=
  match inp.texture with
  | some texture => texture.frame
  | none => 0

/-- The parameter reference the inner loop of source lines 500 to 507 stops at for the
queued entry `ip`: the first of `shaderParams` with the pass index and the name of `ip`. -/
def queuedTarget (shaderParams : List (Nat × Nat)) (s : State) (ip : Int × String × ℚ) :
    Option (Nat × Nat) :=
  shaderParams.find? (fun sp => ip.1 == (sp.1 : Int) &&
    (match paramAt s sp with
     | some p => ip.2.1 == p.name
     | none => false))

/-- The name of the parameter behind a reference. -/
def nameAt (s : State) (ref : Nat × Nat) : Option String := (paramAt s ref).map (fun p => p.name)

/-- The members whose values decide whether a frame resizes or rebuilds: the rescale
flags, the recorded client size, the queued preset, the preprocessed texture and its
render target. -/
def settled (s : State) :=
  (s.m_inputRescaled, s.m_outputRescaled, s.m_lastSize, s.m_newShaderPreset,
    s.m_preprocessedTexture, s.m_preprocessedRenderTarget)

/-- Every `OriginalHistory<j>` up to the history depth is registered, as a topology
rebuild leaves it. -/
def historyRegistered (s : State) : Bool :=
  (List.range s.m_requiresHistory).all
    (fun j => (mapFind s.m_passResources (Name.originalHistory (j + 1))).isSome)

/-- The rescale flags, the recorded client size and the queued preset. -/
def flagsOf (s : State) :=
  (s.m_inputRescaled, s.m_outputRescaled, s.m_lastSize, s.m_newShaderPreset)

/-! ## `CaptureManager` (CaptureManager.h, CaptureManager.cpp) -/

/-- A `PresetDef` of the catalog: name, category and what `Build()` declares. -/
structure PresetDef where
  Name : String
  Category : String
  ShaderDefs : List Shader
  TextureDefs : List PresetTexture
  Overrides : List ParamOverride
  deriving DecidableEq

/-- Modelled from the spec: the constructor `Preset(PresetDef&)` is not under src/; the
preset has the shaders, the static textures and the overrides its definition declares. -/
def Preset.ofDef (d : PresetDef) : Preset := ⟨d.ShaderDefs, d.TextureDefs, d.Overrides⟩

/-- Struct `CaptureOptions`; window and monitor handles are numbers, 0 being null. -/
structure CaptureOptions where
  monitor : Nat
  captureWindow : Nat
  outputWindow : Nat
  pixelWidth : ℚ
  pixelHeight : ℚ
  aspectRatio : ℚ
  presetNo : Nat
  frameSkip : Nat
  outputScale : ℚ
  flipHorizontal : Bool
  flipVertical : Bool
  clone : Bool
  transparent : Bool
  paused : Bool
  captureCursor : Bool
  imageFile : String
  imageWidth : Int
  imageHeight : Int
  inputArea : RECT
  dpiScale : ℚ
  freeScale : Bool
  deriving DecidableEq

/-- Modelled from the spec: class `CaptureSession` is not under src/; the manager only
creates, stops and deletes it.  It records what it captures and the cursor option. -/
structure CaptureSession where
  fromImage : Bool
  captureCursor : Bool
  deriving DecidableEq

/-- The members of `CaptureManager`; `m_shaderGlass` is the pipeline, when there is one. -/
structure CaptureManager where
  m_options : CaptureOptions
  m_active : Bool
  m_d3dDevice : Bool
  m_outputTexture : Option Texture2D
  m_session : Option CaptureSession
  m_shaderGlass : Option State
  m_presetList : List PresetDef
  m_queuedParams : List (Int × String × ℚ)
  m_lastParams : List (Int × String × ℚ)
  m_lastPreset : Nat
  m_initialized : Bool
  deriving DecidableEq

/-- The value `-1` of an `unsigned int`. -/
def noPreset : Nat := 2 ^ 32 - 1

/-- The default member initialisers of `CaptureOptions`. -/
def CaptureOptions.default : CaptureOptions :=
  { monitor := 0, captureWindow := 0, outputWindow := 0, pixelWidth := 3, pixelHeight := 3,
    aspectRatio := 1, presetNo := 0, frameSkip := 0, outputScale := 1, flipHorizontal := false,
    flipVertical := false, clone := false, transparent := false, paused := false,
    captureCursor := false, imageFile := "", imageWidth := 0, imageHeight := 0,
    inputArea := ⟨0, 0, 0, 0⟩, dpiScale := 1, freeScale := false }

/-- The constructor `CaptureManager::CaptureManager` with the default member
initialisers of the class. -/
def CaptureManager.construct : CaptureManager :=
  { m_options := CaptureOptions.default, m_active := false, m_d3dDevice := false,
    m_outputTexture := none, m_session := none, m_shaderGlass := none, m_presetList := [],
    m_queuedParams := [], m_lastParams := [], m_lastPreset := noPreset,
    m_initialized := false }

/-- Member `CaptureManager::Initialize`.  `catalog` is `RetroArchPresetList` and
`passthrough` the `PassthroughPresetDef` (ShaderList.h is not under src/);
`deviceCreated` tells whether one of the `D3D11CreateDevice` calls succeeded. -/
def CaptureManager.Initialize (catalog : List PresetDef) (passthrough : PresetDef)
    (deviceCreated : Bool) (m : CaptureManager) : CaptureManager × Bool :=
  let pushed := m.m_presetList ++ [passthrough]
  let inserted := catalog ++ pushed
  let m1 : CaptureManager := { m with m_presetList := inserted }
  if !deviceCreated then (m1, false)
  else ({ m1 with m_d3dDevice := true, m_initialized := true }, true)

/-- Member `CaptureManager::IsActive`. -/
def CaptureManager.IsActive (m : CaptureManager) : Bool := m.m_session.isSome

/-- Member `CaptureManager::Params`. -/
def CaptureManager.Params (m : CaptureManager) : List (Nat × Nat) :=
  if m.IsActive then
    match m.m_shaderGlass with
    | some sg => ShaderGlass.Params sg
    | none => []
  else []

/-- Member `CaptureManager::ForgetLastPreset`. -/
def CaptureManager.ForgetLastPreset (m : CaptureManager) : CaptureManager :=
  { m with m_lastParams := [], m_lastPreset := noPreset }

/-- Member `CaptureManager::SetLastPreset`. -/
def CaptureManager.SetLastPreset (presetNo : Nat) (m : CaptureManager) : CaptureManager :=
  { m with m_lastPreset := presetNo }

/-- Member `CaptureManager::SetParams`: the queue is assigned first, then the last
preset is forgotten. -/
def CaptureManager.SetParams (params : List (Int × String × ℚ)) (m : CaptureManager) :
    CaptureManager :=
  CaptureManager.ForgetLastPreset { m with m_queuedParams := params }

/-- Member `CaptureManager::RememberLastPreset`: pass index, name and current value of
every parameter `Params()` lists, in its order. -/
def CaptureManager.RememberLastPreset (m : CaptureManager) : CaptureManager :=
  match m.m_shaderGlass with
  | some sg =>
    { m with m_lastParams := m.Params.filterMap (fun ref =>
        (paramAt sg ref).map (fun p => ((ref.1 : Int), p.name, p.currentValue))) }
  | none => m

/-- Modelled from the spec: the default member initialisers of class `ShaderGlass` are
in ShaderGlass.h, which is not under src/; the constructor gives the pipeline the
pass-through preset, and the members start empty, null or zero (the scales at 1). -/
def constructed (passthrough : PresetDef) : State :=
  { m_running := false, m_frameCounter := 0, m_frameSkip := 0, m_captureWindow := false,
    m_clone := false, m_image := false, m_monitorOffset := ⟨0, 0⟩,
    m_lastCaptureWindowPos := ⟨0, 0⟩, m_lastSize := ⟨0, 0⟩, m_lastPos := ⟨0, 0⟩,
    m_inputRescaled := false, m_outputRescaled := false, m_inputScaleW := 1, m_inputScaleH := 1,
    m_outputScaleW := 1, m_outputScaleH := 1, m_flipHorizontal := false,
    m_flipVertical := false, m_freeScale := false, m_lockedArea := ⟨0, 0, 0, 0⟩,
    m_lockedAreaUpdated := false, m_boxX := 0, m_boxY := 0,
    m_displayTexture := none, m_displayRenderTarget := none,
    m_preprocessedTexture := none, m_preprocessedRenderTarget := none, m_originalView := none,
    m_preprocessPass := ⟨0, 0, 0, 0, none, 1, 1, 0, 0⟩,
    m_shaderPreset := Preset.ofDef passthrough, m_newShaderPreset := none, m_newParams := [],
    m_shaderPasses := [], m_presetTextures := [], m_textureSizes := [], m_passResources := [],
    m_passTargets := [], m_passTextures := [], m_requiresFeedback := false,
    m_requiresHistory := 0, m_renderCounter := 0, m_prevRenderCounter := 0, m_prevTicks := 0,
    m_fps := 0, nextId := 0, pixels := [], calls := [] }

/-- What Windows reports to `ShaderGlass::Initialize`: the origin of the captured
monitor, the origin of the virtual screen, the client rectangle of the output window and
the tick count. -/
structure InitEnv where
  monitorOrigin : POINT
  virtualScreenOrigin : POINT
  clientRect : RECT
  ticks : Nat
  deriving DecidableEq

/-- Member `ShaderGlass::Initialize`; `captureWindow` and `captureMonitor` tell whether
the handles are non-null. -/
def Initialize (env : InitEnv) (captureWindow captureMonitor clone image : Bool)
    (s : State) : State :=
  let offset : POINT :=
    if captureMonitor && !clone then env.monitorOrigin
    else if !captureWindow && !captureMonitor && !clone then env.virtualScreenOrigin
    else ⟨0, 0⟩
  let s1 : State :=
    { s with m_captureWindow := captureWindow, m_clone := clone, m_image := image,
             m_monitorOffset := offset, m_lastPos := ⟨0, 0⟩,
             m_lastSize := ⟨env.clientRect.right, env.clientRect.bottom⟩,
             m_prevTicks := env.ticks }
  let t : Texture2D :=
    ⟨s1.nextId, ⟨longToUINT env.clientRect.right, longToUINT env.clientRect.bottom,
      Format.B8G8R8A8_UNORM, false, true⟩⟩
  let s2 := setDisplayTexture (some t) (logCalls [Call.getBuffer t.id] (allocId s1))
  let r := CreateRenderTargetView (some t) s2
  let s3 := RebuildShaders (setDisplayRenderTarget r.2 r.1)
  { s3 with m_running := true }

/-- Member `ShaderGlass::GrabOutput`: a copy of the display texture, or of the boxed
part of it. -/
def GrabOutput (s : State) : State × Option Texture2D :=
  match s.m_displayTexture with
  | none => (s, none)
  | some displayTexture =>
    let displayWidth := displayTexture.desc.Width
    let displayHeight := displayTexture.desc.Height
    if s.m_shaderPasses.length != 0 && (s.m_boxX != 0 || s.m_boxY != 0) then
      match s.m_shaderPasses.getLast? with
      | none => (s, none)
      | some lastPass =>
        let width := min lastPass.m_destWidth displayWidth
        let height := min lastPass.m_destHeight displayHeight
        if width > 0 && height > 0 then
          let c := CreateTexture2D { displayTexture.desc with Width := width, Height := height } s
          let left : Nat := longToUINT (if 0 > s.m_boxX then 0 else s.m_boxX)
          let right : Nat := min displayWidth ((left + width) % 2 ^ 32)
          let top : Nat := longToUINT (if 0 > s.m_boxY then 0 else s.m_boxY)
          let bottom : Nat := min displayHeight ((top + height) % 2 ^ 32)
          if right > left && bottom > top then
            (CopySubresourceRegion c.2.id displayTexture.id c.1, some c.2)
          else (c.1, some c.2)
        else (s, none)
    else
      let c := CreateTexture2D displayTexture.desc s
      (CopyResource c.2 displayTexture c.1, some c.2)

/-- Apply a member of the pipeline, when there is a pipeline (`if(m_shaderGlass)`). -/
def CaptureManager.onPipeline (f : State → State) (m : CaptureManager) : CaptureManager :=
  match m.m_shaderGlass with
  | some sg => { m with m_shaderGlass := some (f sg) }
  | none => m

/-- Member `CaptureManager::UpdatePixelSize`. -/
def CaptureManager.UpdatePixelSize (m : CaptureManager) : CaptureManager :=
  m.onPipeline (SetInputScale (m.m_options.pixelWidth * m.m_options.dpiScale)
    (m.m_options.pixelHeight * m.m_options.dpiScale))

/-- Member `CaptureManager::UpdateOutputSize`. -/
def CaptureManager.UpdateOutputSize (m : CaptureManager) : CaptureManager :=
  m.onPipeline (fun sg => SetFreeScale m.m_options.freeScale
    (SetOutputScale (1 * m.m_options.aspectRatio / m.m_options.outputScale)
      (1 / m.m_options.outputScale) sg))

/-- Member `CaptureManager::UpdateOutputFlip`. -/
def CaptureManager.UpdateOutputFlip (m : CaptureManager) : CaptureManager :=
  m.onPipeline (SetOutputFlip m.m_options.flipHorizontal m.m_options.flipVertical)

/-- Member `CaptureManager::UpdateFrameSkip`. -/
def CaptureManager.UpdateFrameSkip (m : CaptureManager) : CaptureManager :=
  m.onPipeline (SetFrameSkip (m.m_options.frameSkip : Int))

/-- Member `CaptureManager::UpdateLockedArea`. -/
def CaptureManager.UpdateLockedArea (m : CaptureManager) : CaptureManager :=
  m.onPipeline (SetLockedArea m.m_options.inputArea)

/-- Member `CaptureManager::UpdateCursor`. -/
def CaptureManager.UpdateCursor (m : CaptureManager) : CaptureManager :=
  match m.m_session with
  | some session =>
    { m with m_session := some { session with captureCursor := m.m_options.captureCursor } }
  | none => m

/-- Member `CaptureManager::UpdateShaderPreset`; `none` when `m_presetList.at` throws
`std::out_of_range`. -/
def CaptureManager.UpdateShaderPreset (m : CaptureManager) : Option CaptureManager :=
  match m.m_shaderGlass with
  | none => some m
  | some sg =>
    let m1 : CaptureManager :=
      if m.m_lastPreset == m.m_options.presetNo && m.m_queuedParams.length == 0 &&
          m.m_lastParams.length != 0 then
        m.SetParams m.m_lastParams
      else m
    match m1.m_presetList[m1.m_options.presetNo]? with
    | none => none
    | some presetDef =>
      some { m1 with
        m_shaderGlass := some (SetShaderPreset (Preset.ofDef presetDef) m1.m_queuedParams sg),
        m_queuedParams := [],
        m_lastPreset := m1.m_options.presetNo }

/-- Member `CaptureManager::GrabOutput`. -/
def CaptureManager.GrabOutput (m : CaptureManager) : CaptureManager :=
  match m.m_shaderGlass with
  | some sg =>
    { m with m_shaderGlass := some (ShaderGlass.GrabOutput sg).1,
             m_outputTexture := (ShaderGlass.GrabOutput sg).2 }
  | none => m

/-- Member `CaptureManager::Exit`: the session and the pipeline are stopped and
deleted. -/
def CaptureManager.Exit (m : CaptureManager) : CaptureManager :=
  if m.m_session.isSome then
    { m with m_active := false, m_session := none, m_shaderGlass := none }
  else m

/-- Member `CaptureManager::StopSession`. -/
def CaptureManager.StopSession (m : CaptureManager) : CaptureManager :=
  if m.m_session.isSome then
    CaptureManager.Exit (CaptureManager.GrabOutput (CaptureManager.RememberLastPreset m))
  else m

/-- What Windows and the capture interop report to `StartSession`: whether the capture
item could be created, what `ShaderGlass::Initialize` sees, the size of the loaded
image, and the pass-through preset definition of a new pipeline. -/
structure StartEnv where
  captureItem : Bool
  init : InitEnv
  imageWidth : Int
  imageHeight : Int
  passthrough : PresetDef
  deriving DecidableEq

/-- Assign `m_d3dDevice` (whether it is non-null). -/
@[reducible] def CaptureManager.setDevice (device : Bool) (m : CaptureManager) :
    CaptureManager := { m with m_d3dDevice := device }

/-- Assign `m_shaderGlass`. -/
@[reducible] def CaptureManager.setPipeline (sg : Option State) (m : CaptureManager) :
    CaptureManager := { m with m_shaderGlass := sg }

/-- Assign `m_session`. -/
@[reducible] def CaptureManager.setSession (session : Option CaptureSession)
    (m : CaptureManager) : CaptureManager := { m with m_session := session }

/-- Assign `m_active`. -/
@[reducible] def CaptureManager.setActive (active : Bool) (m : CaptureManager) :
    CaptureManager := { m with m_active := active }

/-- Assign `m_options.imageWidth` and `m_options.imageHeight`. -/
@[reducible] def CaptureManager.setImageSize (width height : Int) (m : CaptureManager) :
    CaptureManager :=
  { m with m_options := { m.m_options with imageWidth := width, imageHeight := height } }

/-- Member `CaptureManager::StartSession`; `none` when `UpdateShaderPreset` throws. -/
def CaptureManager.StartSession (env : StartEnv) (m : CaptureManager) :
    Option (CaptureManager × Bool) :=
  let m0 := m.setDevice true
  if m0.m_options.imageFile.length == 0 && !env.captureItem then some (m0, false)
  else
    let sg := ShaderGlass.Initialize env.init (m0.m_options.captureWindow != 0)
      (m0.m_options.monitor != 0)
      m0.m_options.clone (m0.m_options.imageFile.length != 0) (constructed env.passthrough)
    let m1 := m0.setPipeline (some sg)
    match (m1.UpdatePixelSize.UpdateOutputSize.UpdateOutputFlip).UpdateShaderPreset with
    | none => none
    | some m2 =>
      let m3 := m2.UpdateFrameSkip.UpdateLockedArea
      let m4 : CaptureManager :=
        if m3.m_options.imageFile.length != 0 then
          CaptureManager.UpdatePixelSize
            ((m3.setImageSize env.imageWidth env.imageHeight).setSession (some ⟨true, false⟩))
        else m3.setSession (some ⟨false, false⟩)
      some (CaptureManager.UpdateCursor (m4.setActive true), true)

/-- The preset and the parameter values queued in the pipeline of the manager. -/
def CaptureManager.handed (m : CaptureManager) :
    Option (Option Preset × List (Int × String × ℚ)) :=
  m.m_shaderGlass.map (fun sg => (sg.m_newShaderPreset, sg.m_newParams))

/-- The pass index, name and current value of every tunable parameter of a pipeline,
in the order of `Params()`. -/
def currentParams (sg : State) : List (Int × String × ℚ) :=
  (Params sg).filterMap (fun ref =>
    (paramAt sg ref).map (fun p => ((ref.1 : Int), p.name, p.currentValue)))

/-- Source lines 411 to 421: the locals `clientWidth` and `clientHeight` before the
boxing block. -/
def contentSize (s : State) (g : Geometry) : Int × Int :=
  if s.m_captureWindow || s.m_image then
    let captureW : Int := g.captureClient.right - g.captureClient.left
    let captureH : Int := g.captureClient.bottom - g.captureClient.top
    (if !s.m_freeScale then castLong (roundf (captureW / s.m_outputScaleW))
      else g.clientRect.right,
     if !s.m_freeScale then castLong (roundf (captureH / s.m_outputScaleH))
      else g.clientRect.bottom)
  else (g.clientRect.right, g.clientRect.bottom)

/-- The centring term source lines 447 to 451 add to a box offset outside free-scale
mode. -/
def centring (freeScale : Bool) (client : Int) (capture : Int) (outputScale : ℚ) : ℚ :=
  if !freeScale then ((client : ℚ) - capture / outputScale) / 2 else 0

/-! ## ShaderWindow.cpp: `Start`, `Stop`, `UpdateWindowState` and `LoadProfile` -/

/-- The members and window attributes of `ShaderWindow` that `Start`, `Stop`,
`UpdateWindowState` and `LoadProfile` read or write.  `m_captureOptions` is a reference to
`m_captureManager.m_options` and is read there.  `startEnabled` and `stopEnabled` are the
states of the menu items `IDM_START` and `IDM_STOP`; `topmost`, `layered` and
`excludedFromCapture` are attributes of the main window; `paramsUpdates` counts the
`IDM_UPDATE_PARAMS` messages sent to the parameters window.  The title and the size of
the window are not carried. -/
structure ShaderWindow where
  m_captureManager : CaptureManager
  m_recentProfiles : List String
  startEnabled : Bool
  stopEnabled : Bool
  topmost : Bool
  layered : Bool
  excludedFromCapture : Bool
  paramsUpdates : Nat
  deriving DecidableEq

/-- What Windows reports to the window: `IsWindow` of a handle, what a starting session
sees, and the constant `MAX_RECENT_PROFILES` (its header is not under src/). -/
structure WindowEnv where
  isWindow : Nat → Bool
  start : StartEnv
  maxRecentProfiles : Nat

/-- Assign `m_captureManager` (the members of the referenced manager). -/
@[reducible] def ShaderWindow.setManager (m : CaptureManager) (w : ShaderWindow) :
    ShaderWindow := { w with m_captureManager := m }

/-- The two `EnableMenuItem` calls on `IDM_START` and `IDM_STOP`. -/
@[reducible] def ShaderWindow.setMenu (start stop : Bool) (w : ShaderWindow) : ShaderWindow :=
  { w with startEnabled := start, stopEnabled := stop }

/-- Member `ShaderWindow::UpdateWindowState` (source lines 787 to 821). -/
def ShaderWindow.UpdateWindowState (w : ShaderWindow) : ShaderWindow :=
  if !w.m_captureManager.IsActive then w
  else
    { w with
      topmost := w.m_captureManager.IsActive,
      layered := w.m_captureManager.IsActive && w.m_captureManager.m_options.transparent,
      excludedFromCapture := w.m_captureManager.IsActive &&
        !w.m_captureManager.m_options.clone &&
        w.m_captureManager.m_options.captureWindow == 0 }

/-- Member `ShaderWindow::Start` (source lines 1451 to 1472); `none` when `StartSession`
throws. -/
def ShaderWindow.Start (env : WindowEnv) (w : ShaderWindow) : Option (ShaderWindow × Bool) :=
  if w.m_captureManager.m_options.captureWindow != 0 &&
      !env.isWindow w.m_captureManager.m_options.captureWindow then some (w, false)
  else if w.m_captureManager.IsActive then some (w, false)
  else
    match w.m_captureManager.StartSession env.start with
    | none => none
    | some (m, started) =>
      let w1 := w.setManager m
      let w2 := if started then w1.setMenu false true else w1.setMenu true false
      some (w2.UpdateWindowState, true)

/-- Member `ShaderWindow::Stop` (source lines 1474 to 1484). -/
def ShaderWindow.Stop (w : ShaderWindow) : ShaderWindow :=
  if !w.m_captureManager.IsActive then w
  else
    let w1 := w.setManager w.m_captureManager.StopSession
    let w2 := w1.setMenu true false
    let w3 := w2.UpdateWindowState
    { w3 with paramsUpdates := w3.paramsUpdates + 1 }

/-- Member `ShaderWindow::AddRecentProfile`; the registry write of `SaveRecentProfiles`
is not carried. -/
def ShaderWindow.AddRecentProfile (maxRecent : Nat) (path : String) (w : ShaderWindow) :
    ShaderWindow :=
  if !path.contains ':' then w
  else
    let existing := w.m_recentProfiles.contains path
    if existing && w.m_recentProfiles.head? == some path then w
    else
      let erased := if existing then w.m_recentProfiles.erase path else w.m_recentProfiles
      let inserted := path :: erased
      { w with m_recentProfiles :=
          if inserted.length > maxRecent then inserted.take maxRecent else inserted }

/-- The locals of `LoadProfile` that the entries of the file fill (source lines 27 to
33). -/
structure ProfileLocals where
  shaderCategory : String
  shaderName : String
  windowName : Option String
  desktopName : Option String
  transparent : Option Bool
  clone : Option Bool
  params : List (Int × String × ℚ)
  deriving DecidableEq

/-- The locals as declared, before the first entry is read. -/
def ProfileLocals.declared : ProfileLocals := ⟨"", "", none, none, none, none, []⟩

/-- What `LoadProfile` runs on: the window environment, the handling of an entry whose
key is not `ProfileVersion` (source lines 45 to 199: menu commands sent to the window
procedure, option writes and parameter parsing), and the selection of shader, input and
IO modes after the file is read (source lines 203 to 271). -/
structure ProfileEnv where
  window : WindowEnv
  handleKey : String → String → ProfileLocals × ShaderWindow → ProfileLocals × ShaderWindow
  applySelections : ProfileLocals → ShaderWindow → ShaderWindow

/-- The `while` loop of `LoadProfile` over the key and value pairs read from the file, in
file order.  `Except.error w` is the `return true` of a `ProfileVersion` whose value does
not start with `1.`, taken with the window as `w`. -/
def readProfile (env : ProfileEnv) :
    List (String × String) → ProfileLocals → ShaderWindow →
      Except ShaderWindow (ProfileLocals × ShaderWindow)
  | [], locals, w => Except.ok (locals, w)
  | (key, value) :: rest, locals, w =>
    if key == "ProfileVersion" then
      if value.take 2 != "1." then Except.error w
      else readProfile env rest locals w
    else
      readProfile env rest (env.handleKey key value (locals, w)).1
        (env.handleKey key value (locals, w)).2

/-- Member `ShaderWindow::LoadProfile(const std::wstring&)` (source lines 8 to 289).
`file` is `none` when `infile.good()` is false, otherwise the key and value pairs of the
file.  The result is the window and the returned value; `none` when the restart throws.
`IDM_START` is handled by the window procedure as `if(!Start()) return 0;`. -/
def ShaderWindow.LoadProfile (env : ProfileEnv) (fileName : String)
    (file : Option (List (String × String))) (w : ShaderWindow) :
    Option (ShaderWindow × Bool) :=
  let paused := w.m_captureManager.IsActive
  let w1 := if paused then w.Stop else w
  let w2 := w1.setManager w1.m_captureManager.ForgetLastPreset
  match file with
  | none => some (w2, false)
  | some entries =>
    match readProfile env entries ProfileLocals.declared w2 with
    | Except.error w3 => some (w3, true)
    | Except.ok (locals, w3) =>
      let w4 := env.applySelections locals w3
      let w5 := if locals.params.length != 0 then
          w4.setManager (w4.m_captureManager.SetParams locals.params)
        else w4
      let restarted : Option ShaderWindow :=
        if paused then (w5.Start env.window).map Prod.fst else some w5
      match restarted with
      | none => none
      | some w6 => some (w6.AddRecentProfile env.window.maxRecentProfiles fileName, true)

/-- The transform last uploaded to the preprocessing pass with `UpdateMVP`. -/
def uploaded (s : State) : Transform :=
  ⟨s.m_preprocessPass.sx, s.m_preprocessPass.sy, s.m_preprocessPass.tx, s.m_preprocessPass.ty⟩

/-- The members the transform block of source lines 755 to 835 reads, apart from the
locals of the frame: the uploaded transform, the recorded position, the locked-area flag,
the capture mode, the locked area and the flips. -/
def poseOf (s : State) :=
  (uploaded s, s.m_lastPos, s.m_lockedAreaUpdated, s.m_captureWindow, s.m_image, s.m_clone,
    s.m_freeScale, s.m_lockedArea, s.m_flipHorizontal, s.m_flipVertical)

/-- The state and the locals `outputResized`, `destWidth`, `destHeight` together with the
geometry of the frame when a call of `Process` that passes the minimum-size check reaches
source line 755. -/
structure TransformStage where
  state : State
  g : Geometry
  outputResized : Bool
  destWidth : Int
  destHeight : Int

/-- Source lines 347 to 753 run on the captured texture: what `Process` has done when it
reaches the transform block of line 755. -/
def transformStage (inp : FrameInput) (texture : CapturedTexture) (s0 : State) :
    TransformStage :=
  let s : State := setFrameCounter (s0.m_frameCounter + 1) s0
  let cg := captureGeometry inp texture s
  let rs := TryResizeSwapChain cg.2.clientRect cg.1.m_outputRescaled cg.1
  let lb := letterbox rs.1 cg.2
  let s1 : State := setBox (castLong lb.boxX) (castLong lb.boxY) rs.1
  let viewportWidth := longToUINT lb.clientWidth
  let viewportHeight := longToUINT lb.clientHeight
  let destWidth := destSize lb.clientWidth s1.m_outputScaleW
  let destHeight := destSize lb.clientHeight s1.m_outputScaleH
  let cf := consumeRescaleFlags s1
  let sp := swapPreset cf.1
  let flags0 : FrameFlags :=
    if sp.2 then ⟨true, true, true⟩ else ⟨cf.2, rs.2, false⟩
  let orig := originalSize sp.1 cg.2 destWidth destHeight
  let cp := createPreprocessed texture orig.1 orig.2 flags0 sp.1
  let s2 : State :=
    if cp.2.inputRescaled || cp.2.outputResized then
      resizePasses texture orig.1 orig.2 viewportWidth viewportHeight cp.1
    else cp.1
  let s3 : State := if cp.2.rebuildPasses then rebuildGraph texture orig.1 orig.2 s2 else s2
  ⟨s3, cg.2, cp.2.outputResized, destWidth, destHeight⟩

/-- The value of the condition of source line 755 in a call of `Process` that reaches
it: true when the frame recomputes and uploads the transform. -/
def transformRecomputed (inp : FrameInput) (s0 : State) : Bool :=
  match inp.texture with
  | none => false
  | some texture =>
    let st := transformStage inp texture s0
    st.g.outputMoved || st.outputResized ||
      (st.state.m_lastPos.x != st.g.topLeft.x || st.state.m_lastPos.y != st.g.topLeft.y) ||
      st.state.m_lockedAreaUpdated

/-- The transform that source lines 758 to 830 compute from the geometry this call of
`Process` has queried. -/
def frameTransform (inp : FrameInput) (s0 : State) : Option Transform :=
  inp.texture.map (fun texture =>
    let st := transformStage inp texture s0
    preprocessTransform st.state st.g st.destWidth st.destHeight)

/-- What the rotation of source lines 924 to 948 dereferences: `Original` and every
`OriginalHistory<j>` up to the history depth are registered with a view that is not
null. -/
def historyReady (s : State) : Bool :=
  (viewOf s Name.original).isSome &&
    (List.range s.m_requiresHistory).all (fun j => (historyView s (j + 1)).isSome)

/-- The table of named resources together with what decides which of its keys the
feedback copy-back and the history rotation look up: the number of passes, the feedback
flag and the history depth. -/
def tableOf (s : State) :=
  (s.m_passResources, s.m_shaderPasses.length, s.m_requiresFeedback, s.m_requiresHistory)

/-- Every key that source lines 865 to 943 look up with `find` is present: with the
feedback flag set, `PassOutput<q>` and `PassFeedback<q>` for every `q` below the index
of the last pass and `PassFeedback` of the last pass; with a positive history depth `N`,
`OriginalHistory<N>` and `Original`. -/
def lookupsFound (s : State) : Bool :=
  (!s.m_requiresFeedback ||
    ((List.range (s.m_shaderPasses.length - 1)).all (fun q =>
        (mapFind s.m_passResources (Name.passOutput q)).isSome &&
        (mapFind s.m_passResources (Name.passFeedback q)).isSome) &&
      (mapFind s.m_passResources (Name.passFeedback (s.m_shaderPasses.length - 1))).isSome)) &&
  (s.m_requiresHistory == 0 ||
    ((mapFind s.m_passResources (Name.originalHistory s.m_requiresHistory)).isSome &&
      (mapFind s.m_passResources Name.original).isSome))

/-- Assign `m_options.presetNo`. -/
@[reducible] def CaptureManager.setPresetNo (presetNo : Nat) (m : CaptureManager) :
    CaptureManager := { m with m_options := { m.m_options with presetNo := presetNo } }

/-- The entry of a preset in the shader menu, lines 1197 to 1199 of ShaderWindow.cpp, as
it acts on the manager: `m_captureOptions` is a reference to `m_options` of the manager;
`none` when `UpdateShaderPreset` throws. -/
def CaptureManager.selectPreset (presetNo : Nat) (m : CaptureManager) :
    Option CaptureManager :=
  (m.setPresetNo presetNo).UpdateShaderPreset

/-! ## The parameter lines of a profile (ShaderWindow.cpp, lines 182 to 199 and 413 to 421)

A `std::string` is the list of its characters. -/

/-- The C function `isspace` in the default locale: space, tab, line feed, vertical tab,
form feed, carriage return. -/
def isspace (c : Char) : Bool :=
  c.toNat == 32 || (9 ≤ c.toNat && c.toNat ≤ 13)

/-- The text `operator<<` writes for an `int`: a minus sign for a negative value, then
the decimal digits. -/
def formatInt (v : Int) : List Char :=
  if v < 0 then '-' :: Nat.toDigits 10 v.natAbs else Nat.toDigits 10 v.natAbs

/-- The manipulator `std::quoted` on output: the text between double quotes, with a
backslash before every double quote and backslash of the text. -/
def quoted (text : List Char) : List Char :=
  Char.ofNat 34 :: (text.flatMap (fun c =>
    if c.toNat == 34 || c.toNat == 92 then [Char.ofNat 92, c] else [c])) ++ [Char.ofNat 34]

/-- The key `SaveProfile` writes at source line 419 for the parameter `name` of pass
`s`. -/
def paramKey (s : Int) (name : List Char) : List Char :=
  "Param-".data ++ formatInt s ++ "-".data ++ name

/-- Source line 419 of `SaveProfile`: the line written for a parameter whose current
value differs from its default; `valueText` is `std::to_string(p->currentValue)`. -/
def saveParam (s : Int) (name valueText : List Char) : List Char :=
  paramKey s name ++ " ".data ++ quoted valueText ++ [Char.ofNat 10]

/-- The extraction `infile >> key` of source line 38: leading whitespace is skipped and
the characters up to the next whitespace are taken.  The result is the token and the
rest of the stream. -/
def readToken (stream : List Char) : List Char × List Char :=
  let t := stream.dropWhile isspace
  (t.takeWhile (fun c => !isspace c), t.dropWhile (fun c => !isspace c))

/-- Member `std::string::find(char, pos)`: the position of the first occurrence at or
after `pos`, `none` for `npos`. -/
def find (str : List Char) (c : Char) (pos : Nat) : Option Nat :=
  if (str.drop pos).indexOf c < (str.drop pos).length then
    some (pos + (str.drop pos).indexOf c)
  else none

/-- Member `std::string::substr(pos, len)`, with `len = none` for the default `npos`;
`none` when it throws `std::out_of_range` because `pos` is beyond the size. -/
def substr (str : List Char) (pos : Nat) (len : Option Nat) : Option (List Char) :=
  if pos > str.length then none
  else
    match len with
    | some n => some ((str.drop pos).take n)
    | none => some (str.drop pos)

/-- The function `std::stoi` in base 10: leading whitespace is skipped, a sign is
accepted, the digits that follow are converted and what comes after them is ignored;
`none` when it throws, for no digit (`std::invalid_argument`) or a value outside `int`
(`std::out_of_range`). -/
def stoi (str : List Char) : Option Int :=
  let t := str.dropWhile isspace
  let negative := t.head? == some '-'
  let u := if t.head? == some '-' || t.head? == some '+' then t.tail else t
  let ds := u.takeWhile Char.isDigit
  if ds.isEmpty then none
  else
    let v : Int := ds.foldl (fun a c => 10 * a + ((c.toNat : Int) - 48)) 0
    let r : Int := if negative then -v else v
    if r < -(2 ^ 31) || r > 2 ^ 31 - 1 then none else some r

/-- Source lines 182 to 192 of `LoadProfile`: the pass number and the name the branch
for `Param-` keys reads out of `key`; `none` when the branch is not entered, when it
leaves with `continue`, and when `substr` or `std::stoi` throws into the `catch`. -/
def parseParamKey (key : List Char) : Option (Int × List Char) :=
  if substr key 0 (some 6) == some "Param-".data && key.length ≥ 9 then
    let start := 6
    match find key '-' start with
    | none => none
    | some split =>
      if split == key.length - 1 || split == start then none
      else
        match (substr key start (some (split - start))).bind stoi with
        | none => none
        | some passNo =>
          match substr key (split + 1) none with
          | none => none
          | some name => some (passNo, name)
  else none

/-- Source lines 182 to 198 of `LoadProfile`: what the branch for `Param-` keys does to
the local `params`.  `stod` is `std::stod`, `none` when it throws; an exception leaves
`params` as it is. -/
def handleParam (stod : List Char → Option ℚ) (key value : List Char)
    (params : List (Int × String × ℚ)) : List (Int × String × ℚ) :=
  match parseParamKey key with
  | none => params
  | some (passNo, name) =>
    match stod value with
    | none => params
    | some v => params ++ [(passNo, String.mk name, v)]

/-- The list `ds` is a decimal numeral of `n`: it is not empty, each of its characters is
a digit, so neither a sign nor whitespace, and read from the left in base 10 it has the
value `n`. -/
def numeral (ds : List Char) (n : Nat) : Prop :=
  ds ≠ [] ∧
    (∀ c ∈ ds, c.isDigit = true ∧ c ≠ '-' ∧ c ≠ '+' ∧ isspace c = false) ∧
    ds.foldl (fun (a : Int) c => 10 * a + ((c.toNat : Int) - 48)) 0 = n

/-- Assign `m_options.paused`. -/
@[reducible] def CaptureManager.setPaused (paused : Bool) (m : CaptureManager) :
    CaptureManager := { m with m_options := { m.m_options with paused := paused } }

/-- The `wParam` values of `WM_SIZE` the window procedure distinguishes. -/
inductive SizeKind where
  | minimized
  | maximized
  | restored
  | other
  deriving DecidableEq

/-- The `WM_SIZE` case of the window procedure (ShaderWindow.cpp, lines 1366 to 1386) as
it acts on the manager; `m_captureOptions` is a reference to `m_options` of the manager,
and `AdjustWindowSize` is not carried.  The result is `none` when `StartSession`
throws. -/
def ShaderWindow.onSize (env : WindowEnv) (kind : SizeKind) (w : ShaderWindow) :
    Option ShaderWindow :=
  match kind with
  | SizeKind.minimized =>
    if w.m_captureManager.IsActive then
      some (w.setManager (CaptureManager.StopSession (w.m_captureManager.setPaused true)))
    else some w
  | SizeKind.maximized | SizeKind.restored =>
    if w.m_captureManager.m_options.paused then
      match w.m_captureManager.StartSession env.start with
      | none => none
      | some (m, started) =>
        if started then some (w.setManager (m.setPaused false)) else some (w.setManager m)
    else some w
  | SizeKind.other => some w

/-- The `HK_PAUSE` case of `WM_HOTKEY` (ShaderWindow.cpp, lines 1344 to 1349); `none`
when `StartSession` throws. -/
def ShaderWindow.onPauseHotkey (env : WindowEnv) (w : ShaderWindow) : Option ShaderWindow :=
  if w.m_captureManager.IsActive then some w.Stop
  else (w.Start env).map Prod.fst

/-- The manager without its session and pipeline. -/
def CaptureManager.withoutSession (m : CaptureManager) : CaptureManager :=
  { m with m_session := none, m_shaderGlass := none, m_active := false }

/-- The alias of a pass does not stand for the key `k`, and neither does the feedback
name made of it; an empty alias is not registered. -/
def aliasAvoids (k : Name) (aliasName : String) : Bool :=
  aliasName == "" ||
    (Name.ofString aliasName != k && Name.ofString (aliasName ++ "Feedback") != k)

/-- No name the preset chooses stands for the key `k`: no static texture has this name,
and no pass has it as its alias or as the feedback name made of its alias. -/
def namesAvoid (s : State) (k : Name) : Bool :=
  s.m_presetTextures.all (fun pt => Name.ofString pt.1 != k) &&
    s.m_shaderPasses.all (fun pass => aliasAvoids k pass.m_shader.m_alias)

/-- The string is none of the strings the code builds for a key (`Original`,
`FinalViewport`, and `PassOutput`, `PassFeedback` or `OriginalHistory` followed by an
index): as a key it stands for itself. -/
def isPlain (n : String) : Bool := Name.ofString n == Name.user n

/-- Every name the preset chooses is a key of its own: no static texture name, no alias
and no feedback name made of an alias is a string the code builds. -/
def plainNames (s : State) : Bool :=
  s.m_presetTextures.all (fun pt => isPlain pt.1) &&
    s.m_shaderPasses.all (fun pass => pass.m_shader.m_alias == "" ||
      (isPlain pass.m_shader.m_alias && isPlain (pass.m_shader.m_alias ++ "Feedback")))

/-! ## Sample data used to instantiate the theorems -/

/-- A shader that halves the viewport in both directions. -/
def halfViewportShader : Shader :=
  { m_scaleX := 1 / 2, m_scaleY := 1 / 2, m_scaleViewportX := true, m_scaleViewportY := true,
    m_scaleAbsoluteX := false, m_scaleAbsoluteY := false, m_alias := "", m_formatFloat := false,
    m_formatSRGB := false, m_params := [], requiresFeedback := false, requiresHistory := 0 }

/-- A shader that doubles its source, has an alias, and asks for feedback and for two
frames of history. -/
def doublingShader : Shader :=
  { m_scaleX := 2, m_scaleY := 2, m_scaleViewportX := false, m_scaleViewportY := false,
    m_scaleAbsoluteX := false, m_scaleAbsoluteY := false, m_alias := "A", m_formatFloat := false,
    m_formatSRGB := false, m_params := [], requiresFeedback := true, requiresHistory := 2 }

/-- A preset of three passes. -/
def samplePreset : Preset :=
  { m_shaders := [doublingShader, halfViewportShader, halfViewportShader],
    m_textures := [], Overrides := [] }

/-- A preset of one pass that asks for feedback. -/
def singleFeedbackPreset : Preset :=
  { m_shaders := [doublingShader], m_textures := [], Overrides := [] }

/-- A display buffer of 800 by 600. -/
def sampleDisplay : Texture2D := ⟨0, ⟨800, 600, Format.B8G8R8A8_UNORM, false, true⟩⟩

/-- A pipeline in desktop clone mode just after `Initialize` and the setters of
`StartSession`, with `samplePreset` queued, output scale 1 and input scale 3. -/
def sampleState : State :=
  { m_running := true, m_frameCounter := 0, m_frameSkip := 0, m_captureWindow := false,
    m_clone := true, m_image := false, m_monitorOffset := ⟨0, 0⟩,
    m_lastCaptureWindowPos := ⟨0, 0⟩, m_lastSize := ⟨800, 600⟩, m_lastPos := ⟨0, 0⟩,
    m_inputRescaled := true, m_outputRescaled := true, m_inputScaleW := 3, m_inputScaleH := 3,
    m_outputScaleW := 1, m_outputScaleH := 1, m_flipHorizontal := false,
    m_flipVertical := false, m_freeScale := false, m_lockedArea := ⟨0, 0, 0, 0⟩,
    m_lockedAreaUpdated := true, m_boxX := 0, m_boxY := 0,
    m_displayTexture := some sampleDisplay, m_displayRenderTarget := some ⟨sampleDisplay⟩,
    m_preprocessedTexture := none, m_preprocessedRenderTarget := none, m_originalView := none,
    m_preprocessPass := ⟨0, 0, 0, 0, none, 1, 1, 0, 0⟩,
    m_shaderPreset := ⟨[], [], []⟩, m_newShaderPreset := some samplePreset, m_newParams := [],
    m_shaderPasses := [], m_presetTextures := [], m_textureSizes := [], m_passResources := [],
    m_passTargets := [], m_passTextures := [], m_requiresFeedback := false,
    m_requiresHistory := 0, m_renderCounter := 0, m_prevRenderCounter := 0, m_prevTicks := 0,
    m_fps := 0, nextId := 1, pixels := [], calls := [] }

/-- A captured desktop frame of 1920 by 1080 showing frame `frame`. -/
def sampleTexture (frame : Nat) : CapturedTexture :=
  ⟨⟨1920, 1080, Format.B8G8R8A8_UNORM, true, false⟩, frame⟩

/-- A delivered frame with the output window at (10, 10) and a client area of
`width` by `height`. -/
def sampleInput (frame : Nat) (width height : Int) : FrameInput :=
  { texture := some (sampleTexture frame), lockAcquired := true, topLeft := ⟨10, 10⟩,
    clientRect := ⟨0, 0, width, height⟩, captureTopLeft := ⟨0, 0⟩,
    captureClient := ⟨0, 0, 0, 0⟩, captureRect := ⟨0, 0, 0, 0⟩, ticks := 5 }

/-- The geometry of a desktop frame of 1920 by 1080 in a client area of 800 by 600. -/
def sampleGeometry : Geometry :=
  { topLeft := ⟨10, 10⟩, clientRect := ⟨0, 0, 800, 600⟩, capturedWidth := 1920,
    capturedHeight := 1080, captureRect := ⟨0, 0, 0, 0⟩, captureTopLeft := ⟨0, 0⟩,
    captureClient := ⟨0, 0, 0, 0⟩, outputMoved := false }

/-- The sample pipeline after its queued preset has been swapped in: three passes. -/
def sampleSwapped : State := (swapPreset sampleState).1

/-- The sample pipeline with the one-pass preset queued: its only pass asks for
feedback. -/
def singlePassState : State :=
  { sampleState with m_newShaderPreset := some singleFeedbackPreset }

/-- A static texture of 64 by 64 that its preset names `OriginalHistory1`. -/
def shadowTexture : PresetTexture :=
  ⟨"OriginalHistory1", some ⟨⟨900, ⟨64, 64, Format.B8G8R8A8_UNORM, true, false⟩⟩⟩⟩

/-- The sample pipeline after a preset of the three sample passes and the static texture
`OriginalHistory1` has been swapped in: its passes ask for two frames of history. -/
def shadowedState : State :=
  (swapPreset { sampleState with
    m_newShaderPreset := some { samplePreset with m_textures := [shadowTexture] } }).1

/-- The sample pipeline after a preset of one pass without history and the static texture
`OriginalHistory1` has been swapped in. -/
def shadowedPlainState : State :=
  (swapPreset { sampleState with
    m_newShaderPreset := some
      { m_shaders := [halfViewportShader], m_textures := [shadowTexture], Overrides := [] } }).1

/-- The sample pipeline with a frame skip of 2. -/
def skipState : State := SetFrameSkip 2 sampleState

/-- Three frames delivered one after the other to a window of 800 by 600. -/
def sampleFrames : List FrameInput :=
  [sampleInput 1 800 600, sampleInput 2 800 600, sampleInput 3 800 600]

/-- The sample pipeline after one completed frame in its window of 800 by 600. -/
def renderedState : State := Process (sampleInput 1 800 600) sampleState

/-- The rendered sample pipeline with the input scale set to 4. -/
def coarseState : State := SetInputScale 4 4 renderedState

/-- A shader with the matrix, the frame counter and two tunable parameters. -/
def gammaShader : Shader :=
  { m_scaleX := 1, m_scaleY := 1, m_scaleViewportX := true, m_scaleViewportY := true,
    m_scaleAbsoluteX := false, m_scaleAbsoluteY := false, m_alias := "", m_formatFloat := false,
    m_formatSRGB := false,
    m_params := [⟨"MVP", 64, 0, 0⟩, ⟨"FrameCount", 4, 0, 0⟩, ⟨"gamma", 4, 0, 1⟩,
      ⟨"bright", 4, 0, 3⟩],
    requiresFeedback := false, requiresHistory := 0 }

/-- A preset of two passes with the same shader that overrides `gamma`. -/
def tunedPreset : Preset :=
  { m_shaders := [gammaShader, gammaShader], m_textures := [],
    Overrides := [⟨"gamma", 11 / 5⟩] }

/-- The sample pipeline with `tunedPreset` as its current preset. -/
def tunedState : State := setShaderPreset tunedPreset sampleState

/-- The sample pipeline with `tunedPreset` queued together with a value 2.4 for the
`gamma` of pass 1. -/
def queuedState : State := SetShaderPreset tunedPreset [(1, "gamma", 12 / 5)] sampleState

/-- A catalog of two presets followed by a pass-through preset. -/
def sampleCatalog : List PresetDef :=
  [⟨"tuned", "sample", [gammaShader, gammaShader], [], [⟨"gamma", 11 / 5⟩]⟩,
   ⟨"three", "sample", [doublingShader, halfViewportShader, halfViewportShader], [], []⟩]

/-- A pass-through preset definition: one shader, nothing else. -/
def samplePassthrough : PresetDef := ⟨"none", "general", [halfViewportShader], [], []⟩

/-- A manager after `Initialize` with a running session on the sample pipeline, whose
current preset is the tuned preset with the `gamma` of pass 1 at 2.4; the selected
preset 0 is the one last given to the pipeline. -/
def sampleManager : CaptureManager :=
  { CaptureManager.construct with
    m_presetList := sampleCatalog ++ [samplePassthrough], m_d3dDevice := true,
    m_initialized := true, m_active := true, m_session := some ⟨false, false⟩,
    m_shaderGlass := some (swapPreset queuedState).1, m_lastPreset := 0 }

/-- What Windows reports at the start of a session on a window of 800 by 600. -/
def sampleStartEnv : StartEnv :=
  { captureItem := true, init := ⟨⟨0, 0⟩, ⟨0, 0⟩, ⟨0, 0, 800, 600⟩, 0⟩, imageWidth := 0,
    imageHeight := 0, passthrough := samplePassthrough }

/-- A window capture in free-scale mode at output scale 1. -/
def windowState : State :=
  { sampleState with m_captureWindow := true, m_clone := true, m_freeScale := true }

/-- A captured window of 400 by 300 shown in a client area of 800 by 300. -/
def wideGeometry : Geometry :=
  { topLeft := ⟨0, 0⟩, clientRect := ⟨0, 0, 800, 300⟩, capturedWidth := 400,
    capturedHeight := 300, captureRect := ⟨0, 0, 400, 300⟩, captureTopLeft := ⟨0, 0⟩,
    captureClient := ⟨0, 0, 400, 300⟩, outputMoved := false }

/-- The main window while the sample manager runs a session on the desktop. -/
def sampleWindow : ShaderWindow :=
  { m_captureManager := sampleManager, m_recentProfiles := [], startEnabled := false,
    stopEnabled := true, topmost := true, layered := false, excludedFromCapture := true,
    paramsUpdates := 0 }

/-- Every handle is a window; a session starts as in `sampleStartEnv`. -/
def sampleWindowEnv : WindowEnv :=
  { isWindow := fun _ => true, start := sampleStartEnv, maxRecentProfiles := 10 }

/-- An environment whose entry handlers leave locals and window as they are. -/
def sampleProfileEnv : ProfileEnv :=
  { window := sampleWindowEnv, handleKey := fun _ _ r => r, applySelections := fun _ w => w }

/-- A preset of three passes that all declare the alias `A`. -/
def aliasedPreset : Preset :=
  { m_shaders := [doublingShader, doublingShader, doublingShader], m_textures := [],
    Overrides := [] }

/-- The sample pipeline with the aliased preset queued. -/
def aliasedState : State := { sampleState with m_newShaderPreset := some aliasedPreset }

/-- A shader like `doublingShader` whose alias is the string `PassOutput1`. -/
def namedShader : Shader := { doublingShader with m_alias := "PassOutput1" }

/-- The sample pipeline with a preset of three passes queued, the first of which declares
the alias `PassOutput1`. -/
def namedState : State :=
  { sampleState with
    m_newShaderPreset := some
      { m_shaders := [namedShader, halfViewportShader, halfViewportShader], m_textures := [],
        Overrides := [] } }

/-- The sample pipeline after its preset has been swapped in and its pass sizes resolved
for a logical input of 266 by 200 and a viewport of 800 by 600. -/
def resizedSample : State := resizePasses (sampleTexture 1) 266 200 800 600 sampleSwapped

/-- A delivered frame of a captured window whose client area is `size` by `size`, shown
in an output window with a client area of 800 by 600. -/
def tinyWindowInput (size : Nat) : FrameInput :=
  { texture := some ⟨⟨size, size, Format.B8G8R8A8_UNORM, true, false⟩, 1⟩,
    lockAcquired := true, topLeft := ⟨10, 10⟩, clientRect := ⟨0, 0, 800, 600⟩,
    captureTopLeft := ⟨100, 100⟩, captureClient := ⟨0, 0, size, size⟩,
    captureRect := ⟨100, 100, 100 + size, 100 + size⟩, ticks := 5 }

/-- A window capture outside free-scale mode at output scale 2 and input scale 3/2. -/
def fixedScaleState : State :=
  { windowState with m_freeScale := false, m_inputScaleW := 3 / 2, m_inputScaleH := 3 / 2,
                     m_outputScaleW := 2, m_outputScaleH := 2 }

/-- A delivered frame of a captured window whose frame spans 100 to 500 horizontally and
`top` to 400 vertically, with a title bar of 30 above its client area, shown in an output
window with a client area of 800 by 600. -/
def windowFrame (top : Int) : FrameInput :=
  { texture := some ⟨⟨400, (400 - top).toNat, Format.B8G8R8A8_UNORM, true, false⟩, 1⟩,
    lockAcquired := true, topLeft := ⟨10, 10⟩, clientRect := ⟨0, 0, 800, 600⟩,
    captureTopLeft := ⟨100, top + 30⟩, captureClient := ⟨0, 0, 400, 400 - top - 30⟩,
    captureRect := ⟨100, top, 500, 400⟩, ticks := 5 }

/-- The sample manager with a catalog whose second preset has one pass of the shader
with the two tunable parameters, at their defaults. -/
def pairedManager : CaptureManager :=
  { sampleManager with
    m_presetList := [⟨"tuned", "sample", [gammaShader, gammaShader], [], [⟨"gamma", 11 / 5⟩]⟩,
                     ⟨"soft", "sample", [gammaShader], [], []⟩, samplePassthrough] }

/-- The preset `soft` of `pairedManager`. -/
def softPreset : Preset := { m_shaders := [gammaShader], m_textures := [], Overrides := [] }

/-- Stop the session of `pairedManager`, select preset 1, start a session, select
preset 1 again. -/
def reselected : Option CaptureManager :=
  ((pairedManager.StopSession.selectPreset 1).bind (fun m =>
    m.StartSession sampleStartEnv)).bind (fun r => r.1.selectPreset 1)

/-- The sample window is minimised while its session runs, the pause hotkey starts a
session, and this session processes one frame: the state in which the window is
restored. -/
def minimisedRestarted : Option ShaderWindow :=
  ((sampleWindow.onSize sampleWindowEnv SizeKind.minimized).bind
    (ShaderWindow.onPauseHotkey sampleWindowEnv)).map (fun w =>
      w.setManager (w.m_captureManager.onPipeline (Process (sampleInput 1 800 600))))

/-- A shader that scales its source by the `float` nearest to 0.7. -/
def seventhShader : Shader :=
  { m_scaleX := roundFloat (7 / 10), m_scaleY := roundFloat (7 / 10),
    m_scaleViewportX := false, m_scaleViewportY := false,
    m_scaleAbsoluteX := false, m_scaleAbsoluteY := false, m_alias := "", m_formatFloat := false,
    m_formatSRGB := false, m_params := [], requiresFeedback := false, requiresHistory := 0 }

/-- The sample pipeline with a chain of two passes, the first scaling by 0.7. -/
def seventhState : State :=
  setShaderPasses [newShaderPass seventhShader, newShaderPass halfViewportShader] sampleState

/-- The window-capture sample pipeline after its first frame, of a captured window with
a client area of 400 by 270. -/
def windowRendered : State := Process (windowFrame 100) windowState

/-- The captured window has been enlarged by its top edge to a client area of 400 by 370
and the sample preset has been selected again: the pipeline after the frame that swaps
the preset in. -/
def windowSwapped : State :=
  Process (windowFrame 0) (SetShaderPreset samplePreset [] windowRendered)

/-! ## Theorems -/

/-! ### Strings as keys -/

theorem digitChar_value (d : Nat) (hd : d < 10) : (Nat.digitChar d).toNat - 48 = d := by
  interval_cases d <;> decide

theorem toDigitsCore_value : ∀ (fuel n : Nat) (acc : List Char), n < fuel →
    ∃ ds, Nat.toDigitsCore 10 fuel n acc = ds ++ acc ∧ digitsValue ds = n := by
  intro fuel
  induction fuel with
  | zero => intro n acc h; omega
  | succ fuel ih =>
    intro n acc h
    have hd := digitChar_value (n % 10) (Nat.mod_lt _ (by decide))
    unfold Nat.toDigitsCore
    dsimp only
    split
    · rename_i h0
      refine ⟨[Nat.digitChar (n % 10)], rfl, ?_⟩
      unfold digitsValue
      simp only [List.foldl_cons, List.foldl_nil]
      rw [hd]
      omega
    · rename_i h0
      have hlt : n / 10 < fuel := by omega
      obtain ⟨ds, e, h3⟩ := ih (n / 10) (Nat.digitChar (n % 10) :: acc) hlt
      refine ⟨ds ++ [Nat.digitChar (n % 10)], by rw [e]; simp, ?_⟩
      unfold digitsValue at h3 ⊢
      rw [List.foldl_append, h3]
      simp only [List.foldl_cons, List.foldl_nil]
      rw [hd]
      omega

theorem digitsValue_toDigits (n : Nat) : digitsValue (Nat.toDigits 10 n) = n := by
  obtain ⟨ds, e, h⟩ := toDigitsCore_value (n + 1) n [] (Nat.lt_succ_self n)
  unfold Nat.toDigits
  rw [e, List.append_nil]
  exact h

theorem indexAfter_render (pre : String) (k : Nat) :
    indexAfter pre (String.mk (pre.data ++ Nat.toDigits 10 k)) = some k := by
  unfold indexAfter
  have e : (String.mk (pre.data ++ Nat.toDigits 10 k)).data.drop pre.length =
      Nat.toDigits 10 k := by
    show (pre.data ++ Nat.toDigits 10 k).drop pre.data.length = _
    rw [List.drop_left]
  rw [e, digitsValue_toDigits]
  simp

theorem indexAfter_some (pre s : String) (k : Nat) (h : indexAfter pre s = some k) :
    String.mk (pre.data ++ Nat.toDigits 10 k) = s := by
  unfold indexAfter at h
  split at h
  · rename_i hc
    cases h
    rw [hc]
  · cases h

/-- The key of a string is written as that string: two strings have the same key only
when they are equal. -/
theorem render_ofString (s : String) : (Name.ofString s).render = s := by
  unfold Name.ofString
  split
  · rename_i h
    rw [h]
    rfl
  · split
    · rename_i h
      rw [h]
      rfl
    · split
      · rename_i k hk
        exact indexAfter_some _ _ _ hk
      · split
        · rename_i k hk
          exact indexAfter_some _ _ _ hk
        · split
          · rename_i k hk
            exact indexAfter_some _ _ _ hk
          · rfl

theorem ofString_injective (a b : String) (h : Name.ofString a = Name.ofString b) : a = b := by
  rw [← render_ofString a, ← render_ofString b, h]

theorem ofString_ne (a b : String) (h : a ≠ b) : Name.ofString a ≠ Name.ofString b :=
  fun e => h (ofString_injective a b e)

theorem ofString_ne_original (a : String) (h : a ≠ "Original") :
    Name.ofString a ≠ Name.original :=
  fun e => h (ofString_injective a "Original" (e.trans (by decide)))

theorem ofString_ne_finalViewport (a : String) (h : a ≠ "FinalViewport") :
    Name.ofString a ≠ Name.finalViewport :=
  fun e => h (ofString_injective a "FinalViewport" (e.trans (by decide)))

/-- A string the code builds for a key has that key. -/
theorem ofString_render :
    Name.ofString Name.original.render = Name.original ∧
      Name.ofString Name.finalViewport.render = Name.finalViewport ∧
      (∀ k, Name.ofString (Name.passOutput k).render = Name.passOutput k) ∧
      (∀ k, Name.ofString (Name.passFeedback k).render = Name.passFeedback k) ∧
      (∀ k, Name.ofString (Name.originalHistory k).render = Name.originalHistory k) := by
  have hne : ∀ (a b : List Char), a ≠ b → String.mk a ≠ String.mk b :=
    fun a b h e => h (congrArg String.data e)
  have hnone : ∀ (pre : String) (l : List Char),
      (∀ ds : List Char, pre.data ++ ds ≠ l) → indexAfter pre (String.mk l) = none := by
    intro pre l h
    unfold indexAfter
    rw [if_neg (h _)]
  refine ⟨by decide, by decide, ?_, ?_, ?_⟩
  · intro k
    unfold Name.ofString Name.render
    rw [if_neg (hne _ _ (by simp)), if_neg (hne _ _ (by simp)), indexAfter_render]
  · intro k
    unfold Name.ofString Name.render
    rw [if_neg (hne _ _ (by simp)), if_neg (hne _ _ (by simp)),
      hnone "PassOutput" _ (by intro ds; simp), indexAfter_render]
  · intro k
    unfold Name.ofString Name.render
    have h1 : String.mk ("OriginalHistory".data ++ Nat.toDigits 10 k) ≠ "Original" :=
      hne _ _ (by simp)
    rw [if_neg h1, if_neg (hne _ _ (by simp)),
      hnone "PassOutput" _ (by intro ds; simp),
      hnone "PassFeedback" _ (by intro ds; simp), indexAfter_render]

/-! ### Maps and vectors -/

theorem mapFind_mapInsert_absent {κ ν : Type} [DecidableEq κ] (m : List (κ × ν)) (k : κ) (v : ν)
    (h : mapFind m k = none) : mapFind (mapInsert m k v) k = some v := by
  induction m with
  | nil => simp [mapInsert, mapFind]
  | cons a rest ih =>
    obtain ⟨k1, v1⟩ := a
    by_cases hk : k1 = k
    · simp [mapFind, hk] at h
    · simp only [mapFind, hk, if_false] at h
      simp [mapInsert, mapFind, hk, ih h]

theorem mapInsert_present {κ ν : Type} [DecidableEq κ] (m : List (κ × ν)) (k : κ) (v w : ν)
    (h : mapFind m k = some w) : mapInsert m k v = m := by
  induction m with
  | nil => simp [mapFind] at h
  | cons a rest ih =>
    obtain ⟨k1, v1⟩ := a
    by_cases hk : k1 = k
    · simp [mapInsert, hk]
    · simp only [mapFind, hk, if_false] at h
      simp [mapInsert, hk, ih h]

theorem mapFind_mapInsert_ne {κ ν : Type} [DecidableEq κ] (m : List (κ × ν)) (k k2 : κ) (v : ν)
    (h : k ≠ k2) : mapFind (mapInsert m k v) k2 = mapFind m k2 := by
  induction m with
  | nil => simp [mapInsert, mapFind, h]
  | cons a rest ih =>
    obtain ⟨k1, v1⟩ := a
    by_cases hk : k1 = k
    · simp [mapInsert, hk]
    · by_cases hk2 : k1 = k2
      · subst hk2
        simp [mapInsert, mapFind, hk]
      · simp [mapInsert, mapFind, hk, hk2, ih]

theorem mapFind_mapAssign_self {κ ν : Type} [DecidableEq κ] (m : List (κ × ν)) (k : κ) (v : ν) :
    mapFind (mapAssign m k v) k = some v := by
  induction m with
  | nil => simp [mapAssign, mapFind]
  | cons a rest ih =>
    obtain ⟨k1, v1⟩ := a
    by_cases hk : k1 = k
    · simp [mapAssign, mapFind, hk]
    · simp [mapAssign, mapFind, hk, ih]

theorem mapFind_mapAssign_ne {κ ν : Type} [DecidableEq κ] (m : List (κ × ν)) (k k2 : κ) (v : ν)
    (h : k ≠ k2) : mapFind (mapAssign m k v) k2 = mapFind m k2 := by
  induction m with
  | nil => simp [mapAssign, mapFind, h]
  | cons a rest ih =>
    obtain ⟨k1, v1⟩ := a
    by_cases hk : k1 = k
    · subst hk
      simp [mapAssign, mapFind, h]
    · by_cases hk2 : k1 = k2
      · subst hk2
        simp [mapAssign, mapFind, hk]
      · simp [mapAssign, mapFind, hk, hk2, ih]

theorem modifyAt_length {α : Type} (f : α → α) (i : Nat) (l : List α) :
    (modifyAt f i l).length = l.length := by
  induction l generalizing i with
  | nil => cases i <;> simp [modifyAt]
  | cons a rest ih => cases i <;> simp [modifyAt, ih]

theorem modifyAt_getElem? {α : Type} (f : α → α) (i j : Nat) (l : List α) :
    (modifyAt f i l)[j]? = if j = i then (l[j]?).map f else l[j]? := by
  induction l generalizing i j with
  | nil => cases i <;> simp [modifyAt]
  | cons a rest ih =>
    cases i with
    | zero => cases j <;> simp [modifyAt]
    | succ i => cases j <;> simp [modifyAt, ih]

/-! ### Preprocess transform -/

/-- C9. In desktop clone mode with no flip, for every captured size and positive
destination size, the preprocess transform has scale `(cw/dw, ch/dh)` and translation
`(cw/dw - 1, -ch/dh + 1)` plus `0.0001` on each translation component; the destination
size of an 800 by 600 viewport at output scale 1 is 800 by 600. -/
theorem desktop_clone_transform (s : State) (g : Geometry) (dw dh : Int)
    (hwin : s.m_captureWindow = false) (himg : s.m_image = false) (hclone : s.m_clone = true)
    (hfh : s.m_flipHorizontal = false) (hfv : s.m_flipVertical = false)
    (_hdw : 0 < dw) (_hdh : 0 < dh) :
    preprocessTransform s g dw dh =
        ⟨(g.capturedWidth : ℚ) / dw, (g.capturedHeight : ℚ) / dh,
         (g.capturedWidth : ℚ) / dw - 1 + 1 / 10000,
         -(g.capturedHeight : ℚ) / dh + 1 + 1 / 10000⟩ ∧
      destSize 800 1 = 800 ∧ destSize 600 1 = 600 := by
  refine ⟨?_, ?_, ?_⟩
  · simp [preprocessTransform, hwin, himg, hclone, hfh, hfv]
  · decide!
  · decide!

/-- C9, instance: a 1920 by 1080 desktop cloned into an 800 by 600 viewport at output
scale 1 without flip. -/
theorem desktop_clone_transform_witness :
    (0 : Int) < 800 ∧ (0 : Int) < 600 ∧
      preprocessTransform sampleState sampleGeometry
          (destSize 800 sampleState.m_outputScaleW) (destSize 600 sampleState.m_outputScaleH) =
        ⟨1920 / 800, 1080 / 600, 1920 / 800 - 1 + 1 / 10000, -1080 / 600 + 1 + 1 / 10000⟩ := by
  have h := desktop_clone_transform sampleState sampleGeometry 800 600 rfl rfl rfl rfl rfl
    (by decide) (by decide)
  have hw : destSize 800 sampleState.m_outputScaleW = 800 := h.2.1
  have hh : destSize 600 sampleState.m_outputScaleH = 600 := h.2.2
  refine ⟨by decide, by decide, ?_⟩
  rw [hw, hh, h.1]
  simp [sampleGeometry]

/-- C10, counterexample. For a 1920 by 1080 desktop cloned into 800 by 600 the transform
with both flips is not the no-flip transform with scale and translation negated: the
horizontal translation is `-1.3999` with both flips and `1.4001` without. -/
theorem flip_both_not_negation :
    preprocessTransform { sampleState with m_flipHorizontal := true, m_flipVertical := true }
        sampleGeometry 800 600 ≠
      ⟨-(preprocessTransform sampleState sampleGeometry 800 600).sx,
       -(preprocessTransform sampleState sampleGeometry 800 600).sy,
       -(preprocessTransform sampleState sampleGeometry 800 600).tx,
       -(preprocessTransform sampleState sampleGeometry 800 600).ty⟩ := by
  decide!

/-- C10, amended. For every input, the transform with both flips has both scale
components of the no-flip transform negated, and each translation component is the
negated no-flip one taken before the offset `0.0001` is added, that is the negated
no-flip component plus `2 * 0.0001`. -/
theorem flip_both_negates_before_offset (s : State) (g : Geometry) (dw dh : Int) :
    let flipped := preprocessTransform
      { s with m_flipHorizontal := true, m_flipVertical := true } g dw dh
    let plain := preprocessTransform
      { s with m_flipHorizontal := false, m_flipVertical := false } g dw dh
    flipped.sx = -plain.sx ∧ flipped.sy = -plain.sy ∧
      flipped.tx = -plain.tx + 2 / 10000 ∧ flipped.ty = -plain.ty + 2 / 10000 ∧
      flipped.tx - 1 / 10000 = -(plain.tx - 1 / 10000) ∧
      flipped.ty - 1 / 10000 = -(plain.ty - 1 / 10000) := by
  simp only [preprocessTransform]
  refine ⟨?_, ?_, ?_, ?_, ?_, ?_⟩ <;> (simp only [if_true, Bool.false_eq_true, if_false]; ring)

/-- The loop state after the first `k` iterations. -/
theorem resolve_loop_succ (passes : List ShaderPass) (vw vh : Nat) (init : ResizeLoop) (k : Nat) :
    (List.range (k + 1)).foldl (passSizeStep passes vw vh) init =
      passSizeStep passes vw vh ((List.range k).foldl (passSizeStep passes vw vh) init) k := by
  simp [List.range_succ, List.foldl_append]

theorem passSizeStep_last (passes : List ShaderPass) (vw vh : Nat) (st : ResizeLoop) (p : Nat)
    (hp : p + 1 = passes.length) :
    passSizeStep passes vw vh st p =
      { st with passSizes := st.passSizes ++ [⟨st.sourceWidth, st.sourceHeight, vw, vh⟩] } := by
  have hlt : p < passes.length := by omega
  have hlast : p = passes.length - 1 := by omega
  simp only [passSizeStep, List.getElem?_eq_getElem hlt]
  rw [if_pos hlast]

theorem passSizeStep_inner (passes : List ShaderPass) (vw vh : Nat) (st : ResizeLoop) (p : Nat)
    (pass : ShaderPass) (hpass : passes[p]? = some pass) (hp : p + 1 < passes.length) :
    (passSizeStep passes vw vh st p).passSizes = st.passSizes ++
        [⟨st.sourceWidth, st.sourceHeight,
          (passSizeStep passes vw vh st p).sourceWidth,
          (passSizeStep passes vw vh st p).sourceHeight⟩] ∧
      (passSizeStep passes vw vh st p).sourceWidth =
        (if pass.m_shader.m_scaleViewportX then
            castUINT (floatMul (floatOfUINT vw) pass.m_shader.m_scaleX)
         else if pass.m_shader.m_scaleAbsoluteX then castUINT pass.m_shader.m_scaleX
         else castUINT (floatMul (floatOfUINT st.sourceWidth) pass.m_shader.m_scaleX)) ∧
      (passSizeStep passes vw vh st p).sourceHeight =
        (if pass.m_shader.m_scaleViewportY then
            castUINT (floatMul (floatOfUINT vh) pass.m_shader.m_scaleY)
         else if pass.m_shader.m_scaleAbsoluteY then castUINT pass.m_shader.m_scaleY
         else castUINT (floatMul (floatOfUINT st.sourceHeight) pass.m_shader.m_scaleY)) := by
  have hne : ¬ p = passes.length - 1 := by omega
  simp only [passSizeStep, hpass]
  rw [if_neg hne]
  exact ⟨rfl, rfl, rfl⟩

theorem truncToInt_nonneg (q : ℚ) (h : 0 ≤ q) : truncToInt q = ⌊q⌋ := by
  have hnum : 0 ≤ q.num := Rat.num_nonneg.mpr h
  unfold truncToInt
  rw [Int.tdiv_eq_ediv hnum (by positivity), Rat.floor_def]

theorem truncToInt_neg (q : ℚ) : truncToInt (-q) = -truncToInt q := by
  unfold truncToInt
  simp [Int.neg_tdiv]

theorem truncToInt_of_neg (q : ℚ) (h : q < 0) : truncToInt q = ⌈q⌉ := by
  have h1 : truncToInt q = -truncToInt (-q) := by rw [truncToInt_neg]; simp
  rw [h1, truncToInt_nonneg (-q) (by linarith), Int.floor_neg]
  simp

theorem castUINT_eq_floor (q : ℚ) (h0 : 0 ≤ q) (h1 : q < 4294967296) : castUINT q = ⌊q⌋₊ := by
  unfold castUINT
  rw [truncToInt_nonneg q h0]
  have hf0 : 0 ≤ ⌊q⌋ := Int.floor_nonneg.mpr h0
  have hf1 : ⌊q⌋ < 4294967296 := by
    have : (⌊q⌋ : ℚ) ≤ q := Int.floor_le q
    have h2 : (⌊q⌋ : ℚ) < 4294967296 := lt_of_le_of_lt this h1
    exact_mod_cast h2
  rw [Int.emod_eq_of_lt hf0 hf1]
  rfl

theorem castUINT_half (n : Nat) (h : n < 4294967296) : castUINT ((n : ℚ) * (1 / 2)) = n / 2 := by
  have h0 : (0 : ℚ) ≤ (n : ℚ) * (1 / 2) := by positivity
  have h1 : (n : ℚ) * (1 / 2) < 4294967296 := by
    have : (n : ℚ) < 4294967296 := by exact_mod_cast h
    linarith
  rw [castUINT_eq_floor _ h0 h1]
  have : (n : ℚ) * (1 / 2) = (n : ℚ) / ((2 : ℕ) : ℚ) := by push_cast; ring
  rw [this, Nat.floor_div_eq_div]

theorem castUINT_small_neg (q : ℚ) (h0 : -1 < q) (h1 : q < 0) : castUINT q = 0 := by
  unfold castUINT
  rw [truncToInt_of_neg q h1]
  have : ⌈q⌉ = 0 := by
    rw [Int.ceil_eq_iff]
    constructor
    · simpa using h0
    · simpa using h1.le
  rw [this]; rfl

theorem bitLength_spec : ∀ fuel n : Nat, n ≤ fuel → 0 < n →
    2 ^ (bitLength fuel n - 1) ≤ n ∧ n < 2 ^ bitLength fuel n ∧ 0 < bitLength fuel n := by
  intro fuel
  induction fuel with
  | zero => intro n h h0; omega
  | succ fuel ih =>
    intro n h h0
    have hn : n ≠ 0 := by omega
    simp only [bitLength, if_neg hn]
    by_cases h2 : n / 2 = 0
    · have h1 : n = 1 := by omega
      subst h1
      cases fuel <;> simp [bitLength]
    · obtain ⟨a, b, c⟩ := ih (n / 2) (by omega) (by omega)
      refine ⟨?_, ?_, by omega⟩
      · have e : bitLength fuel (n / 2) + 1 - 1 = (bitLength fuel (n / 2) - 1) + 1 := by omega
        rw [e, pow_succ]
        omega
      · rw [pow_succ]
        omega

theorem pow2_eq_zpow (e : Int) : pow2 e = (2 : ℚ) ^ e := by
  unfold pow2
  split
  · rename_i h
    obtain ⟨n, rfl⟩ := Int.eq_ofNat_of_zero_le h
    simp
  · rename_i h
    have h' : 0 ≤ -e := by omega
    obtain ⟨n, hn⟩ := Int.eq_ofNat_of_zero_le h'
    have he : e = -(n : Int) := by omega
    rw [hn, he]
    simp

theorem binaryExponent_spec (x : ℚ) (hx : x ≠ 0) :
    (2 : ℚ) ^ binaryExponent x ≤ |x| ∧ |x| < (2 : ℚ) ^ (binaryExponent x + 1) := by
  have hp : 0 < x.num.natAbs := Int.natAbs_pos.mpr (Rat.num_ne_zero.mpr hx)
  have hq : 0 < x.den := x.den_pos
  obtain ⟨p1, p2, p3⟩ := bitLength_spec x.num.natAbs x.num.natAbs (le_refl _) hp
  obtain ⟨q1, q2, q3⟩ := bitLength_spec x.den x.den (le_refl _) hq
  have habs : |x| = (x.num.natAbs : ℚ) / (x.den : ℚ) := by
    conv_lhs => rw [← Rat.num_div_den x]
    rw [abs_div, Nat.abs_cast]
    congr 1
    rw [← Int.cast_abs, Int.abs_eq_natAbs, Int.cast_natCast]
  have hqpos : (0 : ℚ) < x.den := by exact_mod_cast hq
  unfold binaryExponent
  dsimp only
  rw [pow2_eq_zpow]
  generalize hbp : bitLength x.num.natAbs x.num.natAbs = bp at p1 p2 p3
  generalize hbq : bitLength x.den x.den = bq at q1 q2 q3
  have two : (0 : ℚ) < 2 := by norm_num
  have p1' : (2 : ℚ) ^ ((bp : Int) - 1) ≤ (x.num.natAbs : ℚ) := by
    have : ((bp : Int) - 1) = ((bp - 1 : Nat) : Int) := by omega
    rw [this, zpow_natCast]
    exact_mod_cast p1
  have p2' : (x.num.natAbs : ℚ) < (2 : ℚ) ^ (bp : Int) := by
    rw [zpow_natCast]
    exact_mod_cast p2
  have q1' : (2 : ℚ) ^ ((bq : Int) - 1) ≤ (x.den : ℚ) := by
    have : ((bq : Int) - 1) = ((bq - 1 : Nat) : Int) := by omega
    rw [this, zpow_natCast]
    exact_mod_cast q1
  have q2' : (x.den : ℚ) < (2 : ℚ) ^ (bq : Int) := by
    rw [zpow_natCast]
    exact_mod_cast q2
  -- the two outer bounds
  have lower : (2 : ℚ) ^ ((bp : Int) - bq - 1) ≤ |x| := by
    rw [habs, le_div_iff₀ hqpos]
    have e : (2 : ℚ) ^ ((bp : Int) - bq - 1) = (2 : ℚ) ^ ((bp : Int) - 1) / (2 : ℚ) ^ (bq : Int) := by
      rw [← zpow_sub₀ (by norm_num : (2 : ℚ) ≠ 0)]
      congr 1
      omega
    rw [e, div_mul_eq_mul_div, div_le_iff₀ (zpow_pos two _)]
    have h0 : (0 : ℚ) ≤ (2 : ℚ) ^ ((bp : Int) - 1) := le_of_lt (zpow_pos two _)
    calc (2 : ℚ) ^ ((bp : Int) - 1) * x.den ≤ (2 : ℚ) ^ ((bp : Int) - 1) * (2 : ℚ) ^ (bq : Int) :=
          mul_le_mul_of_nonneg_left (le_of_lt q2') h0
      _ ≤ (x.num.natAbs : ℚ) * (2 : ℚ) ^ (bq : Int) :=
          mul_le_mul_of_nonneg_right p1' (le_of_lt (zpow_pos two _))
  have upper : |x| < (2 : ℚ) ^ ((bp : Int) - bq + 1) := by
    rw [habs, div_lt_iff₀ hqpos]
    have e : (2 : ℚ) ^ ((bp : Int) - bq + 1) = (2 : ℚ) ^ (bp : Int) / (2 : ℚ) ^ ((bq : Int) - 1) := by
      rw [← zpow_sub₀ (by norm_num : (2 : ℚ) ≠ 0)]
      congr 1
      omega
    rw [e, div_mul_eq_mul_div, lt_div_iff₀ (zpow_pos two _)]
    calc (x.num.natAbs : ℚ) * (2 : ℚ) ^ ((bq : Int) - 1)
        < (2 : ℚ) ^ (bp : Int) * (2 : ℚ) ^ ((bq : Int) - 1) :=
          mul_lt_mul_of_pos_right p2' (zpow_pos two _)
      _ ≤ (2 : ℚ) ^ (bp : Int) * x.den :=
          mul_le_mul_of_nonneg_left q1' (le_of_lt (zpow_pos two _))
  split
  · rename_i h
    refine ⟨lower, ?_⟩
    have : (bp : Int) - bq - 1 + 1 = (bp : Int) - bq := by omega
    rw [this]
    exact h
  · rename_i h
    exact ⟨not_lt.mp h, upper⟩

theorem roundEven_intCast (k : Int) : roundEven (k : ℚ) = k := by
  unfold roundEven
  rw [Int.floor_intCast]
  simp

/-- A value with at most 24 significant binary digits above the least exponent is a
`float`: rounding leaves it as it is. -/
theorem roundFloat_exact (x : ℚ) (k j : Int) (hx : x = k * (2 : ℚ) ^ j)
    (hlt : |x| < (2 : ℚ) ^ (j + 24)) (hj : -149 ≤ j) : roundFloat x = x := by
  unfold roundFloat
  split
  · rename_i h0
    exact h0.symm
  · rename_i h0
    dsimp only
    obtain ⟨lo, -⟩ := binaryExponent_spec x h0
    have hlt2 : (2 : ℚ) ^ binaryExponent x < (2 : ℚ) ^ (j + 24) := lt_of_le_of_lt lo hlt
    have he : binaryExponent x < j + 24 :=
      (zpow_lt_zpow_iff_right₀ (by norm_num : (1 : ℚ) < 2)).mp hlt2
    have hE : max (binaryExponent x) (-126) - 23 ≤ j := by
      rcases max_cases (binaryExponent x) (-126) with ⟨h, -⟩ | ⟨h, -⟩ <;> rw [h] <;> omega
    generalize max (binaryExponent x) (-126) - 23 = E at hE
    rw [pow2_eq_zpow]
    obtain ⟨d, hd⟩ := Int.eq_ofNat_of_zero_le (sub_nonneg.mpr hE)
    have hq : x / (2 : ℚ) ^ E = ((k * 2 ^ d : Int) : ℚ) := by
      rw [hx, mul_div_assoc, ← zpow_sub₀ (by norm_num : (2 : ℚ) ≠ 0), hd]
      push_cast
      rw [zpow_natCast]
    rw [hq, roundEven_intCast, ← hq]
    exact div_mul_cancel₀ _ (zpow_ne_zero _ (by norm_num))

theorem floatOfUINT_small (n : Nat) (h : n < 16777216) : floatOfUINT n = n := by
  unfold floatOfUINT
  apply roundFloat_exact (n : ℚ) (n : Int) 0
  · simp
  · rw [Nat.abs_cast]
    have : ((n : ℚ)) < 16777216 := by exact_mod_cast h
    norm_num
    exact h
  · norm_num

theorem floatMul_half (n : Nat) (h : n < 16777216) :
    floatMul (n : ℚ) (1 / 2) = (n : ℚ) * (1 / 2) := by
  unfold floatMul
  apply roundFloat_exact _ (n : Int) (-1)
  · simp
  · have h1 : ((n : ℚ)) < 16777216 := by exact_mod_cast h
    have h0 : (0 : ℚ) ≤ (n : ℚ) * (1 / 2) := by positivity
    rw [abs_of_nonneg h0]
    norm_num
    linarith
  · norm_num

theorem scaled_half (n : Nat) (h : n < 16777216) :
    castUINT (floatMul (floatOfUINT n) (1 / 2)) = n / 2 := by
  rw [floatOfUINT_small n h, floatMul_half n h]
  exact castUINT_half n (by omega)

theorem sourceOf_append (ow oh : Nat) (sizes : List PassSize) (e : PassSize) (j : Nat)
    (hj : j ≤ sizes.length) : sourceOf ow oh (sizes ++ [e]) j = sourceOf ow oh sizes j := by
  cases j with
  | zero => rfl
  | succ i =>
    have hi : i < sizes.length := by omega
    simp [sourceOf, List.getElem?_append_left hi]

theorem resolve_invariant (passes : List ShaderPass) (vw vh ow oh : Nat)
    (ts : List (Name × float4)) (k : Nat) (hk : k ≤ passes.length) :
    let st := (List.range k).foldl (passSizeStep passes vw vh) ⟨ow, oh, [], ts⟩
    st.passSizes.length = k ∧
    (k < passes.length → (st.sourceWidth, st.sourceHeight) = sourceOf ow oh st.passSizes k) ∧
    ∀ j z pass, st.passSizes[j]? = some z → passes[j]? = some pass →
      (z.sourceWidth, z.sourceHeight) = sourceOf ow oh st.passSizes j ∧
      (j + 1 < passes.length →
        z.destWidth =
          (if pass.m_shader.m_scaleViewportX then
              castUINT (floatMul (floatOfUINT vw) pass.m_shader.m_scaleX)
           else if pass.m_shader.m_scaleAbsoluteX then castUINT pass.m_shader.m_scaleX
           else castUINT (floatMul (floatOfUINT z.sourceWidth) pass.m_shader.m_scaleX)) ∧
        z.destHeight =
          (if pass.m_shader.m_scaleViewportY then
              castUINT (floatMul (floatOfUINT vh) pass.m_shader.m_scaleY)
           else if pass.m_shader.m_scaleAbsoluteY then castUINT pass.m_shader.m_scaleY
           else castUINT (floatMul (floatOfUINT z.sourceHeight) pass.m_shader.m_scaleY))) ∧
      (j + 1 = passes.length → z.destWidth = vw ∧ z.destHeight = vh) := by
  induction k with
  | zero =>
    refine ⟨rfl, fun _ => rfl, ?_⟩
    intro j z pass hz
    simp at hz
  | succ k ih =>
    have ih := ih (by omega)
    simp only [resolve_loop_succ]
    generalize (List.range k).foldl (passSizeStep passes vw vh) ⟨ow, oh, [], ts⟩ = st at ih ⊢
    obtain ⟨hlen, hsrc, hent⟩ := ih
    have hklt : k < passes.length := by omega
    have hsrc := hsrc hklt
    have hsw : st.sourceWidth = (sourceOf ow oh st.passSizes k).1 := by rw [← hsrc]
    have hsh : st.sourceHeight = (sourceOf ow oh st.passSizes k).2 := by rw [← hsrc]
    obtain ⟨pass0, hpass0⟩ : ∃ q, passes[k]? = some q :=
      ⟨passes[k], List.getElem?_eq_getElem hklt⟩
    by_cases hlast : k + 1 = passes.length
    · -- the final iteration
      rw [passSizeStep_last passes vw vh st k hlast]
      refine ⟨by simp [hlen], fun h => absurd h (by omega), ?_⟩
      intro j z pass hz hp
      have hjle : j ≤ st.passSizes.length := by
        have := (List.getElem?_eq_some_iff.mp hz).1
        simp at this; omega
      rw [sourceOf_append ow oh _ _ j hjle]
      by_cases hj : j < k
      · have hz2 : st.passSizes[j]? = some z := by
          rw [← hz]; simp only []
          rw [List.getElem?_append_left (by omega)]
        exact hent j z pass hz2 hp
      · have hjk : j = k := by omega
        subst hjk
        have hz2 : z = ⟨st.sourceWidth, st.sourceHeight, vw, vh⟩ := by
          simp only [] at hz
          rw [List.getElem?_append_right (by omega)] at hz
          simp [hlen] at hz
          exact hz.symm
        subst hz2
        refine ⟨?_, fun h => absurd h (by omega), fun _ => ⟨rfl, rfl⟩⟩
        rw [hsrc]
    · have hinner : k + 1 < passes.length := by omega
      obtain ⟨hsizes, hw, hh⟩ := passSizeStep_inner passes vw vh st k pass0 hpass0 hinner
      generalize passSizeStep passes vw vh st k = st2 at hsizes hw hh ⊢
      refine ⟨by simp [hsizes, hlen], ?_, ?_⟩
      · intro _
        rw [hsizes]
        simp [sourceOf, hlen]
      · intro j z pass hz hp
        rw [hsizes] at hz ⊢
        have hjle : j ≤ st.passSizes.length := by
          have := (List.getElem?_eq_some_iff.mp hz).1
          simp at this; omega
        rw [sourceOf_append ow oh _ _ j hjle]
        by_cases hj : j < k
        · have hz2 : st.passSizes[j]? = some z := by
            rw [← hz, List.getElem?_append_left (by omega)]
          exact hent j z pass hz2 hp
        · have hjk : j = k := by omega
          subst hjk
          have hz2 : z = ⟨st.sourceWidth, st.sourceHeight, st2.sourceWidth, st2.sourceHeight⟩ := by
            rw [List.getElem?_append_right (by omega)] at hz
            simp [hlen] at hz
            exact hz.symm
          have hpp : pass = pass0 := by
            rw [hpass0] at hp; exact (Option.some.inj hp).symm
          subst hz2; subst hpp
          refine ⟨?_, fun _ => ⟨hw, hh⟩, fun h => absurd h (by omega)⟩
          rw [hsrc]

theorem resize_loop_succ (sizes : List PassSize) (passes : List ShaderPass) (k : Nat) :
    (List.range (k + 1)).foldl (resizeStep sizes) passes =
      resizeStep sizes ((List.range k).foldl (resizeStep sizes) passes) k := by
  simp [List.range_succ, List.foldl_append]

theorem resizeStep_length (sizes : List PassSize) (passes : List ShaderPass) (p : Nat) :
    (resizeStep sizes passes p).length = passes.length := by
  unfold resizeStep
  cases sizes[p]? <;> simp [modifyAt_length]

theorem resize_loop_spec (sizes : List PassSize) (passes : List ShaderPass) (k : Nat) :
    ((List.range k).foldl (resizeStep sizes) passes).length = passes.length ∧
    ∀ j, ((List.range k).foldl (resizeStep sizes) passes)[j]? =
      if j < k then
        match sizes[j]? with
        | some z => (passes[j]?).map
            (fun pass => pass.Resize z.sourceWidth z.sourceHeight z.destWidth z.destHeight)
        | none => passes[j]?
      else passes[j]? := by
  induction k with
  | zero => simp
  | succ k ih =>
    rw [resize_loop_succ]
    obtain ⟨hlen, hget⟩ := ih
    generalize (List.range k).foldl (resizeStep sizes) passes = ps at hlen hget ⊢
    refine ⟨by rw [resizeStep_length, hlen], ?_⟩
    intro j
    unfold resizeStep
    cases hz : sizes[k]? with
    | none =>
      simp only []
      rw [hget j]
      by_cases hj : j < k
      · simp [hj, Nat.lt_succ_of_lt hj]
      · by_cases hjk : j = k
        · subst hjk; simp [hz]
        · simp [hj, show ¬ j < k + 1 by omega]
    | some z =>
      simp only []
      rw [modifyAt_getElem?, hget j]
      by_cases hjk : j = k
      · subst hjk; simp [hz]
      · by_cases hj : j < k
        · simp [hjk, hj, Nat.lt_succ_of_lt hj]
        · simp [hjk, hj, show ¬ j < k + 1 by omega]

theorem resizePasses_passes (texture : CapturedTexture) (ow oh vw vh : Nat) (s : State) (j : Nat)
    (pass : ShaderPass) (z : PassSize) (hp : s.m_shaderPasses[j]? = some pass)
    (hz : (resolvePassSizes s.m_shaderPasses vw vh ow oh
      (mapInsert (mapInsert [] Name.original (sizeEntry ow oh))
        Name.finalViewport (sizeEntry vw vh))).passSizes[j]? = some z) :
    (resizePasses texture ow oh vw vh s).m_shaderPasses[j]? =
      some (pass.Resize z.sourceWidth z.sourceHeight z.destWidth z.destHeight) := by
  have hj : j < s.m_shaderPasses.length := (List.getElem?_eq_some_iff.mp hp).1
  unfold resizePasses
  dsimp only
  rw [(resize_loop_spec _ _ _).2 j, if_pos hj, hz, hp]
  rfl

theorem resizePasses_length (texture : CapturedTexture) (ow oh vw vh : Nat) (s : State) :
    (resizePasses texture ow oh vw vh s).m_shaderPasses.length = s.m_shaderPasses.length := by
  unfold resizePasses
  dsimp only
  exact (resize_loop_spec _ _ _).1

/-- C1. For every non-empty pass chain, whatever scaling flags and factors the last pass
declares, the pass-size loop resolves the destination size of the last pass to
`(viewportWidth, viewportHeight)`, and `Resize` records that size in the last pass. -/
theorem last_pass_resolves_to_viewport (texture : CapturedTexture)
    (originalWidth originalHeight viewportWidth viewportHeight : Nat) (s : State)
    (hn : 1 ≤ s.m_shaderPasses.length) :
    ((resolvePassSizes s.m_shaderPasses viewportWidth viewportHeight originalWidth originalHeight
        (initialSizes originalWidth originalHeight viewportWidth viewportHeight)).passSizes[
          s.m_shaderPasses.length - 1]?).map (fun z => (z.destWidth, z.destHeight)) =
        some (viewportWidth, viewportHeight) ∧
      ((resizePasses texture originalWidth originalHeight viewportWidth viewportHeight
          s).m_shaderPasses[s.m_shaderPasses.length - 1]?).map
          (fun pass => (pass.m_destWidth, pass.m_destHeight)) =
        some (viewportWidth, viewportHeight) := by
  obtain ⟨hlen, -, hent⟩ := resolve_invariant s.m_shaderPasses viewportWidth viewportHeight
    originalWidth originalHeight
    (initialSizes originalWidth originalHeight viewportWidth viewportHeight)
    s.m_shaderPasses.length (le_refl _)
  have hlt : s.m_shaderPasses.length - 1 < s.m_shaderPasses.length := by omega
  obtain ⟨pass, hpass⟩ : ∃ q, s.m_shaderPasses[s.m_shaderPasses.length - 1]? = some q :=
    ⟨_, List.getElem?_eq_getElem hlt⟩
  obtain ⟨z, hz⟩ : ∃ z, (resolvePassSizes s.m_shaderPasses viewportWidth viewportHeight
      originalWidth originalHeight
      (initialSizes originalWidth originalHeight viewportWidth viewportHeight)).passSizes[
        s.m_shaderPasses.length - 1]? = some z :=
    ⟨_, List.getElem?_eq_getElem (by unfold resolvePassSizes; omega)⟩
  have hdest := (hent _ z pass hz hpass).2.2 (by omega)
  refine ⟨by rw [hz]; simp [hdest.1, hdest.2], ?_⟩
  rw [resizePasses_passes texture _ _ _ _ s _ pass z hpass hz]
  simp [ShaderPass.Resize, hdest.1, hdest.2]

/-- C1, instance: the three-pass sample chain with an 800 by 600 viewport. -/
theorem last_pass_resolves_to_viewport_witness :
    1 ≤ sampleSwapped.m_shaderPasses.length ∧
      ((resizePasses (sampleTexture 1) 266 200 800 600 sampleSwapped).m_shaderPasses[
          sampleSwapped.m_shaderPasses.length - 1]?).map
          (fun pass => (pass.m_destWidth, pass.m_destHeight)) = some (800, 600) :=
  ⟨by decide!, (last_pass_resolves_to_viewport (sampleTexture 1) 266 200 800 600 sampleSwapped
    (by decide!)).2⟩

/-- C2. For every non-final pass `p`, the resolved output width is the truncation of
`viewportWidth * scaleX` when the pass is viewport-relative in X, of `scaleX` when it is
absolute in X, and of `sourceWidth * scaleX` otherwise, where the source size is the
logical input size for `p = 0` and the resolved output size of pass `p - 1` otherwise;
likewise for the height; `Resize` records these sizes in the pass.  The product is the
`float` product of the size converted to `float` and the scale.  The conversion of the
product truncates toward zero: it is the floor on non-negative values below `2^32` and
`0` on values between `-1` and `0`.  A viewport-relative pass of scale `1/2` resolves to
`viewportWidth / 2` by `viewportHeight / 2` (integer division) whatever its source
size, for a viewport below `2^24`, the sizes a `float` holds exactly. -/
theorem non_final_pass_size (texture : CapturedTexture)
    (originalWidth originalHeight viewportWidth viewportHeight : Nat) (s : State) (p : Nat)
    (hp : p + 1 < s.m_shaderPasses.length) :
    (∃ z pass,
      (resolvePassSizes s.m_shaderPasses viewportWidth viewportHeight originalWidth
        originalHeight (initialSizes originalWidth originalHeight viewportWidth
          viewportHeight)).passSizes[p]? = some z ∧
      s.m_shaderPasses[p]? = some pass ∧
      (resizePasses texture originalWidth originalHeight viewportWidth viewportHeight
          s).m_shaderPasses[p]? =
        some (pass.Resize z.sourceWidth z.sourceHeight z.destWidth z.destHeight) ∧
      (z.sourceWidth, z.sourceHeight) =
        sourceOf originalWidth originalHeight
          (resolvePassSizes s.m_shaderPasses viewportWidth viewportHeight originalWidth
            originalHeight (initialSizes originalWidth originalHeight viewportWidth
              viewportHeight)).passSizes p ∧
      z.destWidth =
        (if pass.m_shader.m_scaleViewportX then
            castUINT (floatMul (floatOfUINT viewportWidth) pass.m_shader.m_scaleX)
         else if pass.m_shader.m_scaleAbsoluteX then castUINT pass.m_shader.m_scaleX
         else castUINT (floatMul (floatOfUINT z.sourceWidth) pass.m_shader.m_scaleX)) ∧
      z.destHeight =
        (if pass.m_shader.m_scaleViewportY then
            castUINT (floatMul (floatOfUINT viewportHeight) pass.m_shader.m_scaleY)
         else if pass.m_shader.m_scaleAbsoluteY then castUINT pass.m_shader.m_scaleY
         else castUINT (floatMul (floatOfUINT z.sourceHeight) pass.m_shader.m_scaleY)) ∧
      (pass.m_shader.m_scaleViewportX = true → pass.m_shader.m_scaleX = 1 / 2 →
        viewportWidth < 16777216 → z.destWidth = viewportWidth / 2) ∧
      (pass.m_shader.m_scaleViewportY = true → pass.m_shader.m_scaleY = 1 / 2 →
        viewportHeight < 16777216 → z.destHeight = viewportHeight / 2)) ∧
    (∀ q : ℚ, 0 ≤ q → q < 4294967296 → castUINT q = ⌊q⌋₊) ∧
    (∀ q : ℚ, -1 < q → q < 0 → castUINT q = 0) := by
  refine ⟨?_, castUINT_eq_floor, castUINT_small_neg⟩
  obtain ⟨hlen, -, hent⟩ := resolve_invariant s.m_shaderPasses viewportWidth viewportHeight
    originalWidth originalHeight
    (initialSizes originalWidth originalHeight viewportWidth viewportHeight)
    s.m_shaderPasses.length (le_refl _)
  have hlt : p < s.m_shaderPasses.length := by omega
  obtain ⟨pass, hpass⟩ : ∃ q, s.m_shaderPasses[p]? = some q :=
    ⟨_, List.getElem?_eq_getElem hlt⟩
  obtain ⟨z, hz⟩ : ∃ z, (resolvePassSizes s.m_shaderPasses viewportWidth viewportHeight
      originalWidth originalHeight
      (initialSizes originalWidth originalHeight viewportWidth viewportHeight)).passSizes[p]? =
        some z :=
    ⟨_, List.getElem?_eq_getElem (by unfold resolvePassSizes; omega)⟩
  obtain ⟨hsrc, hinner, -⟩ := hent p z pass hz hpass
  obtain ⟨hw, hh⟩ := hinner hp
  refine ⟨z, pass, hz, hpass, resizePasses_passes texture _ _ _ _ s p pass z hpass hz, hsrc,
    hw, hh, ?_, ?_⟩
  · intro hv hs hlim
    rw [hw, if_pos hv, hs]
    exact scaled_half viewportWidth hlim
  · intro hv hs hlim
    rw [hh, if_pos hv, hs]
    exact scaled_half viewportHeight hlim

/-- C2, instance: pass 1 of the three-pass sample chain is viewport-relative with scale
`1/2`; with an 800 by 600 viewport, the theorem applies to it.  Pass 0 of the chain
`seventhState` scales its source by the `float` nearest to 0.7: from a source of 1000 by
500 it resolves to 700 by 350, the truncation of the `float` products 700.0 and 350.0,
where the products of real numbers truncate to 699 and 349. -/
theorem non_final_pass_size_witness :
    1 + 1 < sampleSwapped.m_shaderPasses.length ∧
      (resolvePassSizes seventhState.m_shaderPasses 800 600 1000 500
        (initialSizes 1000 500 800 600)).passSizes[0]? = some ⟨1000, 500, 700, 350⟩ ∧
      castUINT ((1000 : ℚ) * roundFloat (7 / 10)) = 699 ∧
      castUINT ((500 : ℚ) * roundFloat (7 / 10)) = 349 ∧
      (∃ z pass,
        (resolvePassSizes sampleSwapped.m_shaderPasses 800 600 266 200
          (initialSizes 266 200 800 600)).passSizes[1]? = some z ∧
        sampleSwapped.m_shaderPasses[1]? = some pass ∧
        (resizePasses (sampleTexture 1) 266 200 800 600 sampleSwapped).m_shaderPasses[1]? =
          some (pass.Resize z.sourceWidth z.sourceHeight z.destWidth z.destHeight) ∧
        (z.sourceWidth, z.sourceHeight) =
          sourceOf 266 200
            (resolvePassSizes sampleSwapped.m_shaderPasses 800 600 266 200
              (initialSizes 266 200 800 600)).passSizes 1 ∧
        z.destWidth =
          (if pass.m_shader.m_scaleViewportX then
            castUINT (floatMul (floatOfUINT (800 : ℕ)) pass.m_shader.m_scaleX)
           else if pass.m_shader.m_scaleAbsoluteX then castUINT pass.m_shader.m_scaleX
           else castUINT (floatMul (floatOfUINT z.sourceWidth) pass.m_shader.m_scaleX)) ∧
        z.destHeight =
          (if pass.m_shader.m_scaleViewportY then
            castUINT (floatMul (floatOfUINT (600 : ℕ)) pass.m_shader.m_scaleY)
           else if pass.m_shader.m_scaleAbsoluteY then castUINT pass.m_shader.m_scaleY
           else castUINT (floatMul (floatOfUINT z.sourceHeight) pass.m_shader.m_scaleY)) ∧
        (pass.m_shader.m_scaleViewportX = true → pass.m_shader.m_scaleX = 1 / 2 →
          800 < 16777216 → z.destWidth = 800 / 2) ∧
        (pass.m_shader.m_scaleViewportY = true → pass.m_shader.m_scaleY = 1 / 2 →
          600 < 16777216 → z.destHeight = 600 / 2)) :=
  ⟨by decide!, by decide!, by decide!, by decide!,
    (non_final_pass_size (sampleTexture 1) 266 200 800 600 sampleSwapped 1 (by decide!)).1⟩

theorem foldl_preserves {α β : Type} (P : α → Prop) (f : α → β → α) (l : List β)
    (h : ∀ a b, P a → P (f a b)) (a : α) (ha : P a) : P (l.foldl f a) := by
  induction l generalizing a with
  | nil => exact ha
  | cons b rest ih => exact ih (f a b) (h a b ha)

theorem foldl_range_succ {α : Type} (f : α → Nat → α) (a : α) (k : Nat) :
    (List.range (k + 1)).foldl f a = f ((List.range k).foldl f a) k := by
  simp [List.range_succ, List.foldl_append]

theorem maxNat_eq_max (a b : Nat) : maxNat a b = max a b := by
  unfold maxNat
  split <;> omega


/-! ### Topology rebuild: what each step does to the members -/

theorem createFeedback_fields (desc2 : TextureDesc) (index : Nat) (aliasName : String)
    (s : State) :
    skipControl (createFeedback desc2 index aliasName s) = skipControl s ∧
      (createFeedback desc2 index aliasName s).m_shaderPasses = s.m_shaderPasses ∧
      (createFeedback desc2 index aliasName s).m_requiresHistory = s.m_requiresHistory ∧
      (createFeedback desc2 index aliasName s).m_requiresFeedback = s.m_requiresFeedback ∧
      (createFeedback desc2 index aliasName s).m_displayRenderTarget = s.m_displayRenderTarget ∧
      (createFeedback desc2 index aliasName s).nextId = s.nextId + 1 := by
  unfold createFeedback
  dsimp only [CreateTexture2D, CreateShaderResourceView]
  split <;> exact ⟨rfl, rfl, rfl, rfl, rfl, rfl⟩

theorem mem_of_getElem?_some {α : Type} (l : List α) (i : Nat) (a : α) (h : l[i]? = some a) :
    a ∈ l := by
  obtain ⟨hlt, hget⟩ := List.getElem?_eq_some_iff.mp h
  exact hget ▸ List.getElem_mem hlt

theorem aliasAvoids_iff (k : Name) (aliasName : String) :
    aliasAvoids k aliasName = true ↔
      (aliasName ≠ "" → Name.ofString aliasName ≠ k ∧
        Name.ofString (aliasName ++ "Feedback") ≠ k) := by
  unfold aliasAvoids
  by_cases h : aliasName = ""
  · simp [h]
  · simp [h]

theorem namesAvoid_iff (s : State) (k : Name) :
    namesAvoid s k = true ↔
      (∀ pt ∈ s.m_presetTextures, Name.ofString pt.1 ≠ k) ∧
        (∀ pass ∈ s.m_shaderPasses, aliasAvoids k pass.m_shader.m_alias = true) := by
  unfold namesAvoid
  simp only [Bool.and_eq_true, List.all_eq_true, bne_iff_ne, ne_eq]

/-- A key the code builds is avoided by the names of a preset all of which are keys of
their own. -/
theorem namesAvoid_of_plain (s : State) (k : Name) (hp : plainNames s = true)
    (hk : ∀ n, k ≠ Name.user n) : namesAvoid s k = true := by
  unfold plainNames isPlain at hp
  simp only [Bool.and_eq_true, List.all_eq_true, beq_iff_eq, Bool.or_eq_true] at hp
  rw [namesAvoid_iff]
  refine ⟨fun pt hpt e => hk pt.1 (by rw [← e, hp.1 pt hpt]), fun pass hpass => ?_⟩
  rw [aliasAvoids_iff]
  intro hne
  rcases hp.2 pass hpass with h | h
  · exact absurd h hne
  · exact ⟨fun e => hk _ (by rw [← e, h.1]), fun e => hk _ (by rw [← e, h.2])⟩

theorem aliasAvoids_of_map (k : Name) (a b : List ShaderPass)
    (h : a.map ShaderPass.m_shader = b.map ShaderPass.m_shader)
    (hb : ∀ pass ∈ b, aliasAvoids k pass.m_shader.m_alias = true) :
    ∀ pass ∈ a, aliasAvoids k pass.m_shader.m_alias = true := by
  intro pass hpass
  have hm : pass.m_shader ∈ b.map ShaderPass.m_shader := by
    rw [← h]
    exact List.mem_map_of_mem _ hpass
  obtain ⟨q, hq, e⟩ := List.mem_map.mp hm
  rw [← e]
  exact hb q hq

theorem modifyAt_map_eq {α β : Type} (f : α → α) (g : α → β) (hfg : ∀ a, g (f a) = g a) :
    ∀ (i : Nat) (l : List α), (modifyAt f i l).map g = l.map g := by
  intro i l
  induction l generalizing i with
  | nil => cases i <;> rfl
  | cons a rest ih =>
    cases i with
    | zero => simp [modifyAt, hfg]
    | succ j => simp [modifyAt, ih]

theorem createFeedback_find (desc2 : TextureDesc) (index : Nat) (aliasName : String)
    (s : State) (k : Name) (hk : aliasAvoids k aliasName = true)
    (hi : k ≠ Name.passFeedback index) :
    mapFind (createFeedback desc2 index aliasName s).m_passResources k =
      mapFind s.m_passResources k := by
  unfold createFeedback
  dsimp only [CreateTexture2D, CreateShaderResourceView]
  split
  · rename_i hne
    have hne2 : aliasName ≠ "" := by simpa using hne
    dsimp only
    rw [mapFind_mapInsert_ne _ _ _ _ (((aliasAvoids_iff k aliasName).mp hk) hne2).2,
      mapFind_mapInsert_ne _ _ _ _ (fun e => hi e.symm)]
  · dsimp only
    rw [mapFind_mapInsert_ne _ _ _ _ (fun e => hi e.symm)]

theorem rebuildPassStep_fields (texture : CapturedTexture) (s : State) (p : Nat) :
    skipControl (rebuildPassStep texture s p) = skipControl s ∧
      (rebuildPassStep texture s p).m_requiresHistory = s.m_requiresHistory ∧
      (rebuildPassStep texture s p).m_requiresFeedback = s.m_requiresFeedback ∧
      (rebuildPassStep texture s p).m_displayRenderTarget = s.m_displayRenderTarget := by
  unfold rebuildPassStep
  split
  · exact ⟨rfl, rfl, rfl, rfl⟩
  · dsimp only [CreateTexture2D, CreateShaderResourceView, CreateRenderTargetView]
    split
    · obtain ⟨h1, -, h3, h4, h5, -⟩ := createFeedback_fields
        { texture.desc with Format := passFormat (by assumption : ShaderPass).m_shader,
                            Width := (by assumption : ShaderPass).m_destWidth,
                            Height := (by assumption : ShaderPass).m_destHeight,
                            bindShaderResource := true, bindRenderTarget := true }
        (p - 1) (by assumption : ShaderPass).m_shader.m_alias
        (setPassResources _ (logCalls _ (setPassTargets _ (logCalls _
          (setPassTextures _ (logCalls _ (allocId s)))))))
      exact ⟨h1, h3, h4, h5⟩
    · exact ⟨rfl, rfl, rfl, rfl⟩

/-- A step of the rebuild loop changes the table at `PassOutput` and `PassFeedback`
of its pass and at the keys the alias of that pass stands for, nowhere else. -/
theorem rebuildPassStep_find (texture : CapturedTexture) (s : State) (p : Nat) (k : Name)
    (hk : ∀ pass, s.m_shaderPasses[p - 1]? = some pass →
      aliasAvoids k pass.m_shader.m_alias = true)
    (ho : k ≠ Name.passOutput (p - 1)) (hf : k ≠ Name.passFeedback (p - 1)) :
    mapFind (rebuildPassStep texture s p).m_passResources k = mapFind s.m_passResources k := by
  unfold rebuildPassStep
  split
  · rfl
  · rename_i pass hpass
    have hav := hk pass hpass
    dsimp only [CreateTexture2D, CreateShaderResourceView, CreateRenderTargetView]
    have halias : pass.m_shader.m_alias ≠ "" → Name.ofString pass.m_shader.m_alias ≠ k :=
      fun hne => (((aliasAvoids_iff k _).mp hav) hne).1
    split
    · rw [createFeedback_find _ _ _ _ _ hav hf]
      dsimp only
      split
      · rename_i hne
        rw [mapFind_mapInsert_ne _ _ _ _ (halias (by simpa using hne)),
          mapFind_mapInsert_ne _ _ _ _ (fun e => ho e.symm)]
      · rw [mapFind_mapInsert_ne _ _ _ _ (fun e => ho e.symm)]
    · dsimp only
      split
      · rename_i hne
        rw [mapFind_mapInsert_ne _ _ _ _ (halias (by simpa using hne)),
          mapFind_mapInsert_ne _ _ _ _ (fun e => ho e.symm)]
      · rw [mapFind_mapInsert_ne _ _ _ _ (fun e => ho e.symm)]

theorem rebuildPassStep_history (texture : CapturedTexture) (s : State) (p k : Nat)
    (hk : ∀ pass ∈ s.m_shaderPasses,
      aliasAvoids (Name.originalHistory k) pass.m_shader.m_alias = true) :
    mapFind (rebuildPassStep texture s p).m_passResources (Name.originalHistory k) =
      mapFind s.m_passResources (Name.originalHistory k) :=
  rebuildPassStep_find texture s p _
    (fun pass hpass => hk pass (mem_of_getElem?_some _ _ _ hpass))
    (fun e => by cases e) (fun e => by cases e)

theorem rebuildPassStep_shaders (texture : CapturedTexture) (s : State) (p : Nat) :
    (rebuildPassStep texture s p).m_shaderPasses.map ShaderPass.m_shader =
      s.m_shaderPasses.map ShaderPass.m_shader := by
  unfold rebuildPassStep
  split
  · rfl
  · dsimp only
    have e : ∀ (l : List ShaderPass) (x : State), (setShaderPasses l x).m_shaderPasses = l :=
      fun _ _ => rfl
    rw [e, modifyAt_map_eq, modifyAt_map_eq]
    all_goals (intro _; rfl)

theorem rebuildPassStep_passes (texture : CapturedTexture) (s : State) (p : Nat)
    (pass : ShaderPass) (hpass : s.m_shaderPasses[p - 1]? = some pass) :
    (rebuildPassStep texture s p).m_shaderPasses =
      modifyAt (fun q => { q with m_sourceView := some ⟨⟨s.nextId,
          { texture.desc with Format := passFormat pass.m_shader, Width := pass.m_destWidth,
                              Height := pass.m_destHeight, bindShaderResource := true,
                              bindRenderTarget := true }⟩⟩ }) p
        (modifyAt (fun q => { q with m_targetView := some ⟨⟨s.nextId,
          { texture.desc with Format := passFormat pass.m_shader, Width := pass.m_destWidth,
                              Height := pass.m_destHeight, bindShaderResource := true,
                              bindRenderTarget := true }⟩⟩ }) (p - 1) s.m_shaderPasses) := by
  unfold rebuildPassStep
  rw [hpass]
  rfl

theorem rebuildPassStep_length (texture : CapturedTexture) (s : State) (p : Nat) :
    (rebuildPassStep texture s p).m_shaderPasses.length = s.m_shaderPasses.length := by
  unfold rebuildPassStep
  split
  · rfl
  · dsimp only
    rw [modifyAt_length, modifyAt_length]

theorem mapFind_foldl_user {ν : Type} (l : List (String × ν)) (m : List (Name × ν)) (k : Name)
    (hk : ∀ pt ∈ l, Name.ofString pt.1 ≠ k) :
    mapFind (l.foldl (fun m pt => mapInsert m (Name.ofString pt.1) pt.2) m) k = mapFind m k := by
  induction l generalizing m with
  | nil => rfl
  | cons a rest ih =>
    simp only [List.foldl_cons]
    rw [ih _ (fun pt hpt => hk pt (List.mem_cons_of_mem _ hpt)),
      mapFind_mapInsert_ne _ _ _ _ (hk a (List.mem_cons_self _ _))]

theorem seedResources_find (s : State) (k : Name)
    (hk : ∀ pt ∈ s.m_presetTextures, Name.ofString pt.1 ≠ k)
    (ho : k ≠ Name.original) : mapFind (seedResources s).m_passResources k = none := by
  unfold seedResources
  dsimp only
  rw [mapFind_mapInsert_ne _ _ _ _ (fun h => ho h.symm), mapFind_foldl_user _ _ _ hk]
  rfl

theorem seedResources_fields (s : State) :
    skipControl (seedResources s) = skipControl s ∧
      (seedResources s).m_requiresHistory = 0 ∧ (seedResources s).m_requiresFeedback = false ∧
      (seedResources s).m_shaderPasses = s.m_shaderPasses ∧
      (seedResources s).m_displayRenderTarget = s.m_displayRenderTarget ∧
      (seedResources s).nextId = s.nextId :=
  ⟨rfl, rfl, rfl, rfl, rfl, rfl⟩

theorem requirement_fold (passes : List ShaderPass) (s : State) :
    skipControl (passes.foldl requirementStep s) = skipControl s ∧
      (passes.foldl requirementStep s).m_requiresHistory =
        passes.foldl (fun m pass => max m pass.RequiresHistory) s.m_requiresHistory ∧
      (passes.foldl requirementStep s).m_requiresFeedback =
        (s.m_requiresFeedback || passes.any ShaderPass.RequiresFeedback) ∧
      (passes.foldl requirementStep s).m_passResources = s.m_passResources ∧
      (passes.foldl requirementStep s).m_shaderPasses = s.m_shaderPasses ∧
      (passes.foldl requirementStep s).m_displayRenderTarget = s.m_displayRenderTarget ∧
      (passes.foldl requirementStep s).nextId = s.nextId := by
  induction passes generalizing s with
  | nil => simp
  | cons a rest ih =>
    simp only [List.foldl_cons, List.any_cons]
    obtain ⟨h0, h1, h2, h3, h4, h5, h6⟩ := ih (requirementStep s a)
    refine ⟨?_, ?_, ?_, ?_, ?_, ?_, ?_⟩
    · rw [h0]; rfl
    · rw [h1]; simp [requirementStep, maxNat_eq_max]
    · rw [h2]; simp [requirementStep, Bool.or_assoc]
    · rw [h3]; rfl
    · rw [h4]; rfl
    · rw [h5]; rfl
    · rw [h6]; rfl

theorem rebuildPass_fold_fields (texture : CapturedTexture) (l : List Nat) (s : State) :
    skipControl (l.foldl (fun st i => rebuildPassStep texture st (i + 1)) s) = skipControl s ∧
      (l.foldl (fun st i => rebuildPassStep texture st (i + 1)) s).m_requiresHistory =
        s.m_requiresHistory ∧
      (l.foldl (fun st i => rebuildPassStep texture st (i + 1)) s).m_requiresFeedback =
        s.m_requiresFeedback ∧
      (l.foldl (fun st i => rebuildPassStep texture st (i + 1)) s).m_displayRenderTarget =
        s.m_displayRenderTarget ∧
      (l.foldl (fun st i => rebuildPassStep texture st (i + 1)) s).m_shaderPasses.map
        ShaderPass.m_shader = s.m_shaderPasses.map ShaderPass.m_shader ∧
      ∀ k, (∀ pass ∈ s.m_shaderPasses,
          aliasAvoids (Name.originalHistory k) pass.m_shader.m_alias = true) →
        mapFind (l.foldl (fun st i => rebuildPassStep texture st (i + 1)) s).m_passResources
          (Name.originalHistory k) = mapFind s.m_passResources (Name.originalHistory k) :=
  foldl_preserves
    (fun x => skipControl x = skipControl s ∧ x.m_requiresHistory = s.m_requiresHistory ∧
      x.m_requiresFeedback = s.m_requiresFeedback ∧
      x.m_displayRenderTarget = s.m_displayRenderTarget ∧
      x.m_shaderPasses.map ShaderPass.m_shader = s.m_shaderPasses.map ShaderPass.m_shader ∧
      ∀ k, (∀ pass ∈ s.m_shaderPasses,
          aliasAvoids (Name.originalHistory k) pass.m_shader.m_alias = true) →
        mapFind x.m_passResources (Name.originalHistory k) =
          mapFind s.m_passResources (Name.originalHistory k))
    (fun st i => rebuildPassStep texture st (i + 1)) l
    (fun a b ha => by
      obtain ⟨g1, g2, g3, g4⟩ := rebuildPassStep_fields texture a (b + 1)
      exact ⟨g1.trans ha.1, g2.trans ha.2.1, g3.trans ha.2.2.1, g4.trans ha.2.2.2.1,
        (rebuildPassStep_shaders texture a (b + 1)).trans ha.2.2.2.2.1,
        fun k hk => (rebuildPassStep_history texture a (b + 1) k
          (aliasAvoids_of_map _ _ _ ha.2.2.2.2.1 hk)).trans (ha.2.2.2.2.2 k hk)⟩)
    s ⟨rfl, rfl, rfl, rfl, rfl, fun _ _ => rfl⟩

/-- A key that no alias of the chain stands for, and that is no `PassOutput` or
`PassFeedback` key, is left as it was by the loop over the passes. -/
theorem rebuildPass_fold_find (texture : CapturedTexture) (k : Name) (l : List Nat)
    (s : State)
    (hk : ∀ pass ∈ s.m_shaderPasses, aliasAvoids k pass.m_shader.m_alias = true)
    (ho : ∀ i, k ≠ Name.passOutput i) (hf : ∀ i, k ≠ Name.passFeedback i) :
    mapFind (l.foldl (fun st i => rebuildPassStep texture st (i + 1)) s).m_passResources k =
      mapFind s.m_passResources k :=
  (foldl_preserves
    (fun x => x.m_shaderPasses.map ShaderPass.m_shader =
        s.m_shaderPasses.map ShaderPass.m_shader ∧
      mapFind x.m_passResources k = mapFind s.m_passResources k)
    (fun st i => rebuildPassStep texture st (i + 1)) l
    (fun a b ha =>
      ⟨(rebuildPassStep_shaders texture a (b + 1)).trans ha.1,
        (rebuildPassStep_find texture a (b + 1) k
          (fun pass hpass => aliasAvoids_of_map _ _ _ ha.1 hk pass
            (mem_of_getElem?_some _ _ _ hpass)) (ho _) (hf _)).trans ha.2⟩)
    s ⟨rfl, rfl⟩).2

theorem createPassTargets_fields (texture : CapturedTexture) (s : State) :
    skipControl (createPassTargets texture s) = skipControl s ∧
      (createPassTargets texture s).m_displayRenderTarget = s.m_displayRenderTarget ∧
      ∀ k, (∀ pass ∈ s.m_shaderPasses,
          aliasAvoids (Name.originalHistory k) pass.m_shader.m_alias = true) →
        mapFind (createPassTargets texture s).m_passResources (Name.originalHistory k) =
          mapFind s.m_passResources (Name.originalHistory k) := by
  unfold createPassTargets
  split
  · dsimp only
    obtain ⟨h0, -, -, h3, h4, h5, -⟩ := requirement_fold s.m_shaderPasses s
    obtain ⟨g1, -, -, g4, -, g5⟩ := rebuildPass_fold_fields texture
      (List.range ((s.m_shaderPasses.foldl requirementStep s).m_shaderPasses.length - 1))
      (s.m_shaderPasses.foldl requirementStep s)
    exact ⟨g1.trans h0, g4.trans h5, fun k hk => by rw [g5 k (by rw [h4]; exact hk), h3]⟩
  · split <;> exact ⟨rfl, rfl, fun _ _ => rfl⟩

/-- The loop over the passes keeps the declarations of the chain. -/
theorem createPassTargets_shaders (texture : CapturedTexture) (s : State) :
    (createPassTargets texture s).m_shaderPasses.map ShaderPass.m_shader =
      s.m_shaderPasses.map ShaderPass.m_shader := by
  unfold createPassTargets
  split
  · dsimp only
    rw [(rebuildPass_fold_fields texture _ _).2.2.2.2.1, (requirement_fold _ _).2.2.2.2.1]
  · split <;> rfl

theorem createPassTargets_requiresHistory (texture : CapturedTexture) (s : State)
    (h0 : s.m_requiresHistory = 0) :
    (createPassTargets texture s).m_requiresHistory =
      s.m_shaderPasses.foldl (fun m pass => max m pass.RequiresHistory) 0 := by
  unfold createPassTargets
  split
  · dsimp only
    rw [(rebuildPass_fold_fields texture _ _).2.1, (requirement_fold _ _).2.1, h0]
  · rename_i hlen
    cases hp : s.m_shaderPasses with
    | nil => simp [h0]
    | cons a rest =>
      have : rest = [] := by
        cases rest with
        | nil => rfl
        | cons b r => simp [hp] at hlen
      subst this
      simp [ShaderPass.RequiresHistory]

theorem createHistory_spec (desc2 : TextureDesc) (s : State) (h : Nat) :
    skipControl (createHistory desc2 s h) = skipControl s ∧
      (createHistory desc2 s h).nextId = s.nextId + 1 ∧
      (createHistory desc2 s h).m_requiresHistory = s.m_requiresHistory ∧
      (createHistory desc2 s h).m_requiresFeedback = s.m_requiresFeedback ∧
      (createHistory desc2 s h).m_shaderPasses = s.m_shaderPasses ∧
      (createHistory desc2 s h).m_displayRenderTarget = s.m_displayRenderTarget ∧
      (createHistory desc2 s h).m_passResources =
        mapInsert s.m_passResources (Name.originalHistory (h + 1))
          (some ⟨⟨s.nextId, desc2⟩⟩) :=
  ⟨rfl, rfl, rfl, rfl, rfl, rfl, rfl⟩

theorem createHistory_fold_fields (desc2 : TextureDesc) (l : List Nat) (s : State) :
    skipControl (l.foldl (createHistory desc2) s) = skipControl s ∧
      (l.foldl (createHistory desc2) s).m_requiresHistory = s.m_requiresHistory ∧
      (l.foldl (createHistory desc2) s).m_requiresFeedback = s.m_requiresFeedback ∧
      (l.foldl (createHistory desc2) s).m_shaderPasses = s.m_shaderPasses ∧
      (l.foldl (createHistory desc2) s).m_displayRenderTarget = s.m_displayRenderTarget ∧
      ∀ k, (∀ j, k ≠ Name.originalHistory j) →
        mapFind (l.foldl (createHistory desc2) s).m_passResources k =
          mapFind s.m_passResources k :=
  foldl_preserves
    (fun x => skipControl x = skipControl s ∧ x.m_requiresHistory = s.m_requiresHistory ∧
      x.m_requiresFeedback = s.m_requiresFeedback ∧ x.m_shaderPasses = s.m_shaderPasses ∧
      x.m_displayRenderTarget = s.m_displayRenderTarget ∧
      ∀ k, (∀ j, k ≠ Name.originalHistory j) →
        mapFind x.m_passResources k = mapFind s.m_passResources k)
    (createHistory desc2) l
    (fun a b ha => by
      obtain ⟨g0, -, g2, g3, g4, g5, g6⟩ := createHistory_spec desc2 a b
      refine ⟨g0.trans ha.1, g2.trans ha.2.1, g3.trans ha.2.2.1, g4.trans ha.2.2.2.1,
        g5.trans ha.2.2.2.2.1, ?_⟩
      intro k hk
      rw [g6, mapFind_mapInsert_ne _ _ _ _ (fun e => hk (b + 1) e.symm)]
      exact ha.2.2.2.2.2 k hk)
    s ⟨rfl, rfl, rfl, rfl, rfl, fun _ _ => rfl⟩

theorem createHistory_loop (desc2 : TextureDesc) (s : State)
    (habs : ∀ k, mapFind s.m_passResources (Name.originalHistory k) = none) (n : Nat) :
    ((List.range n).foldl (createHistory desc2) s).nextId = s.nextId + n ∧
      ∀ k, mapFind ((List.range n).foldl (createHistory desc2) s).m_passResources
          (Name.originalHistory k) =
        if 1 ≤ k ∧ k ≤ n then some (some ⟨⟨s.nextId + (k - 1), desc2⟩⟩) else none := by
  induction n with
  | zero =>
    refine ⟨rfl, ?_⟩
    intro k
    have : ¬ (1 ≤ k ∧ k ≤ 0) := by omega
    simp only [List.range_zero, List.foldl_nil]
    rw [if_neg this]
    exact habs k
  | succ n ih =>
    simp only [foldl_range_succ]
    generalize (List.range n).foldl (createHistory desc2) s = st at ih ⊢
    obtain ⟨h1, h6⟩ := ih
    have hnone : mapFind st.m_passResources (Name.originalHistory (n + 1)) = none := by
      rw [h6, if_neg (by omega)]
    obtain ⟨-, g1, -, -, -, -, g6⟩ := createHistory_spec desc2 st n
    refine ⟨by rw [g1, h1]; omega, ?_⟩
    intro k
    rw [g6]
    by_cases hk : k = n + 1
    · subst hk
      rw [mapFind_mapInsert_absent _ _ _ hnone, if_pos (by omega), h1]
      simp
    · have hne : Name.originalHistory (n + 1) ≠ Name.originalHistory k := by
        intro e; exact hk (Name.originalHistory.inj e).symm
      rw [mapFind_mapInsert_ne _ _ _ _ hne, h6]
      by_cases hk2 : 1 ≤ k ∧ k ≤ n
      · rw [if_pos hk2, if_pos (by omega)]
      · rw [if_neg hk2, if_neg (by omega)]

theorem createHistories_fields (texture : CapturedTexture) (ow oh : Nat) (s : State) :
    skipControl (createHistories texture ow oh s) = skipControl s ∧
      (createHistories texture ow oh s).m_requiresHistory = s.m_requiresHistory ∧
      (createHistories texture ow oh s).m_requiresFeedback = s.m_requiresFeedback ∧
      (createHistories texture ow oh s).m_shaderPasses = s.m_shaderPasses ∧
      (createHistories texture ow oh s).m_displayRenderTarget = s.m_displayRenderTarget ∧
      ∀ k, (∀ j, k ≠ Name.originalHistory j) →
        mapFind (createHistories texture ow oh s).m_passResources k =
          mapFind s.m_passResources k := by
  unfold createHistories
  split
  · exact createHistory_fold_fields _ _ s
  · exact ⟨rfl, rfl, rfl, rfl, rfl, fun _ _ => rfl⟩

theorem createHistories_find (texture : CapturedTexture) (ow oh : Nat) (s : State)
    (habs : ∀ k, mapFind s.m_passResources (Name.originalHistory k) = none) (k : Nat) :
    mapFind (createHistories texture ow oh s).m_passResources (Name.originalHistory k) =
      if 1 ≤ k ∧ k ≤ s.m_requiresHistory then
        some (some ⟨⟨s.nextId + (k - 1),
          { texture.desc with bindShaderResource := true, bindRenderTarget := false,
                              Width := ow, Height := oh }⟩⟩)
      else none := by
  unfold createHistories
  split
  · exact (createHistory_loop _ s habs s.m_requiresHistory).2 k
  · rename_i hz
    have hz0 : s.m_requiresHistory = 0 := by simpa using hz
    rw [if_neg (by omega)]
    exact habs k

theorem createLastFeedback_fields (texture : CapturedTexture) (s : State) :
    skipControl (createLastFeedback texture s) = skipControl s ∧
      (createLastFeedback texture s).m_shaderPasses = s.m_shaderPasses ∧
      (createLastFeedback texture s).m_requiresHistory = s.m_requiresHistory ∧
      (createLastFeedback texture s).m_requiresFeedback = s.m_requiresFeedback ∧
      (createLastFeedback texture s).m_displayRenderTarget = s.m_displayRenderTarget ∧
      ∀ k, (∀ pass ∈ s.m_shaderPasses,
          aliasAvoids (Name.originalHistory k) pass.m_shader.m_alias = true) →
        mapFind (createLastFeedback texture s).m_passResources (Name.originalHistory k) =
          mapFind s.m_passResources (Name.originalHistory k) := by
  unfold createLastFeedback
  dsimp only
  split
  · exact ⟨rfl, rfl, rfl, rfl, rfl, fun _ _ => rfl⟩
  · rename_i lastPass hlast
    obtain ⟨h1, h2, h3, h4, h5, -⟩ := createFeedback_fields
      { texture.desc with bindShaderResource := true, bindRenderTarget := false,
                          Width := (by assumption : ShaderPass).m_destWidth,
                          Height := (by assumption : ShaderPass).m_destHeight }
      (s.m_shaderPasses.length - 1) (by assumption : ShaderPass).m_shader.m_alias s
    exact ⟨h1, h2, h3, h4, h5,
      fun k hk => createFeedback_find _ _ _ _ _ (hk lastPass (mem_of_getElem?_some _ _ _ hlast))
        (by simp)⟩

theorem targetDisplay_fields (s : State) :
    skipControl (targetDisplay s) = skipControl s ∧
      (targetDisplay s).m_requiresHistory = s.m_requiresHistory ∧
      (targetDisplay s).m_requiresFeedback = s.m_requiresFeedback ∧
      (targetDisplay s).m_passResources = s.m_passResources ∧
      (targetDisplay s).m_displayRenderTarget = s.m_displayRenderTarget ∧
      (targetDisplay s).m_shaderPasses =
        modifyAt (fun q => { q with m_targetView := s.m_displayRenderTarget })
          (s.m_shaderPasses.length - 1) s.m_shaderPasses :=
  ⟨rfl, rfl, rfl, rfl, rfl, rfl⟩

/-- The members of the state after the rebuild, through its four steps. -/
theorem rebuildGraph_fields (texture : CapturedTexture) (ow oh : Nat) (s : State) :
    skipControl (rebuildGraph texture ow oh s) = skipControl s ∧
      (rebuildGraph texture ow oh s).m_requiresHistory =
        (createPassTargets texture (seedResources s)).m_requiresHistory ∧
      (rebuildGraph texture ow oh s).m_requiresFeedback =
        (createPassTargets texture (seedResources s)).m_requiresFeedback ∧
      (rebuildGraph texture ow oh s).m_shaderPasses =
        modifyAt (fun q => { q with m_targetView := s.m_displayRenderTarget })
          ((createPassTargets texture (seedResources s)).m_shaderPasses.length - 1)
          (createPassTargets texture (seedResources s)).m_shaderPasses ∧
      ∀ k, (∀ pass ∈ s.m_shaderPasses,
          aliasAvoids (Name.originalHistory k) pass.m_shader.m_alias = true) →
        mapFind (rebuildGraph texture ow oh s).m_passResources (Name.originalHistory k) =
          mapFind (createHistories texture ow oh
            (createPassTargets texture (seedResources s))).m_passResources
            (Name.originalHistory k) := by
  obtain ⟨a0, -, -, -, a4, -⟩ := seedResources_fields s
  obtain ⟨b0, b1, -⟩ := createPassTargets_fields texture (seedResources s)
  obtain ⟨c0, c1, c2, c3, c4, -⟩ := createHistories_fields texture ow oh
    (createPassTargets texture (seedResources s))
  obtain ⟨d0, d1, d2, d3, d4, d5⟩ := targetDisplay_fields (createHistories texture ow oh
    (createPassTargets texture (seedResources s)))
  have hpasses : (targetDisplay (createHistories texture ow oh
      (createPassTargets texture (seedResources s)))).m_shaderPasses =
      modifyAt (fun q => { q with m_targetView := s.m_displayRenderTarget })
        ((createPassTargets texture (seedResources s)).m_shaderPasses.length - 1)
        (createPassTargets texture (seedResources s)).m_shaderPasses := by
    rw [d5, c3, c4, b1, a4]
  unfold rebuildGraph
  dsimp only
  split
  · obtain ⟨e0, e1, e2, e3, -, e5⟩ := createLastFeedback_fields texture
      (targetDisplay (createHistories texture ow oh
        (createPassTargets texture (seedResources s))))
    refine ⟨?_, ?_, ?_, ?_, ?_⟩
    · rw [e0, d0, c0, b0, a0]
    · rw [e2, d1, c1]
    · rw [e3, d2, c2]
    · rw [e1, hpasses]
    · intro k hk
      have hmap : (targetDisplay (createHistories texture ow oh
          (createPassTargets texture (seedResources s)))).m_shaderPasses.map
            ShaderPass.m_shader = s.m_shaderPasses.map ShaderPass.m_shader := by
        rw [hpasses, modifyAt_map_eq, createPassTargets_shaders]
        · rfl
        · intro _; rfl
      rw [e5 k (aliasAvoids_of_map _ _ _ hmap hk), d3]
  · refine ⟨?_, ?_, ?_, hpasses, ?_⟩
    · rw [d0, c0, b0, a0]
    · rw [d1, c1]
    · rw [d2, c2]
    · intro k _; rw [d3]

/-- The rebuild keeps the declarations of the chain. -/
theorem rebuildGraph_shaders (texture : CapturedTexture) (ow oh : Nat) (s : State) :
    (rebuildGraph texture ow oh s).m_shaderPasses.map ShaderPass.m_shader =
      s.m_shaderPasses.map ShaderPass.m_shader := by
  rw [(rebuildGraph_fields texture ow oh s).2.2.2.1, modifyAt_map_eq,
    createPassTargets_shaders]
  · rfl
  · intro _; rfl

/-- C8. After a topology rebuild of a chain none of whose names (static texture names,
pass aliases, `<alias>Feedback`) is the string `OriginalHistory<k>` for a number `k`, with
`N` the maximum history depth required over all passes of the chain,
`m_requiresHistory` is `N` and `m_passResources` has an entry `OriginalHistory<k>`
exactly for `k = 1 .. N` (none when `N = 0`); each is a view of a texture of the logical
input size, and different `k` are bound to different textures. -/
theorem history_entries_after_rebuild (texture : CapturedTexture)
    (originalWidth originalHeight : Nat) (s : State)
    (hnames : ∀ k, namesAvoid s (Name.originalHistory k) = true) :
    (rebuildGraph texture originalWidth originalHeight s).m_requiresHistory =
        s.m_shaderPasses.foldl (fun m pass => max m pass.RequiresHistory) 0 ∧
      (∀ k, (mapFind (rebuildGraph texture originalWidth originalHeight s).m_passResources
            (Name.originalHistory k)).isSome ↔
          (1 ≤ k ∧ k ≤ s.m_shaderPasses.foldl (fun m pass => max m pass.RequiresHistory) 0)) ∧
      (∀ k, 1 ≤ k → k ≤ s.m_shaderPasses.foldl (fun m pass => max m pass.RequiresHistory) 0 →
        ∃ view, mapFind (rebuildGraph texture originalWidth originalHeight s).m_passResources
            (Name.originalHistory k) = some (some view) ∧
          view.texture.desc.Width = originalWidth ∧
          view.texture.desc.Height = originalHeight) ∧
      (∀ k1 k2 view1 view2,
        mapFind (rebuildGraph texture originalWidth originalHeight s).m_passResources
            (Name.originalHistory k1) = some (some view1) →
        mapFind (rebuildGraph texture originalWidth originalHeight s).m_passResources
            (Name.originalHistory k2) = some (some view2) →
        k1 ≠ k2 → view1.texture.id ≠ view2.texture.id) := by
  obtain ⟨-, r1, -, -, r4⟩ := rebuildGraph_fields texture originalWidth originalHeight s
  have hN : (createPassTargets texture (seedResources s)).m_requiresHistory =
      s.m_shaderPasses.foldl (fun m pass => max m pass.RequiresHistory) 0 :=
    createPassTargets_requiresHistory texture (seedResources s) rfl
  have habs : ∀ k, mapFind (createPassTargets texture (seedResources s)).m_passResources
      (Name.originalHistory k) = none := by
    intro k
    rw [(createPassTargets_fields texture (seedResources s)).2.2 k
      ((namesAvoid_iff s _).mp (hnames k)).2]
    exact seedResources_find s _ ((namesAvoid_iff s _).mp (hnames k)).1 (by simp)
  have hfind : ∀ k, mapFind (rebuildGraph texture originalWidth originalHeight s).m_passResources
      (Name.originalHistory k) =
        if 1 ≤ k ∧ k ≤ s.m_shaderPasses.foldl (fun m pass => max m pass.RequiresHistory) 0 then
          some (some ⟨⟨(createPassTargets texture (seedResources s)).nextId + (k - 1),
            { texture.desc with bindShaderResource := true, bindRenderTarget := false,
                                Width := originalWidth, Height := originalHeight }⟩⟩)
        else none := by
    intro k
    rw [r4 k ((namesAvoid_iff s _).mp (hnames k)).2, createHistories_find texture originalWidth originalHeight _ habs k, hN]
  refine ⟨by rw [r1, hN], ?_, ?_, ?_⟩
  · intro k
    rw [hfind k]
    split <;> simp_all
  · intro k hk1 hk2
    rw [hfind k, if_pos ⟨hk1, hk2⟩]
    exact ⟨_, rfl, rfl, rfl⟩
  · intro k1 k2 v1 v2 e1 e2 hne
    rw [hfind k1] at e1
    rw [hfind k2] at e2
    split at e1
    · split at e2
      · have := Option.some.inj (Option.some.inj e1)
        have := Option.some.inj (Option.some.inj e2)
        subst_vars
        dsimp only
        omega
      · simp at e2
    · simp at e1

/-- C8 at the sample pipeline: the names of its preset are the alias `A` and `AFeedback`,
its passes ask for two frames of history, and the rebuild for a logical input of 640 by
360 registers `OriginalHistory1` and `OriginalHistory2` and no other history key. -/
theorem history_entries_after_rebuild_witness :
    plainNames sampleSwapped = true ∧
      (rebuildGraph (sampleTexture 1) 640 360 sampleSwapped).m_requiresHistory = 2 ∧
      (∀ k, (mapFind (rebuildGraph (sampleTexture 1) 640 360 sampleSwapped).m_passResources
          (Name.originalHistory k)).isSome ↔ (1 ≤ k ∧ k ≤ 2)) :=
  have h := history_entries_after_rebuild (sampleTexture 1) 640 360 sampleSwapped
    (fun _ => namesAvoid_of_plain _ _ (by decide) (fun _ e => by cases e))
  ⟨by decide, h.1, h.2.1⟩

/-- C8, counterexample: a preset may name a static texture `OriginalHistory1`; the registration of the history textures does not replace an entry.
With the three sample passes (history depth 2) the rebuild for a logical input of 640 by
360 leaves `OriginalHistory1` bound to the static texture of 64 by 64, not to a history
texture, and with a single pass without history (depth 0) the entry `OriginalHistory1`
is present. -/
theorem static_texture_shadows_history :
    ((rebuildGraph (sampleTexture 1) 640 360 shadowedState).m_requiresHistory = 2 ∧
      mapFind (rebuildGraph (sampleTexture 1) 640 360 shadowedState).m_passResources
          (Name.ofString "OriginalHistory1") =
        some (some ⟨⟨900, ⟨64, 64, Format.B8G8R8A8_UNORM, true, false⟩⟩⟩) ∧
      Name.ofString "OriginalHistory1" = Name.originalHistory 1 ∧
      ((rebuildGraph (sampleTexture 1) 640 360 shadowedState).m_passTextures.map
          (fun t => (t.id, t.desc.Width, t.desc.Height))).contains (900, 64, 64) = false) ∧
    ((rebuildGraph (sampleTexture 1) 640 360 shadowedPlainState).m_requiresHistory = 0 ∧
      (mapFind (rebuildGraph (sampleTexture 1) 640 360 shadowedPlainState).m_passResources
        (Name.originalHistory 1)).isSome = true) := by
  decide!

/-- C7, the code at the failing input. For a chain of exactly one pass, whatever the pass
requires, the topology rebuild leaves `m_requiresFeedback` false and registers no
`PassFeedback<i>` entry (the table has none unless the preset names a static texture
so); in particular a first frame of the sample pipeline with a
one-pass preset whose pass requires feedback ends without `PassFeedback0`. -/
theorem single_pass_gets_no_feedback (texture : CapturedTexture)
    (originalWidth originalHeight : Nat) (s : State) (pass : ShaderPass)
    (hstatic : ∀ i, ∀ pt ∈ s.m_presetTextures, Name.ofString pt.1 ≠ Name.passFeedback i) :
    ((rebuildGraph texture originalWidth originalHeight
        (setShaderPasses [pass] s)).m_requiresFeedback = false ∧
      ∀ i, mapFind (rebuildGraph texture originalWidth originalHeight
        (setShaderPasses [pass] s)).m_passResources (Name.passFeedback i) = none) ∧
    ((Process (sampleInput 1 800 600) singlePassState).m_shaderPasses.map
        ShaderPass.RequiresFeedback = [true] ∧
      (Process (sampleInput 1 800 600) singlePassState).m_requiresFeedback = false ∧
      mapFind (Process (sampleInput 1 800 600) singlePassState).m_passResources
        (Name.passFeedback 0) = none) := by
  refine ⟨?_, by decide!⟩
  obtain ⟨-, -, r3, -, -⟩ := rebuildGraph_fields texture originalWidth originalHeight
    (setShaderPasses [pass] s)
  have hT : createPassTargets texture (seedResources (setShaderPasses [pass] s)) =
      setRequiresHistory pass.RequiresHistory (seedResources (setShaderPasses [pass] s)) := by
    unfold createPassTargets
    rw [if_neg (by simp [seedResources, DestroyPasses])]
    rfl
  have hfb : (rebuildGraph texture originalWidth originalHeight
      (setShaderPasses [pass] s)).m_requiresFeedback = false := by
    rw [r3, hT]; rfl
  refine ⟨hfb, ?_⟩
  intro i
  have hsame : rebuildGraph texture originalWidth originalHeight (setShaderPasses [pass] s) =
      targetDisplay (createHistories texture originalWidth originalHeight
        (createPassTargets texture (seedResources (setShaderPasses [pass] s)))) := by
    have h2 : (targetDisplay (createHistories texture originalWidth originalHeight
        (createPassTargets texture (seedResources (setShaderPasses [pass] s))))
          ).m_requiresFeedback = false := by
      rw [(targetDisplay_fields _).2.2.1, (createHistories_fields _ _ _ _).2.2.1, hT]; rfl
    unfold rebuildGraph
    dsimp only
    rw [if_neg (by rw [h2]; simp)]
  rw [hsame, (targetDisplay_fields _).2.2.2.1,
    (createHistories_fields _ _ _ _).2.2.2.2.2 _ (fun j => by simp), hT]
  exact seedResources_find _ _ (hstatic i) (by simp)

/-- C7 at the sample pipeline, whose preset has no static texture: the rebuild of the
one-pass chain of the shader that asks for feedback registers no `PassFeedback0`. -/
theorem single_pass_gets_no_feedback_witness :
    (∀ i, ∀ pt ∈ sampleState.m_presetTextures,
        Name.ofString pt.1 ≠ Name.passFeedback i) ∧
      (newShaderPass doublingShader).RequiresFeedback = true ∧
      (rebuildGraph (sampleTexture 1) 640 360
        (setShaderPasses [newShaderPass doublingShader] sampleState)).m_requiresFeedback =
          false ∧
      mapFind (rebuildGraph (sampleTexture 1) 640 360
        (setShaderPasses [newShaderPass doublingShader] sampleState)).m_passResources
          (Name.passFeedback 0) = none :=
  have h := single_pass_gets_no_feedback (sampleTexture 1) 640 360 sampleState
    (newShaderPass doublingShader) (fun _ _ hpt => nomatch hpt)
  ⟨fun _ _ hpt => (nomatch hpt), by decide, h.1.1, h.1.2 0⟩

theorem rebuildPass_loop (texture : CapturedTexture) (s : State) (k : Nat)
    (hk : k + 1 ≤ s.m_shaderPasses.length) :
    let st := (List.range k).foldl (fun st i => rebuildPassStep texture st (i + 1)) s
    st.m_shaderPasses.length = s.m_shaderPasses.length ∧
      st.m_displayRenderTarget = s.m_displayRenderTarget ∧
      st.m_shaderPasses.map ShaderPass.m_shader = s.m_shaderPasses.map ShaderPass.m_shader ∧
      ∀ j, j < k → ∃ t a b, st.m_shaderPasses[j]? = some a ∧ st.m_shaderPasses[j + 1]? = some b ∧
        a.m_targetView = some ⟨t⟩ ∧ b.m_sourceView = some ⟨t⟩ := by
  induction k with
  | zero => exact ⟨rfl, rfl, rfl, fun j hj => absurd hj (by omega)⟩
  | succ k ih =>
    have ih := ih (by omega)
    simp only [foldl_range_succ]
    generalize (List.range k).foldl (fun st i => rebuildPassStep texture st (i + 1)) s = st
      at ih ⊢
    obtain ⟨hlen, hdisp, hsh, hviews⟩ := ih
    have hk1 : k < st.m_shaderPasses.length := by omega
    obtain ⟨pass, hpass⟩ : ∃ q, st.m_shaderPasses[k + 1 - 1]? = some q :=
      ⟨st.m_shaderPasses[k], by simp [List.getElem?_eq_getElem hk1]⟩
    have hnew := rebuildPassStep_passes texture st (k + 1) pass hpass
    refine ⟨by rw [rebuildPassStep_length, hlen], by rw [(rebuildPassStep_fields texture st (k + 1)).2.2.2, hdisp], ?_, ?_⟩
    · rw [hnew, ← hsh]
      apply List.ext_getElem?
      intro j
      simp only [List.getElem?_map, modifyAt_getElem?]
      by_cases h1 : j = k + 1
      · subst h1
        simp only [if_true, show ¬ (k + 1 = k + 1 - 1) by omega, if_false]
        cases st.m_shaderPasses[k + 1]? <;> rfl
      · by_cases h2 : j = k + 1 - 1
        · rw [if_neg h1, if_pos h2]
          cases st.m_shaderPasses[j]? <;> rfl
        · rw [if_neg h1, if_neg h2]
    · intro j hj
      rw [hnew]
      simp only [modifyAt_getElem?]
      by_cases hjk : j = k
      · subst hjk
        have hk2 : j + 1 < st.m_shaderPasses.length := by omega
        refine ⟨⟨st.nextId,
            { texture.desc with Format := passFormat pass.m_shader, Width := pass.m_destWidth,
                                Height := pass.m_destHeight, bindShaderResource := true,
                                bindRenderTarget := true }⟩,
          { st.m_shaderPasses[j] with m_targetView := some ⟨⟨st.nextId,
            { texture.desc with Format := passFormat pass.m_shader, Width := pass.m_destWidth,
                                Height := pass.m_destHeight, bindShaderResource := true,
                                bindRenderTarget := true }⟩⟩ },
          { st.m_shaderPasses[j + 1] with m_sourceView := some ⟨⟨st.nextId,
            { texture.desc with Format := passFormat pass.m_shader, Width := pass.m_destWidth,
                                Height := pass.m_destHeight, bindShaderResource := true,
                                bindRenderTarget := true }⟩⟩ }, ?_, ?_, rfl, rfl⟩
        · rw [if_neg (by omega), if_pos (by omega), List.getElem?_eq_getElem hk1]
          rfl
        · rw [if_pos rfl, if_neg (by omega), List.getElem?_eq_getElem hk2]
          rfl
      · obtain ⟨t, a, b, ha, hb, hta, hsb⟩ := hviews j (by omega)
        by_cases hj1 : j + 1 = k
        · refine ⟨t, a, { b with m_targetView := some ⟨⟨st.nextId,
              { texture.desc with Format := passFormat pass.m_shader, Width := pass.m_destWidth,
                                  Height := pass.m_destHeight, bindShaderResource := true,
                                  bindRenderTarget := true }⟩⟩ }, ?_, ?_, hta, hsb⟩
          · rw [if_neg (by omega), if_neg (by omega), ha]
          · rw [if_neg (by omega), if_pos (by omega), hb]
            rfl
        · refine ⟨t, a, b, ?_, ?_, hta, hsb⟩
          · rw [if_neg (by omega), if_neg (by omega), ha]
          · rw [if_neg (by omega), if_neg (by omega), hb]

theorem createPassTargets_passes (texture : CapturedTexture) (s : State) :
    (createPassTargets texture s).m_shaderPasses.length = s.m_shaderPasses.length ∧
      (createPassTargets texture s).m_displayRenderTarget = s.m_displayRenderTarget ∧
      (createPassTargets texture s).m_shaderPasses.map ShaderPass.m_shader =
        s.m_shaderPasses.map ShaderPass.m_shader ∧
      ∀ j, j + 1 < s.m_shaderPasses.length → ∃ t a b,
        (createPassTargets texture s).m_shaderPasses[j]? = some a ∧
        (createPassTargets texture s).m_shaderPasses[j + 1]? = some b ∧
        a.m_targetView = some ⟨t⟩ ∧ b.m_sourceView = some ⟨t⟩ := by
  unfold createPassTargets
  split
  · rename_i hgt
    obtain ⟨-, -, -, -, hp, hd, -⟩ := requirement_fold s.m_shaderPasses s
    dsimp only
    generalize s.m_shaderPasses.foldl requirementStep s = s1 at hp hd ⊢
    obtain ⟨h1, h2, h3, h4⟩ := rebuildPass_loop texture s1 (s1.m_shaderPasses.length - 1)
      (by rw [hp]; omega)
    refine ⟨by rw [h1, hp], by rw [h2, hd], by rw [h3, hp], ?_⟩
    intro j hj
    exact h4 j (by rw [hp]; omega)
  · rename_i hle
    have hfalse : ∀ j, ¬ (j + 1 < s.m_shaderPasses.length) := fun j => by omega
    split
    · exact ⟨rfl, rfl, rfl, fun j hj => absurd hj (hfalse j)⟩
    · exact ⟨rfl, rfl, rfl, fun j hj => absurd hj (hfalse j)⟩

/-- C3. For every pass chain of length at least 1, after the topology rebuild (with the
display render target in place, as `Initialize` and `TryResizeSwapChain` leave it for a
positive client area) the chain has the same passes, every pass has a target view,
every pass except the first has a source view, and the target of the final pass is the
display render target, whatever the final pass declares. -/
theorem rebuild_gives_every_pass_its_views (texture : CapturedTexture)
    (originalWidth originalHeight : Nat) (s : State)
    (hn : 1 ≤ s.m_shaderPasses.length) (hd : s.m_displayRenderTarget.isSome = true) :
    (rebuildGraph texture originalWidth originalHeight s).m_shaderPasses.length =
        s.m_shaderPasses.length ∧
      (rebuildGraph texture originalWidth originalHeight s).m_shaderPasses.map
          ShaderPass.m_shader = s.m_shaderPasses.map ShaderPass.m_shader ∧
      (∀ i pass,
        (rebuildGraph texture originalWidth originalHeight s).m_shaderPasses[i]? = some pass →
          pass.m_targetView.isSome = true ∧ (1 ≤ i → pass.m_sourceView.isSome = true)) ∧
      ((rebuildGraph texture originalWidth originalHeight s).m_shaderPasses[
          s.m_shaderPasses.length - 1]?).map ShaderPass.m_targetView =
        some s.m_displayRenderTarget := by
  obtain ⟨g1, -, g3, g4⟩ := createPassTargets_passes texture (seedResources s)
  have hpasses := (rebuildGraph_fields texture originalWidth originalHeight s).2.2.2.1
  have hseed : (seedResources s).m_shaderPasses = s.m_shaderPasses := rfl
  rw [g1] at hpasses
  rw [hseed] at g1 g3 g4 hpasses
  generalize (createPassTargets texture (seedResources s)).m_shaderPasses = L at g1 g3 g4 hpasses
  have hL : L.length = s.m_shaderPasses.length := g1
  have hS : L.map ShaderPass.m_shader = s.m_shaderPasses.map ShaderPass.m_shader := g3
  have hV : ∀ j, j + 1 < s.m_shaderPasses.length → ∃ t a b, L[j]? = some a ∧
      L[j + 1]? = some b ∧ a.m_targetView = some ⟨t⟩ ∧ b.m_sourceView = some ⟨t⟩ := g4
  rw [hpasses]
  refine ⟨by rw [modifyAt_length, hL], ?_, ?_, ?_⟩
  · rw [← hS]
    apply List.ext_getElem?
    intro j
    simp only [List.getElem?_map, modifyAt_getElem?]
    split
    · cases L[j]? <;> rfl
    · rfl
  · intro i pass hpass
    rw [modifyAt_getElem?] at hpass
    have hi : i < s.m_shaderPasses.length := by
      by_contra hcon
      have : L[i]? = none := List.getElem?_eq_none (by omega)
      rw [this] at hpass
      split at hpass <;> simp at hpass
    by_cases hlast : i = s.m_shaderPasses.length - 1
    · rw [if_pos hlast] at hpass
      obtain ⟨q, hq, rfl⟩ := Option.map_eq_some'.mp hpass
      refine ⟨hd, ?_⟩
      intro hi1
      obtain ⟨t, a, b, -, hb, -, hsb⟩ := hV (i - 1) (by omega)
      have hb2 : L[i]? = some b := by
        have : i - 1 + 1 = i := by omega
        rw [← this]; exact hb
      rw [hq] at hb2
      have := Option.some.inj hb2
      subst this
      simp [hsb]
    · rw [if_neg hlast] at hpass
      obtain ⟨t, a, b, ha, -, hta, -⟩ := hV i (by omega)
      rw [hpass] at ha
      have := Option.some.inj ha
      subst this
      refine ⟨by simp [hta], ?_⟩
      intro hi1
      obtain ⟨t2, a2, b2, -, hb2, -, hsb2⟩ := hV (i - 1) (by omega)
      have hb3 : L[i]? = some b2 := by
        have : i - 1 + 1 = i := by omega
        rw [← this]; exact hb2
      rw [hpass] at hb3
      have := Option.some.inj hb3
      subst this
      simp [hsb2]
  · rw [modifyAt_getElem?, if_pos rfl]
    have hlt : s.m_shaderPasses.length - 1 < L.length := by omega
    rw [List.getElem?_eq_getElem hlt]
    rfl

/-- C3, instance: the three-pass sample chain with its 800 by 600 display target. -/
theorem rebuild_gives_every_pass_its_views_witness :
    1 ≤ sampleSwapped.m_shaderPasses.length ∧
      sampleSwapped.m_displayRenderTarget.isSome = true ∧
      ((rebuildGraph (sampleTexture 1) 266 200 sampleSwapped).m_shaderPasses[
          sampleSwapped.m_shaderPasses.length - 1]?).map ShaderPass.m_targetView =
        some sampleSwapped.m_displayRenderTarget :=
  ⟨by decide!, by decide!,
    (rebuild_gives_every_pass_its_views (sampleTexture 1) 266 200 sampleSwapped
      (by decide!) (by decide!)).2.2.2⟩

/-! ### The members read by the skip test are left alone by every step of `Process` -/

theorem skipControl_logCalls (cs : List Call) (s : State) :
    skipControl (logCalls cs s) = skipControl s := rfl

theorem skipControl_DestroyTargets (s : State) : skipControl (DestroyTargets s) = skipControl s := by
  unfold DestroyTargets
  split <;> rfl

theorem skipControl_ClearRenderTargetView (v : Option RenderTargetView) (s : State) :
    skipControl (ClearRenderTargetView v s) = skipControl s := by
  unfold ClearRenderTargetView
  split <;> rfl

theorem skipControl_captureGeometry (inp : FrameInput) (texture : CapturedTexture) (s : State) :
    skipControl (captureGeometry inp texture s).1 = skipControl s := by
  unfold captureGeometry
  dsimp only
  split
  · dsimp only
    split <;> rfl
  · split <;> rfl

theorem skipControl_acquireDisplay (clientRect : RECT) (s : State) :
    skipControl (acquireDisplay clientRect s) = skipControl s := rfl

theorem skipControl_TryResizeSwapChain (clientRect : RECT) (force : Bool) (s : State) :
    skipControl (TryResizeSwapChain clientRect force s).1 = skipControl s := by
  unfold TryResizeSwapChain
  split
  · dsimp only
    split
    · dsimp only
      rw [skipControl_acquireDisplay]
      exact skipControl_DestroyTargets s
    · exact skipControl_DestroyTargets s
  · rfl

theorem skipControl_consumeRescaleFlags (s : State) :
    skipControl (consumeRescaleFlags s).1 = skipControl s := by
  unfold consumeRescaleFlags
  dsimp only
  split
  · split
    · dsimp only
      rw [skipControl_DestroyTargets]; rfl
    · dsimp only
      rw [skipControl_ClearRenderTargetView]; rfl
  · rfl

theorem skipControl_applyNewParam (refs : List (Nat × Nat)) (s : State) (ip : Int × String × ℚ) :
    skipControl (applyNewParam refs s ip) = skipControl s := by
  unfold applyNewParam
  split <;> rfl

theorem skipControl_swapPreset (s : State) : skipControl (swapPreset s).1 = skipControl s := by
  unfold swapPreset
  split
  · rfl
  · rename_i newPreset hnew
    dsimp only
    split
    · show skipControl (List.foldl (applyNewParam
        (Params (RebuildShaders (setNewShaderPreset none (setShaderPreset newPreset
          (DestroyShaders s))))))
        (RebuildShaders (setNewShaderPreset none (setShaderPreset newPreset (DestroyShaders s))))
        (RebuildShaders (setNewShaderPreset none (setShaderPreset newPreset
          (DestroyShaders s)))).m_newParams) = skipControl s
      exact foldl_preserves (fun x => skipControl x = skipControl s)
        (applyNewParam (Params (RebuildShaders (setNewShaderPreset none
          (setShaderPreset newPreset (DestroyShaders s)))))) _
        (fun a b ha => by beta_reduce; rw [skipControl_applyNewParam]; exact ha) _ rfl
    · rfl

theorem skipControl_createPreprocessed (texture : CapturedTexture) (ow oh : Nat)
    (flags : FrameFlags) (s : State) :
    skipControl (createPreprocessed texture ow oh flags s).1 = skipControl s := by
  unfold createPreprocessed
  dsimp only [CreateTexture2D, CreateShaderResourceView, CreateRenderTargetView]
  split <;> split <;> rfl

theorem skipControl_resizePasses (texture : CapturedTexture) (ow oh vw vh : Nat) (s : State) :
    skipControl (resizePasses texture ow oh vw vh s) = skipControl s := rfl

theorem skipControl_updateTransform (g : Geometry) (outputResized : Bool) (dw dh : Int)
    (s : State) : skipControl (updateTransform g outputResized dw dh s) = skipControl s := by
  unfold updateTransform
  split <;> rfl

theorem skipControl_renderPass (texture : CapturedTexture) (s : State) (p : Nat) :
    skipControl (renderPass texture s p) = skipControl s := by
  unfold renderPass
  dsimp only
  split
  · split <;> rfl
  · rfl

theorem skipControl_renderPreprocess (texture : CapturedTexture) (s : State) :
    skipControl (renderPreprocess texture s) = skipControl s := by
  unfold renderPreprocess
  dsimp only
  split <;> rfl

theorem skipControl_renderPasses (texture : CapturedTexture) (s : State) :
    skipControl (renderPasses texture s) = skipControl s := by
  unfold renderPasses
  dsimp only
  refine foldl_preserves (fun x => skipControl x = skipControl s) (renderPass texture) _
    (fun a b ha => by beta_reduce; rw [skipControl_renderPass]; exact ha) _ ?_
  beta_reduce
  rw [skipControl_renderPreprocess]
  split
  · rw [skipControl_logCalls, skipControl_ClearRenderTargetView]
  · rfl

theorem skipControl_copyPassFeedback (s : State) (q : Nat) :
    skipControl (copyPassFeedback s q) = skipControl s := by
  unfold copyPassFeedback
  split <;> rfl

theorem skipControl_copyDisplayFeedback (s : State) :
    skipControl (copyDisplayFeedback s) = skipControl s := by
  unfold copyDisplayFeedback
  split
  · rfl
  · dsimp only
    repeat' split
    all_goals rfl

theorem skipControl_copyFeedback (s : State) : skipControl (copyFeedback s) = skipControl s := by
  unfold copyFeedback
  split
  · rw [skipControl_copyDisplayFeedback]
    exact foldl_preserves (fun x => skipControl x = skipControl s) copyPassFeedback _
      (fun a b ha => by beta_reduce; rw [skipControl_copyPassFeedback]; exact ha) s rfl
  · rfl

theorem skipControl_rotateHistory (s : State) : skipControl (rotateHistory s) = skipControl s := by
  unfold rotateHistory
  split
  · split
    · dsimp only
      split
      · split <;> rfl
      · rfl
    · rfl
  · rfl

theorem skipControl_finishFrame (ticks : Nat) (s : State) :
    skipControl (finishFrame ticks s) = skipControl s := by
  unfold finishFrame
  dsimp only
  split <;> rfl

theorem skipControl_renderFrame (inp : FrameInput) (texture : CapturedTexture) (g : Geometry)
    (outputResized : Bool) (vw vh : Nat) (dw dh : Int) (s : State) :
    skipControl (renderFrame inp texture g outputResized vw vh dw dh s) = skipControl s := by
  unfold renderFrame
  dsimp only
  rw [skipControl_finishFrame, skipControl_rotateHistory, skipControl_copyFeedback,
    skipControl_renderPasses, skipControl_updateTransform]
  have h0 : ∀ ow oh flags, skipControl (createPreprocessed texture ow oh flags
      (swapPreset (consumeRescaleFlags s).1).1).1 = skipControl s := by
    intro ow oh flags
    rw [skipControl_createPreprocessed, skipControl_swapPreset, skipControl_consumeRescaleFlags]
  have h1 : ∀ (b : Bool) (x y : State), skipControl x = skipControl s →
      skipControl y = skipControl s → skipControl (if b = true then x else y) = skipControl s := by
    intro b x y hx hy
    cases b
    · simpa using hy
    · simpa using hx
  have h2 : ∀ ow oh flags (b : Bool), skipControl (if b = true then
      resizePasses texture ow oh vw vh (createPreprocessed texture ow oh flags
        (swapPreset (consumeRescaleFlags s).1).1).1
      else (createPreprocessed texture ow oh flags
        (swapPreset (consumeRescaleFlags s).1).1).1) = skipControl s := by
    intro ow oh flags b
    apply h1
    · rw [skipControl_resizePasses]; exact h0 _ _ _
    · exact h0 _ _ _
  apply h1
  · rw [(rebuildGraph_fields _ _ _ _).1]
    exact h2 _ _ _ _
  · exact h2 _ _ _ _

theorem skipControl_processLocked (inp : FrameInput) (texture : CapturedTexture) (s : State) :
    skipControl (processLocked inp texture s).1 = skipControl s := by
  have h0 : skipControl (TryResizeSwapChain (captureGeometry inp texture s).2.clientRect
      (captureGeometry inp texture s).1.m_outputRescaled (captureGeometry inp texture s).1).1 =
        skipControl s := by
    rw [skipControl_TryResizeSwapChain, skipControl_captureGeometry]
  unfold processLocked
  dsimp only
  split
  · exact h0
  · split
    · exact h0
    · dsimp only
      rw [skipControl_renderFrame]
      exact h0

theorem processLocked_not_skipped (inp : FrameInput) (texture : CapturedTexture) (s : State) :
    (processLocked inp texture s).2 ≠ Outcome.skipped := by
  unfold processLocked
  dsimp only
  split
  · simp
  · split <;> simp

/-- Every call of `Process` adds one to the frame counter and leaves `m_running` and
`m_frameSkip` as they are. -/
theorem Process_skipControl (inp : FrameInput) (s : State) :
    (Process inp s).m_running = s.m_running ∧ (Process inp s).m_frameSkip = s.m_frameSkip ∧
      (Process inp s).m_frameCounter = s.m_frameCounter + 1 := by
  have key : skipControl (Process inp s) =
      (s.m_running, s.m_frameSkip, s.m_frameCounter + 1) := by
    unfold Process ProcessTraced
    dsimp only
    split
    · rfl
    · split
      · rfl
      · split
        · rfl
        · rw [skipControl_processLocked]; rfl
  simp only [skipControl, Prod.mk.injEq] at key
  exact key

theorem runFrames_skipControl (inps : List FrameInput) (s : State) :
    (runFrames s inps).m_running = s.m_running ∧
      (runFrames s inps).m_frameSkip = s.m_frameSkip ∧
      (runFrames s inps).m_frameCounter = s.m_frameCounter + inps.length := by
  induction inps generalizing s with
  | nil => simp [runFrames]
  | cons inp rest ih =>
    obtain ⟨h1, h2, h3⟩ := ih (Process inp s)
    obtain ⟨g1, g2, g3⟩ := Process_skipControl inp s
    refine ⟨by rw [runFrames, h1, g1], by rw [runFrames, h2, g2], ?_⟩
    rw [runFrames, h3, g3]
    simp only [List.length_cons]
    push_cast
    ring

/-- What `Process` does on a running pipeline with a texture: skipped exactly when the
skip test fires, and then the frame is only presented. -/
theorem Process_skip_test (inp : FrameInput) (s : State) (hrun : s.m_running = true)
    (htex : inp.texture.isSome = true) :
    ((ProcessTraced inp s).2 = Outcome.skipped ↔
        frameSkipped (setFrameCounter (s.m_frameCounter + 1) s) = true) ∧
      ((ProcessTraced inp s).2 = Outcome.skipped →
        Process inp s = PresentFrame (setFrameCounter (s.m_frameCounter + 1) s)) := by
  unfold Process ProcessTraced
  dsimp only
  have hr : (setFrameCounter (s.m_frameCounter + 1) s).m_running = true := hrun
  by_cases hsk : frameSkipped (setFrameCounter (s.m_frameCounter + 1) s) = true
  · rw [if_pos (by simp [hsk])]
    simp [hsk]
  · have hcond : ¬ ((!(setFrameCounter (s.m_frameCounter + 1) s).m_running ||
        inp.texture.isNone || frameSkipped (setFrameCounter (s.m_frameCounter + 1) s)) = true) := by
      have : inp.texture.isNone = false := by
        cases h : inp.texture <;> simp_all
      simp [hrun, this, hsk]
    rw [if_neg hcond]
    cases htx : inp.texture with
    | none => simp [htx] at htex
    | some texture =>
      dsimp only
      split
      · simp [hsk]
      · have := processLocked_not_skipped inp texture (setFrameCounter (s.m_frameCounter + 1) s)
        simp [hsk, this]

theorem frameSkipped_iff (s : State) (S : Nat) (hskip : s.m_frameSkip = (S : Int)) :
    frameSkipped s = false ↔ ((S : Int) + 1) ∣ s.m_frameCounter := by
  unfold frameSkipped
  rw [hskip]
  by_cases hS : S = 0
  · subst hS
    simp
  · have h0 : ((S : Int) != 0) = true := by
      simp only [bne_iff_ne, ne_eq]
      exact_mod_cast hS
    rw [h0, Bool.true_and]
    constructor
    · intro h
      have h1 : s.m_frameCounter.tmod ((S : Int) + 1) = 0 := by simpa using h
      exact Int.dvd_of_tmod_eq_zero h1
    · intro h
      have h1 := Int.tmod_eq_zero_of_dvd h
      simp [h1]

theorem one_multiple_in_window (c : Int) (S : Nat) :
    ∃ k, k < S + 1 ∧ ((S : Int) + 1) ∣ c + (k : Int) + 1 := by
  have hm : (0 : Int) < (S : Int) + 1 := by positivity
  refine ⟨((-(c + 1)) % ((S : Int) + 1)).toNat, ?_, ?_⟩
  · have h1 := Int.emod_lt_of_pos (-(c + 1)) hm
    have h2 := Int.emod_nonneg (-(c + 1)) (ne_of_gt hm)
    omega
  · have h2 := Int.emod_nonneg (-(c + 1)) (ne_of_gt hm)
    rw [Int.toNat_of_nonneg h2]
    have h3 := Int.emod_add_ediv (-(c + 1)) ((S : Int) + 1)
    refine ⟨-((-(c + 1)) / ((S : Int) + 1)), ?_⟩
    linarith

theorem multiple_in_window_unique (c : Int) (S k1 k2 : Nat) (h1 : k1 < S + 1) (h2 : k2 < S + 1)
    (d1 : ((S : Int) + 1) ∣ c + (k1 : Int) + 1) (d2 : ((S : Int) + 1) ∣ c + (k2 : Int) + 1) :
    k1 = k2 := by
  have hd : ((S : Int) + 1) ∣ (k1 : Int) - (k2 : Int) := by
    have := Int.dvd_sub d1 d2
    have e : c + (k1 : Int) + 1 - (c + (k2 : Int) + 1) = (k1 : Int) - (k2 : Int) := by ring
    rwa [e] at this
  have hz : (k1 : Int) - (k2 : Int) = 0 := by
    apply Int.eq_zero_of_abs_lt_dvd hd
    rw [abs_lt]
    constructor <;> omega
  omega

theorem skip_window_frame (S : Nat) (s : State) (inps : List FrameInput)
    (hrun : s.m_running = true) (hskip : s.m_frameSkip = (S : Int))
    (htex : ∀ inp ∈ inps, inp.texture.isSome = true) (k : Nat) (inp : FrameInput)
    (hk : inps[k]? = some inp) :
    ((ProcessTraced inp (runFrames s (inps.take k))).2 ≠ Outcome.skipped ↔
        ((S : Int) + 1) ∣ s.m_frameCounter + (k : Int) + 1) ∧
      ((ProcessTraced inp (runFrames s (inps.take k))).2 = Outcome.skipped →
        Process inp (runFrames s (inps.take k)) =
          logCalls [Call.present]
            (setFrameCounter (s.m_frameCounter + (k : Int) + 1) (runFrames s (inps.take k)))) := by
  obtain ⟨hlt, hget⟩ := List.getElem?_eq_some_iff.mp hk
  have hmem : inp ∈ inps := hget ▸ List.getElem_mem hlt
  obtain ⟨r1, r2, r3⟩ := runFrames_skipControl (inps.take k) s
  have hlen : (inps.take k).length = k := by
    rw [List.length_take]; omega
  rw [hlen] at r3
  obtain ⟨t1, t2⟩ := Process_skip_test inp (runFrames s (inps.take k)) (r1.trans hrun)
    (htex inp hmem)
  rw [r3] at t1 t2
  have hf := frameSkipped_iff (setFrameCounter (s.m_frameCounter + (k : Int) + 1)
    (runFrames s (inps.take k))) S (r2.trans hskip)
  refine ⟨?_, ?_⟩
  · rw [← hf, Ne, t1]
    simp
  · intro h
    exact t2 h

/-! ### C5: one frame in every `m_frameSkip + 1` passes the skip test -/

/-- C5: with frame skip `S` (never changed by `Process`), a running pipeline and `S + 1`
frames delivered one after the other, each with a texture, exactly one of the frames
gets past the skip test of line 333, namely the one whose incremented frame counter is a
multiple of `S + 1`; for every other frame `Process` is `PresentFrame` on the state with
the counter incremented, so that only the frame counter (and the log of device calls,
which gains the `Present`) differs from the state before. -/
theorem frame_skip_one_in_every (S : Nat) (s : State) (inps : List FrameInput)
    (hrun : s.m_running = true) (hskip : s.m_frameSkip = (S : Int))
    (hlen : inps.length = S + 1)
    (htex : ∀ inp ∈ inps, inp.texture.isSome = true) :
    (∃! k, ∃ inp, inps[k]? = some inp ∧
        (ProcessTraced inp (runFrames s (inps.take k))).2 ≠ Outcome.skipped) ∧
      (∀ k inp, inps[k]? = some inp →
        (runFrames s (inps.take k)).m_frameSkip = (S : Int) ∧
        (runFrames s (inps.take k)).m_frameCounter + 1 = s.m_frameCounter + (k : Int) + 1 ∧
        ((ProcessTraced inp (runFrames s (inps.take k))).2 ≠ Outcome.skipped ↔
          ((S : Int) + 1) ∣ (runFrames s (inps.take k)).m_frameCounter + 1) ∧
        ((ProcessTraced inp (runFrames s (inps.take k))).2 = Outcome.skipped →
          Process inp (runFrames s (inps.take k)) =
            { runFrames s (inps.take k) with
              m_frameCounter := (runFrames s (inps.take k)).m_frameCounter + 1,
              calls := (runFrames s (inps.take k)).calls ++ [Call.present] })) := by
  have hcnt : ∀ k inp, inps[k]? = some inp →
      (runFrames s (inps.take k)).m_frameSkip = (S : Int) ∧
        (runFrames s (inps.take k)).m_frameCounter = s.m_frameCounter + (k : Int) := by
    intro k inp hk
    obtain ⟨hlt, -⟩ := List.getElem?_eq_some_iff.mp hk
    obtain ⟨-, r2, r3⟩ := runFrames_skipControl (inps.take k) s
    have hl : (inps.take k).length = k := by
      rw [List.length_take]; omega
    rw [hl] at r3
    exact ⟨r2.trans hskip, r3⟩
  refine ⟨?_, ?_⟩
  · obtain ⟨k, hk, hd⟩ := one_multiple_in_window s.m_frameCounter S
    have hkl : k < inps.length := by omega
    refine ⟨k, ⟨inps[k], List.getElem?_eq_getElem hkl, ?_⟩, ?_⟩
    · exact (skip_window_frame S s inps hrun hskip htex k inps[k]
        (List.getElem?_eq_getElem hkl)).1.mpr hd
    · rintro j ⟨inp, hj, hne⟩
      obtain ⟨hlt, -⟩ := List.getElem?_eq_some_iff.mp hj
      have hdj := (skip_window_frame S s inps hrun hskip htex j inp hj).1.mp hne
      exact multiple_in_window_unique s.m_frameCounter S j k (by omega) hk hdj hd
  · intro k inp hk
    obtain ⟨c1, c2⟩ := hcnt k inp hk
    obtain ⟨w1, w2⟩ := skip_window_frame S s inps hrun hskip htex k inp hk
    refine ⟨c1, by rw [c2], ?_, ?_⟩
    · rw [c2]; exact w1
    · intro h
      rw [w2 h, c2]

/-- C5, instance: frame skip 2 and three frames from counter 0; the third frame, whose
incremented counter is 3, is the one that is processed. -/
theorem frame_skip_one_in_every_witness :
    skipState.m_running = true ∧ skipState.m_frameSkip = ((2 : Nat) : Int) ∧
      sampleFrames.length = 2 + 1 ∧
      (∀ inp ∈ sampleFrames, inp.texture.isSome = true) ∧
      ((ProcessTraced (sampleInput 3 800 600) (runFrames skipState (sampleFrames.take 2))).2 ≠
          Outcome.skipped ↔
        (((2 : Nat) : Int) + 1) ∣
          (runFrames skipState (sampleFrames.take 2)).m_frameCounter + 1) :=
  ⟨rfl, rfl, rfl, by decide,
    ((frame_skip_one_in_every 2 skipState sampleFrames rfl rfl rfl (by decide)).2 2
      (sampleInput 3 800 600) rfl).2.2.1⟩

/-! ### C6: what a frame dropped at the minimum-size check has done -/

theorem captureGeometry_clientRect (inp : FrameInput) (texture : CapturedTexture) (s : State) :
    (captureGeometry inp texture s).2.clientRect = inp.clientRect := by
  unfold captureGeometry
  dsimp only
  split
  · rfl
  · split <;> rfl

theorem captureGeometry_fields (inp : FrameInput) (texture : CapturedTexture) (s : State) :
    graphOf (captureGeometry inp texture s).1 = graphOf s ∧
      (captureGeometry inp texture s).1.m_outputRescaled = s.m_outputRescaled ∧
      (captureGeometry inp texture s).1.m_lastSize = s.m_lastSize ∧
      (captureGeometry inp texture s).1.m_preprocessedTexture = s.m_preprocessedTexture ∧
      (captureGeometry inp texture s).1.m_preprocessedRenderTarget =
        s.m_preprocessedRenderTarget ∧
      (captureGeometry inp texture s).1.m_originalView = s.m_originalView ∧
      (captureGeometry inp texture s).1.nextId = s.nextId ∧
      (captureGeometry inp texture s).1.calls = s.calls := by
  unfold captureGeometry
  dsimp only
  split
  · split <;> exact ⟨rfl, rfl, rfl, rfl, rfl, rfl, rfl, rfl⟩
  · split <;> exact ⟨rfl, rfl, rfl, rfl, rfl, rfl, rfl, rfl⟩

theorem DestroyTargets_fields (s : State) :
    graphOf (DestroyTargets s) = graphOf s ∧
      (DestroyTargets s).m_preprocessedRenderTarget = none ∧
      (DestroyTargets s).m_preprocessedTexture =
        (if s.m_preprocessedRenderTarget.isSome then none else s.m_preprocessedTexture) ∧
      (DestroyTargets s).m_originalView =
        (if s.m_preprocessedRenderTarget.isSome then none else s.m_originalView) ∧
      (DestroyTargets s).nextId = s.nextId ∧ (DestroyTargets s).calls = s.calls := by
  unfold DestroyTargets
  by_cases h : s.m_preprocessedRenderTarget.isSome = true
  · rw [if_pos h, if_pos h, if_pos h]
    exact ⟨rfl, rfl, rfl, rfl, rfl, rfl⟩
  · rw [if_neg h, if_neg h, if_neg h]
    refine ⟨rfl, ?_, rfl, rfl, rfl, rfl⟩
    cases h2 : s.m_preprocessedRenderTarget with
    | none => rfl
    | some v => rw [h2] at h; simp at h

theorem acquireDisplay_fields (r : RECT) (s : State) :
    graphOf (acquireDisplay r s) = graphOf s ∧
      (acquireDisplay r s).m_preprocessedRenderTarget = s.m_preprocessedRenderTarget ∧
      (acquireDisplay r s).m_preprocessedTexture = s.m_preprocessedTexture ∧
      (acquireDisplay r s).m_originalView = s.m_originalView ∧
      (acquireDisplay r s).calls = s.calls ++
        [Call.resizeBuffers (longToUINT r.right) (longToUINT r.bottom), Call.getBuffer s.nextId,
          Call.createRenderTargetView (some s.nextId)] := by
  unfold acquireDisplay
  dsimp only
  refine ⟨rfl, rfl, rfl, rfl, ?_⟩
  simp

theorem TryResizeSwapChain_fields (r : RECT) (force : Bool) (s : State)
    (hr : 0 < r.right ∧ 0 < r.bottom) :
    graphOf (TryResizeSwapChain r force s).1 = graphOf s ∧
      ((force || r.right != s.m_lastSize.x || r.bottom != s.m_lastSize.y) = false →
        (TryResizeSwapChain r force s).1 = s) ∧
      ((force || r.right != s.m_lastSize.x || r.bottom != s.m_lastSize.y) = true →
        (TryResizeSwapChain r force s).1.m_preprocessedRenderTarget = none ∧
        (TryResizeSwapChain r force s).1.m_preprocessedTexture =
          (if s.m_preprocessedRenderTarget.isSome then none else s.m_preprocessedTexture) ∧
        (TryResizeSwapChain r force s).1.m_originalView =
          (if s.m_preprocessedRenderTarget.isSome then none else s.m_originalView) ∧
        (TryResizeSwapChain r force s).1.calls = s.calls ++
          [Call.resizeBuffers (longToUINT r.right) (longToUINT r.bottom),
            Call.getBuffer s.nextId, Call.createRenderTargetView (some s.nextId)]) := by
  obtain ⟨d1, d2, d3, d4, d5, d6⟩ := DestroyTargets_fields s
  unfold TryResizeSwapChain
  by_cases hc : (force || r.right != s.m_lastSize.x || r.bottom != s.m_lastSize.y) = true
  · rw [if_pos hc]
    dsimp only
    rw [if_pos hr]
    obtain ⟨a1, a2, a3, a4, a5⟩ := acquireDisplay_fields r
      (setDisplayRenderTarget none (setDisplayTexture none
        (setLastSize ⟨r.right, r.bottom⟩ (DestroyTargets s))))
    refine ⟨a1.trans d1, fun h => (by rw [hc] at h; cases h), fun _ => ?_⟩
    refine ⟨a2.trans d2, a3.trans d3, a4.trans d4, ?_⟩
    rw [a5]
    have e1 : (setDisplayRenderTarget none (setDisplayTexture none
        (setLastSize ⟨r.right, r.bottom⟩ (DestroyTargets s)))).calls = s.calls := d6
    have e2 : (setDisplayRenderTarget none (setDisplayTexture none
        (setLastSize ⟨r.right, r.bottom⟩ (DestroyTargets s)))).nextId = s.nextId := d5
    rw [e1, e2]
  · rw [if_neg hc]
    refine ⟨rfl, fun _ => rfl, fun h => absurd h hc⟩

theorem processLocked_belowMinimum (inp : FrameInput) (texture : CapturedTexture) (s : State)
    (h : (processLocked inp texture s).2 = Outcome.belowMinimumSize) :
    (0 < inp.clientRect.right ∧ 0 < inp.clientRect.bottom) ∧
      ∃ bx by_, (processLocked inp texture s).1 = setBox bx by_
        (TryResizeSwapChain inp.clientRect (captureGeometry inp texture s).1.m_outputRescaled
          (captureGeometry inp texture s).1).1 := by
  unfold processLocked at h ⊢
  dsimp only at h ⊢
  rw [captureGeometry_clientRect] at h ⊢
  by_cases hc : (decide (inp.clientRect.right ≤ 0) || decide (inp.clientRect.bottom ≤ 0)) = true
  · rw [if_pos hc] at h
    cases h
  · rw [if_neg hc] at h ⊢
    have hpos : 0 < inp.clientRect.right ∧ 0 < inp.clientRect.bottom := by
      simp only [Bool.or_eq_true, decide_eq_true_eq, not_or, not_le] at hc
      exact hc
    refine ⟨hpos, ?_⟩
    split at h
    · rename_i hb
      rw [if_pos hb]
      exact ⟨_, _, rfl⟩
    · cases h

theorem ProcessTraced_belowMinimum (inp : FrameInput) (s : State)
    (h : (ProcessTraced inp s).2 = Outcome.belowMinimumSize) :
    ∃ texture, ProcessTraced inp s =
      processLocked inp texture (setFrameCounter (s.m_frameCounter + 1) s) := by
  unfold ProcessTraced at h ⊢
  dsimp only at h ⊢
  split at h
  · cases h
  · rename_i hc
    rw [if_neg hc]
    split at h
    · cases h
    · rename_i texture htx
      split at h
      · cases h
      · rename_i hl
        refine ⟨texture, ?_⟩
        rw [if_neg hl]

/-- C6, as the code has it: a frame dropped at the minimum-size check of line 464 leaves
the passes with their sizes, the named resources, the pass targets, the pass textures and
the texture sizes as they were.  When the client size is the recorded `m_lastSize` and
`m_outputRescaled` is not set, the preprocessed texture, its render target, the Original
view and the log of device calls are as before as well.  Otherwise `TryResizeSwapChain`
(line 402, before the check) has released the preprocessed render target, and with it the
Original view and the preprocessed texture when the target existed, and the device log has
gained `ResizeBuffers`, `GetBuffer` and the `CreateRenderTargetView` of the display
buffer: no texture and no shader resource view is created. -/
theorem min_size_drop_effect (inp : FrameInput) (s : State)
    (h : (ProcessTraced inp s).2 = Outcome.belowMinimumSize) :
    (Process inp s).m_shaderPasses = s.m_shaderPasses ∧
      (Process inp s).m_passResources = s.m_passResources ∧
      (Process inp s).m_passTargets = s.m_passTargets ∧
      (Process inp s).m_passTextures = s.m_passTextures ∧
      (Process inp s).m_textureSizes = s.m_textureSizes ∧
      ((s.m_outputRescaled || inp.clientRect.right != s.m_lastSize.x ||
          inp.clientRect.bottom != s.m_lastSize.y) = false →
        (Process inp s).m_preprocessedTexture = s.m_preprocessedTexture ∧
        (Process inp s).m_preprocessedRenderTarget = s.m_preprocessedRenderTarget ∧
        (Process inp s).m_originalView = s.m_originalView ∧
        (Process inp s).calls = s.calls) ∧
      ((s.m_outputRescaled || inp.clientRect.right != s.m_lastSize.x ||
          inp.clientRect.bottom != s.m_lastSize.y) = true →
        (Process inp s).m_preprocessedRenderTarget = none ∧
        (Process inp s).m_preprocessedTexture =
          (if s.m_preprocessedRenderTarget.isSome then none else s.m_preprocessedTexture) ∧
        (Process inp s).m_originalView =
          (if s.m_preprocessedRenderTarget.isSome then none else s.m_originalView) ∧
        (Process inp s).calls = s.calls ++
          [Call.resizeBuffers (longToUINT inp.clientRect.right)
              (longToUINT inp.clientRect.bottom),
            Call.getBuffer s.nextId, Call.createRenderTargetView (some s.nextId)]) := by
  obtain ⟨texture, hp⟩ := ProcessTraced_belowMinimum inp s h
  rw [hp] at h
  obtain ⟨hpos, bx, by_, hst⟩ := processLocked_belowMinimum inp texture _ h
  have hP : Process inp s = setBox bx by_
      (TryResizeSwapChain inp.clientRect
        (captureGeometry inp texture (setFrameCounter (s.m_frameCounter + 1) s)).1.m_outputRescaled
        (captureGeometry inp texture (setFrameCounter (s.m_frameCounter + 1) s)).1).1 := by
    unfold Process
    rw [hp, hst]
  obtain ⟨g1, g2, g3, g4, g5, g6, g7, g8⟩ :=
    captureGeometry_fields inp texture (setFrameCounter (s.m_frameCounter + 1) s)
  obtain ⟨t1, t2, t3⟩ := TryResizeSwapChain_fields inp.clientRect
    (captureGeometry inp texture (setFrameCounter (s.m_frameCounter + 1) s)).1.m_outputRescaled
    (captureGeometry inp texture (setFrameCounter (s.m_frameCounter + 1) s)).1 hpos
  have hg : graphOf (Process inp s) = graphOf s := by
    rw [hP]
    exact t1.trans g1
  simp only [graphOf, Prod.mk.injEq] at hg
  obtain ⟨q1, q2, q3, q4, q5⟩ := hg
  refine ⟨q1, q2, q3, q4, q5, ?_, ?_⟩
  · intro hc
    have e := t2 (by rw [g2, g3]; exact hc)
    rw [hP, e]
    exact ⟨g4, g5, g6, g8⟩
  · intro hc
    obtain ⟨u1, u2, u3, u4⟩ := t3 (by rw [g2, g3]; exact hc)
    rw [g5, g4] at u2
    rw [g5, g6] at u3
    rw [g7, g8] at u4
    rw [hP]
    exact ⟨u1, u2, u3, u4⟩

/-- C6, instance: the rendered sample pipeline, input scale 4, gets a frame while its
window is 2 by 600; the frame is dropped at the minimum-size check and the passes are
as before. -/
theorem min_size_drop_effect_witness :
    (ProcessTraced (sampleInput 2 2 600) coarseState).2 = Outcome.belowMinimumSize ∧
      (Process (sampleInput 2 2 600) coarseState).m_shaderPasses = coarseState.m_shaderPasses :=
  ⟨by decide!, (min_size_drop_effect (sampleInput 2 2 600) coarseState (by decide!)).1⟩

/-- C6, counterexample: the rendered sample pipeline with input scale 4 gets a frame
while its window is 2 by 600, so the destination width is 2.  `Process` returns at the
minimum-size check, yet the preprocessed texture and its render target, which existed
before the call, are gone after it, and a render target view has been created. -/
theorem min_size_drop_releases_targets :
    (ProcessTraced (sampleInput 2 2 600) coarseState).2 = Outcome.belowMinimumSize ∧
      coarseState.m_inputScaleW = 4 ∧
      destSize 2 coarseState.m_outputScaleW = 2 ∧
      coarseState.m_preprocessedTexture.isSome = true ∧
      coarseState.m_preprocessedRenderTarget.isSome = true ∧
      (Process (sampleInput 2 2 600) coarseState).m_preprocessedTexture = none ∧
      (Process (sampleInput 2 2 600) coarseState).m_preprocessedRenderTarget = none ∧
      (Process (sampleInput 2 2 600) coarseState).calls = coarseState.calls ++
        [Call.resizeBuffers 2 600, Call.getBuffer 10, Call.createRenderTargetView (some 10)] := by
  decide!

/-! ### C4: a frame without a topology rebuild -/

theorem createPreprocessed_noRebuild (texture : CapturedTexture) (ow oh : Nat)
    (flags : FrameFlags) (s : State)
    (h : (createPreprocessed texture ow oh flags s).2.rebuildPasses = false) :
    createPreprocessed texture ow oh flags s = (s, flags) ∧ flags.rebuildPasses = false ∧
      s.m_preprocessedRenderTarget.isSome = true := by
  unfold createPreprocessed at h ⊢
  dsimp only [CreateTexture2D, CreateShaderResourceView, CreateRenderTargetView] at h ⊢
  by_cases h1 : s.m_preprocessedTexture.isNone = true
  · rw [if_pos h1] at h
    dsimp only at h
    split at h <;> cases h
  · rw [if_neg h1] at h ⊢
    dsimp only at h ⊢
    by_cases h2 : s.m_preprocessedRenderTarget.isNone = true
    · rw [if_pos h2] at h
      cases h
    · rw [if_neg h2] at h ⊢
      refine ⟨rfl, h, ?_⟩
      cases h3 : s.m_preprocessedRenderTarget with
      | none => rw [h3] at h2; simp at h2
      | some v => rfl

theorem swapPreset_false (s : State) (h : (swapPreset s).2 = false) : (swapPreset s).1 = s := by
  unfold swapPreset at h ⊢
  split
  · rfl
  · rename_i newPreset hn
    rw [hn] at h
    cases h

theorem ClearRenderTargetView_target (v : Option RenderTargetView) (s : State) :
    (ClearRenderTargetView v s).m_preprocessedRenderTarget = s.m_preprocessedRenderTarget := by
  unfold ClearRenderTargetView
  split <;> rfl

theorem consumeRescaleFlags_keeps (s : State)
    (h : (consumeRescaleFlags s).1.m_preprocessedRenderTarget.isSome = true) :
    consumeRescaleFlags s = (setRescaleFlags false false s, false) := by
  unfold consumeRescaleFlags at h ⊢
  dsimp only at h ⊢
  by_cases h1 : s.m_inputRescaled = true
  · rw [if_pos h1] at h
    exfalso
    by_cases h2 : s.m_preprocessedRenderTarget.isSome = true
    · rw [if_pos h2] at h
      dsimp only at h
      have := (DestroyTargets_fields (setRescaleFlags false false s)).2.1
      rw [this] at h
      simp at h
    · rw [if_neg h2] at h
      dsimp only at h
      rw [ClearRenderTargetView_target] at h
      exact h2 h
  · rw [if_neg h1]
    have : s.m_inputRescaled = false := by
      cases hb : s.m_inputRescaled
      · rfl
      · exact absurd hb h1
    rw [this]

theorem TryResizeSwapChain_keeps (r : RECT) (force : Bool) (s : State)
    (h : (TryResizeSwapChain r force s).1.m_preprocessedRenderTarget.isSome = true) :
    TryResizeSwapChain r force s = (s, false) := by
  unfold TryResizeSwapChain at h ⊢
  by_cases hc : (force || r.right != s.m_lastSize.x || r.bottom != s.m_lastSize.y) = true
  · rw [if_pos hc] at h
    exfalso
    dsimp only at h
    have d := (DestroyTargets_fields s).2.1
    split at h
    · dsimp only at h
      rw [(acquireDisplay_fields _ _).2.1] at h
      have e : (setDisplayRenderTarget none (setDisplayTexture none
          (setLastSize ⟨r.right, r.bottom⟩ (DestroyTargets s)))).m_preprocessedRenderTarget =
            none := d
      rw [e] at h
      simp at h
    · have e : (setDisplayRenderTarget none (setDisplayTexture none
          (setLastSize ⟨r.right, r.bottom⟩ (DestroyTargets s)))).m_preprocessedRenderTarget =
            none := d
      dsimp only at h
      rw [e] at h
      simp at h
  · rw [if_neg hc]

theorem renderFrame_steady (inp : FrameInput) (texture : CapturedTexture) (g : Geometry)
    (outputResized : Bool) (vw vh : Nat) (dw dh : Int) (s : State)
    (h : (createPreprocessed texture
        (originalSize (swapPreset (consumeRescaleFlags s).1).1 g dw dh).1
        (originalSize (swapPreset (consumeRescaleFlags s).1).1 g dw dh).2
        (if (swapPreset (consumeRescaleFlags s).1).2 = true then ⟨true, true, true⟩
          else ⟨(consumeRescaleFlags s).2, outputResized, false⟩)
        (swapPreset (consumeRescaleFlags s).1).1).2.rebuildPasses = false) :
    s.m_preprocessedRenderTarget.isSome = true ∧
      (outputResized = false →
        renderFrame inp texture g outputResized vw vh dw dh s =
          finishFrame inp.ticks (rotateHistory (copyFeedback (renderPasses texture
            (updateTransform g false dw dh (setRescaleFlags false false s)))))) := by
  obtain ⟨e1, e2, e3⟩ := createPreprocessed_noRebuild _ _ _ _ _ h
  have hsp : (swapPreset (consumeRescaleFlags s).1).2 = false := by
    cases hb : (swapPreset (consumeRescaleFlags s).1).2
    · rfl
    · rw [hb] at e2
      cases e2
  have hsp1 := swapPreset_false _ hsp
  rw [hsp1] at e3
  have hcf := consumeRescaleFlags_keeps s e3
  refine ⟨?_, ?_⟩
  · rw [hcf] at e3
    exact e3
  · intro ho
    subst ho
    unfold renderFrame
    dsimp only
    rw [e1]
    dsimp only
    rw [hsp, hsp1, hcf]
    rfl

theorem ProcessTraced_locked (inp : FrameInput) (s : State)
    (h1 : (ProcessTraced inp s).2 ≠ Outcome.skipped)
    (h2 : (ProcessTraced inp s).2 ≠ Outcome.lockBusy) :
    ∃ texture, inp.texture = some texture ∧ ProcessTraced inp s =
      processLocked inp texture (setFrameCounter (s.m_frameCounter + 1) s) := by
  unfold ProcessTraced at h1 h2 ⊢
  dsimp only at h1 h2 ⊢
  split at h1
  · exact absurd rfl h1
  · rename_i hc
    rw [if_neg hc] at h2 ⊢
    split at h1
    · exact absurd rfl h1
    · rename_i texture htx
      rw [htx] at h2
      dsimp only at h2
      refine ⟨texture, htx, ?_⟩
      split at h2
      · exact absurd rfl h2
      · rename_i hl
        rw [if_neg hl]

theorem captureGeometry_wiring (inp : FrameInput) (texture : CapturedTexture) (s : State) :
    wiring (captureGeometry inp texture s).1 = wiring s ∧
      (captureGeometry inp texture s).1.pixels = s.pixels := by
  unfold captureGeometry
  dsimp only
  split
  · split <;> exact ⟨rfl, rfl⟩
  · split <;> exact ⟨rfl, rfl⟩

theorem updateTransform_wiring (g : Geometry) (o : Bool) (dw dh : Int) (s : State) :
    wiring (updateTransform g o dw dh s) = wiring s ∧
      (updateTransform g o dw dh s).pixels = s.pixels := by
  unfold updateTransform
  split
  · exact ⟨rfl, rfl⟩
  · exact ⟨rfl, rfl⟩

theorem updateTransform_graph (g : Geometry) (o : Bool) (dw dh : Int) (s : State) :
    graphOf (updateTransform g o dw dh s) = graphOf s := by
  unfold updateTransform
  split <;> rfl

/-- A frame that runs to its end without a topology rebuild is the draw of the passes,
the feedback copy and the history rotation on a state with the same graph and the same
texture contents as before. -/
theorem Process_steady_graph (inp : FrameInput) (s : State)
    (hc : (ProcessTraced inp s).2 = Outcome.completed) (hr : rebuildsPasses inp s = false) :
    ∃ texture s0, inp.texture = some texture ∧ wiring s0 = wiring s ∧ s0.pixels = s.pixels ∧
      Process inp s =
        finishFrame inp.ticks (rotateHistory (copyFeedback (renderPasses texture s0))) ∧
      graphOf s0 = graphOf s := by
  obtain ⟨texture, htx, hp⟩ := ProcessTraced_locked inp s (by rw [hc]; decide)
    (by rw [hc]; decide)
  unfold rebuildsPasses at hr
  rw [htx] at hr
  dsimp only at hr
  rw [hp] at hc
  unfold Process
  rw [hp]
  unfold processLocked at hc ⊢
  dsimp only at hc ⊢
  obtain ⟨w1, w2⟩ := captureGeometry_wiring inp texture (setFrameCounter (s.m_frameCounter + 1) s)
  have w3 : graphOf (captureGeometry inp texture (setFrameCounter (s.m_frameCounter + 1) s)).1 =
      graphOf s := (captureGeometry_fields inp texture _).1
  generalize captureGeometry inp texture (setFrameCounter (s.m_frameCounter + 1) s) = cg
    at hc hr w1 w2 w3 ⊢
  split at hc
  · cases hc
  · rename_i h1
    rw [if_neg h1]
    split at hc
    · cases hc
    · rename_i h2
      rw [if_neg h2]
      dsimp only
      obtain ⟨r1, r2⟩ := renderFrame_steady inp texture cg.2
        (TryResizeSwapChain cg.2.clientRect cg.1.m_outputRescaled cg.1).2
        (longToUINT (letterbox (TryResizeSwapChain cg.2.clientRect cg.1.m_outputRescaled cg.1).1
          cg.2).clientWidth)
        (longToUINT (letterbox (TryResizeSwapChain cg.2.clientRect cg.1.m_outputRescaled cg.1).1
          cg.2).clientHeight) _ _ _ hr
      have r3 : (TryResizeSwapChain cg.2.clientRect cg.1.m_outputRescaled
          cg.1).1.m_preprocessedRenderTarget.isSome = true := r1
      have r4 := TryResizeSwapChain_keeps _ _ _ r3
      rw [r4] at r2 ⊢
      refine ⟨texture, _, htx, ?_, ?_, r2 rfl, ?_⟩
      · rw [(updateTransform_wiring _ _ _ _ _).1]
        exact w1
      · rw [(updateTransform_wiring _ _ _ _ _).2]
        exact w2
      · rw [updateTransform_graph]
        exact w3

theorem Process_steady (inp : FrameInput) (s : State)
    (hc : (ProcessTraced inp s).2 = Outcome.completed) (hr : rebuildsPasses inp s = false) :
    ∃ texture s0, inp.texture = some texture ∧ wiring s0 = wiring s ∧ s0.pixels = s.pixels ∧
      Process inp s =
        finishFrame inp.ticks (rotateHistory (copyFeedback (renderPasses texture s0))) := by
  obtain ⟨texture, s0, h1, h2, h3, h4, -⟩ := Process_steady_graph inp s hc hr
  exact ⟨texture, s0, h1, h2, h3, h4⟩

/-! ### C4: which textures a frame writes -/

theorem pixelsOf_writePixels (id : Nat) (p : Pixels) (s : State) (id2 : Nat) :
    pixelsOf (writePixels id p s) id2 = if id = id2 then p else pixelsOf s id2 := by
  unfold pixelsOf
  dsimp only
  by_cases h : id = id2
  · subst h
    rw [mapFind_mapAssign_self, if_pos rfl]
    rfl
  · rw [mapFind_mapAssign_ne _ _ _ _ h, if_neg h]

theorem CopyResource_effect (dst src : Texture2D) (s : State) :
    wiring (CopyResource dst src s) = wiring s ∧
      ∀ id, pixelsOf (CopyResource dst src s) id =
        if dst.id = id then
          (if copyCompatible dst.desc src.desc then pixelsOf s src.id else Pixels.undefined)
        else pixelsOf s id := by
  unfold CopyResource
  refine ⟨rfl, fun id => ?_⟩
  exact pixelsOf_writePixels dst.id _ s id

theorem CopySubresourceRegion_effect (dst src : Nat) (s : State) :
    wiring (CopySubresourceRegion dst src s) = wiring s ∧
      ∀ id, dst ≠ id → pixelsOf (CopySubresourceRegion dst src s) id = pixelsOf s id := by
  unfold CopySubresourceRegion
  refine ⟨rfl, fun id h => ?_⟩
  have := pixelsOf_writePixels dst (Pixels.region (pixelsOf s src)) s id
  rw [if_neg h] at this
  exact this

theorem ClearRenderTargetView_effect (v : Option RenderTargetView) (s : State) :
    wiring (ClearRenderTargetView v s) = wiring s ∧
      ∀ id, v.map (fun x => x.texture.id) ≠ some id →
        pixelsOf (ClearRenderTargetView v s) id = pixelsOf s id := by
  unfold ClearRenderTargetView
  cases v with
  | none => exact ⟨rfl, fun id _ => rfl⟩
  | some view =>
    refine ⟨rfl, fun id h => ?_⟩
    have h2 : view.texture.id ≠ id := fun e => h (by rw [← e]; rfl)
    have := pixelsOf_writePixels view.texture.id Pixels.background
      (logCalls [Call.clearRenderTargetView (some view.texture.id)] s) id
    rw [if_neg h2] at this
    exact this

theorem renderPreprocess_effect (texture : CapturedTexture) (s : State) :
    wiring (renderPreprocess texture s) = wiring s ∧
      ∀ id, pixelsOf (renderPreprocess texture s) id =
        if preprocessId s = some id then Pixels.original texture.frame else pixelsOf s id := by
  unfold renderPreprocess preprocessId
  dsimp only
  cases h : s.m_preprocessPass.m_targetView with
  | none =>
    refine ⟨rfl, fun id => ?_⟩
    simp only [Option.map_none']
    rw [if_neg (by simp)]
    rfl
  | some target =>
    refine ⟨rfl, fun id => ?_⟩
    dsimp only
    have := pixelsOf_writePixels target.texture.id (Pixels.original texture.frame)
      (logCalls [Call.renderPreprocess] s) id
    rw [this]
    simp only [Option.map_some', Option.some.injEq]
    rfl

theorem renderPass_effect (texture : CapturedTexture) (s : State) (p : Nat) :
    wiring (renderPass texture s p) = wiring s ∧
      ∀ id, some id ∉ passTargetIds s → pixelsOf (renderPass texture s p) id = pixelsOf s id := by
  unfold renderPass
  dsimp only
  cases h : s.m_shaderPasses[p]? with
  | none => exact ⟨rfl, fun id _ => rfl⟩
  | some shaderPass =>
    dsimp only
    cases h2 : shaderPass.m_targetView with
    | none => exact ⟨rfl, fun id _ => rfl⟩
    | some target =>
      refine ⟨rfl, fun id hid => ?_⟩
      dsimp only
      have hne : target.texture.id ≠ id := by
        intro e
        apply hid
        unfold passTargetIds
        rw [List.mem_map]
        refine ⟨shaderPass, mem_of_getElem?_some _ _ _ h, ?_⟩
        rw [h2, ← e]
        rfl
      have := pixelsOf_writePixels target.texture.id (Pixels.passOutput p texture.frame)
        (logCalls [Call.renderPass p] s) id
      rw [if_neg hne] at this
      exact this

theorem wiring_eq (a b : State) (h : wiring a = wiring b) :
    a.m_passResources = b.m_passResources ∧ a.m_shaderPasses = b.m_shaderPasses ∧
      a.m_preprocessPass.m_targetView = b.m_preprocessPass.m_targetView ∧
      a.m_preprocessedRenderTarget = b.m_preprocessedRenderTarget ∧
      a.m_requiresHistory = b.m_requiresHistory := by
  simp only [wiring, Prod.mk.injEq] at h
  exact h

theorem wiring_readers (a b : State) (h : wiring a = wiring b) :
    (∀ n, viewOf a n = viewOf b n) ∧ historyIds a = historyIds b ∧
      originalId a = originalId b ∧ preprocessId a = preprocessId b ∧
      clearId a = clearId b ∧ passTargetIds a = passTargetIds b ∧
      feedbackIds a = feedbackIds b ∧ historyWF a = historyWF b := by
  obtain ⟨h1, h2, h3, h4, h5⟩ := wiring_eq a b h
  have hv : ∀ n, viewOf a n = viewOf b n := by
    intro n
    unfold viewOf
    rw [h1]
  have hh : historyIds a = historyIds b := by
    unfold historyIds historyView
    rw [h5]
    simp only [hv]
  have ho : originalId a = originalId b := by
    unfold originalId
    rw [hv]
  have hp : preprocessId a = preprocessId b := by
    unfold preprocessId
    rw [h3]
  have hc : clearId a = clearId b := by
    unfold clearId
    rw [h4]
  have ht : passTargetIds a = passTargetIds b := by
    unfold passTargetIds
    rw [h2]
  have hf : feedbackIds a = feedbackIds b := by
    unfold feedbackIds
    rw [h2]
    simp only [hv]
  refine ⟨hv, hh, ho, hp, hc, ht, hf, ?_⟩
  unfold historyWF
  rw [hh, ho, hp, hc, ht, hf]

theorem renderPasses_effect (texture : CapturedTexture) (s : State) :
    wiring (renderPasses texture s) = wiring s ∧
      (∀ id, some id ∉ passTargetIds s → preprocessId s = some id →
        pixelsOf (renderPasses texture s) id = Pixels.original texture.frame) ∧
      (∀ id, some id ∉ passTargetIds s → preprocessId s ≠ some id → clearId s ≠ some id →
        pixelsOf (renderPasses texture s) id = pixelsOf s id) := by
  have hclear : ∀ st : State, wiring (if (s.m_captureWindow && !s.m_clone) = true then
        ClearRenderTargetView s.m_preprocessedRenderTarget st else st) = wiring st ∧
      ∀ id, clearId s ≠ some id → pixelsOf (if (s.m_captureWindow && !s.m_clone) = true then
        ClearRenderTargetView s.m_preprocessedRenderTarget st else st) id = pixelsOf st id := by
    intro st
    split
    · exact ClearRenderTargetView_effect _ _
    · exact ⟨rfl, fun _ _ => rfl⟩
  obtain ⟨c1, c2⟩ := hclear s
  have hpre := renderPreprocess_effect texture (logCalls [Call.createCapturedView texture.frame]
    (if (s.m_captureWindow && !s.m_clone) = true then
      ClearRenderTargetView s.m_preprocessedRenderTarget s else s))
  obtain ⟨p1, p2⟩ := hpre
  have hw2 : wiring (renderPreprocess texture (logCalls [Call.createCapturedView texture.frame]
    (if (s.m_captureWindow && !s.m_clone) = true then
      ClearRenderTargetView s.m_preprocessedRenderTarget s else s))) = wiring s := by
    rw [p1]
    exact c1
  have hpid : preprocessId (logCalls [Call.createCapturedView texture.frame]
      (if (s.m_captureWindow && !s.m_clone) = true then
        ClearRenderTargetView s.m_preprocessedRenderTarget s else s)) = preprocessId s :=
    (wiring_readers _ _ c1).2.2.2.1
  rw [hpid] at p2
  have hfold : wiring (renderPasses texture s) = wiring s ∧
      ∀ id, some id ∉ passTargetIds s → pixelsOf (renderPasses texture s) id =
        pixelsOf (renderPreprocess texture (logCalls [Call.createCapturedView texture.frame]
          (if (s.m_captureWindow && !s.m_clone) = true then
            ClearRenderTargetView s.m_preprocessedRenderTarget s else s))) id := by
    unfold renderPasses
    dsimp only
    apply foldl_preserves (fun st : State => wiring st = wiring s ∧
      ∀ id, some id ∉ passTargetIds s → pixelsOf st id =
        pixelsOf (renderPreprocess texture (logCalls [Call.createCapturedView texture.frame]
          (if (s.m_captureWindow && !s.m_clone) = true then
            ClearRenderTargetView s.m_preprocessedRenderTarget s else s))) id)
    · intro st p ⟨hw, hpx⟩
      obtain ⟨e1, e2⟩ := renderPass_effect texture st p
      refine ⟨e1.trans hw, fun id hid => ?_⟩
      rw [e2 id (by rw [(wiring_readers _ _ hw).2.2.2.2.2.1]; exact hid)]
      exact hpx id hid
    · exact ⟨hw2, fun _ _ => rfl⟩
  obtain ⟨f1, f2⟩ := hfold
  refine ⟨f1, fun id hid hp => ?_, fun id hid hp hc => ?_⟩
  · rw [f2 id hid, p2, if_pos hp]
  · rw [f2 id hid, p2, if_neg hp]
    exact c2 id hc

theorem foldl_range_invariant {α : Type} (P : α → Prop) (f : α → Nat → α) (k : Nat)
    (h : ∀ a i, i < k → P a → P (f a i)) (a : α) (ha : P a) :
    P ((List.range k).foldl f a) := by
  induction k with
  | zero => exact ha
  | succ n ih =>
    rw [foldl_range_succ]
    exact h _ n (Nat.lt_succ_self n) (ih (fun a i hi hp => h a i (Nat.lt_succ_of_lt hi) hp))

theorem feedbackIds_mem (s : State) (q : Nat) (v : ShaderResourceView)
    (hq : q < s.m_shaderPasses.length)
    (h : mapFind s.m_passResources (Name.passFeedback q) = some (some v)) :
    some v.texture.id ∈ feedbackIds s := by
  unfold feedbackIds
  rw [List.mem_map]
  refine ⟨q, List.mem_range.mpr hq, ?_⟩
  unfold viewOf
  rw [h]
  rfl

theorem copyPassFeedback_effect (s : State) (q : Nat) (hq : q < s.m_shaderPasses.length) :
    wiring (copyPassFeedback s q) = wiring s ∧
      ∀ id, some id ∉ feedbackIds s → pixelsOf (copyPassFeedback s q) id = pixelsOf s id := by
  unfold copyPassFeedback
  split
  · rename_i passOutput passFeedback h1 h2
    obtain ⟨e1, e2⟩ := CopyResource_effect passFeedback.texture passOutput.texture s
    refine ⟨e1, fun id hid => ?_⟩
    rw [e2, if_neg]
    intro e
    apply hid
    rw [← e]
    exact feedbackIds_mem s q passFeedback hq h2
  · exact ⟨rfl, fun _ _ => rfl⟩

theorem copyDisplayFeedback_effect (s : State) :
    wiring (copyDisplayFeedback s) = wiring s ∧
      ∀ id, some id ∉ feedbackIds s → pixelsOf (copyDisplayFeedback s) id = pixelsOf s id := by
  unfold copyDisplayFeedback
  split
  · exact ⟨rfl, fun _ _ => rfl⟩
  · rename_i displayTexture hd
    dsimp only
    split
    · rename_i lastPass lastPassFeedback h1 h2
      have hlt : s.m_shaderPasses.length - 1 < s.m_shaderPasses.length :=
        (List.getElem?_eq_some_iff.mp h1).1
      have hmem := feedbackIds_mem s _ lastPassFeedback hlt h2
      have hne : ∀ id, some id ∉ feedbackIds s → lastPassFeedback.texture.id ≠ id := by
        intro id hid e
        apply hid
        rw [← e]
        exact hmem
      have hite : ∀ (c : Prop) [Decidable c] (a b : State),
          (wiring a = wiring s ∧ ∀ id, some id ∉ feedbackIds s → pixelsOf a id = pixelsOf s id) →
          (wiring b = wiring s ∧ ∀ id, some id ∉ feedbackIds s → pixelsOf b id = pixelsOf s id) →
          (wiring (if c then a else b) = wiring s ∧
            ∀ id, some id ∉ feedbackIds s → pixelsOf (if c then a else b) id = pixelsOf s id) := by
        intro c _ a b ha hb
        split
        · exact ha
        · exact hb
      have hsame : wiring s = wiring s ∧
          ∀ id, some id ∉ feedbackIds s → pixelsOf s id = pixelsOf s id :=
        ⟨rfl, fun _ _ => rfl⟩
      apply hite
      · apply hite
        · apply hite
          · obtain ⟨e1, e2⟩ := CopySubresourceRegion_effect lastPassFeedback.texture.id
              displayTexture.id s
            exact ⟨e1, fun id hid => e2 id (hne id hid)⟩
          · exact hsame
        · exact hsame
      · obtain ⟨e1, e2⟩ := CopyResource_effect lastPassFeedback.texture displayTexture s
        refine ⟨e1, fun id hid => ?_⟩
        rw [e2, if_neg (hne id hid)]
    · exact ⟨rfl, fun _ _ => rfl⟩

theorem copyFeedback_effect (s : State) :
    wiring (copyFeedback s) = wiring s ∧
      ∀ id, some id ∉ feedbackIds s → pixelsOf (copyFeedback s) id = pixelsOf s id := by
  unfold copyFeedback
  split
  · have hfold : wiring ((List.range (s.m_shaderPasses.length - 1)).foldl copyPassFeedback s) =
          wiring s ∧ ∀ id, some id ∉ feedbackIds s →
        pixelsOf ((List.range (s.m_shaderPasses.length - 1)).foldl copyPassFeedback s) id =
          pixelsOf s id := by
      apply foldl_range_invariant (fun st : State => wiring st = wiring s ∧
        ∀ id, some id ∉ feedbackIds s → pixelsOf st id = pixelsOf s id)
      · intro st q hq ⟨hw, hpx⟩
        have hlen : st.m_shaderPasses.length = s.m_shaderPasses.length := by
          rw [(wiring_eq _ _ hw).2.1]
        obtain ⟨e1, e2⟩ := copyPassFeedback_effect st q (by omega)
        refine ⟨e1.trans hw, fun id hid => ?_⟩
        rw [e2 id (by rw [(wiring_readers _ _ hw).2.2.2.2.2.2.1]; exact hid)]
        exact hpx id hid
      · exact ⟨rfl, fun _ _ => rfl⟩
    obtain ⟨f1, f2⟩ := hfold
    obtain ⟨d1, d2⟩ := copyDisplayFeedback_effect
      ((List.range (s.m_shaderPasses.length - 1)).foldl copyPassFeedback s)
    refine ⟨d1.trans f1, fun id hid => ?_⟩
    rw [d2 id (by rw [(wiring_readers _ _ f1).2.2.2.2.2.2.1]; exact hid)]
    exact f2 id hid
  · exact ⟨rfl, fun _ _ => rfl⟩

/-! ### C4: the rotation of source lines 924 to 948 -/

theorem remapHistory_find (n : Nat) (m : List (Name × Option ShaderResourceView))
    (hpres : ∀ j, 1 ≤ j → j ≤ n → (mapFind m (Name.originalHistory j)).isSome = true) :
    (∀ j, 2 ≤ j → j ≤ n →
        mapFind (remapHistory m n) (Name.originalHistory j) =
          mapFind m (Name.originalHistory (j - 1))) ∧
      (∀ k, (∀ j, 2 ≤ j → j ≤ n → k ≠ Name.originalHistory j) →
        mapFind (remapHistory m n) k = mapFind m k) := by
  induction n generalizing m with
  | zero =>
    refine ⟨fun j h1 h2 => ?_, fun k _ => rfl⟩
    omega
  | succ h ih =>
    cases h with
    | zero =>
      refine ⟨fun j h1 h2 => ?_, fun k _ => ?_⟩
      · omega
      · unfold remapHistory
        rw [if_neg (by decide)]
    | succ h2 =>
      have hstep : remapHistory m (h2 + 1 + 1) =
          remapHistory (remapHistoryStep m (h2 + 1 + 1)) (h2 + 1) := by
        rw [remapHistory, if_pos (by omega)]
      obtain ⟨v, hv⟩ := Option.isSome_iff_exists.mp (hpres (h2 + 1) (by omega) (by omega))
      have hm : remapHistoryStep m (h2 + 1 + 1) =
          mapAssign m (Name.originalHistory (h2 + 1 + 1)) v := by
        unfold remapHistoryStep mapSubscript
        dsimp only
        have e : h2 + 1 + 1 - 1 = h2 + 1 := by omega
        rw [e, hv]
      have hne : ∀ j, j ≤ h2 + 1 →
          Name.originalHistory (h2 + 1 + 1) ≠ Name.originalHistory j := by
        intro j hj e
        have := Name.originalHistory.inj e
        omega
      have hfind : ∀ j, j ≤ h2 + 1 →
          mapFind (remapHistoryStep m (h2 + 1 + 1)) (Name.originalHistory j) =
            mapFind m (Name.originalHistory j) := by
        intro j hj
        rw [hm, mapFind_mapAssign_ne _ _ _ _ (hne j hj)]
      obtain ⟨i1, i2⟩ := ih (remapHistoryStep m (h2 + 1 + 1))
        (fun j hj1 hj2 => by rw [hfind j hj2]; exact hpres j hj1 (by omega))
      rw [hstep]
      refine ⟨fun j hj1 hj2 => ?_, fun k hk => ?_⟩
      · by_cases hj : j ≤ h2 + 1
        · rw [i1 j hj1 hj, hfind (j - 1) (by omega)]
        · have e : j = h2 + 1 + 1 := by omega
          subst e
          rw [i2 _ (fun j hj1 hj2 => hne j hj2), hm, mapFind_mapAssign_self]
          have e : h2 + 1 + 1 - 1 = h2 + 1 := by omega
          rw [e, hv]
      · rw [i2 k (fun j hj1 hj2 => hk j hj1 (by omega)), hm,
          mapFind_mapAssign_ne _ _ _ _ (fun e => hk (h2 + 1 + 1) (by omega) (by omega) e.symm)]

theorem rotateHistory_effect (s : State) (last original : ShaderResourceView)
    (hN : 1 ≤ s.m_requiresHistory)
    (hpres : ∀ j, 1 ≤ j → j ≤ s.m_requiresHistory →
      (mapFind s.m_passResources (Name.originalHistory j)).isSome = true)
    (hlast : mapFind s.m_passResources (Name.originalHistory s.m_requiresHistory) =
      some (some last))
    (horig : mapFind s.m_passResources Name.original = some (some original)) :
    ((rotateHistory s).m_shaderPasses = s.m_shaderPasses ∧
      (rotateHistory s).m_preprocessPass = s.m_preprocessPass ∧
      (rotateHistory s).m_preprocessedRenderTarget = s.m_preprocessedRenderTarget ∧
      (rotateHistory s).m_requiresHistory = s.m_requiresHistory) ∧
      mapFind (rotateHistory s).m_passResources (Name.originalHistory 1) = some (some last) ∧
      (∀ j, 2 ≤ j → j ≤ s.m_requiresHistory →
        mapFind (rotateHistory s).m_passResources (Name.originalHistory j) =
          mapFind s.m_passResources (Name.originalHistory (j - 1))) ∧
      (∀ k, (∀ j, 1 ≤ j → j ≤ s.m_requiresHistory → k ≠ Name.originalHistory j) →
        mapFind (rotateHistory s).m_passResources k = mapFind s.m_passResources k) ∧
      (∀ id, pixelsOf (rotateHistory s) id =
        if last.texture.id = id then
          (if copyCompatible last.texture.desc original.texture.desc then
            pixelsOf s original.texture.id else Pixels.undefined)
        else pixelsOf s id) := by
  obtain ⟨m1, m2⟩ := remapHistory_find s.m_requiresHistory s.m_passResources hpres
  have horig2 : mapFind (remapHistory s.m_passResources s.m_requiresHistory) Name.original =
      some (some original) := by
    rw [m2 _ (fun j _ _ e => by cases e), horig]
  have hcopy := CopyResource_effect last.texture original.texture
    (setPassResources (remapHistory s.m_passResources s.m_requiresHistory) s)
  have hpx : ∀ id, pixelsOf (CopyResource last.texture original.texture
      (setPassResources (remapHistory s.m_passResources s.m_requiresHistory) s)) id =
        if last.texture.id = id then
          (if copyCompatible last.texture.desc original.texture.desc then
            pixelsOf s original.texture.id else Pixels.undefined)
        else pixelsOf s id :=
    hcopy.2
  obtain ⟨c1, c2, c3, c4, c5⟩ := wiring_eq _ _ hcopy.1
  have hfields : (CopyResource last.texture original.texture
      (setPassResources (remapHistory s.m_passResources s.m_requiresHistory) s)).m_preprocessPass =
        s.m_preprocessPass := rfl
  unfold rotateHistory
  rw [if_pos (by simp only [bne_iff_ne, ne_eq]; omega), hlast]
  dsimp only
  rw [horig2]
  dsimp only
  by_cases h1 : s.m_requiresHistory > 1
  · rw [if_pos h1]
    refine ⟨⟨c2, hfields, c4, c5⟩, ?_, ?_, ?_, hpx⟩
    · exact mapFind_mapAssign_self _ _ _
    · intro j hj1 hj2
      have : (mapAssign (remapHistory s.m_passResources s.m_requiresHistory)
          (Name.originalHistory 1) (some last)) = (setPassResources (mapAssign
            (remapHistory s.m_passResources s.m_requiresHistory)
            (Name.originalHistory 1) (some last)) (CopyResource last.texture
              original.texture (setPassResources
                (remapHistory s.m_passResources s.m_requiresHistory) s))).m_passResources := rfl
      rw [← this, mapFind_mapAssign_ne _ _ _ _ (fun e => by
        have := Name.originalHistory.inj e
        omega)]
      exact m1 j hj1 hj2
    · intro k hk
      have : (mapAssign (remapHistory s.m_passResources s.m_requiresHistory)
          (Name.originalHistory 1) (some last)) = (setPassResources (mapAssign
            (remapHistory s.m_passResources s.m_requiresHistory)
            (Name.originalHistory 1) (some last)) (CopyResource last.texture
              original.texture (setPassResources
                (remapHistory s.m_passResources s.m_requiresHistory) s))).m_passResources := rfl
      rw [← this, mapFind_mapAssign_ne _ _ _ _ (fun e => hk 1 (by omega) (by omega) e.symm)]
      exact m2 k (fun j hj1 hj2 => hk j (by omega) hj2)
  · rw [if_neg h1]
    have hone : s.m_requiresHistory = 1 := by omega
    refine ⟨⟨c2, hfields, c4, c5⟩, ?_, ?_, ?_, hpx⟩
    · rw [c1]
      have : (setPassResources (remapHistory s.m_passResources s.m_requiresHistory)
          s).m_passResources = remapHistory s.m_passResources s.m_requiresHistory := rfl
      rw [this, m2 _ (fun j hj1 hj2 e => by
        have := Name.originalHistory.inj e
        omega)]
      rw [hone] at hlast
      exact hlast
    · intro j hj1 hj2
      omega
    · intro k hk
      rw [c1]
      exact m2 k (fun j hj1 hj2 => hk j (by omega) hj2)

theorem finishFrame_wiring (ticks : Nat) (s : State) :
    wiring (finishFrame ticks s) = wiring s ∧ (finishFrame ticks s).pixels = s.pixels := by
  unfold finishFrame PresentFrame
  dsimp only
  split
  · exact ⟨rfl, rfl⟩
  · exact ⟨rfl, rfl⟩

theorem pixelsOf_congr (a b : State) (h : a.pixels = b.pixels) (id : Nat) :
    pixelsOf a id = pixelsOf b id := by
  unfold pixelsOf
  rw [h]

theorem rotate_perm {α : Type} (g g2 : Nat → α) (n : Nat) (h0 : g2 0 = g n)
    (hs : ∀ j, j < n → g2 (j + 1) = g j) :
    ((List.range (n + 1)).map g2).Perm ((List.range (n + 1)).map g) := by
  have e1 : (List.range (n + 1)).map g2 = g n :: (List.range n).map g := by
    rw [List.range_succ_eq_map, List.map_cons, List.map_map, h0]
    congr 1
    apply List.map_congr_left
    intro j hj
    exact hs j (List.mem_range.mp hj)
  have e2 : (List.range (n + 1)).map g = (List.range n).map g ++ [g n] := by
    rw [List.range_succ, List.map_append]
    rfl
  rw [e1, e2]
  exact (List.perm_append_singleton (g n) ((List.range n).map g)).symm

theorem historyWF_iff (s : State) :
    historyWF s = true ↔
      ((originalId s).isSome = true ∧ preprocessId s = originalId s ∧
        (∀ h ∈ historyIds s, h.isSome = true) ∧ (historyIds s).Nodup ∧
        originalId s ∉ historyIds s ∧ clearId s ∉ historyIds s ∧
        (∀ w ∈ passTargetIds s ++ feedbackIds s, w ∉ historyIds s ∧ w ≠ originalId s)) := by
  unfold historyWF
  exact decide_eq_true_iff

theorem historyIds_getElem (s : State) (j : Nat) (hj : j < s.m_requiresHistory) :
    (historyIds s)[j]? = some ((historyView s (j + 1)).map (fun v => v.texture.id)) := by
  unfold historyIds
  rw [List.getElem?_map, List.getElem?_range hj]
  rfl

theorem historyIds_mem (s : State) (j : Nat) (hj : j < s.m_requiresHistory) :
    (historyView s (j + 1)).map (fun v => v.texture.id) ∈ historyIds s :=
  mem_of_getElem?_some _ _ _ (historyIds_getElem s j hj)

theorem viewOf_some (s : State) (n : Name) (v : ShaderResourceView) :
    viewOf s n = some v ↔ mapFind s.m_passResources n = some (some v) := by
  unfold viewOf
  cases h : mapFind s.m_passResources n with
  | none => simp
  | some o =>
    cases o with
    | none => simp
    | some w => simp

theorem historySized_iff (s : State) :
    historySized s = true ↔
      ∀ j, j < s.m_requiresHistory → ∀ v o, historyView s (j + 1) = some v →
        viewOf s Name.original = some o →
        copyCompatible v.texture.desc o.texture.desc = true := by
  unfold historySized
  rw [List.all_eq_true]
  constructor
  · intro h j hj v o hv ho
    have := h j (List.mem_range.mpr hj)
    rw [hv, ho] at this
    exact this
  · intro h j hj
    have hj := List.mem_range.mp hj
    cases hv : historyView s (j + 1) with
    | none => rfl
    | some v =>
      cases ho : viewOf s Name.original with
      | none => rfl
      | some o => exact h j hj v o hv ho

/-- One frame without a topology rebuild keeps the shape of the history and puts the
Original of the frame in front of what the history held. -/
theorem steady_frame_history (inp : FrameInput) (s : State) (recent : List Nat)
    (hwf : historyWF s = true) (hsz : historySized s = true) (hH : historyHolds s recent)
    (hc : (ProcessTraced inp s).2 = Outcome.completed) (hr : rebuildsPasses inp s = false) :
    ∃ texture, inp.texture = some texture ∧ historyWF (Process inp s) = true ∧
      historySized (Process inp s) = true ∧
      (Process inp s).m_requiresHistory = s.m_requiresHistory ∧
      historyHolds (Process inp s) (texture.frame :: recent) := by
  obtain ⟨texture, s0, htx, hw0, hp0, hP⟩ := Process_steady inp s hc hr
  refine ⟨texture, htx, ?_⟩
  obtain ⟨w1, w2, w3, w4, w5, w6, w7⟩ := (historyWF_iff s).mp hwf
  obtain ⟨oid, hoid⟩ := Option.isSome_iff_exists.mp w1
  -- the state after the draws and the feedback copy
  obtain ⟨a1, a2, a3⟩ := renderPasses_effect texture s0
  obtain ⟨b1, b2⟩ := copyFeedback_effect (renderPasses texture s0)
  have hwa : wiring (renderPasses texture s0) = wiring s := a1.trans hw0
  have hwb : wiring (copyFeedback (renderPasses texture s0)) = wiring s := b1.trans hwa
  obtain ⟨-, -, q3, q4, q5, q6, q7, -⟩ := wiring_readers _ _ hw0
  obtain ⟨-, -, -, -, -, -, qa7, -⟩ := wiring_readers _ _ hwa
  rw [q6] at a2 a3
  rw [q4] at a2 a3
  rw [q5] at a3
  rw [qa7] at b2
  have hnotT : ∀ w, w ∈ historyIds s ∨ w = originalId s → w ∉ passTargetIds s := by
    intro w hw hmem
    have := w7 w (List.mem_append_left _ hmem)
    rcases hw with hw | hw
    · exact this.1 hw
    · exact this.2 hw
  have hnotF : ∀ w, w ∈ historyIds s ∨ w = originalId s → w ∉ feedbackIds s := by
    intro w hw hmem
    have := w7 w (List.mem_append_right _ hmem)
    rcases hw with hw | hw
    · exact this.1 hw
    · exact this.2 hw
  have hpxO : pixelsOf (copyFeedback (renderPasses texture s0)) oid =
      Pixels.original texture.frame := by
    rw [b2 oid (hnotF _ (Or.inr hoid.symm))]
    exact a2 oid (hnotT _ (Or.inr hoid.symm)) (by rw [w2, hoid])
  have hpxH : ∀ id, some id ∈ historyIds s →
      pixelsOf (copyFeedback (renderPasses texture s0)) id = pixelsOf s id := by
    intro id hid
    rw [b2 id (hnotF _ (Or.inl hid))]
    rw [a3 id (hnotT _ (Or.inl hid)) (fun e => w5 (by rw [← w2, e]; exact hid))
      (fun e => w6 (by rw [e]; exact hid))]
    exact pixelsOf_congr _ _ hp0 id
  obtain ⟨f1, f2⟩ := finishFrame_wiring inp.ticks
    (rotateHistory (copyFeedback (renderPasses texture s0)))
  obtain ⟨e1, e2, e3, e4, e5⟩ := wiring_eq _ _ hwb
  by_cases hN : s.m_requiresHistory = 0
  · have hrot : rotateHistory (copyFeedback (renderPasses texture s0)) =
        copyFeedback (renderPasses texture s0) := by
      unfold rotateHistory
      rw [if_neg (by rw [e5, hN]; decide)]
    have hwP : wiring (Process inp s) = wiring s := by
      rw [hP, f1, hrot]
      exact hwb
    refine ⟨?_, ?_, (wiring_eq _ _ hwP).2.2.2.2, ?_⟩
    · rw [(wiring_readers _ _ hwP).2.2.2.2.2.2.2]
      exact hwf
    · rw [historySized_iff]
      intro j hj
      rw [(wiring_eq _ _ hwP).2.2.2.2, hN] at hj
      omega
    · intro j f hj
      rw [(wiring_eq _ _ hwP).2.2.2.2, hN] at hj
      omega
  · have hN1 : 1 ≤ s.m_requiresHistory := by omega
    have hview : ∀ j, j < s.m_requiresHistory → ∃ v, historyView s (j + 1) = some v := by
      intro j hj
      have := w3 _ (historyIds_mem s j hj)
      obtain ⟨x, hx⟩ := Option.isSome_iff_exists.mp this
      cases hv : historyView s (j + 1) with
      | none => rw [hv] at hx; cases hx
      | some v => exact ⟨v, rfl⟩
    obtain ⟨last, hlast⟩ := hview (s.m_requiresHistory - 1) (by omega)
    have hlastN : s.m_requiresHistory - 1 + 1 = s.m_requiresHistory := by omega
    rw [hlastN] at hlast
    have horig : ∃ original, viewOf s Name.original = some original ∧
        original.texture.id = oid := by
      unfold originalId at hoid
      cases hv : viewOf s Name.original with
      | none => rw [hv] at hoid; cases hoid
      | some o =>
        rw [hv] at hoid
        exact ⟨o, rfl, Option.some.inj hoid⟩
    obtain ⟨original, ho1, ho2⟩ := horig
    obtain ⟨⟨r1, r2, r3, r4⟩, r5, r6, r7, r8⟩ := rotateHistory_effect
      (copyFeedback (renderPasses texture s0)) last original (by rw [e5]; exact hN1)
      (by
        intro j hj1 hj2
        rw [e5] at hj2
        rw [e1]
        obtain ⟨v, hv⟩ := hview (j - 1) (by omega)
        have e : j - 1 + 1 = j := by omega
        rw [e] at hv
        rw [(viewOf_some s _ v).mp hv]
        rfl)
      (by rw [e5, e1]; exact (viewOf_some s _ last).mp hlast)
      (by rw [e1]; exact (viewOf_some s _ original).mp ho1)
    rw [e5] at r6 r7
    rw [e1] at r6 r7
    have hcompat : copyCompatible last.texture.desc original.texture.desc = true :=
      (historySized_iff s).mp hsz (s.m_requiresHistory - 1) (by omega) last original
        (by rw [hlastN]; exact hlast) ho1
    rw [hcompat, ho2, hpxO] at r8
    simp only [if_true] at r8
    -- the state the call returns
    obtain ⟨g1, g2, g3, g4, g5⟩ := wiring_eq _ _ f1
    have hres : (Process inp s).m_passResources =
        (rotateHistory (copyFeedback (renderPasses texture s0))).m_passResources := by
      rw [hP, g1]
    have hreq : (Process inp s).m_requiresHistory = s.m_requiresHistory := by
      rw [hP, g5, r4, e5]
    have hpxP : ∀ id, pixelsOf (Process inp s) id =
        if last.texture.id = id then Pixels.original texture.frame
        else pixelsOf (copyFeedback (renderPasses texture s0)) id := by
      intro id
      rw [hP, pixelsOf_congr _ _ f2 id]
      exact r8 id
    have hv1 : historyView (Process inp s) 1 = some last := by
      unfold historyView
      rw [viewOf_some, hres]
      exact r5
    have hvj : ∀ j, 2 ≤ j → j ≤ s.m_requiresHistory →
        historyView (Process inp s) j = historyView s (j - 1) := by
      intro j hj1 hj2
      unfold historyView viewOf
      rw [hres, r6 j hj1 hj2]
    have hother : ∀ k, (∀ j, k ≠ Name.originalHistory j) →
        viewOf (Process inp s) k = viewOf s k := by
      intro k hk
      unfold viewOf
      rw [hres, r7 k (fun j _ _ => hk j)]
    have hperm : (historyIds (Process inp s)).Perm (historyIds s) := by
      unfold historyIds
      rw [hreq]
      obtain ⟨n, hn⟩ : ∃ n, s.m_requiresHistory = n + 1 := ⟨s.m_requiresHistory - 1, by omega⟩
      rw [hn]
      apply rotate_perm
      · dsimp only
        rw [hv1, ← hn, hlast]
      · intro j hj
        dsimp only
        rw [hvj (j + 1 + 1) (by omega) (by omega)]
        rfl
    have hoidP : originalId (Process inp s) = originalId s := by
      unfold originalId
      rw [hother _ (fun j e => by cases e)]
    have hpreP : preprocessId (Process inp s) = preprocessId s := by
      unfold preprocessId
      rw [hP, g3, r2, e3]
    have hclrP : clearId (Process inp s) = clearId s := by
      unfold clearId
      rw [hP, g4, r3, e4]
    have hpassP : passTargetIds (Process inp s) = passTargetIds s := by
      unfold passTargetIds
      rw [hP, g2, r1, e2]
    have hfbP : feedbackIds (Process inp s) = feedbackIds s := by
      unfold feedbackIds
      have : (Process inp s).m_shaderPasses = s.m_shaderPasses := by
        rw [hP, g2, r1, e2]
      rw [this]
      apply List.map_congr_left
      intro q _
      rw [hother _ (fun j e => by cases e)]
    refine ⟨?_, ?_, hreq, ?_⟩
    · rw [historyWF_iff, hoidP, hpreP, hclrP, hpassP, hfbP]
      refine ⟨w1, w2, fun h hh => w3 h (hperm.mem_iff.mp hh), hperm.nodup_iff.mpr w4,
        fun hh => w5 (hperm.mem_iff.mp hh), fun hh => w6 (hperm.mem_iff.mp hh), ?_⟩
      intro w hw
      exact ⟨fun hh => (w7 w hw).1 (hperm.mem_iff.mp hh), (w7 w hw).2⟩
    · rw [historySized_iff]
      intro j hj v o hv ho
      rw [hreq] at hj
      rw [hother _ (fun j e => by cases e), ho1] at ho
      cases ho
      cases j with
      | zero =>
        rw [hv1] at hv
        cases hv
        exact hcompat
      | succ i =>
        rw [hvj (i + 1 + 1) (by omega) (by omega)] at hv
        exact (historySized_iff s).mp hsz i (by omega) v original hv ho1
    · intro j f hj hf
      rw [hreq] at hj
      cases j with
      | zero =>
        refine ⟨last, hv1, ?_⟩
        rw [hpxP, if_pos rfl]
        simp only [List.getElem?_cons_zero, Option.some.injEq] at hf
        rw [hf]
      | succ i =>
        rw [List.getElem?_cons_succ] at hf
        obtain ⟨v, hv, hpv⟩ := hH i f (by omega) hf
        refine ⟨v, ?_, ?_⟩
        · rw [hvj (i + 1 + 1) (by omega) (by omega)]
          exact hv
        · have hvmem : some v.texture.id ∈ historyIds s := by
            have := historyIds_mem s i (by omega)
            rw [hv] at this
            exact this
          have hne : last.texture.id ≠ v.texture.id := by
            intro e
            have h1 := historyIds_getElem s (s.m_requiresHistory - 1) (by omega)
            have h2 := historyIds_getElem s i (by omega)
            rw [hlastN, hlast] at h1
            rw [hv] at h2
            simp only [Option.map_some'] at h1 h2
            rw [e] at h1
            have hlt1 : s.m_requiresHistory - 1 < (historyIds s).length :=
              (List.getElem?_eq_some_iff.mp h1).1
            have hlt2 : i < (historyIds s).length := (List.getElem?_eq_some_iff.mp h2).1
            have heq : (historyIds s)[s.m_requiresHistory - 1] = (historyIds s)[i] := by
              rw [(List.getElem?_eq_some_iff.mp h1).2, (List.getElem?_eq_some_iff.mp h2).2]
            have := (List.Nodup.getElem_inj_iff w4).mp heq
            omega
          rw [hpxP, if_neg hne, hpxH _ hvmem]
          exact hpv

theorem steady_frames_history (inps : List FrameInput) (s : State) (recent : List Nat)
    (hwf : historyWF s = true) (hsz : historySized s = true) (hH : historyHolds s recent)
    (hst : steadyFrames s inps = true) :
    historyWF (runFrames s inps) = true ∧
      (runFrames s inps).m_requiresHistory = s.m_requiresHistory ∧
      (∀ inp ∈ inps, inp.texture.isSome = true) ∧
      historyHolds (runFrames s inps) ((inps.reverse.map frameOf) ++ recent) := by
  induction inps generalizing s recent with
  | nil => exact ⟨hwf, rfl, fun _ h => (by cases h), hH⟩
  | cons inp rest ih =>
    unfold steadyFrames at hst
    simp only [Bool.and_eq_true, decide_eq_true_eq, Bool.not_eq_true'] at hst
    obtain ⟨⟨hc, hr⟩, hrest⟩ := hst
    obtain ⟨texture, htx, k1, ksz, k2, k3⟩ :=
      steady_frame_history inp s recent hwf hsz hH hc hr
    obtain ⟨i1, i2, i3, i4⟩ := ih (Process inp s) (texture.frame :: recent) k1 ksz k3 hrest
    have hf : frameOf inp = texture.frame := by
      unfold frameOf
      rw [htx]
    refine ⟨i1, i2.trans k2, ?_, ?_⟩
    · intro x hx
      rcases List.mem_cons.mp hx with h | h
      · rw [h, htx]
        rfl
      · exact i3 x h
    · have e : (inp :: rest).reverse.map frameOf ++ recent =
          rest.reverse.map frameOf ++ texture.frame :: recent := by
        rw [List.reverse_cons, List.map_append, List.append_assoc, List.map_cons, hf]
        rfl
      rw [e]
      exact i4

/-- C4. From a pipeline whose history has the shape a topology rebuild gives it, with
depth `N`, and whose history textures have the dimensions of the texture of `Original`,
which `CopyResource` requires, let `K ≥ N` frames be delivered one after the other, each
running `Process` to its end without a topology rebuild.  Then for every `j` in `1 .. N`
the view registered as `OriginalHistory<j>` is a view of a texture that holds the Original
of the `j`-th most recent of these frames: `OriginalHistory1` the Original of the last frame,
`OriginalHistoryN` that of the frame `N - 1` before it, which is what the next frame
reads as one frame ago and `N` frames ago. -/
theorem history_holds_recent_originals (s : State) (inps : List FrameInput)
    (hwf : historyWF s = true) (hsz : historySized s = true)
    (hst : steadyFrames s inps = true)
    (hK : s.m_requiresHistory ≤ inps.length) :
    ∀ j, 1 ≤ j → j ≤ s.m_requiresHistory →
      ∃ inp texture view, inps[inps.length - j]? = some inp ∧ inp.texture = some texture ∧
        mapFind (runFrames s inps).m_passResources (Name.originalHistory j) =
          some (some view) ∧
        pixelsOf (runFrames s inps) view.texture.id = Pixels.original texture.frame := by
  intro j hj1 hj2
  obtain ⟨-, i2, i3, i4⟩ := steady_frames_history inps s [] hwf hsz
    (fun j f _ h => (by simp at h)) hst
  have hlt : inps.length - j < inps.length := by omega
  have hmem : inps[inps.length - j] ∈ inps := List.getElem_mem hlt
  obtain ⟨texture, htx⟩ := Option.isSome_iff_exists.mp (i3 _ hmem)
  have hrec : ((inps.reverse.map frameOf) ++ [])[j - 1]? = some texture.frame := by
    rw [List.append_nil, List.getElem?_map, List.getElem?_reverse (by omega)]
    have e : inps.length - 1 - (j - 1) = inps.length - j := by omega
    rw [e, List.getElem?_eq_getElem hlt]
    simp only [Option.map_some', Option.some.injEq]
    unfold frameOf
    rw [htx]
  obtain ⟨v, hv, hpx⟩ := i4 (j - 1) texture.frame (by rw [i2]; omega) hrec
  have e : j - 1 + 1 = j := by omega
  rw [e] at hv
  exact ⟨inps[inps.length - j], texture, v, List.getElem?_eq_getElem hlt, htx,
    (viewOf_some _ _ v).mp hv, hpx⟩

/-- C4, instance: the sample pipeline, whose chain asks for a history of depth 2, after
its first frame; two more frames are delivered, and `OriginalHistory2` then holds the
Original of the first of the two. -/
theorem history_holds_recent_originals_witness :
    historyWF renderedState = true ∧ historySized renderedState = true ∧
      steadyFrames renderedState [sampleInput 2 800 600, sampleInput 3 800 600] = true ∧
      renderedState.m_requiresHistory ≤ [sampleInput 2 800 600, sampleInput 3 800 600].length ∧
      ∃ inp texture view,
        [sampleInput 2 800 600, sampleInput 3 800 600][
          [sampleInput 2 800 600, sampleInput 3 800 600].length - 2]? = some inp ∧
        inp.texture = some texture ∧
        mapFind (runFrames renderedState
          [sampleInput 2 800 600, sampleInput 3 800 600]).m_passResources
            (Name.originalHistory 2) = some (some view) ∧
        pixelsOf (runFrames renderedState [sampleInput 2 800 600, sampleInput 3 800 600])
          view.texture.id = Pixels.original texture.frame :=
  ⟨by decide!, by decide!, by decide!, by decide!,
    history_holds_recent_originals renderedState
      [sampleInput 2 800 600, sampleInput 3 800 600] (by decide!) (by decide!) (by decide!)
      (by decide!) 2 (by decide) (by decide!)⟩

/-! ### C12: `ResetParams` -/

theorem resetParam_spec (overrides : List ParamOverride) (p : ShaderParam) :
    (resetParam overrides p).name = p.name ∧ (resetParam overrides p).size = p.size ∧
      (resetParam overrides p).defaultValue = p.defaultValue ∧
      (isTunable p = true → (resetParam overrides p).currentValue =
        match overrides.find? (fun o => o.name == p.name) with
        | some o => o.value
        | none => p.defaultValue) ∧
      (isTunable p = false → resetParam overrides p = p) := by
  unfold resetParam SetParam
  by_cases ht : isTunable p = true
  · rw [if_pos ht]
    cases hf : overrides.find? (fun o => o.name == p.name) with
    | none => exact ⟨rfl, rfl, rfl, fun _ => rfl, fun h => by rw [ht] at h; cases h⟩
    | some o => exact ⟨rfl, rfl, rfl, fun _ => rfl, fun h => by rw [ht] at h; cases h⟩
  · rw [if_neg ht]
    exact ⟨rfl, rfl, rfl, fun h => absurd h ht, fun _ => rfl⟩

theorem paramAt_ResetParams (s : State) (ref : Nat × Nat) :
    paramAt (ResetParams s) ref =
      (paramAt s ref).map (resetParam s.m_shaderPreset.Overrides) := by
  unfold paramAt ResetParams
  dsimp only
  rw [List.getElem?_map]
  cases h : s.m_shaderPreset.m_shaders[ref.1]? with
  | none => rfl
  | some sh =>
    dsimp only [Option.map_some']
    rw [List.getElem?_map]

/-- C12. After `ResetParams`, every tunable parameter (size 4, name other than
`FrameCount`) of every shader of the preset has as its value the value of the first
override of the preset with the same name when there is one, and its default value
otherwise. -/
theorem reset_params_values (s : State) (i j : Nat) (q : ShaderParam)
    (hq : paramAt (ResetParams s) (i, j) = some q) (ht : isTunable q = true) :
    q.currentValue =
      match (ResetParams s).m_shaderPreset.Overrides.find? (fun o => o.name == q.name) with
      | some o => o.value
      | none => q.defaultValue := by
  rw [paramAt_ResetParams] at hq
  cases hp : paramAt s (i, j) with
  | none => rw [hp] at hq; cases hq
  | some p =>
    rw [hp] at hq
    have e : resetParam s.m_shaderPreset.Overrides p = q := Option.some.inj hq
    obtain ⟨r1, r2, r3, r4, -⟩ := resetParam_spec s.m_shaderPreset.Overrides p
    have htp : isTunable p = true := by
      unfold isTunable at ht ⊢
      rw [← e, r1, r2] at ht
      exact ht
    have hov : (ResetParams s).m_shaderPreset.Overrides = s.m_shaderPreset.Overrides := rfl
    rw [hov, ← e, r1, r3]
    exact r4 htp

/-- C12, instance: in the two-pass sample preset, which overrides `gamma` with 2.2, the
`gamma` of pass 1 is 2.2 after the reset. -/
theorem reset_params_values_witness :
    paramAt (ResetParams tunedState) (1, 2) = some ⟨"gamma", 4, 11 / 5, 1⟩ ∧
      isTunable (⟨"gamma", 4, 11 / 5, 1⟩ : ShaderParam) = true ∧
      (⟨"gamma", 4, 11 / 5, 1⟩ : ShaderParam).currentValue =
        match (ResetParams tunedState).m_shaderPreset.Overrides.find?
          (fun o => o.name == (⟨"gamma", 4, 11 / 5, 1⟩ : ShaderParam).name) with
        | some o => o.value
        | none => (⟨"gamma", 4, 11 / 5, 1⟩ : ShaderParam).defaultValue :=
  ⟨by decide!, by decide!,
    reset_params_values tunedState 1 2 ⟨"gamma", 4, 11 / 5, 1⟩ (by decide!) (by decide!)⟩

/-! ### C11: queued parameter values at a preset swap -/

theorem updateParam_id (p : ShaderParam) : updateParam p = p := by
  unfold updateParam SetParam
  split <;> rfl

theorem UpdateParams_id (s : State) : UpdateParams s = s := by
  unfold UpdateParams
  dsimp only
  have h1 : ∀ sh : Shader, ({ sh with m_params := sh.m_params.map updateParam } : Shader) = sh := by
    intro sh
    have : sh.m_params.map updateParam = sh.m_params := by
      conv_rhs => rw [← List.map_id sh.m_params]
      apply List.map_congr_left
      intro p _
      exact updateParam_id p
    rw [this]
  have h2 : s.m_shaderPreset.m_shaders.map
      (fun sh => ({ sh with m_params := sh.m_params.map updateParam } : Shader)) =
        s.m_shaderPreset.m_shaders := by
    conv_rhs => rw [← List.map_id s.m_shaderPreset.m_shaders]
    apply List.map_congr_left
    intro sh _
    exact h1 sh
  rw [h2]

theorem paramAt_setCurrentValue (r : Nat × Nat) (v : ℚ) (s : State) (r2 : Nat × Nat) :
    paramAt (setCurrentValue r v s) r2 =
      if r2 = r then (paramAt s r2).map (fun p => { p with currentValue := v })
      else paramAt s r2 := by
  unfold paramAt setCurrentValue
  dsimp only
  rw [modifyAt_getElem?]
  by_cases h1 : r2.1 = r.1
  · rw [if_pos h1]
    cases hs : s.m_shaderPreset.m_shaders[r2.1]? with
    | none =>
      dsimp only [Option.map_none']
      split <;> rfl
    | some sh =>
      dsimp only [Option.map_some']
      rw [modifyAt_getElem?]
      by_cases h2 : r2.2 = r.2
      · rw [if_pos h2, if_pos (Prod.ext h1 h2)]
      · rw [if_neg h2, if_neg (fun e => h2 (by rw [e]))]
  · rw [if_neg h1, if_neg (fun e => h1 (by rw [e]))]

theorem applyNewParam_eq (refs : List (Nat × Nat)) (s : State) (ip : Int × String × ℚ) :
    applyNewParam refs s ip =
      match queuedTarget refs s ip with
      | some sp => setCurrentValue sp ip.2.2 s
      | none => s := rfl

theorem queuedTarget_congr (refs : List (Nat × Nat)) (a b : State) (ip : Int × String × ℚ)
    (h : ∀ r, nameAt a r = nameAt b r) : queuedTarget refs a ip = queuedTarget refs b ip := by
  unfold queuedTarget
  congr 1
  funext sp
  congr 1
  have := h sp
  unfold nameAt at this
  cases ha : paramAt a sp with
  | none =>
    cases hb : paramAt b sp with
    | none => rfl
    | some q => rw [ha, hb] at this; cases this
  | some p =>
    cases hb : paramAt b sp with
    | none => rw [ha, hb] at this; cases this
    | some q =>
      rw [ha, hb] at this
      have e : p.name = q.name := Option.some.inj this
      dsimp only
      rw [e]

theorem applyNewParam_paramAt (refs : List (Nat × Nat)) (s : State) (ip : Int × String × ℚ)
    (r : Nat × Nat) :
    paramAt (applyNewParam refs s ip) r =
      if queuedTarget refs s ip = some r then
        (paramAt s r).map (fun p => { p with currentValue := ip.2.2 })
      else paramAt s r := by
  rw [applyNewParam_eq]
  cases h : queuedTarget refs s ip with
  | none =>
    dsimp only
    rw [if_neg (by simp)]
  | some sp =>
    dsimp only
    rw [paramAt_setCurrentValue]
    by_cases e : r = sp
    · rw [if_pos e, if_pos (by rw [e])]
    · rw [if_neg e, if_neg (fun h2 => e (Option.some.inj h2).symm)]

theorem applyNewParam_nameAt (refs : List (Nat × Nat)) (s : State) (ip : Int × String × ℚ)
    (r : Nat × Nat) : nameAt (applyNewParam refs s ip) r = nameAt s r := by
  unfold nameAt
  rw [applyNewParam_paramAt]
  split
  · cases paramAt s r <;> rfl
  · rfl

/-- The value a parameter has after the loop over the queue: that of the last queued
entry whose inner loop stops at the parameter, else the value before. -/
theorem applyNewParams_paramAt (refs : List (Nat × Nat)) (q : List (Int × String × ℚ))
    (s : State) (r : Nat × Nat) :
    paramAt (q.foldl (applyNewParam refs) s) r =
      (paramAt s r).map (fun p =>
        match q.reverse.find? (fun ip => queuedTarget refs s ip == some r) with
        | some ip => { p with currentValue := ip.2.2 }
        | none => p) := by
  induction q generalizing s with
  | nil =>
    rw [List.foldl_nil]
    cases paramAt s r <;> rfl
  | cons ip rest ih =>
    rw [List.foldl_cons, ih]
    have hcongr : ∀ x, queuedTarget refs (applyNewParam refs s ip) x = queuedTarget refs s x :=
      fun x => queuedTarget_congr refs _ _ x (applyNewParam_nameAt refs s ip)
    simp only [hcongr]
    rw [applyNewParam_paramAt, List.reverse_cons, List.find?_append]
    by_cases ht : queuedTarget refs s ip = some r
    · rw [if_pos ht]
      cases hrest : rest.reverse.find? (fun x => queuedTarget refs s x == some r) with
      | some e =>
        cases paramAt s r with
        | none => rfl
        | some p => rfl
      | none =>
        have hone : [ip].find? (fun x => queuedTarget refs s x == some r) = some ip := by
          simp only [List.find?_cons, ht, beq_self_eq_true]
        rw [hone]
        cases paramAt s r with
        | none => rfl
        | some p => rfl
    · rw [if_neg ht]
      cases hrest : rest.reverse.find? (fun x => queuedTarget refs s x == some r) with
      | some e =>
        cases paramAt s r with
        | none => rfl
        | some p => rfl
      | none =>
        have hb : (queuedTarget refs s ip == some r) = false := by
          simp only [beq_eq_false_iff_ne, ne_eq]
          exact ht
        have hone : [ip].find? (fun x => queuedTarget refs s x == some r) = none := by
          simp only [List.find?_cons, hb, List.find?_nil]
        rw [hone]
        cases paramAt s r with
        | none => rfl
        | some p => rfl

theorem mem_shaderParamRefs (i : Nat) (sh : Shader) (r : Nat × Nat) :
    r ∈ shaderParamRefs i sh ↔
      r.1 = i ∧ ∃ p, sh.m_params[r.2]? = some p ∧ isTunable p = true := by
  unfold shaderParamRefs
  rw [List.mem_map]
  constructor
  · rintro ⟨j, hj, rfl⟩
    rw [List.mem_filter] at hj
    refine ⟨rfl, ?_⟩
    obtain ⟨-, h2⟩ := hj
    dsimp only
    cases hp : sh.m_params[j]? with
    | none => rw [hp] at h2; cases h2
    | some p =>
      rw [hp] at h2
      exact ⟨p, rfl, h2⟩
  · rintro ⟨h1, p, hp, ht⟩
    refine ⟨r.2, ?_, by rw [← h1]⟩
    rw [List.mem_filter, List.mem_range]
    refine ⟨(List.getElem?_eq_some_iff.mp hp).1, ?_⟩
    rw [hp]
    exact ht

theorem mem_Params (s : State) (r : Nat × Nat) :
    r ∈ Params s ↔ ∃ p, paramAt s r = some p ∧ isTunable p = true := by
  unfold Params paramAt
  rw [List.mem_flatten]
  constructor
  · rintro ⟨l, hl, hr⟩
    rw [List.mem_map] at hl
    obtain ⟨i, -, rfl⟩ := hl
    cases hs : s.m_shaderPreset.m_shaders[i]? with
    | none => rw [hs] at hr; cases hr
    | some sh =>
      rw [hs] at hr
      obtain ⟨h1, p, hp, ht⟩ := (mem_shaderParamRefs i sh r).mp hr
      rw [h1, hs]
      exact ⟨p, hp, ht⟩
  · rintro ⟨p, hp, ht⟩
    cases hs : s.m_shaderPreset.m_shaders[r.1]? with
    | none => rw [hs] at hp; cases hp
    | some sh =>
      rw [hs] at hp
      refine ⟨shaderParamRefs r.1 sh, ?_, (mem_shaderParamRefs r.1 sh r).mpr ⟨rfl, p, hp, ht⟩⟩
      rw [List.mem_map]
      refine ⟨r.1, List.mem_range.mpr (List.getElem?_eq_some_iff.mp hs).1, ?_⟩
      rw [hs]

theorem nodup_filter_map_index {α β : Type} (f : α → Bool) (g : α → β) (l : List α)
    (hn : ((l.filter f).map g).Nodup) (j1 j2 : Nat) (p1 p2 : α)
    (h1 : l[j1]? = some p1) (h2 : l[j2]? = some p2) (f1 : f p1 = true) (f2 : f p2 = true)
    (hg : g p1 = g p2) : j1 = j2 := by
  induction l generalizing j1 j2 with
  | nil => simp at h1
  | cons a rest ih =>
    have hmem : ∀ (j : Nat) (p : α), rest[j]? = some p → f p = true →
        g p ∈ (rest.filter f).map g := by
      intro j p hp hf
      rw [List.mem_map]
      exact ⟨p, List.mem_filter.mpr ⟨mem_of_getElem?_some _ _ _ hp, hf⟩, rfl⟩
    have htail : ((rest.filter f).map g).Nodup := by
      rw [List.filter_cons] at hn
      split at hn
      · rw [List.map_cons] at hn
        exact (List.nodup_cons.mp hn).2
      · exact hn
    cases j1 with
    | zero =>
      cases j2 with
      | zero => rfl
      | succ k2 =>
        exfalso
        rw [List.getElem?_cons_zero] at h1
        rw [List.getElem?_cons_succ] at h2
        have e : a = p1 := Option.some.inj h1
        rw [List.filter_cons, e, f1, if_pos rfl, List.map_cons] at hn
        exact (List.nodup_cons.mp hn).1 (hg ▸ hmem k2 p2 h2 f2)
    | succ k1 =>
      cases j2 with
      | zero =>
        exfalso
        rw [List.getElem?_cons_zero] at h2
        rw [List.getElem?_cons_succ] at h1
        have e : a = p2 := Option.some.inj h2
        rw [List.filter_cons, e, f2, if_pos rfl, List.map_cons] at hn
        exact (List.nodup_cons.mp hn).1 (hg ▸ hmem k1 p1 h1 f1)
      | succ k2 =>
        rw [List.getElem?_cons_succ] at h1 h2
        rw [ih htail k1 k2 h1 h2]

theorem queuedTarget_some (refs : List (Nat × Nat)) (s : State) (ip : Int × String × ℚ)
    (r : Nat × Nat) (h : queuedTarget refs s ip = some r) :
    r ∈ refs ∧ ip.1 = (r.1 : Int) ∧ nameAt s r = some ip.2.1 := by
  unfold queuedTarget at h
  have hmem := List.mem_of_find?_eq_some h
  have hp := List.find?_some h
  simp only [Bool.and_eq_true, beq_iff_eq] at hp
  refine ⟨hmem, hp.1, ?_⟩
  unfold nameAt
  cases hq : paramAt s r with
  | none => rw [hq] at hp; simp at hp
  | some p =>
    rw [hq] at hp
    simp only [beq_iff_eq] at hp
    simp only [Option.map_some', hp.2]

theorem queuedTarget_exists (refs : List (Nat × Nat)) (s : State) (ip : Int × String × ℚ)
    (r : Nat × Nat) (hr : r ∈ refs) (h1 : ip.1 = (r.1 : Int)) (h2 : nameAt s r = some ip.2.1) :
    ∃ r0, queuedTarget refs s ip = some r0 := by
  unfold queuedTarget
  apply Option.isSome_iff_exists.mp
  rw [List.find?_isSome]
  refine ⟨r, hr, ?_⟩
  unfold nameAt at h2
  cases hq : paramAt s r with
  | none => rw [hq] at h2; cases h2
  | some p =>
    rw [hq] at h2
    have e : p.name = ip.2.1 := Option.some.inj h2
    simp only [Bool.and_eq_true, beq_iff_eq]
    exact ⟨h1, e.symm⟩

theorem swapPreset_paramAt (s : State) (P : Preset) (hnew : s.m_newShaderPreset = some P)
    (r : Nat × Nat) :
    paramAt (swapPreset s).1 r =
      (paramAt (ResetParams (setShaderPreset P s)) r).map (fun p =>
        match s.m_newParams.reverse.find? (fun ip =>
          queuedTarget (Params (ResetParams (setShaderPreset P s)))
            (ResetParams (setShaderPreset P s)) ip == some r) with
        | some ip => { p with currentValue := ip.2.2 }
        | none => p) := by
  have hpar : ∀ x : State, x.m_shaderPreset = (ResetParams (setShaderPreset P s)).m_shaderPreset →
      (∀ r, paramAt x r = paramAt (ResetParams (setShaderPreset P s)) r) ∧
        Params x = Params (ResetParams (setShaderPreset P s)) := by
    intro x hx
    refine ⟨fun r => ?_, ?_⟩
    · unfold paramAt
      rw [hx]
    · unfold Params
      rw [hx]
  have hname : ∀ x : State, (∀ r, paramAt x r = paramAt (ResetParams (setShaderPreset P s)) r) →
      ∀ r, nameAt x r = nameAt (ResetParams (setShaderPreset P s)) r := by
    intro x hx r
    unfold nameAt
    rw [hx]
  unfold swapPreset
  rw [hnew]
  dsimp only
  obtain ⟨h1, h2⟩ := hpar (RebuildShaders (setNewShaderPreset none
    (setShaderPreset P (DestroyShaders s)))) rfl
  have hq : (RebuildShaders (setNewShaderPreset none
      (setShaderPreset P (DestroyShaders s)))).m_newParams = s.m_newParams := rfl
  rw [hq, h2]
  have hfold := applyNewParams_paramAt (Params (ResetParams (setShaderPreset P s)))
    s.m_newParams (RebuildShaders (setNewShaderPreset none
      (setShaderPreset P (DestroyShaders s)))) r
  have hcongr : ∀ ip, queuedTarget (Params (ResetParams (setShaderPreset P s)))
      (RebuildShaders (setNewShaderPreset none (setShaderPreset P (DestroyShaders s)))) ip =
        queuedTarget (Params (ResetParams (setShaderPreset P s)))
          (ResetParams (setShaderPreset P s)) ip :=
    fun ip => queuedTarget_congr _ _ _ ip (hname _ h1)
  simp only [hcongr] at hfold
  rw [h1] at hfold
  by_cases hlen : (s.m_newParams.length != 0) = true
  · rw [if_pos hlen, UpdateParams_id]
    exact hfold
  · rw [if_neg hlen]
    have hnil : s.m_newParams = [] := by
      cases hl : s.m_newParams with
      | nil => rfl
      | cons a b => rw [hl] at hlen; simp at hlen
    rw [hnil] at hfold ⊢
    rw [List.foldl_nil] at hfold
    exact hfold

theorem reset_param_unique (s : State) (P : Preset)
    (hn : ∀ sh ∈ P.m_shaders, ((sh.m_params.filter isTunable).map (fun p => p.name)).Nodup)
    (r1 r2 : Nat × Nat) (p1 p2 : ShaderParam)
    (h1 : paramAt (ResetParams (setShaderPreset P s)) r1 = some p1)
    (h2 : paramAt (ResetParams (setShaderPreset P s)) r2 = some p2)
    (t1 : isTunable p1 = true) (t2 : isTunable p2 = true) (hi : r1.1 = r2.1)
    (hname : p1.name = p2.name) : r1 = r2 := by
  rw [paramAt_ResetParams] at h1 h2
  have hA : ∀ r : Nat × Nat, paramAt (setShaderPreset P s) r =
      match P.m_shaders[r.1]? with
      | some sh => sh.m_params[r.2]?
      | none => none := fun r => rfl
  rw [hA] at h1 h2
  rw [← hi] at h2
  cases hs : P.m_shaders[r1.1]? with
  | none => rw [hs] at h1; cases h1
  | some sh =>
    rw [hs] at h1 h2
    dsimp only at h1 h2
    cases hq1 : sh.m_params[r1.2]? with
    | none => rw [hq1] at h1; cases h1
    | some q1 =>
      cases hq2 : sh.m_params[r2.2]? with
      | none => rw [hq2] at h2; cases h2
      | some q2 =>
        rw [hq1] at h1
        rw [hq2] at h2
        have e1 : resetParam (setShaderPreset P s).m_shaderPreset.Overrides q1 = p1 :=
          Option.some.inj h1
        have e2 : resetParam (setShaderPreset P s).m_shaderPreset.Overrides q2 = p2 :=
          Option.some.inj h2
        obtain ⟨a1, a2, -, -, -⟩ := resetParam_spec
          (setShaderPreset P s).m_shaderPreset.Overrides q1
        obtain ⟨b1, b2, -, -, -⟩ := resetParam_spec
          (setShaderPreset P s).m_shaderPreset.Overrides q2
        rw [e1] at a1 a2
        rw [e2] at b1 b2
        have tq1 : isTunable q1 = true := by
          unfold isTunable at t1 ⊢
          rw [← a1, ← a2]
          exact t1
        have tq2 : isTunable q2 = true := by
          unfold isTunable at t2 ⊢
          rw [← b1, ← b2]
          exact t2
        have hj := nodup_filter_map_index isTunable (fun p => p.name) sh.m_params
          (hn sh (mem_of_getElem?_some _ _ _ hs)) r1.2 r2.2 q1 q2 hq1 hq2 tq1 tq2
          (by dsimp only; rw [← a1, ← b1]; exact hname)
        exact Prod.ext hi hj

theorem ResetParams_value (s : State) (r : Nat × Nat) (q : ShaderParam)
    (hq : paramAt (ResetParams s) r = some q) (ht : isTunable q = true) :
    q.currentValue =
      match s.m_shaderPreset.Overrides.find? (fun o => o.name == q.name) with
      | some o => o.value
      | none => q.defaultValue := by
  rw [paramAt_ResetParams] at hq
  cases hp : paramAt s r with
  | none => rw [hp] at hq; cases hq
  | some p =>
    rw [hp] at hq
    have e : resetParam s.m_shaderPreset.Overrides p = q := Option.some.inj hq
    obtain ⟨r1, r2, r3, r4, -⟩ := resetParam_spec s.m_shaderPreset.Overrides p
    have htp : isTunable p = true := by
      unfold isTunable at ht ⊢
      rw [← e, r1, r2] at ht
      exact ht
    rw [← e, r1, r3]
    exact r4 htp

/-- C11. When `Process` swaps in the queued preset `P` together with the queued values
(no two queued for the same pass index and name; in every shader of `P` the tunable
parameters have different names), every queued `(passIndex, name, value)` leaves the
tunable parameter of that name in that pass with `value` as its current value, and every
tunable parameter for which nothing is queued has the value of the first override of `P`
with its name, else its default value.  The parameters are those of `P`: names, sizes and
default values are as `P` declares them. -/
theorem queued_params_restored (s : State) (P : Preset)
    (hnew : s.m_newShaderPreset = some P)
    (hq : (s.m_newParams.map (fun e => (e.1, e.2.1))).Nodup)
    (hn : ∀ sh ∈ P.m_shaders, ((sh.m_params.filter isTunable).map (fun p => p.name)).Nodup) :
    (∀ i name v r p, (i, name, v) ∈ s.m_newParams → paramAt (swapPreset s).1 r = some p →
        isTunable p = true → (r.1 : Int) = i → p.name = name → p.currentValue = v) ∧
      (∀ r p, paramAt (swapPreset s).1 r = some p → isTunable p = true →
        (∀ e ∈ s.m_newParams, ¬ (e.1 = (r.1 : Int) ∧ e.2.1 = p.name)) →
        p.currentValue =
          match P.Overrides.find? (fun o => o.name == p.name) with
          | some o => o.value
          | none => p.defaultValue) ∧
      (∀ r, (paramAt (swapPreset s).1 r).map (fun p => (p.name, p.size, p.defaultValue)) =
        (paramAt (setShaderPreset P s) r).map (fun p => (p.name, p.size, p.defaultValue))) := by
  have hdecl : ∀ r p, paramAt (swapPreset s).1 r = some p →
      ∃ p0, paramAt (ResetParams (setShaderPreset P s)) r = some p0 ∧ p0.name = p.name ∧
        p0.size = p.size ∧ p0.defaultValue = p.defaultValue ∧
        ((s.m_newParams.reverse.find? (fun ip =>
          queuedTarget (Params (ResetParams (setShaderPreset P s)))
            (ResetParams (setShaderPreset P s)) ip == some r) = none ∧ p = p0) ∨
         ∃ e, s.m_newParams.reverse.find? (fun ip =>
          queuedTarget (Params (ResetParams (setShaderPreset P s)))
            (ResetParams (setShaderPreset P s)) ip == some r) = some e ∧
            p.currentValue = e.2.2) := by
    intro r p hp
    rw [swapPreset_paramAt s P hnew] at hp
    cases h0 : paramAt (ResetParams (setShaderPreset P s)) r with
    | none => rw [h0] at hp; cases hp
    | some p0 =>
      rw [h0] at hp
      refine ⟨p0, rfl, ?_⟩
      cases hf : s.m_newParams.reverse.find? (fun ip =>
          queuedTarget (Params (ResetParams (setShaderPreset P s)))
            (ResetParams (setShaderPreset P s)) ip == some r) with
      | none =>
        rw [hf] at hp
        have e : p0 = p := Option.some.inj hp
        rw [e]
        exact ⟨rfl, rfl, rfl, Or.inl ⟨rfl, rfl⟩⟩
      | some e =>
        rw [hf] at hp
        have e2 := Option.some.inj hp
        rw [← e2]
        exact ⟨rfl, rfl, rfl, Or.inr ⟨e, rfl, rfl⟩⟩
  have htun : ∀ p0 p : ShaderParam, p0.name = p.name → p0.size = p.size →
      isTunable p = true → isTunable p0 = true := by
    intro p0 p h1 h2 ht
    unfold isTunable at ht ⊢
    rw [h1, h2]
    exact ht
  have hfound : ∀ (r : Nat × Nat) (e : Int × String × ℚ), s.m_newParams.reverse.find? (fun ip =>
      queuedTarget (Params (ResetParams (setShaderPreset P s)))
        (ResetParams (setShaderPreset P s)) ip == some r) = some e →
      e ∈ s.m_newParams ∧ e.1 = (r.1 : Int) ∧
        nameAt (ResetParams (setShaderPreset P s)) r = some e.2.1 := by
    intro r e he
    have hmem := List.mem_reverse.mp (List.mem_of_find?_eq_some he)
    have hpred := List.find?_some he
    simp only [beq_iff_eq] at hpred
    obtain ⟨-, k1, k2⟩ := queuedTarget_some _ _ _ _ hpred
    exact ⟨hmem, k1, k2⟩
  refine ⟨?_, ?_, ?_⟩
  · intro i name v r p hmem hp ht hi hname
    obtain ⟨p0, h0, d1, d2, d3, hcase⟩ := hdecl r p hp
    have ht0 := htun p0 p d1 d2 ht
    have hname0 : nameAt (ResetParams (setShaderPreset P s)) r = some name := by
      unfold nameAt
      rw [h0]
      simp only [Option.map_some', d1, hname]
    have hrmem : r ∈ Params (ResetParams (setShaderPreset P s)) :=
      (mem_Params _ r).mpr ⟨p0, h0, ht0⟩
    obtain ⟨r0, hr0⟩ := queuedTarget_exists (Params (ResetParams (setShaderPreset P s)))
      (ResetParams (setShaderPreset P s)) (i, name, v) r hrmem hi.symm hname0
    obtain ⟨m1, m2, m3⟩ := queuedTarget_some _ _ _ _ hr0
    obtain ⟨q0, hq0, tq0⟩ := (mem_Params _ r0).mp m1
    have hr : r0 = r := by
      apply reset_param_unique s P hn r0 r q0 p0 hq0 h0 tq0 ht0
      · have : (r0.1 : Int) = (r.1 : Int) := by rw [← m2, hi]
        exact_mod_cast this
      · unfold nameAt at m3 hname0
        rw [hq0] at m3
        rw [h0] at hname0
        have a := Option.some.inj m3
        have b := Option.some.inj hname0
        dsimp only at a b
        rw [a, b]
    rw [hr] at hr0
    rcases hcase with ⟨hnone, -⟩ | ⟨e, he, hval⟩
    · exfalso
      have := List.find?_eq_none.mp hnone (i, name, v) (List.mem_reverse.mpr hmem)
      apply this
      simp only [beq_iff_eq]
      exact hr0
    · obtain ⟨f1, f2, f3⟩ := hfound r e he
      rw [hname0] at f3
      have hkey : (fun x : Int × String × ℚ => (x.1, x.2.1)) e =
          (fun x : Int × String × ℚ => (x.1, x.2.1)) (i, name, v) := by
        dsimp only
        rw [f2, hi, Option.some.inj f3]
      have := List.inj_on_of_nodup_map hq f1 hmem hkey
      rw [hval, this]
  · intro r p hp ht hno
    obtain ⟨p0, h0, d1, d2, d3, hcase⟩ := hdecl r p hp
    have ht0 := htun p0 p d1 d2 ht
    rcases hcase with ⟨-, hpe⟩ | ⟨e, he, -⟩
    · rw [hpe]
      have := ResetParams_value (setShaderPreset P s) r p0 h0 ht0
      exact this
    · exfalso
      obtain ⟨f1, f2, f3⟩ := hfound r e he
      apply hno e f1
      refine ⟨f2, ?_⟩
      unfold nameAt at f3
      rw [h0] at f3
      have := Option.some.inj f3
      dsimp only at this
      rw [← this, d1]
  · intro r
    rw [swapPreset_paramAt s P hnew, paramAt_ResetParams]
    cases paramAt (setShaderPreset P s) r with
    | none => rfl
    | some p0 =>
      obtain ⟨a1, a2, a3, -, -⟩ := resetParam_spec (setShaderPreset P s).m_shaderPreset.Overrides p0
      simp only [Option.map_some', Option.some.injEq]
      split
      · dsimp only
        rw [a1, a2, a3]
      · rw [a1, a2, a3]

/-- C11, instance: the two-pass sample preset is queued together with the value 2.4 for
the `gamma` of pass 1; after the swap that parameter is 2.4, not the 2.2 the preset
declares. -/
theorem queued_params_restored_witness :
    queuedState.m_newShaderPreset = some tunedPreset ∧
      (queuedState.m_newParams.map (fun e => (e.1, e.2.1))).Nodup ∧
      (∀ sh ∈ tunedPreset.m_shaders,
        ((sh.m_params.filter isTunable).map (fun p => p.name)).Nodup) ∧
      ((1, "gamma", 12 / 5) : Int × String × ℚ) ∈ queuedState.m_newParams ∧
      paramAt (swapPreset queuedState).1 (1, 2) = some ⟨"gamma", 4, 12 / 5, 1⟩ ∧
      (⟨"gamma", 4, 12 / 5, 1⟩ : ShaderParam).currentValue = 12 / 5 :=
  ⟨rfl, by decide!, by decide!, by decide!, by decide!,
    (queued_params_restored queuedState tunedPreset rfl (by decide!) (by decide!)).1
      1 "gamma" (12 / 5) (1, 2) ⟨"gamma", 4, 12 / 5, 1⟩ (by decide!) (by decide!) (by decide!)
      rfl rfl⟩

/-! ### C13: what a completed frame leaves settled -/

theorem settled_logCalls (cs : List Call) (s : State) :
    settled (logCalls cs s) = settled s := rfl

theorem settled_ClearRenderTargetView (v : Option RenderTargetView) (s : State) :
    settled (ClearRenderTargetView v s) = settled s := by
  unfold ClearRenderTargetView
  split <;> rfl

theorem settled_captureGeometry (inp : FrameInput) (texture : CapturedTexture) (s : State) :
    settled (captureGeometry inp texture s).1 = settled s := by
  unfold captureGeometry
  dsimp only
  split
  · dsimp only
    split <;> rfl
  · split <;> rfl

theorem settled_resizePasses (texture : CapturedTexture) (ow oh vw vh : Nat) (s : State) :
    settled (resizePasses texture ow oh vw vh s) = settled s := rfl

theorem settled_updateTransform (g : Geometry) (outputResized : Bool) (dw dh : Int)
    (s : State) : settled (updateTransform g outputResized dw dh s) = settled s := by
  unfold updateTransform
  split <;> rfl

theorem settled_renderPass (texture : CapturedTexture) (s : State) (p : Nat) :
    settled (renderPass texture s p) = settled s := by
  unfold renderPass
  dsimp only
  split
  · split <;> rfl
  · rfl

theorem settled_renderPreprocess (texture : CapturedTexture) (s : State) :
    settled (renderPreprocess texture s) = settled s := by
  unfold renderPreprocess
  dsimp only
  split <;> rfl

theorem settled_renderPasses (texture : CapturedTexture) (s : State) :
    settled (renderPasses texture s) = settled s := by
  unfold renderPasses
  dsimp only
  refine foldl_preserves (fun x => settled x = settled s) (renderPass texture) _
    (fun a b ha => by beta_reduce; rw [settled_renderPass]; exact ha) _ ?_
  beta_reduce
  rw [settled_renderPreprocess]
  split
  · rw [settled_logCalls, settled_ClearRenderTargetView]
  · rfl

theorem settled_copyPassFeedback (s : State) (q : Nat) :
    settled (copyPassFeedback s q) = settled s := by
  unfold copyPassFeedback
  split <;> rfl

theorem settled_copyDisplayFeedback (s : State) :
    settled (copyDisplayFeedback s) = settled s := by
  unfold copyDisplayFeedback
  split
  · rfl
  · dsimp only
    repeat' split
    all_goals rfl

theorem settled_copyFeedback (s : State) : settled (copyFeedback s) = settled s := by
  unfold copyFeedback
  split
  · rw [settled_copyDisplayFeedback]
    exact foldl_preserves (fun x => settled x = settled s) copyPassFeedback _
      (fun a b ha => by beta_reduce; rw [settled_copyPassFeedback]; exact ha) s rfl
  · rfl

theorem settled_rotateHistory (s : State) : settled (rotateHistory s) = settled s := by
  unfold rotateHistory
  split
  · split
    · dsimp only
      split
      · split <;> rfl
      · rfl
    · rfl
  · rfl

theorem settled_finishFrame (ticks : Nat) (s : State) :
    settled (finishFrame ticks s) = settled s := by
  unfold finishFrame
  dsimp only
  split <;> rfl

theorem settled_createFeedback (desc2 : TextureDesc) (index : Nat) (aliasName : String)
    (s : State) : settled (createFeedback desc2 index aliasName s) = settled s := by
  unfold createFeedback
  dsimp only [CreateTexture2D, CreateShaderResourceView]
  split <;> rfl

theorem settled_setShaderPasses (l : List ShaderPass) (s : State) :
    settled (setShaderPasses l s) = settled s := rfl

theorem settled_rebuildPassStep (texture : CapturedTexture) (s : State) (p : Nat) :
    settled (rebuildPassStep texture s p) = settled s := by
  unfold rebuildPassStep
  split
  · rfl
  · dsimp only [CreateTexture2D, CreateShaderResourceView, CreateRenderTargetView]
    rw [settled_setShaderPasses]
    split
    · rw [settled_createFeedback]
      rfl
    · rfl

theorem settled_requirementStep (s : State) (pass : ShaderPass) :
    settled (requirementStep s pass) = settled s := rfl

theorem settled_createPassTargets (texture : CapturedTexture) (s : State) :
    settled (createPassTargets texture s) = settled s := by
  unfold createPassTargets
  split
  · dsimp only
    have h1 : settled (s.m_shaderPasses.foldl requirementStep s) = settled s :=
      foldl_preserves (fun x => settled x = settled s) requirementStep _
        (fun a b ha => by beta_reduce; rw [settled_requirementStep]; exact ha) s rfl
    refine foldl_preserves (fun x => settled x = settled s)
      (fun st i => rebuildPassStep texture st (i + 1)) _
      (fun a b ha => by beta_reduce; rw [settled_rebuildPassStep]; exact ha) _ h1
  · split <;> rfl

theorem settled_createHistory (desc2 : TextureDesc) (s : State) (h : Nat) :
    settled (createHistory desc2 s h) = settled s := rfl

theorem settled_createHistories (texture : CapturedTexture) (ow oh : Nat) (s : State) :
    settled (createHistories texture ow oh s) = settled s := by
  unfold createHistories
  split
  · dsimp only
    exact foldl_preserves (fun x => settled x = settled s) (createHistory _) _
      (fun a b ha => by beta_reduce; rw [settled_createHistory]; exact ha) s rfl
  · rfl

theorem settled_createLastFeedback (texture : CapturedTexture) (s : State) :
    settled (createLastFeedback texture s) = settled s := by
  unfold createLastFeedback
  dsimp only
  split
  · rfl
  · rw [settled_createFeedback]

theorem settled_rebuildGraph (texture : CapturedTexture) (ow oh : Nat) (s : State) :
    settled (rebuildGraph texture ow oh s) = settled s := by
  have h : settled (targetDisplay (createHistories texture ow oh
      (createPassTargets texture (seedResources s)))) = settled s := by
    have e : settled (targetDisplay (createHistories texture ow oh
        (createPassTargets texture (seedResources s)))) =
          settled (createHistories texture ow oh
            (createPassTargets texture (seedResources s))) := rfl
    rw [e, settled_createHistories, settled_createPassTargets]
    rfl
  unfold rebuildGraph
  dsimp only
  split
  · rw [settled_createLastFeedback]
    exact h
  · exact h

theorem TryResizeSwapChain_lastSize (r : RECT) (force : Bool) (s : State) :
    (TryResizeSwapChain r force s).1.m_lastSize = ⟨r.right, r.bottom⟩ ∧
      (TryResizeSwapChain r force s).1.m_newShaderPreset = s.m_newShaderPreset := by
  unfold TryResizeSwapChain
  by_cases hc : (force || r.right != s.m_lastSize.x || r.bottom != s.m_lastSize.y) = true
  · rw [if_pos hc]
    have hd : (DestroyTargets s).m_newShaderPreset = s.m_newShaderPreset := by
      unfold DestroyTargets
      split <;> rfl
    dsimp only
    split
    · exact ⟨rfl, hd⟩
    · exact ⟨rfl, hd⟩
  · rw [if_neg hc]
    simp only [Bool.or_eq_true, bne_iff_ne, ne_eq, not_or, not_not] at hc
    refine ⟨?_, rfl⟩
    dsimp only
    rw [hc.1.2, hc.2]

theorem consumeRescaleFlags_flags (s : State) :
    (consumeRescaleFlags s).1.m_inputRescaled = false ∧
      (consumeRescaleFlags s).1.m_outputRescaled = false ∧
      (consumeRescaleFlags s).1.m_lastSize = s.m_lastSize ∧
      (consumeRescaleFlags s).1.m_newShaderPreset = s.m_newShaderPreset := by
  unfold consumeRescaleFlags
  dsimp only
  split
  · split
    · dsimp only
      unfold DestroyTargets
      split <;> exact ⟨rfl, rfl, rfl, rfl⟩
    · dsimp only
      unfold ClearRenderTargetView
      split <;> exact ⟨rfl, rfl, rfl, rfl⟩
  · exact ⟨rfl, rfl, rfl, rfl⟩

theorem flagsOf_applyNewParam (refs : List (Nat × Nat)) (s : State) (ip : Int × String × ℚ) :
    (applyNewParam refs s ip).m_inputRescaled = s.m_inputRescaled ∧
      (applyNewParam refs s ip).m_outputRescaled = s.m_outputRescaled ∧
      (applyNewParam refs s ip).m_lastSize = s.m_lastSize ∧
      (applyNewParam refs s ip).m_newShaderPreset = s.m_newShaderPreset := by
  unfold applyNewParam
  split <;> exact ⟨rfl, rfl, rfl, rfl⟩

theorem swapPreset_flags (s : State) :
    (swapPreset s).1.m_inputRescaled = s.m_inputRescaled ∧
      (swapPreset s).1.m_outputRescaled = s.m_outputRescaled ∧
      (swapPreset s).1.m_lastSize = s.m_lastSize ∧
      (swapPreset s).1.m_newShaderPreset = none := by
  unfold swapPreset
  split
  · rename_i hnone
    exact ⟨rfl, rfl, rfl, hnone⟩
  · rename_i newPreset hnew
    dsimp only
    split
    · rw [UpdateParams_id]
      have hfold := foldl_preserves
        (fun x : State => x.m_inputRescaled = s.m_inputRescaled ∧
          x.m_outputRescaled = s.m_outputRescaled ∧ x.m_lastSize = s.m_lastSize ∧
          x.m_newShaderPreset = none)
        (applyNewParam (Params (RebuildShaders (setNewShaderPreset none
          (setShaderPreset newPreset (DestroyShaders s))))))
        (RebuildShaders (setNewShaderPreset none
          (setShaderPreset newPreset (DestroyShaders s)))).m_newParams
        (fun a b ha => by
          beta_reduce
          obtain ⟨f1, f2, f3, f4⟩ := flagsOf_applyNewParam
            (Params (RebuildShaders (setNewShaderPreset none
              (setShaderPreset newPreset (DestroyShaders s))))) a b
          rw [f1, f2, f3, f4]
          exact ha)
        (RebuildShaders (setNewShaderPreset none (setShaderPreset newPreset (DestroyShaders s))))
        ⟨rfl, rfl, rfl, rfl⟩
      exact hfold
    · exact ⟨rfl, rfl, rfl, rfl⟩

theorem createPreprocessed_settled (texture : CapturedTexture) (ow oh : Nat)
    (flags : FrameFlags) (s : State) :
    flagsOf (createPreprocessed texture ow oh flags s).1 = flagsOf s ∧
      (createPreprocessed texture ow oh flags s).1.m_preprocessedTexture.isSome = true ∧
      (createPreprocessed texture ow oh flags s).1.m_preprocessedRenderTarget.isSome = true := by
  unfold createPreprocessed
  dsimp only [CreateTexture2D, CreateShaderResourceView, CreateRenderTargetView]
  by_cases h1 : s.m_preprocessedTexture.isNone = true
  · rw [if_pos h1]
    dsimp only
    split
    · exact ⟨rfl, rfl, rfl⟩
    · rename_i h2
      refine ⟨rfl, rfl, ?_⟩
      cases h3 : s.m_preprocessedRenderTarget with
      | none => rw [h3] at h2; exact absurd rfl h2
      | some v => rfl
  · rw [if_neg h1]
    dsimp only
    have ht : s.m_preprocessedTexture.isSome = true := by
      cases h3 : s.m_preprocessedTexture with
      | none => rw [h3] at h1; exact absurd rfl h1
      | some v => rfl
    split
    · refine ⟨rfl, ht, ?_⟩
      dsimp only
      cases h3 : s.m_preprocessedTexture with
      | none => rw [h3] at h1; exact absurd rfl h1
      | some v => rfl
    · rename_i h2
      refine ⟨rfl, ht, ?_⟩
      cases h3 : s.m_preprocessedRenderTarget with
      | none => rw [h3] at h2; exact absurd rfl h2
      | some v => rfl

theorem renderFrame_settled (inp : FrameInput) (texture : CapturedTexture) (g : Geometry)
    (outputResized : Bool) (vw vh : Nat) (dw dh : Int) (s : State) :
    (renderFrame inp texture g outputResized vw vh dw dh s).m_inputRescaled = false ∧
      (renderFrame inp texture g outputResized vw vh dw dh s).m_outputRescaled = false ∧
      (renderFrame inp texture g outputResized vw vh dw dh s).m_lastSize = s.m_lastSize ∧
      (renderFrame inp texture g outputResized vw vh dw dh s).m_newShaderPreset = none ∧
      (renderFrame inp texture g outputResized vw vh dw dh s).m_preprocessedTexture.isSome =
        true ∧
      (renderFrame inp texture g outputResized vw vh dw dh s).m_preprocessedRenderTarget.isSome =
        true := by
  have hite : ∀ (x : State) (b : Bool) (y z : State), settled y = settled x →
      settled z = settled x → settled (if b = true then y else z) = settled x := by
    intro x b y z hy hz
    cases b
    · simpa using hz
    · simpa using hy
  have key : ∀ flags ow oh, settled (renderFrame inp texture g outputResized vw vh dw dh s) =
      settled (createPreprocessed texture ow oh flags
        (swapPreset (consumeRescaleFlags s).1).1).1 →
      (renderFrame inp texture g outputResized vw vh dw dh s).m_inputRescaled = false ∧
      (renderFrame inp texture g outputResized vw vh dw dh s).m_outputRescaled = false ∧
      (renderFrame inp texture g outputResized vw vh dw dh s).m_lastSize = s.m_lastSize ∧
      (renderFrame inp texture g outputResized vw vh dw dh s).m_newShaderPreset = none ∧
      (renderFrame inp texture g outputResized vw vh dw dh s).m_preprocessedTexture.isSome =
        true ∧
      (renderFrame inp texture g outputResized vw vh dw dh s).m_preprocessedRenderTarget.isSome =
        true := by
    intro flags ow oh h
    obtain ⟨c1, c2, c3⟩ := createPreprocessed_settled texture ow oh flags
      (swapPreset (consumeRescaleFlags s).1).1
    obtain ⟨p1, p2, p3, p4⟩ := swapPreset_flags (consumeRescaleFlags s).1
    obtain ⟨f1, f2, f3, f4⟩ := consumeRescaleFlags_flags s
    simp only [settled, Prod.mk.injEq] at h
    simp only [flagsOf, Prod.mk.injEq] at c1
    obtain ⟨h1, h2, h3, h4, h5, h6⟩ := h
    obtain ⟨d1, d2, d3, d4⟩ := c1
    refine ⟨?_, ?_, ?_, ?_, ?_, ?_⟩
    · rw [h1, d1, p1, f1]
    · rw [h2, d2, p2, f2]
    · rw [h3, d3, p3, f3]
    · rw [h4, d4, p4]
    · rw [h5, c2]
    · rw [h6, c3]
  apply key
  unfold renderFrame
  dsimp only
  rw [settled_finishFrame, settled_rotateHistory, settled_copyFeedback, settled_renderPasses,
    settled_updateTransform]
  apply hite
  · rw [settled_rebuildGraph]
    apply hite
    · rw [settled_resizePasses]
    · rfl
  · apply hite
    · rw [settled_resizePasses]
    · rfl

/-- What a call of `Process` that runs to its end leaves behind: no pending rescale, the
client size recorded, no queued preset, and the preprocessed texture with its render
target in place. -/
theorem completed_settled (inp : FrameInput) (s : State)
    (hc : (ProcessTraced inp s).2 = Outcome.completed) :
    (Process inp s).m_inputRescaled = false ∧ (Process inp s).m_outputRescaled = false ∧
      (Process inp s).m_lastSize = ⟨inp.clientRect.right, inp.clientRect.bottom⟩ ∧
      (Process inp s).m_newShaderPreset = none ∧
      (Process inp s).m_preprocessedTexture.isSome = true ∧
      (Process inp s).m_preprocessedRenderTarget.isSome = true := by
  obtain ⟨texture, htx, hp⟩ := ProcessTraced_locked inp s (by rw [hc]; decide)
    (by rw [hc]; decide)
  rw [hp] at hc
  unfold Process
  rw [hp]
  unfold processLocked at hc ⊢
  dsimp only at hc ⊢
  rw [captureGeometry_clientRect] at hc ⊢
  split at hc
  · cases hc
  · rename_i h1
    rw [if_neg h1]
    split at hc
    · cases hc
    · rename_i h2
      rw [if_neg h2]
      dsimp only
      obtain ⟨r1, r2, r3, r4, r5, r6⟩ := renderFrame_settled inp texture
        (captureGeometry inp texture (setFrameCounter (s.m_frameCounter + 1) s)).2
        (TryResizeSwapChain inp.clientRect
          (captureGeometry inp texture (setFrameCounter (s.m_frameCounter + 1) s)).1.m_outputRescaled
          (captureGeometry inp texture (setFrameCounter (s.m_frameCounter + 1) s)).1).2
        _ _ _ _ _
      refine ⟨r1, r2, ?_, r4, r5, r6⟩
      rw [r3]
      exact (TryResizeSwapChain_lastSize _ _ _).1

theorem swapPreset_none (s : State) (h : s.m_newShaderPreset = none) :
    swapPreset s = (s, false) := by
  unfold swapPreset
  split
  · rfl
  · rename_i p hp
    rw [h] at hp
    cases hp

theorem createPreprocessed_present (texture : CapturedTexture) (ow oh : Nat)
    (flags : FrameFlags) (s : State) (h1 : s.m_preprocessedTexture.isSome = true)
    (h2 : s.m_preprocessedRenderTarget.isSome = true) :
    createPreprocessed texture ow oh flags s = (s, flags) := by
  unfold createPreprocessed
  have e1 : ¬ (s.m_preprocessedTexture.isNone = true) := by
    cases h : s.m_preprocessedTexture with
    | none => rw [h] at h1; cases h1
    | some v => simp
  have e2 : ¬ (s.m_preprocessedRenderTarget.isNone = true) := by
    cases h : s.m_preprocessedRenderTarget with
    | none => rw [h] at h2; cases h2
    | some v => simp
  dsimp only
  rw [if_neg e1]
  dsimp only
  rw [if_neg e2]

theorem consumeRescaleFlags_idle (s : State) (h : s.m_inputRescaled = false) :
    consumeRescaleFlags s = (setRescaleFlags false false s, false) := by
  unfold consumeRescaleFlags
  dsimp only
  rw [h]
  rfl

theorem TryResizeSwapChain_idle (r : RECT) (s : State)
    (h : s.m_lastSize = ⟨r.right, r.bottom⟩) : TryResizeSwapChain r false s = (s, false) := by
  unfold TryResizeSwapChain
  rw [if_neg]
  rw [h]
  simp

/-- A frame delivered to a settled pipeline whose client size is the recorded one does
not rebuild the topology. -/
theorem rebuildsPasses_settled (inp : FrameInput) (s : State)
    (h1 : s.m_inputRescaled = false) (h2 : s.m_outputRescaled = false)
    (h3 : s.m_lastSize = ⟨inp.clientRect.right, inp.clientRect.bottom⟩)
    (h4 : s.m_newShaderPreset = none) (h5 : s.m_preprocessedTexture.isSome = true)
    (h6 : s.m_preprocessedRenderTarget.isSome = true) :
    rebuildsPasses inp s = false := by
  unfold rebuildsPasses
  cases htx : inp.texture with
  | none => rfl
  | some texture =>
    dsimp only
    have hcg := settled_captureGeometry inp texture (setFrameCounter (s.m_frameCounter + 1) s)
    have hs : settled (setFrameCounter (s.m_frameCounter + 1) s) = settled s := rfl
    rw [hs] at hcg
    simp only [settled, Prod.mk.injEq] at hcg
    obtain ⟨g1, g2, g3, g4, g5, g6⟩ := hcg
    rw [captureGeometry_clientRect]
    generalize captureGeometry inp texture (setFrameCounter (s.m_frameCounter + 1) s) = cg
      at g1 g2 g3 g4 g5 g6 ⊢
    rw [g2, h2, TryResizeSwapChain_idle inp.clientRect cg.1 (by rw [g3, h3])]
    dsimp only
    rw [consumeRescaleFlags_idle _ (by
      show cg.1.m_inputRescaled = false
      rw [g1, h1])]
    dsimp only
    rw [swapPreset_none _ (by
      show cg.1.m_newShaderPreset = none
      rw [g4, h4])]
    dsimp only
    rw [createPreprocessed_present _ _ _ _ _
      (by
        show cg.1.m_preprocessedTexture.isSome = true
        rw [g5, h5])
      (by
        show cg.1.m_preprocessedRenderTarget.isSome = true
        rw [g6, h6])]
    rfl

/-! ### C13: the render graph across a frame without rebuild -/

theorem graphOf_logCalls (cs : List Call) (s : State) :
    graphOf (logCalls cs s) = graphOf s := rfl

theorem graphOf_ClearRenderTargetView (v : Option RenderTargetView) (s : State) :
    graphOf (ClearRenderTargetView v s) = graphOf s := by
  unfold ClearRenderTargetView
  split <;> rfl

theorem graphOf_renderPass (texture : CapturedTexture) (s : State) (p : Nat) :
    graphOf (renderPass texture s p) = graphOf s := by
  unfold renderPass
  dsimp only
  split
  · split <;> rfl
  · rfl

theorem graphOf_renderPreprocess (texture : CapturedTexture) (s : State) :
    graphOf (renderPreprocess texture s) = graphOf s := by
  unfold renderPreprocess
  dsimp only
  split <;> rfl

theorem graphOf_renderPasses (texture : CapturedTexture) (s : State) :
    graphOf (renderPasses texture s) = graphOf s := by
  unfold renderPasses
  dsimp only
  refine foldl_preserves (fun x => graphOf x = graphOf s) (renderPass texture) _
    (fun a b ha => by beta_reduce; rw [graphOf_renderPass]; exact ha) _ ?_
  beta_reduce
  rw [graphOf_renderPreprocess]
  split
  · rw [graphOf_logCalls, graphOf_ClearRenderTargetView]
  · rfl

theorem graphOf_copyPassFeedback (s : State) (q : Nat) :
    graphOf (copyPassFeedback s q) = graphOf s := by
  unfold copyPassFeedback
  split <;> rfl

theorem graphOf_copyDisplayFeedback (s : State) :
    graphOf (copyDisplayFeedback s) = graphOf s := by
  unfold copyDisplayFeedback
  split
  · rfl
  · dsimp only
    repeat' split
    all_goals rfl

theorem graphOf_copyFeedback (s : State) : graphOf (copyFeedback s) = graphOf s := by
  unfold copyFeedback
  split
  · rw [graphOf_copyDisplayFeedback]
    exact foldl_preserves (fun x => graphOf x = graphOf s) copyPassFeedback _
      (fun a b ha => by beta_reduce; rw [graphOf_copyPassFeedback]; exact ha) s rfl
  · rfl

theorem graphOf_finishFrame (ticks : Nat) (s : State) :
    graphOf (finishFrame ticks s) = graphOf s := by
  unfold finishFrame
  dsimp only
  split <;> rfl

theorem mapKeys_mapAssign_present {κ ν : Type} [DecidableEq κ] (m : List (κ × ν)) (k : κ)
    (v : ν) (h : (mapFind m k).isSome = true) : mapKeys (mapAssign m k v) = mapKeys m := by
  induction m with
  | nil => simp [mapFind] at h
  | cons a rest ih =>
    obtain ⟨k1, v1⟩ := a
    by_cases hk : k1 = k
    · simp [mapAssign, mapKeys, hk]
    · have h2 : (mapFind rest k).isSome = true := by
        simpa [mapFind, hk] using h
      have := ih h2
      simp only [mapKeys] at this
      simp [mapAssign, mapKeys, hk, this]

theorem mapFind_mapAssign_isSome {κ ν : Type} [DecidableEq κ] (m : List (κ × ν)) (k k2 : κ)
    (v : ν) (h : (mapFind m k2).isSome = true) :
    (mapFind (mapAssign m k v) k2).isSome = true := by
  by_cases e : k = k2
  · rw [e, mapFind_mapAssign_self]
    rfl
  · rw [mapFind_mapAssign_ne _ _ _ _ e]
    exact h

theorem remapHistory_keys (n : Nat) (m : List (Name × Option ShaderResourceView))
    (hpres : ∀ j, 1 ≤ j → j ≤ n → (mapFind m (Name.originalHistory j)).isSome = true) :
    mapKeys (remapHistory m n) = mapKeys m := by
  induction n generalizing m with
  | zero => rfl
  | succ h ih =>
    cases h with
    | zero =>
      unfold remapHistory
      rw [if_neg (by decide)]
    | succ h2 =>
      have hstep : remapHistory m (h2 + 1 + 1) =
          remapHistory (remapHistoryStep m (h2 + 1 + 1)) (h2 + 1) := by
        rw [remapHistory, if_pos (by omega)]
      obtain ⟨v, hv⟩ := Option.isSome_iff_exists.mp (hpres (h2 + 1) (by omega) (by omega))
      have hm : remapHistoryStep m (h2 + 1 + 1) =
          mapAssign m (Name.originalHistory (h2 + 1 + 1)) v := by
        unfold remapHistoryStep mapSubscript
        dsimp only
        have e : h2 + 1 + 1 - 1 = h2 + 1 := by omega
        rw [e, hv]
      rw [hstep, ih (remapHistoryStep m (h2 + 1 + 1)) (fun j hj1 hj2 => by
        rw [hm]
        exact mapFind_mapAssign_isSome _ _ _ _ (hpres j hj1 (by omega))), hm]
      exact mapKeys_mapAssign_present _ _ _ (hpres (h2 + 1 + 1) (by omega) (by omega))

theorem historyRegistered_iff (s : State) :
    historyRegistered s = true ↔
      ∀ j, 1 ≤ j → j ≤ s.m_requiresHistory →
        (mapFind s.m_passResources (Name.originalHistory j)).isSome = true := by
  unfold historyRegistered
  rw [List.all_eq_true]
  constructor
  · intro h j hj1 hj2
    have := h (j - 1) (List.mem_range.mpr (by omega))
    have e : j - 1 + 1 = j := by omega
    rw [e] at this
    exact this
  · intro h j hj
    exact h (j + 1) (by omega) (by have := List.mem_range.mp hj; omega)

theorem rotateHistory_graph (s : State) (hreg : historyRegistered s = true) :
    (rotateHistory s).m_shaderPasses = s.m_shaderPasses ∧
      (rotateHistory s).m_passTargets = s.m_passTargets ∧
      (rotateHistory s).m_passTextures = s.m_passTextures ∧
      (rotateHistory s).m_textureSizes = s.m_textureSizes ∧
      mapKeys (rotateHistory s).m_passResources = mapKeys s.m_passResources := by
  have hpres := (historyRegistered_iff s).mp hreg
  have hkeys := remapHistory_keys s.m_requiresHistory s.m_passResources hpres
  unfold rotateHistory
  split
  · rename_i hN
    have hN1 : 1 ≤ s.m_requiresHistory := by
      simp only [bne_iff_ne, ne_eq] at hN
      omega
    split
    · dsimp only
      split
      · split
        · refine ⟨rfl, rfl, rfl, rfl, ?_⟩
          rw [mapKeys_mapAssign_present, hkeys]
          rw [(remapHistory_find s.m_requiresHistory s.m_passResources hpres).2 _
            (fun j hj1 hj2 e => by
              have := Name.originalHistory.inj e
              omega)]
          exact hpres 1 (by omega) hN1
        · exact ⟨rfl, rfl, rfl, rfl, hkeys⟩
      · exact ⟨rfl, rfl, rfl, rfl, hkeys⟩
    · exact ⟨rfl, rfl, rfl, rfl, rfl⟩
  · exact ⟨rfl, rfl, rfl, rfl, rfl⟩

/-- C13. If two calls of `Process` one after the other both run to their end and the
second finds the client rectangle of the first (no setter and no preset in between: the
second call starts from the state the first one left, in which every `OriginalHistory<j>`
up to the depth is registered, as a rebuild leaves it), then the second call does not
rebuild the topology, and the passes with their sizes, the texture sizes, the pass
textures, the pass targets and the keys of `m_passResources` are after it what they
were before it. -/
theorem repeated_frame_keeps_graph (inp1 inp2 : FrameInput) (s : State)
    (hc1 : (ProcessTraced inp1 s).2 = Outcome.completed)
    (hc2 : (ProcessTraced inp2 (Process inp1 s)).2 = Outcome.completed)
    (hrect : inp2.clientRect = inp1.clientRect)
    (hreg : historyRegistered (Process inp1 s) = true) :
    rebuildsPasses inp2 (Process inp1 s) = false ∧
      (Process inp2 (Process inp1 s)).m_shaderPasses = (Process inp1 s).m_shaderPasses ∧
      (Process inp2 (Process inp1 s)).m_textureSizes = (Process inp1 s).m_textureSizes ∧
      (Process inp2 (Process inp1 s)).m_passTextures = (Process inp1 s).m_passTextures ∧
      (Process inp2 (Process inp1 s)).m_passTargets = (Process inp1 s).m_passTargets ∧
      mapKeys (Process inp2 (Process inp1 s)).m_passResources =
        mapKeys (Process inp1 s).m_passResources := by
  obtain ⟨k1, k2, k3, k4, k5, k6⟩ := completed_settled inp1 s hc1
  have hnr : rebuildsPasses inp2 (Process inp1 s) = false :=
    rebuildsPasses_settled inp2 (Process inp1 s) k1 k2 (by rw [k3, hrect]) k4 k5 k6
  obtain ⟨texture, s0, -, hw, -, hP, hg⟩ := Process_steady_graph inp2 (Process inp1 s) hc2 hnr
  have ha : graphOf (copyFeedback (renderPasses texture s0)) = graphOf (Process inp1 s) := by
    rw [graphOf_copyFeedback, graphOf_renderPasses]
    exact hg
  have hreg2 : historyRegistered (copyFeedback (renderPasses texture s0)) = true := by
    have hw2 : wiring (copyFeedback (renderPasses texture s0)) = wiring (Process inp1 s) := by
      rw [(copyFeedback_effect _).1, (renderPasses_effect _ _).1]
      exact hw
    obtain ⟨e1, -, -, -, e5⟩ := wiring_eq _ _ hw2
    unfold historyRegistered at hreg ⊢
    rw [e1, e5]
    exact hreg
  obtain ⟨r1, r2, r3, r4, r5⟩ := rotateHistory_graph _ hreg2
  simp only [graphOf, Prod.mk.injEq] at ha
  obtain ⟨a1, a2, a3, a4, a5⟩ := ha
  have hf := graphOf_finishFrame inp2.ticks
    (rotateHistory (copyFeedback (renderPasses texture s0)))
  simp only [graphOf, Prod.mk.injEq] at hf
  obtain ⟨f1, f2, f3, f4, f5⟩ := hf
  rw [hP]
  refine ⟨hnr, ?_, ?_, ?_, ?_, ?_⟩
  · rw [f1, r1, a1]
  · rw [f5, r4, a5]
  · rw [f4, r3, a4]
  · rw [f3, r2, a3]
  · rw [f2, r5, a2]

/-- C13, instance: the sample pipeline gets two frames in its window of 800 by 600; the
second one does not rebuild and leaves the passes as the first one made them. -/
theorem repeated_frame_keeps_graph_witness :
    (ProcessTraced (sampleInput 1 800 600) sampleState).2 = Outcome.completed ∧
      (ProcessTraced (sampleInput 2 800 600)
        (Process (sampleInput 1 800 600) sampleState)).2 = Outcome.completed ∧
      (sampleInput 2 800 600).clientRect = (sampleInput 1 800 600).clientRect ∧
      historyRegistered (Process (sampleInput 1 800 600) sampleState) = true ∧
      rebuildsPasses (sampleInput 2 800 600) (Process (sampleInput 1 800 600) sampleState) =
        false ∧
      (Process (sampleInput 2 800 600)
        (Process (sampleInput 1 800 600) sampleState)).m_shaderPasses =
          (Process (sampleInput 1 800 600) sampleState).m_shaderPasses :=
  ⟨by decide!, by decide!, rfl, by decide!,
    (repeated_frame_keeps_graph (sampleInput 1 800 600) (sampleInput 2 800 600) sampleState
      (by decide!) (by decide!) rfl (by decide!)).1,
    (repeated_frame_keeps_graph (sampleInput 1 800 600) (sampleInput 2 800 600) sampleState
      (by decide!) (by decide!) rfl (by decide!)).2.1⟩

/-! ### C14: the parameter values a restart hands to the new pipeline -/

theorem StopSession_fields (m : CaptureManager) (sg : State)
    (hs : m.m_session.isSome = true) (hg : m.m_shaderGlass = some sg) :
    m.StopSession.m_shaderGlass = none ∧ m.StopSession.m_session = none ∧
      m.StopSession.m_options = m.m_options ∧ m.StopSession.m_presetList = m.m_presetList ∧
      m.StopSession.m_queuedParams = m.m_queuedParams ∧
      m.StopSession.m_lastPreset = m.m_lastPreset ∧
      m.StopSession.m_lastParams = (Params sg).filterMap (fun ref =>
        (paramAt sg ref).map (fun p => ((ref.1 : Int), p.name, p.currentValue))) := by
  unfold CaptureManager.StopSession
  rw [if_pos hs]
  unfold CaptureManager.Exit CaptureManager.GrabOutput CaptureManager.RememberLastPreset
    CaptureManager.Params CaptureManager.IsActive
  rw [hg]
  dsimp only
  rw [if_pos hs, if_pos hs]
  exact ⟨rfl, rfl, rfl, rfl, rfl, rfl, rfl⟩

theorem onPipeline_fields (f : State → State) (m : CaptureManager) :
    (m.onPipeline f).m_options = m.m_options ∧ (m.onPipeline f).m_presetList = m.m_presetList ∧
      (m.onPipeline f).m_queuedParams = m.m_queuedParams ∧
      (m.onPipeline f).m_lastPreset = m.m_lastPreset ∧
      (m.onPipeline f).m_lastParams = m.m_lastParams ∧
      (m.onPipeline f).m_session = m.m_session ∧
      (m.onPipeline f).m_shaderGlass = m.m_shaderGlass.map f := by
  unfold CaptureManager.onPipeline
  cases h : m.m_shaderGlass with
  | none => exact ⟨rfl, rfl, rfl, rfl, rfl, rfl, h⟩
  | some sg => exact ⟨rfl, rfl, rfl, rfl, rfl, rfl, rfl⟩

/-- What `UpdateShaderPreset` hands to the pipeline when the last preset is the selected
one and nothing is queued: the selected preset and the remembered values. -/
theorem UpdateShaderPreset_restores (m : CaptureManager) (sg : State) (d : PresetDef)
    (hg : m.m_shaderGlass = some sg) (hl : m.m_lastPreset = m.m_options.presetNo)
    (hq : m.m_queuedParams = []) (hd : m.m_presetList[m.m_options.presetNo]? = some d) :
    ∃ m2, m.UpdateShaderPreset = some m2 ∧ m2.m_options = m.m_options ∧
      m2.m_session = m.m_session ∧
      m2.m_shaderGlass = some (SetShaderPreset (Preset.ofDef d) m.m_lastParams sg) := by
  unfold CaptureManager.UpdateShaderPreset
  rw [hg]
  dsimp only
  by_cases hp : m.m_lastParams.length != 0
  · have hc : (m.m_lastPreset == m.m_options.presetNo && m.m_queuedParams.length == 0 &&
        m.m_lastParams.length != 0) = true := by
      rw [hl, hq, hp]
      simp
    rw [if_pos hc]
    have h1 : (m.SetParams m.m_lastParams).m_presetList = m.m_presetList := rfl
    have h2 : (m.SetParams m.m_lastParams).m_options = m.m_options := rfl
    rw [h1, h2, hd]
    exact ⟨_, rfl, rfl, rfl, rfl⟩
  · have hc : ¬ ((m.m_lastPreset == m.m_options.presetNo && m.m_queuedParams.length == 0 &&
        m.m_lastParams.length != 0) = true) := by
      simp only [Bool.and_eq_true, not_and]
      intro _
      exact hp
    rw [if_neg hc, hd]
    have hnil : m.m_lastParams = [] := by
      cases h : m.m_lastParams with
      | nil => rfl
      | cons a b => rw [h] at hp; simp at hp
    refine ⟨_, rfl, rfl, rfl, ?_⟩
    dsimp only
    rw [hq, hnil]

theorem handed_onPipeline (f : State → State) (m : CaptureManager)
    (hf : ∀ sg, (f sg).m_newShaderPreset = sg.m_newShaderPreset ∧
      (f sg).m_newParams = sg.m_newParams) :
    (m.onPipeline f).handed = m.handed := by
  unfold CaptureManager.handed CaptureManager.onPipeline
  cases h : m.m_shaderGlass with
  | none => simp [h]
  | some sg =>
    simp only [Option.map_some', Option.some.injEq, Prod.mk.injEq]
    exact hf sg

theorem handed_UpdateCursor (m : CaptureManager) : m.UpdateCursor.handed = m.handed := by
  unfold CaptureManager.UpdateCursor
  split <;> rfl

/-- C14. A session is running on the pipeline `sg`, the selected preset is the one last
given to the pipeline and nothing is queued.  After `StopSession` and then
`StartSession` (the capture item can be created, or an image is captured) the manager
has a new pipeline, and what `UpdateShaderPreset` has handed to it is the selected preset
together with the pass index, name and current value that every tunable parameter of
`sg` had at the stop, in the order of `Params()`, one entry for every parameter. -/
theorem restart_hands_current_params (env : StartEnv) (m : CaptureManager) (sg : State)
    (d : PresetDef) (hs : m.m_session.isSome = true) (hg : m.m_shaderGlass = some sg)
    (hl : m.m_lastPreset = m.m_options.presetNo) (hq : m.m_queuedParams = [])
    (hd : m.m_presetList[m.m_options.presetNo]? = some d)
    (he : (m.m_options.imageFile.length == 0 && !env.captureItem) = false) :
    (∃ m2, m.StopSession.StartSession env = some (m2, true) ∧ m2.m_session.isSome = true ∧
        m2.handed = some (some (Preset.ofDef d), currentParams sg)) ∧
      (currentParams sg).length = (Params sg).length := by
  refine ⟨?_, ?_⟩
  · obtain ⟨s1, s2, s3, s4, s5, s6, s7⟩ := StopSession_fields m sg hs hg
    unfold CaptureManager.StartSession
    dsimp only
    have hguard : ¬ ((m.StopSession.m_options.imageFile.length == 0 && !env.captureItem) =
        true) := by
      rw [s3, he]
      decide
    rw [if_neg hguard]
    -- the manager just before `UpdateShaderPreset`
    generalize ShaderGlass.Initialize env.init (m.StopSession.m_options.captureWindow != 0)
      (m.StopSession.m_options.monitor != 0) m.StopSession.m_options.clone
      (m.StopSession.m_options.imageFile.length != 0) (constructed env.passthrough) = sg0
    have hA : ∀ mA : CaptureManager, mA.m_options = m.m_options →
        mA.m_presetList = m.m_presetList → mA.m_queuedParams = [] →
        mA.m_lastPreset = m.m_lastPreset → mA.m_lastParams = currentParams sg →
        mA.m_shaderGlass = some sg0 →
        ∃ sgB m2, (mA.UpdatePixelSize.UpdateOutputSize.UpdateOutputFlip).UpdateShaderPreset =
            some m2 ∧ m2.m_options = m.m_options ∧ m2.m_session = mA.m_session ∧
          m2.m_shaderGlass = some (SetShaderPreset (Preset.ofDef d) (currentParams sg) sgB) := by
      intro mA a1 a2 a3 a4 a5 a6
      obtain ⟨p1, p2, p3, p4, p5, p6, p7⟩ := onPipeline_fields
        (SetInputScale (mA.m_options.pixelWidth * mA.m_options.dpiScale)
          (mA.m_options.pixelHeight * mA.m_options.dpiScale)) mA
      obtain ⟨q1, q2, q3, q4, q5, q6, q7⟩ := onPipeline_fields
        (fun sg => SetFreeScale mA.UpdatePixelSize.m_options.freeScale
          (SetOutputScale (1 * mA.UpdatePixelSize.m_options.aspectRatio /
            mA.UpdatePixelSize.m_options.outputScale)
            (1 / mA.UpdatePixelSize.m_options.outputScale) sg)) mA.UpdatePixelSize
      obtain ⟨r1, r2, r3, r4, r5, r6, r7⟩ := onPipeline_fields
        (SetOutputFlip mA.UpdatePixelSize.UpdateOutputSize.m_options.flipHorizontal
          mA.UpdatePixelSize.UpdateOutputSize.m_options.flipVertical)
        mA.UpdatePixelSize.UpdateOutputSize
      have e1 : mA.UpdatePixelSize.UpdateOutputSize.UpdateOutputFlip.m_options = m.m_options :=
        r1.trans (q1.trans (p1.trans a1))
      have e2 : mA.UpdatePixelSize.UpdateOutputSize.UpdateOutputFlip.m_presetList =
          m.m_presetList := r2.trans (q2.trans (p2.trans a2))
      have e3 : mA.UpdatePixelSize.UpdateOutputSize.UpdateOutputFlip.m_queuedParams = [] :=
        r3.trans (q3.trans (p3.trans a3))
      have e4 : mA.UpdatePixelSize.UpdateOutputSize.UpdateOutputFlip.m_lastPreset =
          m.m_lastPreset := r4.trans (q4.trans (p4.trans a4))
      have e5 : mA.UpdatePixelSize.UpdateOutputSize.UpdateOutputFlip.m_lastParams =
          currentParams sg := r5.trans (q5.trans (p5.trans a5))
      have e6 : mA.UpdatePixelSize.UpdateOutputSize.UpdateOutputFlip.m_session =
          mA.m_session := r6.trans (q6.trans p6)
      have hsome : ∀ (f : State → State) (x : CaptureManager),
          (x.onPipeline f).m_shaderGlass.isSome = x.m_shaderGlass.isSome := by
        intro f x
        rw [(onPipeline_fields f x).2.2.2.2.2.2]
        cases x.m_shaderGlass <;> rfl
      have e7 : ∃ sgB, mA.UpdatePixelSize.UpdateOutputSize.UpdateOutputFlip.m_shaderGlass =
          some sgB := by
        apply Option.isSome_iff_exists.mp
        unfold CaptureManager.UpdateOutputFlip
        rw [hsome]
        unfold CaptureManager.UpdateOutputSize
        rw [hsome]
        unfold CaptureManager.UpdatePixelSize
        rw [hsome, a6]
        rfl
      obtain ⟨sgB, hB⟩ := e7
      obtain ⟨m2, u1, u2, u3, u4⟩ := UpdateShaderPreset_restores
        mA.UpdatePixelSize.UpdateOutputSize.UpdateOutputFlip sgB d hB
        (by rw [e4, e1]; exact hl) e3 (by rw [e2, e1]; exact hd)
      refine ⟨sgB, m2, u1, u2.trans e1, u3.trans e6, ?_⟩
      rw [u4, e5]
    obtain ⟨sgB, m2, b1, b2, b3, b4⟩ := hA
      ((m.StopSession.setDevice true).setPipeline (some sg0))
      s3 s4 (s5.trans hq) s6 s7 rfl
    rw [b1]
    dsimp only
    have hm3 : (m2.UpdateFrameSkip.UpdateLockedArea).handed =
        some (some (Preset.ofDef d), currentParams sg) := by
      unfold CaptureManager.UpdateLockedArea CaptureManager.UpdateFrameSkip
      rw [handed_onPipeline (SetLockedArea _) _ (fun _ => ⟨rfl, rfl⟩),
        handed_onPipeline (SetFrameSkip _) _ (fun _ => ⟨rfl, rfl⟩)]
      unfold CaptureManager.handed
      rw [b4]
      rfl
    have hcur : ∀ x : CaptureManager, x.m_session.isSome = true →
        x.UpdateCursor.m_session.isSome = true := by
      intro x hx
      unfold CaptureManager.UpdateCursor
      split
      · rfl
      · exact hx
    refine ⟨_, rfl, ?_, ?_⟩
    · apply hcur
      split
      · unfold CaptureManager.UpdatePixelSize
        rw [(onPipeline_fields _ _).2.2.2.2.2.1]
        rfl
      · rfl
    · have hsa : ∀ (b : Bool) (x : CaptureManager),
          (CaptureManager.setActive b x).handed = x.handed := fun _ _ => rfl
      rw [handed_UpdateCursor, hsa]
      split
      · unfold CaptureManager.UpdatePixelSize
        rw [handed_onPipeline (SetInputScale _ _) _ (fun _ => ⟨rfl, rfl⟩)]
        exact hm3
      · exact hm3
  · unfold currentParams
    have hall : ∀ l : List (Nat × Nat), (∀ r ∈ l, (paramAt sg r).isSome = true) →
        (l.filterMap (fun ref =>
          (paramAt sg ref).map (fun p => ((ref.1 : Int), p.name, p.currentValue)))).length =
            l.length := by
      intro l
      induction l with
      | nil => intro _; rfl
      | cons a rest ih =>
        intro h
        obtain ⟨p, hp⟩ := Option.isSome_iff_exists.mp (h a (List.mem_cons_self a rest))
        rw [List.filterMap_cons, hp]
        simp only [Option.map_some', List.length_cons]
        rw [ih (fun r hr => h r (List.mem_cons_of_mem a hr))]
    apply hall
    intro r hr
    obtain ⟨p, hp, -⟩ := (mem_Params sg r).mp hr
    rw [hp]
    rfl

/-- C14, instance: a session on the tuned sample preset, with the `gamma` of pass 1 at
2.4, is stopped and started again; the new pipeline is handed the four tunable values,
2.4 among them. -/
theorem restart_hands_current_params_witness :
    sampleManager.m_session.isSome = true ∧
      sampleManager.m_shaderGlass = some (swapPreset queuedState).1 ∧
      sampleManager.m_lastPreset = sampleManager.m_options.presetNo ∧
      sampleManager.m_queuedParams = [] ∧
      sampleManager.m_presetList[sampleManager.m_options.presetNo]? =
        some ⟨"tuned", "sample", [gammaShader, gammaShader], [], [⟨"gamma", 11 / 5⟩]⟩ ∧
      (sampleManager.m_options.imageFile.length == 0 && !sampleStartEnv.captureItem) = false ∧
      currentParams (swapPreset queuedState).1 =
        [(0, "gamma", 11 / 5), (0, "bright", 3), (1, "gamma", 12 / 5), (1, "bright", 3)] ∧
      ∃ m2, sampleManager.StopSession.StartSession sampleStartEnv = some (m2, true) ∧
        m2.m_session.isSome = true ∧
        m2.handed = some (some (Preset.ofDef
          ⟨"tuned", "sample", [gammaShader, gammaShader], [], [⟨"gamma", 11 / 5⟩]⟩),
          currentParams (swapPreset queuedState).1) :=
  ⟨rfl, rfl, rfl, rfl, by decide!, by decide!, by decide!,
    (restart_hands_current_params sampleStartEnv sampleManager (swapPreset queuedState).1
      ⟨"tuned", "sample", [gammaShader, gammaShader], [], [⟨"gamma", 11 / 5⟩]⟩
      rfl rfl rfl rfl (by decide!) (by decide!)).1⟩

/-! ### C20: the preset list after `Initialize` -/

/-- C20. `Initialize` on a manager whose preset list is empty, as the constructor leaves
it, makes the list the catalog presets in catalog order followed by the pass-through
preset: with `N - 1` catalog presets the list has `N` entries, index `i < N - 1` holds
catalog preset `i` and index `N - 1` the pass-through preset, whether or not the device
could be created. -/
theorem initialize_preset_list (catalog : List PresetDef) (passthrough : PresetDef)
    (deviceCreated : Bool) (m : CaptureManager) (h : m.m_presetList = []) :
    (m.Initialize catalog passthrough deviceCreated).1.m_presetList = catalog ++ [passthrough] ∧
      (m.Initialize catalog passthrough deviceCreated).1.m_presetList.length =
        catalog.length + 1 ∧
      (∀ i, i < catalog.length →
        (m.Initialize catalog passthrough deviceCreated).1.m_presetList[i]? = catalog[i]?) ∧
      (m.Initialize catalog passthrough deviceCreated).1.m_presetList[catalog.length]? =
        some passthrough := by
  have hl : (m.Initialize catalog passthrough deviceCreated).1.m_presetList =
      catalog ++ [passthrough] := by
    unfold CaptureManager.Initialize
    dsimp only
    rw [h]
    split <;> rfl
  rw [hl]
  refine ⟨rfl, by simp, fun i hi => ?_, ?_⟩
  · rw [List.getElem?_append_left hi]
  · simp

/-- C20, instance: the constructed manager and a catalog of two presets. -/
theorem initialize_preset_list_witness :
    CaptureManager.construct.m_presetList = [] ∧
      (CaptureManager.construct.Initialize sampleCatalog samplePassthrough true).1.m_presetList =
        sampleCatalog ++ [samplePassthrough] :=
  ⟨rfl, (initialize_preset_list sampleCatalog samplePassthrough true CaptureManager.construct
    rfl).1⟩

/-! ### C16: what a topology rebuild does to the history -/

theorem rebuildPassStep_nextId (texture : CapturedTexture) (s : State) (p : Nat) :
    s.nextId ≤ (rebuildPassStep texture s p).nextId := by
  have hs : ∀ (l : List ShaderPass) (x : State), (setShaderPasses l x).nextId = x.nextId :=
    fun _ _ => rfl
  unfold rebuildPassStep
  split
  · exact Nat.le_refl _
  · dsimp only [CreateTexture2D, CreateShaderResourceView, CreateRenderTargetView]
    rw [hs]
    split
    · rw [(createFeedback_fields _ _ _ _).2.2.2.2.2]
      exact Nat.le_succ_of_le (Nat.le_succ _)
    · exact Nat.le_succ _

theorem createPassTargets_nextId (texture : CapturedTexture) (s : State) :
    s.nextId ≤ (createPassTargets texture s).nextId := by
  unfold createPassTargets
  split
  · dsimp only
    have h1 : (s.m_shaderPasses.foldl requirementStep s).nextId = s.nextId :=
      (requirement_fold s.m_shaderPasses s).2.2.2.2.2.2
    refine foldl_preserves (fun x : State => s.nextId ≤ x.nextId)
      (fun st i => rebuildPassStep texture st (i + 1)) _
      (fun a b ha => ?_) _ (by beta_reduce; rw [h1])
    beta_reduce
    exact Nat.le_trans ha (rebuildPassStep_nextId texture a (b + 1))
  · split
    · exact Nat.le_refl _
    · exact Nat.le_refl _

/-- C16, as the code has it.  The release step of a topology rebuild, `DestroyPasses`,
empties `m_passResources`, `m_passTextures` and `m_passTargets`: no `OriginalHistory<k>`
entry is left after it, nor after the table has been seeded again unless a static texture
of the preset has this name.  After the rebuild of a chain none of whose names is the
string of a history key, every registered `OriginalHistory<k>` is a view of a texture
created by this rebuild: its id is one the device had not given out before. -/
theorem rebuild_recreates_history (texture : CapturedTexture)
    (originalWidth originalHeight : Nat) (s : State) :
    (DestroyPasses s).m_passResources = [] ∧ (DestroyPasses s).m_passTextures = [] ∧
      (DestroyPasses s).m_passTargets = [] ∧
      (∀ k, (∀ pt ∈ s.m_presetTextures, Name.ofString pt.1 ≠ Name.originalHistory k) →
        mapFind (seedResources s).m_passResources (Name.originalHistory k) = none) ∧
      ((∀ k, namesAvoid s (Name.originalHistory k) = true) →
        ∀ k view, mapFind (rebuildGraph texture originalWidth originalHeight s).m_passResources
          (Name.originalHistory k) = some (some view) → s.nextId ≤ view.texture.id) := by
  have hseed : ∀ k, (∀ pt ∈ s.m_presetTextures, Name.ofString pt.1 ≠ Name.originalHistory k) →
      mapFind (seedResources s).m_passResources (Name.originalHistory k) = none :=
    fun k hk => seedResources_find s _ hk (fun h => by cases h)
  refine ⟨rfl, rfl, rfl, hseed, ?_⟩
  intro hnames k view hv
  rw [(rebuildGraph_fields texture originalWidth originalHeight s).2.2.2.2 k
    ((namesAvoid_iff s _).mp (hnames k)).2] at hv
  have habs : ∀ k, mapFind (createPassTargets texture (seedResources s)).m_passResources
      (Name.originalHistory k) = none := by
    intro k
    rw [(createPassTargets_fields texture (seedResources s)).2.2 k
      ((namesAvoid_iff s _).mp (hnames k)).2]
    exact hseed k ((namesAvoid_iff s _).mp (hnames k)).1
  rw [createHistories_find texture originalWidth originalHeight _ habs k] at hv
  split at hv
  · have e := Option.some.inj (Option.some.inj hv)
    rw [← e]
    have h1 := createPassTargets_nextId texture (seedResources s)
    have h2 : (seedResources s).nextId = s.nextId := rfl
    show s.nextId ≤ (createPassTargets texture (seedResources s)).nextId + (k - 1)
    omega
  · cases hv

/-- C16 at the rendered sample pipeline with a new input scale: the names of its preset
are the alias `A` and `AFeedback`, and every history entry of the rebuild for a logical
input of 480 by 270 is a view of a texture with an id not given out before. -/
theorem rebuild_recreates_history_witness :
    plainNames coarseState = true ∧
      (∀ k, mapFind (seedResources coarseState).m_passResources (Name.originalHistory k) =
        none) ∧
      (∀ k view, mapFind (rebuildGraph (sampleTexture 2) 480 270 coarseState).m_passResources
        (Name.originalHistory k) = some (some view) → coarseState.nextId ≤ view.texture.id) :=
  have hn : plainNames coarseState = true := by decide!
  have h := rebuild_recreates_history (sampleTexture 2) 480 270 coarseState
  ⟨hn,
    fun k => h.2.2.2.1 k
      ((namesAvoid_iff _ _).mp (namesAvoid_of_plain _ _ hn (fun _ e => by cases e))).1,
    h.2.2.2.2 (fun _ => namesAvoid_of_plain _ _ hn (fun _ e => by cases e))⟩

/-- C16, counterexample: the rendered sample pipeline, history depth 2, gets a new input
scale and then a frame, which rebuilds the topology with the same depth.  The histories
were views of textures 8 and 7; the release step leaves no history entry, and after the
frame the histories are views of textures 16 and 15. -/
theorem rebuild_drops_history :
    coarseState.m_requiresHistory = 2 ∧
      rebuildsPasses (sampleInput 2 800 600) coarseState = true ∧
      (Process (sampleInput 2 800 600) coarseState).m_requiresHistory = 2 ∧
      historyIds coarseState = [some 8, some 7] ∧
      mapFind (DestroyPasses coarseState).m_passResources (Name.originalHistory 1) = none ∧
      historyIds (Process (sampleInput 2 800 600) coarseState) = [some 16, some 15] := by
  decide!

/-! ### C15: what `Process` does when it drops a frame -/

theorem processLocked_not_lockBusy (inp : FrameInput) (texture : CapturedTexture) (s : State) :
    (processLocked inp texture s).2 ≠ Outcome.lockBusy := by
  unfold processLocked
  dsimp only
  split
  · simp
  · split <;> simp

theorem ProcessTraced_lockBusy (inp : FrameInput) (s : State)
    (h : (ProcessTraced inp s).2 = Outcome.lockBusy) :
    Process inp s = setFrameCounter (s.m_frameCounter + 1) s := by
  unfold Process
  unfold ProcessTraced at h ⊢
  dsimp only at h ⊢
  split at h
  · cases h
  · rename_i hc
    rw [if_neg hc]
    split at h
    · cases h
    · rename_i texture htx
      split at h
      · rename_i hl
        rw [if_pos hl]
      · exact absurd h (processLocked_not_lockBusy inp texture _)

theorem TryResizeSwapChain_nonpositive (r : RECT) (force : Bool) (s : State)
    (h : ¬ (r.right > 0 ∧ r.bottom > 0)) :
    (TryResizeSwapChain r force s).1.calls = s.calls ∧
      (TryResizeSwapChain r force s).1.pixels = s.pixels := by
  have hd : (DestroyTargets s).calls = s.calls ∧ (DestroyTargets s).pixels = s.pixels := by
    unfold DestroyTargets
    split <;> exact ⟨rfl, rfl⟩
  unfold TryResizeSwapChain
  split
  · dsimp only
    exact hd
  · exact ⟨rfl, rfl⟩

theorem processLocked_noClientArea (inp : FrameInput) (texture : CapturedTexture) (s : State)
    (h : (processLocked inp texture s).2 = Outcome.noClientArea) :
    (processLocked inp texture s).1.calls = s.calls ++ [Call.present] ∧
      (processLocked inp texture s).1.pixels = s.pixels := by
  obtain ⟨-, -, -, -, -, -, -, g8⟩ := captureGeometry_fields inp texture s
  obtain ⟨-, g9⟩ := captureGeometry_wiring inp texture s
  unfold processLocked at h ⊢
  dsimp only at h ⊢
  rw [captureGeometry_clientRect] at h ⊢
  by_cases hc : (decide (inp.clientRect.right ≤ 0) || decide (inp.clientRect.bottom ≤ 0)) = true
  · rw [if_pos hc]
    have hneg : ¬ (inp.clientRect.right > 0 ∧ inp.clientRect.bottom > 0) := by
      simp only [Bool.or_eq_true, decide_eq_true_eq] at hc
      omega
    obtain ⟨t1, t2⟩ := TryResizeSwapChain_nonpositive inp.clientRect
      (captureGeometry inp texture s).1.m_outputRescaled (captureGeometry inp texture s).1 hneg
    constructor
    · show (TryResizeSwapChain inp.clientRect (captureGeometry inp texture s).1.m_outputRescaled
        (captureGeometry inp texture s).1).1.calls ++ [Call.present] = s.calls ++ [Call.present]
      rw [t1, g8]
    · show (TryResizeSwapChain inp.clientRect (captureGeometry inp texture s).1.m_outputRescaled
        (captureGeometry inp texture s).1).1.pixels = s.pixels
      rw [t2, g9]
  · rw [if_neg hc] at h
    split at h <;> cases h

theorem TryResizeSwapChain_pixels (r : RECT) (force : Bool) (s : State) :
    (TryResizeSwapChain r force s).1.pixels = s.pixels := by
  have hd : (DestroyTargets s).pixels = s.pixels := by
    unfold DestroyTargets
    split <;> rfl
  unfold TryResizeSwapChain
  split
  · dsimp only
    split
    · exact hd
    · exact hd
  · rfl

theorem ProcessTraced_noClientArea (inp : FrameInput) (s : State)
    (h : (ProcessTraced inp s).2 = Outcome.noClientArea) :
    (Process inp s).calls = s.calls ++ [Call.present] ∧ (Process inp s).pixels = s.pixels := by
  obtain ⟨texture, -, hp⟩ := ProcessTraced_locked inp s (by rw [h]; decide) (by rw [h]; decide)
  rw [hp] at h
  unfold Process
  rw [hp]
  exact processLocked_noClientArea inp texture _ h

/-- C15, as the code has it.  A frame dropped for a non-positive client area is presented
once and nothing else is asked of the device: the log gains `Present` alone and no
texture content changes.  A frame dropped by the re-entrancy guard changes nothing but
the frame counter: it is not presented.  A frame dropped at the minimum-size check is
not presented either and changes no texture content; the log stays as it is, or gains
the three calls of the swap-chain resize that precedes the check. -/
theorem dropped_frame_effects (inp : FrameInput) (s : State) :
    ((ProcessTraced inp s).2 = Outcome.noClientArea →
        (Process inp s).calls = s.calls ++ [Call.present] ∧
        (Process inp s).pixels = s.pixels) ∧
      ((ProcessTraced inp s).2 = Outcome.lockBusy →
        Process inp s = { s with m_frameCounter := s.m_frameCounter + 1 }) ∧
      ((ProcessTraced inp s).2 = Outcome.belowMinimumSize →
        (Process inp s).pixels = s.pixels ∧
        ((Process inp s).calls = s.calls ∨
          (Process inp s).calls = s.calls ++
            [Call.resizeBuffers (longToUINT inp.clientRect.right)
                (longToUINT inp.clientRect.bottom),
              Call.getBuffer s.nextId, Call.createRenderTargetView (some s.nextId)])) := by
  refine ⟨ProcessTraced_noClientArea inp s, ProcessTraced_lockBusy inp s, ?_⟩
  intro h
  obtain ⟨texture, hp⟩ := ProcessTraced_belowMinimum inp s h
  rw [hp] at h
  obtain ⟨hpos, bx, by_, hst⟩ := processLocked_belowMinimum inp texture _ h
  have hP : Process inp s = setBox bx by_
      (TryResizeSwapChain inp.clientRect
        (captureGeometry inp texture (setFrameCounter (s.m_frameCounter + 1) s)).1.m_outputRescaled
        (captureGeometry inp texture (setFrameCounter (s.m_frameCounter + 1) s)).1).1 := by
    unfold Process
    rw [hp, hst]
  obtain ⟨g1, g2, g3, g4, g5, g6, g7, g8⟩ :=
    captureGeometry_fields inp texture (setFrameCounter (s.m_frameCounter + 1) s)
  obtain ⟨-, g9⟩ := captureGeometry_wiring inp texture (setFrameCounter (s.m_frameCounter + 1) s)
  obtain ⟨t1, t2, t3⟩ := TryResizeSwapChain_fields inp.clientRect
    (captureGeometry inp texture (setFrameCounter (s.m_frameCounter + 1) s)).1.m_outputRescaled
    (captureGeometry inp texture (setFrameCounter (s.m_frameCounter + 1) s)).1 hpos
  have hpx := TryResizeSwapChain_pixels inp.clientRect
    (captureGeometry inp texture (setFrameCounter (s.m_frameCounter + 1) s)).1.m_outputRescaled
    (captureGeometry inp texture (setFrameCounter (s.m_frameCounter + 1) s)).1
  rw [hP]
  refine ⟨hpx.trans g9, ?_⟩
  cases hc : ((captureGeometry inp texture
      (setFrameCounter (s.m_frameCounter + 1) s)).1.m_outputRescaled ||
      inp.clientRect.right != (captureGeometry inp texture
        (setFrameCounter (s.m_frameCounter + 1) s)).1.m_lastSize.x ||
      inp.clientRect.bottom != (captureGeometry inp texture
        (setFrameCounter (s.m_frameCounter + 1) s)).1.m_lastSize.y)
  · left
    have e := t2 hc
    show (TryResizeSwapChain inp.clientRect _ _).1.calls = s.calls
    rw [e]
    exact g8
  · right
    obtain ⟨-, -, -, u4⟩ := t3 hc
    rw [g7, g8] at u4
    exact u4

/-- C15, instance: the rendered sample pipeline gets a frame while its window has no
width; the frame is dropped and presented. -/
theorem dropped_frame_effects_witness :
    (ProcessTraced (sampleInput 2 0 600) renderedState).2 = Outcome.noClientArea ∧
      (Process (sampleInput 2 0 600) renderedState).calls =
        renderedState.calls ++ [Call.present] :=
  ⟨by decide!, ((dropped_frame_effects (sampleInput 2 0 600) renderedState).1 (by decide!)).1⟩

/-- C15, counterexample: the rendered sample pipeline gets a frame while the lock is
held by a frame still being rendered.  The frame is dropped by the re-entrancy guard and
`Present` is not called: the log of device calls is as before. -/
theorem lock_busy_drop_does_not_present :
    (ProcessTraced { sampleInput 2 800 600 with lockAcquired := false } renderedState).2 =
        Outcome.lockBusy ∧
      (Process { sampleInput 2 800 600 with lockAcquired := false } renderedState).calls =
        renderedState.calls ∧
      (ProcessTraced (sampleInput 2 2 600) coarseState).2 = Outcome.belowMinimumSize ∧
      Call.present ∉ (Process (sampleInput 2 2 600) coarseState).calls.drop
        coarseState.calls.length := by
  decide!

theorem truncToInt_intCast (k : Int) : truncToInt (k : ℚ) = k := by
  unfold truncToInt
  simp

theorem castLong_roundf_le (x : ℚ) (n : Int) (h : x < n) : castLong (roundf x) ≤ n := by
  unfold castLong roundf
  split
  · rename_i h0
    rw [truncToInt_intCast, truncToInt_nonneg _ (by linarith)]
    have h1 : ⌊x + 1 / 2⌋ < n + 1 := by
      rw [Int.floor_lt]
      push_cast
      linarith
    omega
  · rename_i h0
    rw [truncToInt_intCast, truncToInt_of_neg _ (by linarith)]
    rw [Int.ceil_le]
    linarith

theorem outputAspect_finite (clientWidth clientHeight : Int) (scaleW scaleH : ℚ)
    (hden : (clientHeight : ℚ) * scaleH ≠ 0) :
    outputAspect clientWidth clientHeight scaleW scaleH =
      FloatValue.finite ((clientWidth * scaleW) / (clientHeight * scaleH)) := by
  unfold outputAspect floatDiv
  rw [if_pos hden]

/-- The boxing block of `letterbox` for a window or image capture whose source rectangle
has a width and a height, in terms of the content size before boxing. -/
theorem letterbox_boxed_float (s : State) (g : Geometry)
    (hmode : (s.m_captureWindow || s.m_image) = true)
    (hW : g.captureClient.right - g.captureClient.left ≠ 0)
    (hH : g.captureClient.bottom - g.captureClient.top ≠ 0) :
    letterbox s g =
      (let captureW : Int := g.captureClient.right - g.captureClient.left
       let captureH : Int := g.captureClient.bottom - g.captureClient.top
       let clientWidth : Int := (contentSize s g).1
       let clientHeight : Int := (contentSize s g).2
       let inputAspectRatio : ℚ := captureW / captureH
       let outputAspectRatio : FloatValue :=
         outputAspect clientWidth clientHeight s.m_outputScaleW s.m_outputScaleH
       let boxed : Letterbox :=
         if outputAspectRatio.gt inputAspectRatio then
           let newWidth : Int := castLong (roundf
             (clientHeight * (s.m_outputScaleH / s.m_outputScaleW) * inputAspectRatio))
           ⟨newWidth, clientHeight, ((clientWidth - newWidth : Int) : ℚ) / 2, 0⟩
         else if outputAspectRatio.lt inputAspectRatio then
           let newHeight : Int := castLong (roundf
             (clientWidth * (s.m_outputScaleW / s.m_outputScaleH) / inputAspectRatio))
           ⟨clientWidth, newHeight, 0, ((clientHeight - newHeight : Int) : ℚ) / 2⟩
         else ⟨clientWidth, clientHeight, 0, 0⟩
       { boxed with
         boxX := boxed.boxX + centring s.m_freeScale g.clientRect.right captureW s.m_outputScaleW,
         boxY := boxed.boxY +
           centring s.m_freeScale g.clientRect.bottom captureH s.m_outputScaleH }) := by
  have hc : (g.captureClient.right - g.captureClient.left != 0 &&
      g.captureClient.bottom - g.captureClient.top != 0) = true := by
    simp [hW, hH]
  unfold letterbox contentSize centring
  rw [if_pos hmode, if_pos hmode]
  dsimp only
  rw [if_pos hc]
  cases s.m_freeScale
  · rfl
  · simp

theorem letterbox_boxed (s : State) (g : Geometry)
    (hmode : (s.m_captureWindow || s.m_image) = true)
    (hW : g.captureClient.right - g.captureClient.left ≠ 0)
    (hH : g.captureClient.bottom - g.captureClient.top ≠ 0)
    (hden : ((contentSize s g).2 : ℚ) * s.m_outputScaleH ≠ 0) :
    letterbox s g =
      (let captureW : Int := g.captureClient.right - g.captureClient.left
       let captureH : Int := g.captureClient.bottom - g.captureClient.top
       let clientWidth : Int := (contentSize s g).1
       let clientHeight : Int := (contentSize s g).2
       let inputAspectRatio : ℚ := captureW / captureH
       let outputAspectRatio : ℚ :=
         (clientWidth * s.m_outputScaleW) / (clientHeight * s.m_outputScaleH)
       let boxed : Letterbox :=
         if outputAspectRatio > inputAspectRatio then
           let newWidth : Int := castLong (roundf
             (clientHeight * (s.m_outputScaleH / s.m_outputScaleW) * inputAspectRatio))
           ⟨newWidth, clientHeight, ((clientWidth - newWidth : Int) : ℚ) / 2, 0⟩
         else if outputAspectRatio < inputAspectRatio then
           let newHeight : Int := castLong (roundf
             (clientWidth * (s.m_outputScaleW / s.m_outputScaleH) / inputAspectRatio))
           ⟨clientWidth, newHeight, 0, ((clientHeight - newHeight : Int) : ℚ) / 2⟩
         else ⟨clientWidth, clientHeight, 0, 0⟩
       { boxed with
         boxX := boxed.boxX + centring s.m_freeScale g.clientRect.right captureW s.m_outputScaleW,
         boxY := boxed.boxY +
           centring s.m_freeScale g.clientRect.bottom captureH s.m_outputScaleH }) := by
  rw [letterbox_boxed_float s g hmode hW hH]
  dsimp only
  rw [outputAspect_finite _ _ _ _ hden]
  unfold FloatValue.gt FloatValue.lt
  simp only [decide_eq_true_eq]

/-- The guard of `ShaderWindow::Start`: on a window whose manager has an active session
the call returns false and leaves the window as it was, and with it the manager: the
session, the pipeline and the capture options are the ones from before the call. -/
theorem start_while_running_is_refused (env : WindowEnv) (w : ShaderWindow)
    (h : w.m_captureManager.IsActive = true) :
    w.Start env = some (w, false) ∧
      (∀ w1 result, w.Start env = some (w1, result) →
        result = false ∧ w1.m_captureManager.m_session = w.m_captureManager.m_session ∧
        w1.m_captureManager.m_shaderGlass = w.m_captureManager.m_shaderGlass ∧
        w1.m_captureManager.m_options = w.m_captureManager.m_options) := by
  have h1 : w.Start env = some (w, false) := by
    unfold ShaderWindow.Start
    split <;> rfl
  refine ⟨h1, ?_⟩
  intro w1 result h2
  rw [h1] at h2
  cases h2
  exact ⟨rfl, rfl, rfl, rfl⟩

/-- The guard of `ShaderWindow::Start` on the sample window, which runs a session:
`Start` returns false and the window is as before. -/
theorem start_while_running_is_refused_witness :
    sampleWindow.m_captureManager.IsActive = true ∧
      sampleWindow.Start sampleWindowEnv = some (sampleWindow, false) :=
  ⟨by decide, (start_while_running_is_refused sampleWindowEnv sampleWindow (by decide)).1⟩

/-! ### C17: a rejected profile load -/

theorem StopSession_inactive (m : CaptureManager) (hs : m.m_session.isSome = true) :
    m.StopSession.m_session = none ∧ m.StopSession.m_shaderGlass = none ∧
      m.StopSession.m_active = false ∧ m.StopSession.m_options = m.m_options := by
  unfold CaptureManager.StopSession
  rw [if_pos hs]
  unfold CaptureManager.Exit CaptureManager.GrabOutput CaptureManager.RememberLastPreset
  cases hg : m.m_shaderGlass
  · rw [hg]
    dsimp only
    rw [if_pos hs]
    exact ⟨rfl, rfl, rfl, rfl⟩
  · unfold CaptureManager.Params CaptureManager.IsActive
    rw [hg]
    dsimp only
    rw [if_pos hs]
    exact ⟨rfl, rfl, rfl, rfl⟩

theorem Stop_active (w : ShaderWindow) (h : w.m_captureManager.IsActive = true) :
    w.Stop = { w with m_captureManager := w.m_captureManager.StopSession,
                      startEnabled := true, stopEnabled := false,
                      paramsUpdates := w.paramsUpdates + 1 } := by
  have hs : w.m_captureManager.m_session.isSome = true := h
  obtain ⟨s1, -, -, -⟩ := StopSession_inactive w.m_captureManager hs
  unfold ShaderWindow.Stop
  have hn : ¬ ((!w.m_captureManager.IsActive) = true) := by rw [h]; decide
  rw [if_neg hn]
  unfold ShaderWindow.UpdateWindowState
  have hi : (!CaptureManager.IsActive
      (ShaderWindow.setMenu true false
        (ShaderWindow.setManager w.m_captureManager.StopSession w)).m_captureManager) = true := by
    show (!(w.m_captureManager.StopSession.m_session.isSome)) = true
    rw [s1]
    rfl
  dsimp only
  rw [if_pos hi]

/-- C17, as the code has it.  `LoadProfile` called while a session is active stops the
session before it opens the file.  When the file cannot be opened it returns false, and
when the first entry is a `ProfileVersion` whose value does not start with `1.` it returns
true; in both cases it returns with the window as `Stop` and `ForgetLastPreset` left it:
no session, no pipeline, the manager inactive, the remembered parameters forgotten and
the start menu item enabled. -/
theorem rejected_profile_leaves_session_stopped (env : ProfileEnv)
    (fileName value : String) (rest : List (String × String)) (w : ShaderWindow)
    (hactive : w.m_captureManager.IsActive = true)
    (hversion : (value.take 2 != "1.") = true) :
    let stopped : ShaderWindow :=
      w.Stop.setManager w.Stop.m_captureManager.ForgetLastPreset
    w.LoadProfile env fileName none = some (stopped, false) ∧
      w.LoadProfile env fileName (some (("ProfileVersion", value) :: rest)) =
        some (stopped, true) ∧
      stopped.m_captureManager.IsActive = false ∧
      stopped.m_captureManager.m_session = none ∧
      stopped.m_captureManager.m_shaderGlass = none ∧
      stopped.m_captureManager.m_active = false ∧
      stopped.m_captureManager.m_lastParams = [] ∧
      stopped.m_captureManager.m_lastPreset = noPreset ∧
      stopped.startEnabled = true ∧ stopped.stopEnabled = false := by
  intro stopped
  have hs : w.m_captureManager.m_session.isSome = true := hactive
  obtain ⟨s1, s2, s3, -⟩ := StopSession_inactive w.m_captureManager hs
  have hst := Stop_active w hactive
  have e1 : w.LoadProfile env fileName none = some (stopped, false) := by
    unfold ShaderWindow.LoadProfile
    dsimp only
    rw [if_pos hactive]
  have e2 : w.LoadProfile env fileName (some (("ProfileVersion", value) :: rest)) =
      some (stopped, true) := by
    unfold ShaderWindow.LoadProfile
    dsimp only
    rw [if_pos hactive]
    unfold readProfile
    rw [if_pos (by decide), if_pos hversion]
  refine ⟨e1, e2, ?_, ?_, ?_, ?_, rfl, rfl, ?_, ?_⟩
  · show stopped.m_captureManager.m_session.isSome = false
    show (w.Stop.m_captureManager.m_session).isSome = false
    rw [hst]
    show w.m_captureManager.StopSession.m_session.isSome = false
    rw [s1]
    rfl
  · show w.Stop.m_captureManager.m_session = none
    rw [hst]
    exact s1
  · show w.Stop.m_captureManager.m_shaderGlass = none
    rw [hst]
    exact s2
  · show w.Stop.m_captureManager.m_active = false
    rw [hst]
    exact s3
  · show w.Stop.startEnabled = true
    rw [hst]
  · show w.Stop.stopEnabled = false
    rw [hst]

/-- C17, instance: the sample window runs a session.  A profile that cannot be opened, and
a profile of version 2.0, leave it without a session; a profile of version 1.0 with the
same entry stops the session and starts it again. -/
theorem rejected_profile_leaves_session_stopped_witness :
    sampleWindow.m_captureManager.IsActive = true ∧
      (sampleWindow.LoadProfile sampleProfileEnv "C:/missing.sgp" none).map
        (fun r => (r.2, r.1.m_captureManager.IsActive)) = some (false, false) ∧
      (sampleWindow.LoadProfile sampleProfileEnv "C:/missing.sgp"
        (some [("ProfileVersion", "2.0"), ("FlipH", "1")])).map
        (fun r => (r.2, r.1.m_captureManager.IsActive)) = some (true, false) ∧
      (sampleWindow.LoadProfile sampleProfileEnv "C:/missing.sgp"
        (some [("ProfileVersion", "1.0"), ("FlipH", "1")])).map
        (fun r => (r.2, r.1.m_captureManager.IsActive)) = some (true, true) := by
  have h := rejected_profile_leaves_session_stopped sampleProfileEnv "C:/missing.sgp" "2.0"
    [("FlipH", "1")] sampleWindow (by decide) (by decide)
  refine ⟨by decide, ?_, ?_, by decide!⟩
  · rw [h.1]
    exact congrArg (fun b => some (false, b)) h.2.2.1
  · rw [h.2.1]
    exact congrArg (fun b => some (true, b)) h.2.2.1

/-! ### C28: the truncating cast in the minimum-size check -/

theorem le_castLong_iff (d : Int) (x : ℚ) (h : 0 ≤ x) : d ≤ castLong x ↔ (d : ℚ) ≤ x := by
  unfold castLong
  rw [truncToInt_nonneg x h, Int.le_floor]

/-- C28. For non-negative input scales the minimum-size check of line 464, which compares
the destination size with the truncated input scale, drops a frame exactly when
`destWidth <= m_inputScaleW` or `destHeight <= m_inputScaleH` holds for the scales
themselves: the frame proceeds exactly when both destination sizes exceed the input
scale. -/
theorem minimum_check_ignores_truncation (s : State) (destWidth destHeight : Int)
    (hW : 0 ≤ s.m_inputScaleW) (hH : 0 ≤ s.m_inputScaleH) :
    (destWidth ≤ castLong s.m_inputScaleW ↔ (destWidth : ℚ) ≤ s.m_inputScaleW) ∧
      (destHeight ≤ castLong s.m_inputScaleH ↔ (destHeight : ℚ) ≤ s.m_inputScaleH) ∧
      (belowMinimumSize s destWidth destHeight = true ↔
        ((destWidth : ℚ) ≤ s.m_inputScaleW ∨ (destHeight : ℚ) ≤ s.m_inputScaleH)) ∧
      (belowMinimumSize s destWidth destHeight = false ↔
        (s.m_inputScaleW < destWidth ∧ s.m_inputScaleH < destHeight)) := by
  have a := le_castLong_iff destWidth s.m_inputScaleW hW
  have b := le_castLong_iff destHeight s.m_inputScaleH hH
  have c : belowMinimumSize s destWidth destHeight = true ↔
      ((destWidth : ℚ) ≤ s.m_inputScaleW ∨ (destHeight : ℚ) ≤ s.m_inputScaleH) := by
    unfold belowMinimumSize
    rw [Bool.or_eq_true, decide_eq_true_iff, decide_eq_true_iff, a, b]
  refine ⟨a, b, c, ?_⟩
  rw [← Bool.not_eq_true, c, not_or, not_le, not_le]

/-- C28, instance: the sample pipeline at input scale 7/2.  A destination of 3 by 600 is
dropped by the check on the truncated scale 3 and 3 is at most 7/2; a destination of 4 by
600 proceeds and 4 exceeds 7/2. -/
theorem minimum_check_ignores_truncation_witness :
    belowMinimumSize (SetInputScale (7 / 2) (7 / 2) sampleState) 3 600 = true ∧
      belowMinimumSize (SetInputScale (7 / 2) (7 / 2) sampleState) 4 600 = false ∧
      (belowMinimumSize (SetInputScale (7 / 2) (7 / 2) sampleState) 3 600 = true ↔
        (((3 : Int) : ℚ) ≤ (SetInputScale (7 / 2) (7 / 2) sampleState).m_inputScaleW ∨
          ((600 : Int) : ℚ) ≤ (SetInputScale (7 / 2) (7 / 2) sampleState).m_inputScaleH)) :=
  ⟨by decide!, by decide!,
    (minimum_check_ignores_truncation (SetInputScale (7 / 2) (7 / 2) sampleState) 3 600
      (by decide!) (by decide!)).2.2.1⟩

/-! ### C29: letterboxing does not enlarge the content -/

theorem contentSize_freeScale (s : State) (g : Geometry) (hf : s.m_freeScale = true) :
    contentSize s g = (g.clientRect.right, g.clientRect.bottom) := by
  unfold contentSize
  rw [hf]
  split <;> rfl

/-- C29. Free-scale mode, a window or image capture with a non-zero capture width and
height, a positive client width and height and positive output scales.  When the scaled
client aspect ratio is larger than the capture aspect ratio the boxed width is at most
the client width, the height is the client height and `boxX` is not negative; when it is
smaller the boxed height is at most the client height, the width is the client width and
`boxY` is not negative.  In every case neither size grows and no offset is negative. -/
theorem letterbox_never_enlarges (s : State) (g : Geometry)
    (hmode : (s.m_captureWindow || s.m_image) = true) (hfree : s.m_freeScale = true)
    (hW : g.captureClient.right - g.captureClient.left ≠ 0)
    (hH : g.captureClient.bottom - g.captureClient.top ≠ 0)
    (hcw : 0 < g.clientRect.right) (hch : 0 < g.clientRect.bottom)
    (hsW : 0 < s.m_outputScaleW) (hsH : 0 < s.m_outputScaleH) :
    let inA : ℚ := ((g.captureClient.right - g.captureClient.left : Int) : ℚ) /
      ((g.captureClient.bottom - g.captureClient.top : Int) : ℚ)
    let outA : ℚ := (g.clientRect.right * s.m_outputScaleW) /
      (g.clientRect.bottom * s.m_outputScaleH)
    (outA > inA →
        (letterbox s g).clientWidth ≤ g.clientRect.right ∧
        (letterbox s g).clientHeight = g.clientRect.bottom ∧
        0 ≤ (letterbox s g).boxX ∧ (letterbox s g).boxY = 0) ∧
      (outA < inA →
        (letterbox s g).clientHeight ≤ g.clientRect.bottom ∧
        (letterbox s g).clientWidth = g.clientRect.right ∧
        0 ≤ (letterbox s g).boxY ∧ (letterbox s g).boxX = 0) ∧
      (letterbox s g).clientWidth ≤ g.clientRect.right ∧
      (letterbox s g).clientHeight ≤ g.clientRect.bottom ∧
      0 ≤ (letterbox s g).boxX ∧ 0 ≤ (letterbox s g).boxY := by
  intro inA outA
  have hc := contentSize_freeScale s g hfree
  have hb := letterbox_boxed s g hmode hW hH (by
    rw [hc]
    exact ne_of_gt (mul_pos (by exact_mod_cast hch) hsH))
  have hcen : ∀ a b c, centring s.m_freeScale a b c = 0 := by
    intro a b c
    rw [hfree]
    rfl
  rw [hc] at hb
  simp only [hcen, add_zero] at hb
  have hd : (0 : ℚ) < g.clientRect.bottom * s.m_outputScaleH :=
    mul_pos (by exact_mod_cast hch) hsH
  -- the output is wider
  have wide : outA > inA →
      (letterbox s g).clientWidth ≤ g.clientRect.right ∧
      (letterbox s g).clientHeight = g.clientRect.bottom ∧
      0 ≤ (letterbox s g).boxX ∧ (letterbox s g).boxY = 0 := by
    intro h
    have hle : castLong (roundf ((g.clientRect.bottom : ℚ) *
        (s.m_outputScaleH / s.m_outputScaleW) * inA)) ≤ g.clientRect.right := by
      apply castLong_roundf_le
      have h2 : inA * (g.clientRect.bottom * s.m_outputScaleH) <
          g.clientRect.right * s.m_outputScaleW := (lt_div_iff₀ hd).mp h
      have h3 : (g.clientRect.bottom : ℚ) * (s.m_outputScaleH / s.m_outputScaleW) * inA =
          inA * (g.clientRect.bottom * s.m_outputScaleH) / s.m_outputScaleW := by
        field_simp
        ring
      rw [h3, div_lt_iff₀ hsW]
      exact h2
    rw [hb]
    dsimp only
    rw [if_pos h]
    refine ⟨hle, rfl, ?_, rfl⟩
    apply div_nonneg _ (by norm_num)
    exact Int.cast_nonneg.mpr (sub_nonneg.mpr hle)
  -- the output is narrower
  have narrow : outA < inA →
      (letterbox s g).clientHeight ≤ g.clientRect.bottom ∧
      (letterbox s g).clientWidth = g.clientRect.right ∧
      0 ≤ (letterbox s g).boxY ∧ (letterbox s g).boxX = 0 := by
    intro h
    have hn : ¬ outA > inA := not_lt.mpr (le_of_lt h)
    have hout : 0 < outA :=
      div_pos (mul_pos (by exact_mod_cast hcw) hsW) hd
    have hin : 0 < inA := lt_trans hout h
    have hle : castLong (roundf ((g.clientRect.right : ℚ) *
        (s.m_outputScaleW / s.m_outputScaleH) / inA)) ≤ g.clientRect.bottom := by
      apply castLong_roundf_le
      have h2 : g.clientRect.right * s.m_outputScaleW <
          inA * (g.clientRect.bottom * s.m_outputScaleH) := (div_lt_iff₀ hd).mp h
      have h3 : (g.clientRect.right : ℚ) * (s.m_outputScaleW / s.m_outputScaleH) / inA =
          g.clientRect.right * s.m_outputScaleW / (inA * s.m_outputScaleH) := by
        rw [mul_div_assoc', div_div, mul_comm s.m_outputScaleH]
      rw [h3, div_lt_iff₀ (mul_pos hin hsH)]
      linarith
    rw [hb]
    dsimp only
    rw [if_neg hn, if_pos h]
    refine ⟨hle, rfl, ?_, rfl⟩
    apply div_nonneg _ (by norm_num)
    exact Int.cast_nonneg.mpr (sub_nonneg.mpr hle)
  refine ⟨wide, narrow, ?_⟩
  rcases lt_trichotomy outA inA with h | h | h
  · obtain ⟨a, b, c, d⟩ := narrow h
    exact ⟨le_of_eq b, a, le_of_eq d.symm, c⟩
  · have hn1 : ¬ outA > inA := by rw [h]; exact lt_irrefl _
    have hn2 : ¬ outA < inA := by rw [h]; exact lt_irrefl _
    rw [hb]
    dsimp only
    rw [if_neg hn1, if_neg hn2]
    exact ⟨le_refl _, le_refl _, le_refl _, le_refl _⟩
  · obtain ⟨a, b, c, d⟩ := wide h
    exact ⟨a, le_of_eq b, c, le_of_eq d.symm⟩

/-- C29, instance: the captured window of 400 by 300 in a client area of 800 by 300,
free-scale mode: the output is wider, the boxed width 400 is at most 800 and `boxX` is
200. -/
theorem letterbox_never_enlarges_witness :
    (letterbox windowState wideGeometry).clientWidth ≤ wideGeometry.clientRect.right ∧
      (letterbox windowState wideGeometry).clientHeight = wideGeometry.clientRect.bottom ∧
      0 ≤ (letterbox windowState wideGeometry).boxX ∧
      (letterbox windowState wideGeometry).boxY = 0 :=
  (letterbox_never_enlarges windowState wideGeometry (by decide) (by decide) (by decide)
    (by decide) (by decide) (by decide) (by decide!) (by decide!)).1 (by decide!)

/-! ### C23: the size table after the pass sizes are resolved -/

theorem passSizeStep_inner_sizes (passes : List ShaderPass) (vw vh : Nat) (st : ResizeLoop)
    (p : Nat) (pass : ShaderPass) (hpass : passes[p]? = some pass)
    (hp : p + 1 < passes.length) :
    (passSizeStep passes vw vh st p).textureSizes =
      (if pass.m_shader.m_alias != "" then
        mapInsert st.textureSizes (Name.ofString pass.m_shader.m_alias)
          (sizeEntry (passSizeStep passes vw vh st p).sourceWidth
            (passSizeStep passes vw vh st p).sourceHeight)
       else st.textureSizes) := by
  have hne : ¬ p = passes.length - 1 := by omega
  simp only [passSizeStep, hpass]
  rw [if_neg hne]

theorem mapFind_mapInsert_keeps {κ ν : Type} [DecidableEq κ] (m : List (κ × ν)) (k k2 : κ)
    (v w : ν) (h : mapFind m k2 = some w) : mapFind (mapInsert m k v) k2 = some w := by
  by_cases hk : k = k2
  · subst hk
    rw [mapInsert_present m k v w h]
    exact h
  · rw [mapFind_mapInsert_ne m k k2 v hk]
    exact h

theorem passSizeStep_keeps (passes : List ShaderPass) (vw vh : Nat) (st : ResizeLoop) (p : Nat)
    (name : Name) (w : float4) (h : mapFind st.textureSizes name = some w) :
    mapFind (passSizeStep passes vw vh st p).textureSizes name = some w := by
  unfold passSizeStep
  split
  · exact h
  · split
    · exact h
    · dsimp only
      split
      · exact mapFind_mapInsert_keeps _ _ _ _ _ h
      · exact h

/-- An entry of the size table is kept by the pass-size loop. -/
theorem resolve_sizes_keeps (passes : List ShaderPass) (vw vh : Nat) (init : ResizeLoop)
    (l : List Nat) (name : Name) (w : float4) (h : mapFind init.textureSizes name = some w) :
    mapFind (l.foldl (passSizeStep passes vw vh) init).textureSizes name = some w :=
  foldl_preserves (fun st => mapFind st.textureSizes name = some w)
    (passSizeStep passes vw vh) l
    (fun a b ha => passSizeStep_keeps passes vw vh a b name w ha) init h

theorem resolve_sizes_invariant (passes : List ShaderPass) (vw vh ow oh : Nat)
    (ts : List (Name × float4)) (k : Nat) (hk : k ≤ passes.length) :
    let st := (List.range k).foldl (passSizeStep passes vw vh) ⟨ow, oh, [], ts⟩
    st.passSizes.length = k ∧
    (∀ name, (∀ q pass, q < k → q + 1 < passes.length → passes[q]? = some pass →
        pass.m_shader.m_alias ≠ "" → Name.ofString pass.m_shader.m_alias ≠ name) →
      mapFind st.textureSizes name = mapFind ts name) ∧
    (∀ p pass z, p < k → p + 1 < passes.length → passes[p]? = some pass →
      pass.m_shader.m_alias ≠ "" → mapFind ts (Name.ofString pass.m_shader.m_alias) = none →
      (∀ q other, q < p → passes[q]? = some other →
        other.m_shader.m_alias ≠ pass.m_shader.m_alias) →
      st.passSizes[p]? = some z →
      mapFind st.textureSizes (Name.ofString pass.m_shader.m_alias) =
        some (sizeEntry z.destWidth z.destHeight)) := by
  induction k with
  | zero =>
    refine ⟨rfl, fun _ _ => rfl, ?_⟩
    intro p pass z hp
    omega
  | succ k ih =>
    have ih := ih (by omega)
    simp only [resolve_loop_succ]
    generalize (List.range k).foldl (passSizeStep passes vw vh) ⟨ow, oh, [], ts⟩ = st at ih ⊢
    obtain ⟨hlen, hkeep, hent⟩ := ih
    have hklt : k < passes.length := by omega
    obtain ⟨pass0, hpass0⟩ : ∃ q, passes[k]? = some q :=
      ⟨passes[k], List.getElem?_eq_getElem hklt⟩
    by_cases hlast : k + 1 = passes.length
    · rw [passSizeStep_last passes vw vh st k hlast]
      refine ⟨by simp [hlen], ?_, ?_⟩
      · intro name hname
        exact hkeep name (fun q pass hq => hname q pass (by omega))
      · intro p pass z hp hp1 hpass halias hts hfirst hz
        have hpk : p < k := by omega
        have hz2 : st.passSizes[p]? = some z := by
          rw [← hz]
          simp only []
          rw [List.getElem?_append_left (by omega)]
        exact hent p pass z hpk hp1 hpass halias hts hfirst hz2
    · have hinner : k + 1 < passes.length := by omega
      obtain ⟨hsizes, -, -⟩ := passSizeStep_inner passes vw vh st k pass0 hpass0 hinner
      have htab := passSizeStep_inner_sizes passes vw vh st k pass0 hpass0 hinner
      generalize passSizeStep passes vw vh st k = st2 at hsizes htab ⊢
      refine ⟨by simp [hsizes, hlen], ?_, ?_⟩
      · intro name hname
        rw [htab]
        have h0 := hkeep name (fun q pass hq => hname q pass (by omega))
        by_cases ha : pass0.m_shader.m_alias = ""
        · have : (pass0.m_shader.m_alias != "") = false := by simp [ha]
          rw [this]
          exact h0
        · have : (pass0.m_shader.m_alias != "") = true := by simp [ha]
          rw [this, if_pos rfl]
          rw [mapFind_mapInsert_ne _ _ _ _ (hname k pass0 (by omega) hinner hpass0 ha)]
          exact h0
      · intro p pass z hp hp1 hpass halias hts hfirst hz
        rw [hsizes] at hz
        rw [htab]
        by_cases hpk : p < k
        · have hz2 : st.passSizes[p]? = some z := by
            rw [← hz, List.getElem?_append_left (by omega)]
          have h0 := hent p pass z hpk hp1 hpass halias hts hfirst hz2
          split
          · exact mapFind_mapInsert_keeps _ _ _ _ _ h0
          · exact h0
        · have hpe : p = k := by omega
          subst hpe
          have hpp : pass = pass0 := by
            rw [hpass0] at hpass
            exact (Option.some.inj hpass).symm
          subst hpp
          have hz2 : z = ⟨st.sourceWidth, st.sourceHeight, st2.sourceWidth,
              st2.sourceHeight⟩ := by
            rw [List.getElem?_append_right (by omega)] at hz
            simp [hlen] at hz
            exact hz.symm
          subst hz2
          have : (pass.m_shader.m_alias != "") = true := by simp [halias]
          rw [this, if_pos rfl]
          apply mapFind_mapInsert_absent
          rw [hkeep _ (fun q other hq _ ho _ hne =>
            hfirst q other hq ho (ofString_injective _ _ hne))]
          exact hts

/-- C23, as the code has it.  After the block of source lines 557 to 606 the size table
maps `Original` to the tuple of the logical input size and `FinalViewport` to the tuple
of the viewport size.  A pass other than the last one, whose alias is not empty, is not
one of these two names and is not the alias of an earlier pass, has its alias mapped to
the tuple of its own resolved output size.  A name other than these two that no pass
before the last one declares has no entry: the alias of the last pass is not registered by that pass, and
an alias declared twice keeps the entry of the first pass that declares it. -/
theorem size_table_after_resize (texture : CapturedTexture)
    (originalWidth originalHeight viewportWidth viewportHeight : Nat) (s : State) :
    mapFind (resizePasses texture originalWidth originalHeight viewportWidth viewportHeight
        s).m_textureSizes Name.original = some (sizeEntry originalWidth originalHeight) ∧
      mapFind (resizePasses texture originalWidth originalHeight viewportWidth viewportHeight
        s).m_textureSizes Name.finalViewport = some (sizeEntry viewportWidth viewportHeight) ∧
      (∀ p pass, p + 1 < s.m_shaderPasses.length →
        (resizePasses texture originalWidth originalHeight viewportWidth viewportHeight
          s).m_shaderPasses[p]? = some pass →
        pass.m_shader.m_alias ≠ "" → pass.m_shader.m_alias ≠ "Original" →
        pass.m_shader.m_alias ≠ "FinalViewport" →
        (∀ q other, q < p → s.m_shaderPasses[q]? = some other →
          other.m_shader.m_alias ≠ pass.m_shader.m_alias) →
        mapFind (resizePasses texture originalWidth originalHeight viewportWidth viewportHeight
          s).m_textureSizes (Name.ofString pass.m_shader.m_alias) =
          some (sizeEntry pass.m_destWidth pass.m_destHeight)) ∧
      (∀ a, a ≠ "Original" → a ≠ "FinalViewport" →
        (∀ q other, q + 1 < s.m_shaderPasses.length → s.m_shaderPasses[q]? = some other →
          other.m_shader.m_alias ≠ a) →
        mapFind (resizePasses texture originalWidth originalHeight viewportWidth viewportHeight
          s).m_textureSizes (Name.ofString a) = none) := by
  obtain ⟨hlen, hkeep, hent⟩ := resolve_sizes_invariant s.m_shaderPasses viewportWidth
    viewportHeight originalWidth originalHeight
    (mapInsert (mapInsert [] Name.original (sizeEntry originalWidth originalHeight))
      Name.finalViewport (sizeEntry viewportWidth viewportHeight))
    s.m_shaderPasses.length (le_refl _)
  have hts : (resizePasses texture originalWidth originalHeight viewportWidth viewportHeight
      s).m_textureSizes = (resolvePassSizes s.m_shaderPasses viewportWidth viewportHeight
        originalWidth originalHeight
        (mapInsert (mapInsert [] Name.original (sizeEntry originalWidth originalHeight))
          Name.finalViewport (sizeEntry viewportWidth viewportHeight))).textureSizes := rfl
  rw [hts]
  unfold resolvePassSizes at hts ⊢
  have hnone : ∀ a, a ≠ "Original" → a ≠ "FinalViewport" → mapFind
      (mapInsert (mapInsert [] Name.original (sizeEntry originalWidth originalHeight))
        Name.finalViewport (sizeEntry viewportWidth viewportHeight)) (Name.ofString a) =
        none := by
    intro a h1 h2
    rw [mapFind_mapInsert_ne _ _ _ _ (Ne.symm (ofString_ne_finalViewport a h2)),
      mapFind_mapInsert_ne _ _ _ _ (Ne.symm (ofString_ne_original a h1))]
    rfl
  refine ⟨?_, ?_, ?_, ?_⟩
  · apply resolve_sizes_keeps
    rw [mapFind_mapInsert_ne _ _ _ _ (by intro h; cases h)]
    exact mapFind_mapInsert_absent _ _ _ rfl
  · apply resolve_sizes_keeps
    exact mapFind_mapInsert_absent _ _ _
      (by rw [mapFind_mapInsert_ne _ _ _ _ (by intro h; cases h)]; rfl)
  · intro p pass hp hpass halias horig hfinal hfirst
    have hplt : p < s.m_shaderPasses.length := by omega
    obtain ⟨pass0, hpass0⟩ : ∃ q, s.m_shaderPasses[p]? = some q :=
      ⟨_, List.getElem?_eq_getElem hplt⟩
    obtain ⟨z, hz⟩ : ∃ z, ((List.range s.m_shaderPasses.length).foldl
        (passSizeStep s.m_shaderPasses viewportWidth viewportHeight)
        ⟨originalWidth, originalHeight, [],
          mapInsert (mapInsert [] Name.original (sizeEntry originalWidth originalHeight))
            Name.finalViewport (sizeEntry viewportWidth viewportHeight)⟩).passSizes[p]? =
        some z := ⟨_, List.getElem?_eq_getElem (by rw [hlen]; exact hplt)⟩
    have hres := resizePasses_passes texture originalWidth originalHeight viewportWidth
      viewportHeight s p pass0 z hpass0 hz
    rw [hres] at hpass
    have hpe := Option.some.inj hpass
    subst hpe
    exact hent p pass0 z hplt hp hpass0 halias (hnone _ horig hfinal) hfirst hz
  · intro a h1 h2 ha
    rw [hkeep (Name.ofString a)
      (fun q other _ hq ho _ hne => ha q other hq ho (ofString_injective _ _ hne))]
    exact hnone a h1 h2

/-- C23, instance: the sample chain after its first frame in a window of 800 by 600.
Pass 0 declares the alias `A` and resolves to 532 by 400, the double of the logical input
size 266 by 200. -/
theorem size_table_after_resize_witness :
    (resizePasses (sampleTexture 1) 266 200 800 600 sampleSwapped).m_shaderPasses[0]? =
        some ((newShaderPass doublingShader).Resize 266 200 532 400) ∧
      mapFind (resizePasses (sampleTexture 1) 266 200 800 600 sampleSwapped).m_textureSizes
        (Name.ofString "A") = some (sizeEntry 532 400) :=
  ⟨by decide!,
    (size_table_after_resize (sampleTexture 1) 266 200 800 600 sampleSwapped).2.2.1 0
      ((newShaderPass doublingShader).Resize 266 200 532 400) (by decide!) (by decide!)
      (by decide) (by decide) (by decide) (fun q _ h => absurd h (Nat.not_lt_zero q))⟩

/-- C23, counterexample: three passes that all declare the alias `A`, first frame in a
window of 800 by 600.  The passes resolve to 532 by 400, 1064 by 800 and 800 by 600; the
size table has the three entries `Original`, `FinalViewport` and `A`, and `A` is mapped
to the size of pass 0, which is neither the size of pass 1 nor that of the last pass. -/
theorem alias_entry_is_first_declaration :
    (Process (sampleInput 1 800 600) aliasedState).m_shaderPasses.map
        (fun pass => (pass.m_shader.m_alias, pass.m_destWidth, pass.m_destHeight)) =
        [("A", 532, 400), ("A", 1064, 800), ("A", 800, 600)] ∧
      (Process (sampleInput 1 800 600) aliasedState).m_textureSizes =
        [(Name.original, sizeEntry 266 200), (Name.finalViewport, sizeEntry 800 600),
         (Name.ofString "A", sizeEntry 532 400)] := by
  decide!

/-! ### C22: the wiring of consecutive passes -/

theorem mapFind_mapInsert_isSome {κ ν : Type} [DecidableEq κ] (m : List (κ × ν)) (k k2 : κ)
    (v : ν) (h : (mapFind m k2).isSome = true) :
    (mapFind (mapInsert m k v) k2).isSome = true := by
  obtain ⟨w, hw⟩ := Option.isSome_iff_exists.mp h
  rw [mapFind_mapInsert_keeps _ _ _ _ _ hw]
  rfl

/-- A string other than `PassOutput<k>` is not the key `PassOutput<k>`. -/
theorem ofString_ne_passOutput (a : String) (k : Nat) (h : a ≠ "PassOutput" ++ toString k) :
    Name.ofString a ≠ Name.passOutput k := by
  intro e
  apply h
  rw [← render_ofString a, e]
  rfl

/-- A string other than `PassFeedback<k>` is not the key `PassFeedback<k>`. -/
theorem ofString_ne_passFeedback (a : String) (k : Nat)
    (h : a ≠ "PassFeedback" ++ toString k) : Name.ofString a ≠ Name.passFeedback k := by
  intro e
  apply h
  rw [← render_ofString a, e]
  rfl

theorem createFeedback_resources (desc2 : TextureDesc) (index : Nat) (aliasName : String)
    (s : State) :
    (createFeedback desc2 index aliasName s).m_passResources =
      (if aliasName != "" then
        mapInsert (mapInsert s.m_passResources (Name.passFeedback index)
          (some ⟨⟨s.nextId, { desc2 with bindShaderResource := true,
                                         bindRenderTarget := false }⟩⟩))
          (Name.ofString (aliasName ++ "Feedback"))
          (some ⟨⟨s.nextId, { desc2 with bindShaderResource := true,
                                         bindRenderTarget := false }⟩⟩)
       else mapInsert s.m_passResources (Name.passFeedback index)
          (some ⟨⟨s.nextId, { desc2 with bindShaderResource := true,
                                         bindRenderTarget := false }⟩⟩)) := by
  unfold createFeedback
  dsimp only [CreateTexture2D, CreateShaderResourceView]
  split <;> rfl

theorem createFeedback_keeps (desc2 : TextureDesc) (index : Nat) (aliasName : String)
    (s : State) (name : Name) (v : Option ShaderResourceView)
    (h : mapFind s.m_passResources name = some v) :
    mapFind (createFeedback desc2 index aliasName s).m_passResources name = some v := by
  rw [createFeedback_resources]
  split
  · exact mapFind_mapInsert_keeps _ _ _ _ _ (mapFind_mapInsert_keeps _ _ _ _ _ h)
  · exact mapFind_mapInsert_keeps _ _ _ _ _ h

theorem createFeedback_fresh (desc2 : TextureDesc) (index : Nat) (aliasName : String)
    (s : State) (name : Name) (h1 : name ≠ Name.passFeedback index)
    (h2 : aliasName ≠ "" → name ≠ Name.ofString (aliasName ++ "Feedback")) :
    mapFind (createFeedback desc2 index aliasName s).m_passResources name =
      mapFind s.m_passResources name := by
  rw [createFeedback_resources]
  by_cases ha : aliasName = ""
  · have : (aliasName != "") = false := by simp [ha]
    rw [this]
    exact mapFind_mapInsert_ne _ _ _ _ (fun e => h1 e.symm)
  · have : (aliasName != "") = true := by simp [ha]
    rw [this, if_pos rfl, mapFind_mapInsert_ne _ _ _ _ (fun e => h2 ha e.symm),
      mapFind_mapInsert_ne _ _ _ _ (fun e => h1 e.symm)]

theorem createFeedback_present (desc2 : TextureDesc) (index : Nat) (aliasName : String)
    (s : State) :
    (mapFind (createFeedback desc2 index aliasName s).m_passResources
      (Name.passFeedback index)).isSome = true := by
  rw [createFeedback_resources]
  have h : ∀ v, (mapFind (mapInsert s.m_passResources (Name.passFeedback index) v)
      (Name.passFeedback index)).isSome = true := by
    intro v
    cases hf : mapFind s.m_passResources (Name.passFeedback index) with
    | none => rw [mapFind_mapInsert_absent _ _ _ hf]; rfl
    | some w => rw [mapFind_mapInsert_keeps _ _ _ _ _ hf]; rfl
  split
  · exact mapFind_mapInsert_isSome _ _ _ _ (h _)
  · exact h _

theorem rebuildPassStep_resources_eq (texture : CapturedTexture) (s : State) (p : Nat)
    (pass : ShaderPass) (hpass : s.m_shaderPasses[p - 1]? = some pass)
    (desc2 : TextureDesc)
    (hdesc : desc2 = { texture.desc with Format := passFormat pass.m_shader,
                                         Width := pass.m_destWidth,
                                         Height := pass.m_destHeight,
                                         bindShaderResource := true,
                                         bindRenderTarget := true })
    (r2 : List (Name × Option ShaderResourceView))
    (hr2 : r2 = (if pass.m_shader.m_alias != "" then
        mapInsert (mapInsert s.m_passResources (Name.passOutput (p - 1))
          (some ⟨⟨s.nextId, desc2⟩⟩)) (Name.ofString pass.m_shader.m_alias)
          (some ⟨⟨s.nextId, desc2⟩⟩)
      else mapInsert s.m_passResources (Name.passOutput (p - 1)) (some ⟨⟨s.nextId, desc2⟩⟩))) :
    (rebuildPassStep texture s p).m_passResources =
      (if s.m_requiresFeedback then
        (if pass.m_shader.m_alias != "" then
          mapInsert (mapInsert r2 (Name.passFeedback (p - 1))
            (some ⟨⟨s.nextId + 1, { desc2 with bindShaderResource := true,
                                               bindRenderTarget := false }⟩⟩))
            (Name.ofString (pass.m_shader.m_alias ++ "Feedback"))
            (some ⟨⟨s.nextId + 1, { desc2 with bindShaderResource := true,
                                               bindRenderTarget := false }⟩⟩)
         else mapInsert r2 (Name.passFeedback (p - 1))
            (some ⟨⟨s.nextId + 1, { desc2 with bindShaderResource := true,
                                               bindRenderTarget := false }⟩⟩))
       else r2) := by
  subst hdesc
  subst hr2
  unfold rebuildPassStep
  rw [hpass]
  dsimp only [CreateTexture2D, CreateShaderResourceView, CreateRenderTargetView]
  cases s.m_requiresFeedback
  · rfl
  · rw [if_pos rfl, if_pos rfl]
    show (createFeedback _ _ _ _).m_passResources = _
    rw [createFeedback_resources]
    rfl

theorem mapFind_mapInsert_present {κ ν : Type} [DecidableEq κ] (m : List (κ × ν)) (k : κ)
    (v : ν) : (mapFind (mapInsert m k v) k).isSome = true := by
  cases hf : mapFind m k with
  | none => rw [mapFind_mapInsert_absent _ _ _ hf]; rfl
  | some w => rw [mapFind_mapInsert_keeps _ _ _ _ _ hf]; rfl

theorem rebuildPassStep_resources (texture : CapturedTexture) (s : State) (p : Nat)
    (pass : ShaderPass) (hpass : s.m_shaderPasses[p - 1]? = some pass) :
    (∀ name v, mapFind s.m_passResources name = some v →
        mapFind (rebuildPassStep texture s p).m_passResources name = some v) ∧
      (∀ name, name ≠ Name.passOutput (p - 1) → name ≠ Name.passFeedback (p - 1) →
        (pass.m_shader.m_alias ≠ "" → name ≠ Name.ofString pass.m_shader.m_alias ∧
          name ≠ Name.ofString (pass.m_shader.m_alias ++ "Feedback")) →
        mapFind (rebuildPassStep texture s p).m_passResources name =
          mapFind s.m_passResources name) ∧
      (mapFind s.m_passResources (Name.passOutput (p - 1)) = none →
        mapFind (rebuildPassStep texture s p).m_passResources (Name.passOutput (p - 1)) =
          some (some ⟨⟨s.nextId,
            { texture.desc with Format := passFormat pass.m_shader, Width := pass.m_destWidth,
                                Height := pass.m_destHeight, bindShaderResource := true,
                                bindRenderTarget := true }⟩⟩)) ∧
      (pass.m_shader.m_alias ≠ "" →
        Name.ofString pass.m_shader.m_alias ≠ Name.passOutput (p - 1) →
        mapFind s.m_passResources (Name.ofString pass.m_shader.m_alias) = none →
        mapFind (rebuildPassStep texture s p).m_passResources
            (Name.ofString pass.m_shader.m_alias) =
          some (some ⟨⟨s.nextId,
            { texture.desc with Format := passFormat pass.m_shader, Width := pass.m_destWidth,
                                Height := pass.m_destHeight, bindShaderResource := true,
                                bindRenderTarget := true }⟩⟩)) ∧
      (s.m_requiresFeedback = true →
        (mapFind (rebuildPassStep texture s p).m_passResources
          (Name.passFeedback (p - 1))).isSome = true) := by
  obtain ⟨desc2, hdesc⟩ : ∃ d : TextureDesc, d =
      { texture.desc with Format := passFormat pass.m_shader, Width := pass.m_destWidth,
                          Height := pass.m_destHeight, bindShaderResource := true,
                          bindRenderTarget := true } := ⟨_, rfl⟩
  obtain ⟨r2, hr2⟩ : ∃ r : List (Name × Option ShaderResourceView), r =
      (if pass.m_shader.m_alias != "" then
        mapInsert (mapInsert s.m_passResources (Name.passOutput (p - 1))
          (some ⟨⟨s.nextId, desc2⟩⟩)) (Name.ofString pass.m_shader.m_alias)
          (some ⟨⟨s.nextId, desc2⟩⟩)
      else mapInsert s.m_passResources (Name.passOutput (p - 1))
        (some ⟨⟨s.nextId, desc2⟩⟩)) := ⟨_, rfl⟩
  have e := rebuildPassStep_resources_eq texture s p pass hpass desc2 hdesc r2 hr2
  rw [← hdesc, e]
  -- the table after the insertions of the pass output
  have k2 : ∀ name w, mapFind s.m_passResources name = some w → mapFind r2 name = some w := by
    intro name w h
    rw [hr2]
    split
    · exact mapFind_mapInsert_keeps _ _ _ _ _ (mapFind_mapInsert_keeps _ _ _ _ _ h)
    · exact mapFind_mapInsert_keeps _ _ _ _ _ h
  have f2 : ∀ name, name ≠ Name.passOutput (p - 1) →
      (pass.m_shader.m_alias ≠ "" → name ≠ Name.ofString pass.m_shader.m_alias) →
      mapFind r2 name = mapFind s.m_passResources name := by
    intro name h1 h2
    rw [hr2]
    by_cases ha : pass.m_shader.m_alias = ""
    · have : (pass.m_shader.m_alias != "") = false := by simp [ha]
      rw [this]
      exact mapFind_mapInsert_ne _ _ _ _ (fun e => h1 e.symm)
    · have : (pass.m_shader.m_alias != "") = true := by simp [ha]
      rw [this, if_pos rfl, mapFind_mapInsert_ne _ _ _ _ (fun e => h2 ha e.symm),
        mapFind_mapInsert_ne _ _ _ _ (fun e => h1 e.symm)]
  have o2 : mapFind s.m_passResources (Name.passOutput (p - 1)) = none →
      mapFind r2 (Name.passOutput (p - 1)) = some (some ⟨⟨s.nextId, desc2⟩⟩) := by
    intro h
    rw [hr2]
    split
    · exact mapFind_mapInsert_keeps _ _ _ _ _ (mapFind_mapInsert_absent _ _ _ h)
    · exact mapFind_mapInsert_absent _ _ _ h
  have a2 : pass.m_shader.m_alias ≠ "" →
      Name.ofString pass.m_shader.m_alias ≠ Name.passOutput (p - 1) →
      mapFind s.m_passResources (Name.ofString pass.m_shader.m_alias) = none →
      mapFind r2 (Name.ofString pass.m_shader.m_alias) = some (some ⟨⟨s.nextId, desc2⟩⟩) := by
    intro ha hne h
    have : (pass.m_shader.m_alias != "") = true := by simp [ha]
    rw [hr2, this, if_pos rfl]
    apply mapFind_mapInsert_absent
    rw [mapFind_mapInsert_ne _ _ _ _ (Ne.symm hne)]
    exact h
  -- the table after the feedback block
  have k3 : ∀ (fv : Option ShaderResourceView) name w, mapFind r2 name = some w →
      mapFind (if s.m_requiresFeedback then
        (if pass.m_shader.m_alias != "" then
          mapInsert (mapInsert r2 (Name.passFeedback (p - 1)) fv)
            (Name.ofString (pass.m_shader.m_alias ++ "Feedback")) fv
         else mapInsert r2 (Name.passFeedback (p - 1)) fv)
       else r2) name = some w := by
    intro fv name w h
    split
    · split
      · exact mapFind_mapInsert_keeps _ _ _ _ _ (mapFind_mapInsert_keeps _ _ _ _ _ h)
      · exact mapFind_mapInsert_keeps _ _ _ _ _ h
    · exact h
  have f3 : ∀ (fv : Option ShaderResourceView) name, name ≠ Name.passFeedback (p - 1) →
      (pass.m_shader.m_alias ≠ "" →
        name ≠ Name.ofString (pass.m_shader.m_alias ++ "Feedback")) →
      mapFind (if s.m_requiresFeedback then
        (if pass.m_shader.m_alias != "" then
          mapInsert (mapInsert r2 (Name.passFeedback (p - 1)) fv)
            (Name.ofString (pass.m_shader.m_alias ++ "Feedback")) fv
         else mapInsert r2 (Name.passFeedback (p - 1)) fv)
       else r2) name = mapFind r2 name := by
    intro fv name h1 h2
    split
    · by_cases ha : pass.m_shader.m_alias = ""
      · have : (pass.m_shader.m_alias != "") = false := by simp [ha]
        rw [this]
        exact mapFind_mapInsert_ne _ _ _ _ (fun e => h1 e.symm)
      · have : (pass.m_shader.m_alias != "") = true := by simp [ha]
        rw [this, if_pos rfl, mapFind_mapInsert_ne _ _ _ _ (fun e => h2 ha e.symm),
          mapFind_mapInsert_ne _ _ _ _ (fun e => h1 e.symm)]
    · rfl
  refine ⟨?_, ?_, ?_, ?_, ?_⟩
  · intro name v h
    exact k3 _ name v (k2 name v h)
  · intro name h1 h2 h3
    rw [f3 _ name h2 (fun ha => (h3 ha).2), f2 name h1 (fun ha => (h3 ha).1)]
  · intro h
    exact k3 _ _ _ (o2 h)
  · intro ha hne h
    exact k3 _ _ _ (a2 ha hne h)
  · intro hf
    rw [hf, if_pos rfl]
    split
    · exact mapFind_mapInsert_isSome _ _ _ _ (mapFind_mapInsert_present _ _ _)
    · exact mapFind_mapInsert_present _ _ _

theorem modifyAt_map_getElem? {α β : Type} (f : α → α) (g : α → β) (hfg : ∀ a, g (f a) = g a)
    (i j : Nat) (l : List α) : ((modifyAt f i l)[j]?).map g = (l[j]?).map g := by
  rw [modifyAt_getElem?]
  split
  · cases l[j]? with
    | none => rfl
    | some a => exact congrArg some (hfg a)
  · rfl

theorem static_retarget (v : Option RenderTargetView) (i j : Nat) (l : List ShaderPass) :
    ((modifyAt (fun q : ShaderPass => { q with m_targetView := v }) i l)[j]?).map
        (fun q : ShaderPass => (q.m_shader, q.m_destWidth, q.m_destHeight)) =
      (l[j]?).map (fun q : ShaderPass => (q.m_shader, q.m_destWidth, q.m_destHeight)) :=
  modifyAt_map_getElem? (fun q : ShaderPass => { q with m_targetView := v })
    (fun q : ShaderPass => (q.m_shader, q.m_destWidth, q.m_destHeight)) (fun _ => rfl) i j l

theorem static_resource (v : Option ShaderResourceView) (i j : Nat) (l : List ShaderPass) :
    ((modifyAt (fun q : ShaderPass => { q with m_sourceView := v }) i l)[j]?).map
        (fun q : ShaderPass => (q.m_shader, q.m_destWidth, q.m_destHeight)) =
      (l[j]?).map (fun q : ShaderPass => (q.m_shader, q.m_destWidth, q.m_destHeight)) :=
  modifyAt_map_getElem? (fun q : ShaderPass => { q with m_sourceView := v })
    (fun q : ShaderPass => (q.m_shader, q.m_destWidth, q.m_destHeight)) (fun _ => rfl) i j l

theorem source_retarget (v : Option RenderTargetView) (i j : Nat) (l : List ShaderPass) :
    ((modifyAt (fun q : ShaderPass => { q with m_targetView := v }) i l)[j]?).map
        ShaderPass.m_sourceView = (l[j]?).map ShaderPass.m_sourceView :=
  modifyAt_map_getElem? (fun q : ShaderPass => { q with m_targetView := v })
    ShaderPass.m_sourceView (fun _ => rfl) i j l

theorem target_resource (v : Option ShaderResourceView) (i j : Nat) (l : List ShaderPass) :
    ((modifyAt (fun q : ShaderPass => { q with m_sourceView := v }) i l)[j]?).map
        ShaderPass.m_targetView = (l[j]?).map ShaderPass.m_targetView :=
  modifyAt_map_getElem? (fun q : ShaderPass => { q with m_sourceView := v })
    ShaderPass.m_targetView (fun _ => rfl) i j l

theorem rebuildPass_loop_wiring (texture : CapturedTexture) (s : State) (k : Nat)
    (hk : k + 1 ≤ s.m_shaderPasses.length) :
    let st := (List.range k).foldl (fun st i => rebuildPassStep texture st (i + 1)) s
    (∀ j : Nat, (st.m_shaderPasses[j]?).map
        (fun q : ShaderPass => (q.m_shader, q.m_destWidth, q.m_destHeight)) =
      (s.m_shaderPasses[j]?).map
        (fun q : ShaderPass => (q.m_shader, q.m_destWidth, q.m_destHeight))) ∧
    (∀ name v, mapFind s.m_passResources name = some v →
      mapFind st.m_passResources name = some v) ∧
    (∀ name, (∀ q pass, q < k → s.m_shaderPasses[q]? = some pass →
        name ≠ Name.passOutput q ∧ name ≠ Name.passFeedback q ∧
        (pass.m_shader.m_alias ≠ "" → name ≠ Name.ofString pass.m_shader.m_alias ∧
          name ≠ Name.ofString (pass.m_shader.m_alias ++ "Feedback"))) →
      mapFind st.m_passResources name = mapFind s.m_passResources name) ∧
    (∀ j pass, j < k → s.m_shaderPasses[j]? = some pass → ∃ t : Texture2D,
      (st.m_shaderPasses[j]?).map ShaderPass.m_targetView = some (some ⟨t⟩) ∧
      (st.m_shaderPasses[j + 1]?).map ShaderPass.m_sourceView = some (some ⟨t⟩) ∧
      t.desc.Width = pass.m_destWidth ∧ t.desc.Height = pass.m_destHeight ∧
      (mapFind s.m_passResources (Name.passOutput j) = none →
        (∀ q other, q < j → s.m_shaderPasses[q]? = some other → other.m_shader.m_alias ≠ "" →
          Name.ofString other.m_shader.m_alias ≠ Name.passOutput j ∧
          Name.ofString (other.m_shader.m_alias ++ "Feedback") ≠ Name.passOutput j) →
        mapFind st.m_passResources (Name.passOutput j) = some (some ⟨t⟩)) ∧
      (pass.m_shader.m_alias ≠ "" →
        mapFind s.m_passResources (Name.ofString pass.m_shader.m_alias) = none →
        (∀ q, Name.ofString pass.m_shader.m_alias ≠ Name.passOutput q ∧
          Name.ofString pass.m_shader.m_alias ≠ Name.passFeedback q) →
        (∀ q other, q < j → s.m_shaderPasses[q]? = some other → other.m_shader.m_alias ≠ "" →
          other.m_shader.m_alias ≠ pass.m_shader.m_alias ∧
          other.m_shader.m_alias ++ "Feedback" ≠ pass.m_shader.m_alias) →
        mapFind st.m_passResources (Name.ofString pass.m_shader.m_alias) = some (some ⟨t⟩)) ∧
      (s.m_requiresFeedback = true →
        (mapFind st.m_passResources (Name.passFeedback j)).isSome = true)) := by
  induction k with
  | zero =>
    exact ⟨fun _ => rfl, fun _ _ h => h, fun _ _ => rfl, fun j _ hj => absurd hj (by omega)⟩
  | succ k ih =>
    have ih := ih (by omega)
    have hfb := (rebuildPass_fold_fields texture (List.range k) s).2.2.1
    have hlen := (rebuildPass_loop texture s k (by omega)).1
    simp only [foldl_range_succ]
    generalize (List.range k).foldl (fun st i => rebuildPassStep texture st (i + 1)) s = st
      at ih hfb hlen ⊢
    obtain ⟨hstatic, hkeep, hfresh, hwire⟩ := ih
    have hk1 : k < st.m_shaderPasses.length := by omega
    have hk2 : k + 1 < st.m_shaderPasses.length := by omega
    obtain ⟨cur, hcur⟩ : ∃ q, st.m_shaderPasses[k + 1 - 1]? = some q :=
      ⟨st.m_shaderPasses[k], by simp [List.getElem?_eq_getElem hk1]⟩
    have hcurk : st.m_shaderPasses[k]? = some cur := by simpa using hcur
    obtain ⟨orig, horig⟩ : ∃ q, s.m_shaderPasses[k]? = some q :=
      ⟨s.m_shaderPasses[k], List.getElem?_eq_getElem (by omega)⟩
    have hco : (cur.m_shader, cur.m_destWidth, cur.m_destHeight) =
        (orig.m_shader, orig.m_destWidth, orig.m_destHeight) := by
      have := hstatic k
      rw [hcurk, horig] at this
      exact Option.some.inj this
    have hsh : cur.m_shader = orig.m_shader := congrArg Prod.fst hco
    have hdw : cur.m_destWidth = orig.m_destWidth := congrArg (fun x => x.2.1) hco
    have hdh : cur.m_destHeight = orig.m_destHeight := congrArg (fun x => x.2.2) hco
    have hnew := rebuildPassStep_passes texture st (k + 1) cur hcur
    obtain ⟨r1, r2, r3, r4, r5⟩ := rebuildPassStep_resources texture st (k + 1) cur hcur
    have hk0 : k + 1 - 1 = k := by omega
    rw [hk0] at r2 r3 r5 hnew
    refine ⟨?_, ?_, ?_, ?_⟩
    · intro j
      rw [hnew, static_resource, static_retarget]
      exact hstatic j
    · intro name v h
      exact r1 name v (hkeep name v h)
    · intro name hname
      have h0 := hname k orig (by omega) horig
      rw [r2 name h0.1 h0.2.1 (fun ha => by rw [hsh] at ha ⊢; exact h0.2.2 ha)]
      exact hfresh name (fun q pass hq hp => hname q pass (by omega) hp)
    · intro j pass hj hpass
      by_cases hjk : j < k
      · obtain ⟨t, w1, w2, w3, w4, w5, w6, w7⟩ := hwire j pass hjk hpass
        refine ⟨t, ?_, ?_, w3, w4, ?_, ?_, ?_⟩
        · rw [hnew, target_resource, modifyAt_getElem?, if_neg (by omega)]
          exact w1
        · rw [hnew, modifyAt_getElem?, if_neg (by omega), source_retarget]
          exact w2
        · intro h hearlier
          exact r1 _ _ (w5 h hearlier)
        · intro ha h hgen hfirst
          exact r1 _ _ (w6 ha h hgen hfirst)
        · intro hf
          obtain ⟨v, hv⟩ := Option.isSome_iff_exists.mp (w7 hf)
          rw [r1 _ _ hv]
          rfl
      · have hje : j = k := by omega
        subst hje
        have hpo : pass = orig := by
          rw [horig] at hpass
          exact (Option.some.inj hpass).symm
        subst hpo
        refine ⟨⟨st.nextId,
            { texture.desc with Format := passFormat cur.m_shader, Width := cur.m_destWidth,
                                Height := cur.m_destHeight, bindShaderResource := true,
                                bindRenderTarget := true }⟩, ?_, ?_, hdw, hdh, ?_, ?_, ?_⟩
        · rw [hnew, target_resource, modifyAt_getElem?, if_pos rfl, hcurk]
          rfl
        · rw [hnew, modifyAt_getElem?, if_pos rfl, modifyAt_getElem?, if_neg (by omega),
            List.getElem?_eq_getElem hk2]
          rfl
        · intro h hearlier
          apply r3
          rw [hfresh (Name.passOutput j) (fun q other hq ho =>
            ⟨(by intro e; cases e; omega), (by intro e; cases e),
              fun hoa => ⟨Ne.symm (hearlier q other hq ho hoa).1,
                Ne.symm (hearlier q other hq ho hoa).2⟩⟩)]
          exact h
        · intro ha h hgen hfirst
          have ha2 : cur.m_shader.m_alias ≠ "" := by rw [hsh]; exact ha
          rw [← hsh]
          apply r4 ha2 (by rw [hsh]; exact (hgen j).1)
          rw [hsh]
          rw [hfresh (Name.ofString pass.m_shader.m_alias) (fun q other hq ho =>
            ⟨(hgen q).1, (hgen q).2,
              fun hoa => ⟨fun e => (hfirst q other hq ho hoa).1 (ofString_injective _ _ e).symm,
                fun e => (hfirst q other hq ho hoa).2 (ofString_injective _ _ e).symm⟩⟩)]
          exact h
        · intro hf
          exact r5 (hfb.trans hf)

theorem mapFind_foldl_user_absent {ν : Type} (l : List (String × ν)) (m : List (Name × ν))
    (a : String) (h : ∀ pt ∈ l, pt.1 ≠ a) :
    mapFind (l.foldl (fun m pt => mapInsert m (Name.ofString pt.1) pt.2) m) (Name.ofString a) =
      mapFind m (Name.ofString a) := by
  induction l generalizing m with
  | nil => rfl
  | cons pt rest ih =>
    rw [List.foldl_cons, ih _ (fun q hq => h q (List.mem_cons_of_mem _ hq)),
      mapFind_mapInsert_ne _ _ _ _
        (fun e => h pt (List.mem_cons_self _ _) (ofString_injective _ _ e))]

theorem seedResources_find_user (s : State) (a : String)
    (h : ∀ pt ∈ s.m_presetTextures, pt.1 ≠ a) (ho : a ≠ "Original") :
    mapFind (seedResources s).m_passResources (Name.ofString a) = none := by
  show mapFind (mapInsert (s.m_presetTextures.foldl
    (fun m pt => mapInsert m (Name.ofString pt.1) pt.2) []) Name.original s.m_originalView)
    (Name.ofString a) = none
  rw [mapFind_mapInsert_ne _ _ _ _ (Ne.symm (ofString_ne_original a ho)),
    mapFind_foldl_user_absent _ _ _ h]
  rfl

theorem createHistories_keeps (texture : CapturedTexture) (ow oh : Nat) (s : State)
    (name : Name) (v : Option ShaderResourceView)
    (h : mapFind s.m_passResources name = some v) :
    mapFind (createHistories texture ow oh s).m_passResources name = some v := by
  unfold createHistories
  split
  · dsimp only
    exact foldl_preserves
      (fun x => mapFind x.m_passResources name = some v)
      (createHistory { texture.desc with bindShaderResource := true, bindRenderTarget := false,
                                         Width := ow, Height := oh }) _
      (fun a b ha => by
        beta_reduce at ha ⊢
        rw [(createHistory_spec _ a b).2.2.2.2.2.2]
        exact mapFind_mapInsert_keeps _ _ _ _ _ ha)
      s h
  · exact h

theorem createLastFeedback_keeps (texture : CapturedTexture) (s : State)
    (name : Name) (v : Option ShaderResourceView)
    (h : mapFind s.m_passResources name = some v) :
    mapFind (createLastFeedback texture s).m_passResources name = some v := by
  unfold createLastFeedback
  dsimp only
  split
  · exact h
  · exact createFeedback_keeps _ _ _ _ _ _ h

theorem rebuildGraph_keeps (texture : CapturedTexture) (ow oh : Nat) (s : State)
    (name : Name) (v : Option ShaderResourceView)
    (h : mapFind (createPassTargets texture (seedResources s)).m_passResources name = some v) :
    mapFind (rebuildGraph texture ow oh s).m_passResources name = some v := by
  have h1 := createHistories_keeps texture ow oh _ name v h
  unfold rebuildGraph
  dsimp only
  split
  · exact createLastFeedback_keeps texture _ name v h1
  · exact h1

theorem createPassTargets_wiring (texture : CapturedTexture) (s : State)
    (hn : 2 ≤ s.m_shaderPasses.length) (i : Nat) (pass : ShaderPass)
    (hi : i + 1 < s.m_shaderPasses.length) (hpass : s.m_shaderPasses[i]? = some pass) :
    ∃ t : Texture2D,
      ((createPassTargets texture s).m_shaderPasses[i]?).map ShaderPass.m_targetView =
        some (some ⟨t⟩) ∧
      ((createPassTargets texture s).m_shaderPasses[i + 1]?).map ShaderPass.m_sourceView =
        some (some ⟨t⟩) ∧
      t.desc.Width = pass.m_destWidth ∧ t.desc.Height = pass.m_destHeight ∧
      (mapFind s.m_passResources (Name.passOutput i) = none →
        (∀ q other, q < i → s.m_shaderPasses[q]? = some other → other.m_shader.m_alias ≠ "" →
          Name.ofString other.m_shader.m_alias ≠ Name.passOutput i ∧
          Name.ofString (other.m_shader.m_alias ++ "Feedback") ≠ Name.passOutput i) →
        mapFind (createPassTargets texture s).m_passResources (Name.passOutput i) =
          some (some ⟨t⟩)) ∧
      (pass.m_shader.m_alias ≠ "" →
        mapFind s.m_passResources (Name.ofString pass.m_shader.m_alias) = none →
        (∀ q, Name.ofString pass.m_shader.m_alias ≠ Name.passOutput q ∧
          Name.ofString pass.m_shader.m_alias ≠ Name.passFeedback q) →
        (∀ q other, q < i → s.m_shaderPasses[q]? = some other → other.m_shader.m_alias ≠ "" →
          other.m_shader.m_alias ≠ pass.m_shader.m_alias ∧
          other.m_shader.m_alias ++ "Feedback" ≠ pass.m_shader.m_alias) →
        mapFind (createPassTargets texture s).m_passResources
          (Name.ofString pass.m_shader.m_alias) = some (some ⟨t⟩)) ∧
      ((createPassTargets texture s).m_requiresFeedback = true →
        (mapFind (createPassTargets texture s).m_passResources
          (Name.passFeedback i)).isSome = true) := by
  unfold createPassTargets
  rw [if_pos (by omega)]
  obtain ⟨-, -, -, hres, hp, -, -⟩ := requirement_fold s.m_shaderPasses s
  dsimp only
  generalize s.m_shaderPasses.foldl requirementStep s = s1 at hres hp ⊢
  obtain ⟨-, -, -, hw⟩ := rebuildPass_loop_wiring texture s1 (s1.m_shaderPasses.length - 1)
    (by rw [hp]; omega)
  have hfb := (rebuildPass_fold_fields texture (List.range (s1.m_shaderPasses.length - 1))
    s1).2.2.1
  obtain ⟨t, w1, w2, w3, w4, w5, w6, w7⟩ := hw i pass (by rw [hp]; omega) (by rw [hp]; exact hpass)
  exact ⟨t, w1, w2, w3, w4,
    fun h hearlier => w5 (by rw [hres]; exact h)
      (fun q other hq ho => hearlier q other hq (by rw [← hp]; exact ho)),
    fun ha h hgen hfirst => w6 ha (by rw [hres]; exact h) hgen
      (fun q other hq ho => hfirst q other hq (by rw [← hp]; exact ho)),
    fun h => w7 (hfb.symm.trans h)⟩

/-- C22, as the code has it.  After a topology rebuild of a chain of at least two passes,
for every pass `i` before the last one the target view of pass `i` and the source view
of pass `i + 1` are views of one texture `t`, and `t` has the resolved output size of
pass `i`.  When the string `PassOutput<i>` is not yet a key when pass `i` registers it
(it is not the name of a static texture, and not the alias or the feedback alias of an
earlier pass), `m_passResources` maps `PassOutput<i>` to the view of `t`.  When pass `i`
declares an alias that is new when it is inserted (it is not the name of a static
texture, not `Original`, not a `PassOutput` or `PassFeedback` name, and not the alias or
the feedback alias of an earlier pass), `m_passResources` maps the alias to the view of
`t` as well. -/
theorem consecutive_passes_share_texture (texture : CapturedTexture)
    (originalWidth originalHeight : Nat) (s : State) (i : Nat) (pass : ShaderPass)
    (hn : 2 ≤ s.m_shaderPasses.length) (hi : i + 1 < s.m_shaderPasses.length)
    (hpass : s.m_shaderPasses[i]? = some pass) :
    ∃ t : Texture2D,
      ((rebuildGraph texture originalWidth originalHeight s).m_shaderPasses[i]?).map
        ShaderPass.m_targetView = some (some ⟨t⟩) ∧
      ((rebuildGraph texture originalWidth originalHeight s).m_shaderPasses[i + 1]?).map
        ShaderPass.m_sourceView = some (some ⟨t⟩) ∧
      t.desc.Width = pass.m_destWidth ∧ t.desc.Height = pass.m_destHeight ∧
      ((∀ pt ∈ s.m_presetTextures, pt.1 ≠ "PassOutput" ++ toString i) →
        (∀ q other, q < i → s.m_shaderPasses[q]? = some other → other.m_shader.m_alias ≠ "" →
          other.m_shader.m_alias ≠ "PassOutput" ++ toString i ∧
          other.m_shader.m_alias ++ "Feedback" ≠ "PassOutput" ++ toString i) →
        mapFind (rebuildGraph texture originalWidth originalHeight s).m_passResources
          (Name.passOutput i) = some (some ⟨t⟩)) ∧
      (pass.m_shader.m_alias ≠ "" →
        (∀ pt ∈ s.m_presetTextures, pt.1 ≠ pass.m_shader.m_alias) →
        (pass.m_shader.m_alias ≠ "Original" ∧
          ∀ k : Nat, pass.m_shader.m_alias ≠ "PassOutput" ++ toString k ∧
            pass.m_shader.m_alias ≠ "PassFeedback" ++ toString k) →
        (∀ q other, q < i → s.m_shaderPasses[q]? = some other → other.m_shader.m_alias ≠ "" →
          other.m_shader.m_alias ≠ pass.m_shader.m_alias ∧
          other.m_shader.m_alias ++ "Feedback" ≠ pass.m_shader.m_alias) →
        mapFind (rebuildGraph texture originalWidth originalHeight s).m_passResources
          (Name.ofString pass.m_shader.m_alias) = some (some ⟨t⟩)) := by
  obtain ⟨t, w1, w2, w3, w4, w5, w6, -⟩ := createPassTargets_wiring texture (seedResources s)
    hn i pass hi hpass
  have hlen := (createPassTargets_passes texture (seedResources s)).1
  have hpasses := (rebuildGraph_fields texture originalWidth originalHeight s).2.2.2.1
  have hseed : (seedResources s).m_shaderPasses = s.m_shaderPasses := rfl
  rw [hseed] at hlen
  refine ⟨t, ?_, ?_, w3, w4, ?_, ?_⟩
  · rw [hpasses, modifyAt_getElem?, if_neg (by rw [hlen]; omega)]
    exact w1
  · rw [hpasses, source_retarget]
    exact w2
  · intro hstatic hearlier
    exact rebuildGraph_keeps texture _ _ s _ _
      (w5 (seedResources_find s _
          (fun pt hpt => ofString_ne_passOutput _ _ (hstatic pt hpt)) (by intro e; cases e))
        (fun q other hq ho hoa =>
          ⟨ofString_ne_passOutput _ _ (hearlier q other hq ho hoa).1,
            ofString_ne_passOutput _ _ (hearlier q other hq ho hoa).2⟩))
  · intro ha hst hgen hfirst
    exact rebuildGraph_keeps texture _ _ s _ _
      (w6 ha (seedResources_find_user s _ hst hgen.1)
        (fun q => ⟨ofString_ne_passOutput _ _ (hgen.2 q).1,
          ofString_ne_passFeedback _ _ (hgen.2 q).2⟩) hfirst)

/-- C22, instance: the three-pass sample chain with its sizes resolved.  Pass 0 declares
the alias `A` and resolves to 532 by 400: its target and the source of pass 1 are views
of one texture of that size, registered as `PassOutput0` and as `A`. -/
theorem consecutive_passes_share_texture_witness :
    ∃ t : Texture2D,
      ((rebuildGraph (sampleTexture 1) 266 200 resizedSample).m_shaderPasses[0]?).map
        ShaderPass.m_targetView = some (some ⟨t⟩) ∧
      ((rebuildGraph (sampleTexture 1) 266 200 resizedSample).m_shaderPasses[1]?).map
        ShaderPass.m_sourceView = some (some ⟨t⟩) ∧
      t.desc.Width = 532 ∧ t.desc.Height = 400 ∧
      mapFind (rebuildGraph (sampleTexture 1) 266 200 resizedSample).m_passResources
        (Name.passOutput 0) = some (some ⟨t⟩) ∧
      mapFind (rebuildGraph (sampleTexture 1) 266 200 resizedSample).m_passResources
        (Name.ofString "A") = some (some ⟨t⟩) := by
  have hlen : ∀ (p x : String), 1 < p.length → "A" ≠ p ++ x := by
    intro p x hp h
    have h1 := congrArg String.length h
    rw [String.length_append] at h1
    have h2 : "A".length = 1 := rfl
    omega
  obtain ⟨t, a, b, c, d, e, f⟩ := consecutive_passes_share_texture (sampleTexture 1) 266 200
    resizedSample 0 ((newShaderPass doublingShader).Resize 266 200 532 400)
    (by decide!) (by decide!) (by decide!)
  exact ⟨t, a, b, c, d,
    e (fun pt hpt => by cases hpt) (fun q _ hq => absurd hq (Nat.not_lt_zero q)),
    f (by decide) (fun pt hpt => by cases hpt)
    ⟨by decide, fun k => ⟨hlen _ _ (by decide), hlen _ _ (by decide)⟩⟩
    (fun q _ hq => absurd hq (Nat.not_lt_zero q))⟩

/-- C22, counterexample: first frame in a window of 800 by 600, which rebuilds the
topology.  With three passes that all declare the alias `A`, pass 1 draws into texture 5
and `m_passResources` maps `A` to the view of texture 3, the output of pass 0.  With a
first pass that declares the alias `PassOutput1`, pass 1 draws into texture 5 of 400 by
300 and `m_passResources` maps `PassOutput1` to the view of texture 3 of 532 by 400, the
output of pass 0. -/
theorem alias_entry_keeps_first_texture :
    (rebuildsPasses (sampleInput 1 800 600) aliasedState = true ∧
      (Process (sampleInput 1 800 600) aliasedState).m_shaderPasses.map
          (fun q => (q.m_shader.m_alias, q.m_targetView.map (fun v => v.texture.id))) =
        [("A", some 3), ("A", some 5), ("A", some 1)] ∧
      (mapFind (Process (sampleInput 1 800 600) aliasedState).m_passResources
          (Name.ofString "A")).map (Option.map (fun v => v.texture.id)) = some (some 3)) ∧
    (rebuildsPasses (sampleInput 1 800 600) namedState = true ∧
      (Process (sampleInput 1 800 600) namedState).m_shaderPasses.map
          (fun q => (q.m_shader.m_alias, q.m_targetView.map
            (fun v => (v.texture.id, v.texture.desc.Width, v.texture.desc.Height)))) =
        [("PassOutput1", some (3, 532, 400)), ("", some (5, 400, 300)),
          ("", some (1, 800, 600))] ∧
      (mapFind (Process (sampleInput 1 800 600) namedState).m_passResources
          (Name.passOutput 1)).map (Option.map
            (fun v => (v.texture.id, v.texture.desc.Width, v.texture.desc.Height))) =
        some (some (3, 532, 400))) := by
  decide!

/-! ### C24: the logical input size after the minimum-size check -/

theorem one_le_castUINT (q : ℚ) (h1 : 1 ≤ q) (h2 : q < 4294967296) : 1 ≤ castUINT q := by
  rw [castUINT_eq_floor q (by linarith) h2]
  exact Nat.le_floor (by exact_mod_cast h1)

theorem castUINT_below_one (q : ℚ) (h0 : 0 ≤ q) (h1 : q < 1) : castUINT q = 0 := by
  rw [castUINT_eq_floor q h0 (by linarith)]
  exact Nat.floor_eq_zero.mpr h1

/-- C24, as the code has it.  Positive input scales and a frame that passes the
minimum-size check.  In desktop mode the logical input size is the destination size
divided by the input scale and is at least 1 in each dimension (the quotient being in
the range of `UINT`).  In window and image mode it is the client size of the capture
divided by the input scale, whatever the destination size is: a dimension of the capture
below the input scale gives a logical input dimension of 0. -/
theorem original_size_after_minimum_check (s : State) (g : Geometry)
    (destWidth destHeight : Int)
    (hW : 0 < s.m_inputScaleW) (hH : 0 < s.m_inputScaleH)
    (hpass : belowMinimumSize s destWidth destHeight = false) :
    ((s.m_captureWindow || s.m_image) = false →
        (destWidth : ℚ) / s.m_inputScaleW < 4294967296 →
        (destHeight : ℚ) / s.m_inputScaleH < 4294967296 →
        1 ≤ (originalSize s g destWidth destHeight).1 ∧
        1 ≤ (originalSize s g destWidth destHeight).2) ∧
      ((s.m_captureWindow || s.m_image) = true →
        (originalSize s g destWidth destHeight) =
          (castUINT (g.captureClient.right / s.m_inputScaleW),
           castUINT (g.captureClient.bottom / s.m_inputScaleH)) ∧
        (0 ≤ g.captureClient.right → (g.captureClient.right : ℚ) < s.m_inputScaleW →
          (originalSize s g destWidth destHeight).1 = 0) ∧
        (0 ≤ g.captureClient.bottom → (g.captureClient.bottom : ℚ) < s.m_inputScaleH →
          (originalSize s g destWidth destHeight).2 = 0)) := by
  have hb : ¬ (destWidth ≤ castLong s.m_inputScaleW) ∧
      ¬ (destHeight ≤ castLong s.m_inputScaleH) := by
    unfold belowMinimumSize at hpass
    rw [Bool.or_eq_false_iff, decide_eq_false_iff_not, decide_eq_false_iff_not] at hpass
    exact hpass
  rw [le_castLong_iff _ _ (le_of_lt hW), le_castLong_iff _ _ (le_of_lt hH), not_le, not_le]
    at hb
  refine ⟨?_, ?_⟩
  · intro hmode h1 h2
    unfold originalSize
    rw [hmode]
    exact ⟨one_le_castUINT _ ((one_le_div hW).mpr (le_of_lt hb.1)) h1,
      one_le_castUINT _ ((one_le_div hH).mpr (le_of_lt hb.2)) h2⟩
  · intro hmode
    have e : originalSize s g destWidth destHeight =
        (castUINT (g.captureClient.right / s.m_inputScaleW),
         castUINT (g.captureClient.bottom / s.m_inputScaleH)) := by
      unfold originalSize
      rw [hmode]
      rfl
    refine ⟨e, ?_, ?_⟩
    · intro h0 h1
      rw [e]
      exact castUINT_below_one _ (div_nonneg (by exact_mod_cast h0) (le_of_lt hW))
        ((div_lt_one hW).mpr h1)
    · intro h0 h1
      rw [e]
      exact castUINT_below_one _ (div_nonneg (by exact_mod_cast h0) (le_of_lt hH))
        ((div_lt_one hH).mpr h1)

/-- C24, instance.  The sample desktop pipeline at input scale 3 with a destination of
800 by 600 gets a logical input of 266 by 200.  A captured window of 2 by 2 at input
scale 3 in free-scale mode, and a captured window of 1 by 1 at input scale 3/2 and
output scale 2 outside free-scale mode, both pass the minimum-size check, complete the
frame and create the preprocessed texture with width 0 and height 0. -/
theorem original_size_after_minimum_check_witness :
    originalSize sampleState sampleGeometry 800 600 = (266, 200) ∧
      (1 ≤ (originalSize sampleState sampleGeometry 800 600).1 ∧
        1 ≤ (originalSize sampleState sampleGeometry 800 600).2) ∧
      (ProcessTraced (tinyWindowInput 2) windowState).2 = Outcome.completed ∧
      (Process (tinyWindowInput 2) windowState).m_preprocessedTexture.map
        (fun t => (t.desc.Width, t.desc.Height)) = some (0, 0) ∧
      (ProcessTraced (tinyWindowInput 1) fixedScaleState).2 = Outcome.completed ∧
      (Process (tinyWindowInput 1) fixedScaleState).m_preprocessedTexture.map
        (fun t => (t.desc.Width, t.desc.Height)) = some (0, 0) :=
  ⟨by decide!,
    (original_size_after_minimum_check sampleState sampleGeometry 800 600 (by decide!)
      (by decide!) (by decide!)).1 (by decide) (by decide!) (by decide!),
    by decide!, by decide!, by decide!, by decide!⟩

/-! ### C21: the members the transform block reads, through the steps of a frame -/

theorem poseOf_logCalls (cs : List Call) (s : State) :
    poseOf (logCalls cs s) = poseOf s := rfl

theorem poseOf_DestroyTargets (s : State) : poseOf (DestroyTargets s) = poseOf s := by
  unfold DestroyTargets
  split <;> rfl

theorem poseOf_ClearRenderTargetView (v : Option RenderTargetView) (s : State) :
    poseOf (ClearRenderTargetView v s) = poseOf s := by
  unfold ClearRenderTargetView
  split <;> rfl

theorem poseOf_captureGeometry (inp : FrameInput) (texture : CapturedTexture) (s : State) :
    poseOf (captureGeometry inp texture s).1 = poseOf s := by
  unfold captureGeometry
  dsimp only
  split
  · dsimp only
    split <;> rfl
  · split <;> rfl

theorem poseOf_acquireDisplay (clientRect : RECT) (s : State) :
    poseOf (acquireDisplay clientRect s) = poseOf s := rfl

theorem poseOf_TryResizeSwapChain (clientRect : RECT) (force : Bool) (s : State) :
    poseOf (TryResizeSwapChain clientRect force s).1 = poseOf s := by
  unfold TryResizeSwapChain
  split
  · dsimp only
    split
    · dsimp only
      rw [poseOf_acquireDisplay]
      exact poseOf_DestroyTargets s
    · exact poseOf_DestroyTargets s
  · rfl

theorem poseOf_consumeRescaleFlags (s : State) :
    poseOf (consumeRescaleFlags s).1 = poseOf s := by
  unfold consumeRescaleFlags
  dsimp only
  split
  · split
    · dsimp only
      rw [poseOf_DestroyTargets]; rfl
    · dsimp only
      rw [poseOf_ClearRenderTargetView]; rfl
  · rfl

theorem poseOf_applyNewParam (refs : List (Nat × Nat)) (s : State) (ip : Int × String × ℚ) :
    poseOf (applyNewParam refs s ip) = poseOf s := by
  unfold applyNewParam
  split <;> rfl

theorem poseOf_swapPreset (s : State) : poseOf (swapPreset s).1 = poseOf s := by
  unfold swapPreset
  split
  · rfl
  · rename_i newPreset hnew
    dsimp only
    split
    · show poseOf (List.foldl (applyNewParam
        (Params (RebuildShaders (setNewShaderPreset none (setShaderPreset newPreset
          (DestroyShaders s))))))
        (RebuildShaders (setNewShaderPreset none (setShaderPreset newPreset (DestroyShaders s))))
        (RebuildShaders (setNewShaderPreset none (setShaderPreset newPreset
          (DestroyShaders s)))).m_newParams) = poseOf s
      exact foldl_preserves (fun x => poseOf x = poseOf s)
        (applyNewParam (Params (RebuildShaders (setNewShaderPreset none
          (setShaderPreset newPreset (DestroyShaders s)))))) _
        (fun a b ha => by beta_reduce; rw [poseOf_applyNewParam]; exact ha) _ rfl
    · rfl

theorem poseOf_createPreprocessed (texture : CapturedTexture) (ow oh : Nat)
    (flags : FrameFlags) (s : State) :
    poseOf (createPreprocessed texture ow oh flags s).1 = poseOf s := by
  unfold createPreprocessed
  dsimp only [CreateTexture2D, CreateShaderResourceView, CreateRenderTargetView]
  split <;> split <;> rfl

theorem poseOf_resizePasses (texture : CapturedTexture) (ow oh vw vh : Nat) (s : State) :
    poseOf (resizePasses texture ow oh vw vh s) = poseOf s := rfl

theorem poseOf_renderPass (texture : CapturedTexture) (s : State) (p : Nat) :
    poseOf (renderPass texture s p) = poseOf s := by
  unfold renderPass
  dsimp only
  split
  · split <;> rfl
  · rfl

theorem poseOf_renderPreprocess (texture : CapturedTexture) (s : State) :
    poseOf (renderPreprocess texture s) = poseOf s := by
  unfold renderPreprocess
  dsimp only
  split <;> rfl

theorem poseOf_renderPasses (texture : CapturedTexture) (s : State) :
    poseOf (renderPasses texture s) = poseOf s := by
  unfold renderPasses
  dsimp only
  refine foldl_preserves (fun x => poseOf x = poseOf s) (renderPass texture) _
    (fun a b ha => by beta_reduce; rw [poseOf_renderPass]; exact ha) _ ?_
  beta_reduce
  rw [poseOf_renderPreprocess]
  split
  · rw [poseOf_logCalls, poseOf_ClearRenderTargetView]
  · rfl

theorem poseOf_copyPassFeedback (s : State) (q : Nat) :
    poseOf (copyPassFeedback s q) = poseOf s := by
  unfold copyPassFeedback
  split <;> rfl

theorem poseOf_copyDisplayFeedback (s : State) :
    poseOf (copyDisplayFeedback s) = poseOf s := by
  unfold copyDisplayFeedback
  split
  · rfl
  · dsimp only
    repeat' split
    all_goals rfl

theorem poseOf_copyFeedback (s : State) : poseOf (copyFeedback s) = poseOf s := by
  unfold copyFeedback
  split
  · rw [poseOf_copyDisplayFeedback]
    exact foldl_preserves (fun x => poseOf x = poseOf s) copyPassFeedback _
      (fun a b ha => by beta_reduce; rw [poseOf_copyPassFeedback]; exact ha) s rfl
  · rfl

theorem poseOf_rotateHistory (s : State) : poseOf (rotateHistory s) = poseOf s := by
  unfold rotateHistory
  split
  · split
    · dsimp only
      split
      · split <;> rfl
      · rfl
    · rfl
  · rfl

theorem poseOf_finishFrame (ticks : Nat) (s : State) :
    poseOf (finishFrame ticks s) = poseOf s := by
  unfold finishFrame
  dsimp only
  split <;> rfl

theorem poseOf_createFeedback (desc2 : TextureDesc) (index : Nat) (aliasName : String)
    (s : State) : poseOf (createFeedback desc2 index aliasName s) = poseOf s := by
  unfold createFeedback
  dsimp only [CreateTexture2D, CreateShaderResourceView]
  split <;> rfl

theorem poseOf_rebuildPassStep (texture : CapturedTexture) (s : State) (p : Nat) :
    poseOf (rebuildPassStep texture s p) = poseOf s := by
  unfold rebuildPassStep
  split
  · rfl
  · dsimp only [CreateTexture2D, CreateShaderResourceView, CreateRenderTargetView]
    split
    · exact (poseOf_createFeedback _ _ _ _).trans rfl
    · rfl

theorem poseOf_createPassTargets (texture : CapturedTexture) (s : State) :
    poseOf (createPassTargets texture s) = poseOf s := by
  unfold createPassTargets
  split
  · dsimp only
    refine foldl_preserves (fun x => poseOf x = poseOf s)
      (fun st i => rebuildPassStep texture st (i + 1)) _
      (fun a b ha => by beta_reduce; rw [poseOf_rebuildPassStep]; exact ha) _ ?_
    exact foldl_preserves (fun x => poseOf x = poseOf s) requirementStep _
      (fun a b ha => ha) s rfl
  · split <;> rfl

theorem poseOf_createHistories (texture : CapturedTexture) (ow oh : Nat) (s : State) :
    poseOf (createHistories texture ow oh s) = poseOf s := by
  unfold createHistories
  split
  · dsimp only
    exact foldl_preserves (fun x => poseOf x = poseOf s)
      (createHistory { texture.desc with bindShaderResource := true, bindRenderTarget := false,
                                         Width := ow, Height := oh }) _
      (fun a b ha => ha) s rfl
  · rfl

theorem poseOf_createLastFeedback (texture : CapturedTexture) (s : State) :
    poseOf (createLastFeedback texture s) = poseOf s := by
  unfold createLastFeedback
  dsimp only
  split
  · rfl
  · exact poseOf_createFeedback _ _ _ _

theorem poseOf_rebuildGraph (texture : CapturedTexture) (ow oh : Nat) (s : State) :
    poseOf (rebuildGraph texture ow oh s) = poseOf s := by
  have h : poseOf (targetDisplay (createHistories texture ow oh
      (createPassTargets texture (seedResources s)))) = poseOf s := by
    have h1 : poseOf (targetDisplay (createHistories texture ow oh
        (createPassTargets texture (seedResources s)))) =
        poseOf (createHistories texture ow oh (createPassTargets texture (seedResources s))) :=
      rfl
    rw [h1, poseOf_createHistories, poseOf_createPassTargets]
    rfl
  unfold rebuildGraph
  dsimp only
  split
  · rw [poseOf_createLastFeedback]
    exact h
  · exact h

theorem poseOf_if (b : Bool) (x y s : State) (hx : poseOf x = poseOf s)
    (hy : poseOf y = poseOf s) : poseOf (if b = true then x else y) = poseOf s := by
  cases b
  · exact hy
  · exact hx

theorem poseOf_transformStage (inp : FrameInput) (texture : CapturedTexture) (s : State) :
    poseOf (transformStage inp texture s).state = poseOf s := by
  unfold transformStage
  dsimp only
  have h0 : ∀ ow oh flags st, poseOf st = poseOf s →
      poseOf (createPreprocessed texture ow oh flags
        (swapPreset (consumeRescaleFlags st).1).1).1 = poseOf s := by
    intro ow oh flags st hst
    rw [poseOf_createPreprocessed, poseOf_swapPreset, poseOf_consumeRescaleFlags]
    exact hst
  have hs1 : ∀ bx by_, poseOf (setBox bx by_ (TryResizeSwapChain
      (captureGeometry inp texture (setFrameCounter (s.m_frameCounter + 1) s)).2.clientRect
      (captureGeometry inp texture (setFrameCounter (s.m_frameCounter + 1) s)).1.m_outputRescaled
      (captureGeometry inp texture (setFrameCounter (s.m_frameCounter + 1) s)).1).1) =
      poseOf s := by
    intro bx by_
    have e : ∀ x : State, poseOf (setBox bx by_ x) = poseOf x := fun _ => rfl
    rw [e, poseOf_TryResizeSwapChain, poseOf_captureGeometry]
    rfl
  apply poseOf_if
  · rw [poseOf_rebuildGraph]
    apply poseOf_if
    · exact h0 _ _ _ _ (hs1 _ _)
    · exact h0 _ _ _ _ (hs1 _ _)
  · apply poseOf_if
    · exact h0 _ _ _ _ (hs1 _ _)
    · exact h0 _ _ _ _ (hs1 _ _)

theorem completed_from_stage (inp : FrameInput) (s : State)
    (hc : (ProcessTraced inp s).2 = Outcome.completed) :
    ∃ texture, inp.texture = some texture ∧
      Process inp s = finishFrame inp.ticks (rotateHistory (copyFeedback (renderPasses texture
        (updateTransform (transformStage inp texture s).g
          (transformStage inp texture s).outputResized
          (transformStage inp texture s).destWidth (transformStage inp texture s).destHeight
          (transformStage inp texture s).state)))) := by
  obtain ⟨texture, htx, hp⟩ := ProcessTraced_locked inp s (by rw [hc]; decide)
    (by rw [hc]; decide)
  refine ⟨texture, htx, ?_⟩
  rw [hp] at hc
  unfold Process
  rw [hp]
  unfold processLocked at hc ⊢
  dsimp only at hc ⊢
  split at hc
  · cases hc
  · rename_i h1
    rw [if_neg h1]
    split at hc
    · cases hc
    · rename_i h2
      rw [if_neg h2]
      rfl

theorem updateTransform_uploaded (g : Geometry) (o : Bool) (dw dh : Int) (s : State) :
    uploaded (updateTransform g o dw dh s) =
      (if g.outputMoved || o || (s.m_lastPos.x != g.topLeft.x || s.m_lastPos.y != g.topLeft.y) ||
          s.m_lockedAreaUpdated then preprocessTransform s g dw dh else uploaded s) := by
  unfold updateTransform
  split <;> rfl

theorem uploaded_tail (ticks : Nat) (texture : CapturedTexture) (s : State) :
    uploaded (finishFrame ticks (rotateHistory (copyFeedback (renderPasses texture s)))) =
      uploaded s := by
  have h : poseOf (finishFrame ticks (rotateHistory (copyFeedback (renderPasses texture s)))) =
      poseOf s := by
    rw [poseOf_finishFrame, poseOf_rotateHistory, poseOf_copyFeedback, poseOf_renderPasses]
  exact congrArg Prod.fst h

theorem captureGeometry_moved (inp : FrameInput) (texture : CapturedTexture) (s : State) :
    (captureGeometry inp texture s).2.outputMoved =
        (s.m_captureWindow && (s.m_lastCaptureWindowPos.x != inp.captureRect.left ||
          s.m_lastCaptureWindowPos.y != inp.captureRect.bottom)) ∧
      (captureGeometry inp texture s).2.topLeft =
        (if !s.m_captureWindow && !s.m_clone then
          ⟨inp.topLeft.x - s.m_monitorOffset.x, inp.topLeft.y - s.m_monitorOffset.y⟩
         else inp.topLeft) := by
  unfold captureGeometry
  dsimp only
  cases s.m_captureWindow
  · cases s.m_image <;> exact ⟨rfl, rfl⟩
  · exact ⟨by simp, rfl⟩

theorem preprocessTransform_congr (a b : State) (g : Geometry) (dw dh : Int)
    (h : poseOf a = poseOf b) : preprocessTransform a g dw dh = preprocessTransform b g dw dh := by
  simp only [poseOf, Prod.mk.injEq] at h
  obtain ⟨-, -, -, h1, h2, h3, h4, h5, h6, h7⟩ := h
  unfold preprocessTransform
  rw [h1, h2, h3, h4, h5, h6, h7]

/-- C21, as the code has it.  In a completed frame the transform is recomputed and
uploaded exactly when the condition of source line 755 holds: the left or the bottom edge
of the captured window is not where the last recomputation saw it, or `outputResized` is
set (the client size of the output window changed, a rescale was pending, a preset was
swapped in or the preprocessed texture was created), or the top-left corner of the output
window moved, or the locked area was updated.  After such a frame the uploaded transform
is the one computed from the geometry of that frame with the capture mode, the locked
area and the flips of the pipeline; after any other completed frame it is the transform
uploaded before the frame. -/
theorem transform_follows_trigger (inp : FrameInput) (s : State)
    (hc : (ProcessTraced inp s).2 = Outcome.completed) :
    ∃ texture, inp.texture = some texture ∧
      (transformRecomputed inp s = true →
        some (uploaded (Process inp s)) = frameTransform inp s) ∧
      (transformRecomputed inp s = false → uploaded (Process inp s) = uploaded s) ∧
      transformRecomputed inp s =
        ((s.m_captureWindow && (s.m_lastCaptureWindowPos.x != inp.captureRect.left ||
            s.m_lastCaptureWindowPos.y != inp.captureRect.bottom)) ||
          (transformStage inp texture s).outputResized ||
          (s.m_lastPos.x != (transformStage inp texture s).g.topLeft.x ||
            s.m_lastPos.y != (transformStage inp texture s).g.topLeft.y) ||
          s.m_lockedAreaUpdated) ∧
      (transformStage inp texture s).g.topLeft =
        (if !s.m_captureWindow && !s.m_clone then
          ⟨inp.topLeft.x - s.m_monitorOffset.x, inp.topLeft.y - s.m_monitorOffset.y⟩
         else inp.topLeft) ∧
      frameTransform inp s = some (preprocessTransform s (transformStage inp texture s).g
        (transformStage inp texture s).destWidth (transformStage inp texture s).destHeight) := by
  obtain ⟨texture, htx, hp⟩ := completed_from_stage inp s hc
  have hpose := poseOf_transformStage inp texture s
  have hfields := hpose
  simp only [poseOf, Prod.mk.injEq] at hfields
  obtain ⟨hup, hlast, hlock, -⟩ := hfields
  have hg : (transformStage inp texture s).g =
      (captureGeometry inp texture (setFrameCounter (s.m_frameCounter + 1) s)).2 := rfl
  obtain ⟨hmoved, htl⟩ := captureGeometry_moved inp texture
    (setFrameCounter (s.m_frameCounter + 1) s)
  have htrig : transformRecomputed inp s =
      ((transformStage inp texture s).g.outputMoved ||
        (transformStage inp texture s).outputResized ||
        ((transformStage inp texture s).state.m_lastPos.x !=
            (transformStage inp texture s).g.topLeft.x ||
          (transformStage inp texture s).state.m_lastPos.y !=
            (transformStage inp texture s).g.topLeft.y) ||
        (transformStage inp texture s).state.m_lockedAreaUpdated) := by
    unfold transformRecomputed
    rw [htx]
  have hframe : frameTransform inp s =
      some (preprocessTransform (transformStage inp texture s).state
        (transformStage inp texture s).g (transformStage inp texture s).destWidth
        (transformStage inp texture s).destHeight) := by
    unfold frameTransform
    rw [htx]
    rfl
  have hupl : uploaded (Process inp s) =
      (if transformRecomputed inp s = true then
        preprocessTransform (transformStage inp texture s).state
          (transformStage inp texture s).g (transformStage inp texture s).destWidth
          (transformStage inp texture s).destHeight
       else uploaded (transformStage inp texture s).state) := by
    rw [hp, uploaded_tail, updateTransform_uploaded, htrig]
  refine ⟨texture, htx, ?_, ?_, ?_, ?_, ?_⟩
  · intro h
    rw [hupl, if_pos h, hframe]
  · intro h
    rw [hupl, if_neg (by rw [h]; decide), hup]
  · rw [htrig, hlast, hlock, hg, hmoved]
  · rw [hg, htl]
  · rw [hframe, preprocessTransform_congr _ _ _ _ _ hpose]

/-- C21, instance: the first frame of the window capture is completed and recomputes the
transform; the uploaded transform is the one of that frame. -/
theorem transform_follows_trigger_witness :
    (ProcessTraced (windowFrame 100) windowState).2 = Outcome.completed ∧
      transformRecomputed (windowFrame 100) windowState = true ∧
      some (uploaded (Process (windowFrame 100) windowState)) =
        frameTransform (windowFrame 100) windowState := by
  obtain ⟨_, _, h, _⟩ := transform_follows_trigger (windowFrame 100) windowState (by decide!)
  exact ⟨by decide!, by decide!, h (by decide!)⟩

/-- C21, counterexample: a captured window of 400 by 300 is enlarged to 400 by 400 by
dragging its top edge; its left and bottom edges and the output window stay where they
are.  Both frames are completed.  The second frame does not recompute the transform: the
uploaded vertical scale stays 10/9, while the geometry of the second frame gives
40/37. -/
theorem stale_transform_after_resize :
    (ProcessTraced (windowFrame 100) windowState).2 = Outcome.completed ∧
      (ProcessTraced (windowFrame 0) (Process (windowFrame 100) windowState)).2 =
        Outcome.completed ∧
      transformRecomputed (windowFrame 0) (Process (windowFrame 100) windowState) = false ∧
      (uploaded (Process (windowFrame 0) (Process (windowFrame 100) windowState))).sy =
        10 / 9 ∧
      (frameTransform (windowFrame 0) (Process (windowFrame 100) windowState)).map
        Transform.sy = some (40 / 37) ∧
      some (uploaded (Process (windowFrame 0) (Process (windowFrame 100) windowState))) ≠
        frameTransform (windowFrame 0) (Process (windowFrame 100) windowState) := by
  decide!

/-! ### C26: the rotation permutes the history views -/

theorem historyReady_iff (s : State) :
    historyReady s = true ↔ (viewOf s Name.original).isSome = true ∧
      ∀ j, 1 ≤ j → j ≤ s.m_requiresHistory → (historyView s j).isSome = true := by
  unfold historyReady
  rw [Bool.and_eq_true, List.all_eq_true]
  constructor
  · rintro ⟨h1, h2⟩
    refine ⟨h1, fun j hj1 hj2 => ?_⟩
    have := h2 (j - 1) (List.mem_range.mpr (by omega))
    have e : j - 1 + 1 = j := by omega
    rw [e] at this
    exact this
  · rintro ⟨h1, h2⟩
    exact ⟨h1, fun j hj => h2 (j + 1) (by omega) (by have := List.mem_range.mp hj; omega)⟩

theorem rotateHistory_step (s : State) (hready : historyReady s = true) :
    (historyIds (rotateHistory s)).Perm (historyIds s) ∧
      mapKeys (rotateHistory s).m_passResources = mapKeys s.m_passResources ∧
      (rotateHistory s).m_requiresHistory = s.m_requiresHistory ∧
      historyReady (rotateHistory s) = true := by
  obtain ⟨ho, hh⟩ := (historyReady_iff s).mp hready
  by_cases hN : s.m_requiresHistory = 0
  · have e : rotateHistory s = s := by
      unfold rotateHistory
      rw [hN]
      rfl
    rw [e]
    exact ⟨List.Perm.refl _, rfl, rfl, hready⟩
  · have hN1 : 1 ≤ s.m_requiresHistory := by omega
    obtain ⟨original, horig⟩ := Option.isSome_iff_exists.mp ho
    obtain ⟨last, hlast⟩ := Option.isSome_iff_exists.mp (hh s.m_requiresHistory hN1 (le_refl _))
    have hpres : ∀ j, 1 ≤ j → j ≤ s.m_requiresHistory →
        (mapFind s.m_passResources (Name.originalHistory j)).isSome = true := by
      intro j hj1 hj2
      obtain ⟨v, hv⟩ := Option.isSome_iff_exists.mp (hh j hj1 hj2)
      rw [(viewOf_some s _ v).mp hv]
      rfl
    obtain ⟨⟨-, -, -, r4⟩, r5, r6, r7, -⟩ := rotateHistory_effect s last original hN1 hpres
      ((viewOf_some s _ last).mp hlast) ((viewOf_some s _ original).mp horig)
    have hkeys := (rotateHistory_graph s ((historyRegistered_iff s).mpr hpres)).2.2.2.2
    have hv1 : historyView (rotateHistory s) 1 = some last := by
      unfold historyView
      rw [viewOf_some]
      exact r5
    have hvj : ∀ j, 2 ≤ j → j ≤ s.m_requiresHistory →
        historyView (rotateHistory s) j = historyView s (j - 1) := by
      intro j hj1 hj2
      unfold historyView viewOf
      rw [r6 j hj1 hj2]
    have hvo : viewOf (rotateHistory s) Name.original = viewOf s Name.original := by
      unfold viewOf
      rw [r7 _ (fun j _ _ => by intro e; cases e)]
    refine ⟨?_, hkeys, r4, ?_⟩
    · unfold historyIds
      rw [r4]
      obtain ⟨n, hn⟩ : ∃ n, s.m_requiresHistory = n + 1 := ⟨s.m_requiresHistory - 1, by omega⟩
      rw [hn]
      apply rotate_perm
      · dsimp only
        rw [hv1, ← hn, hlast]
      · intro j hj
        dsimp only
        rw [hvj (j + 1 + 1) (by omega) (by omega)]
        rfl
    · rw [historyReady_iff, hvo, r4]
      refine ⟨ho, fun j hj1 hj2 => ?_⟩
      by_cases hj : j = 1
      · rw [hj, hv1]
        rfl
      · rw [hvj j (by omega) hj2]
        exact hh (j - 1) (by omega) (by omega)

/-- C26. On a pipeline whose `Original` and `OriginalHistory1` to `OriginalHistory<N>` are
registered with views that are not null, as a topology rebuild leaves them, any number of
rotation steps leaves the list of textures behind `OriginalHistory1..N` a permutation of
what it was: names that referred to different textures still do, every texture that had
a name has one, the history depth is the same, and the keys of `m_passResources` are the
same. -/
theorem rotation_permutes_history (s : State) (n : Nat) (hready : historyReady s = true) :
    (historyIds (Nat.iterate rotateHistory n s)).Perm (historyIds s) ∧
      mapKeys (Nat.iterate rotateHistory n s).m_passResources = mapKeys s.m_passResources ∧
      (Nat.iterate rotateHistory n s).m_requiresHistory = s.m_requiresHistory ∧
      ((historyIds s).Nodup → (historyIds (Nat.iterate rotateHistory n s)).Nodup) ∧
      (∀ t, t ∈ historyIds s → t ∈ historyIds (Nat.iterate rotateHistory n s)) ∧
      historyReady (Nat.iterate rotateHistory n s) = true := by
  induction n with
  | zero =>
    exact ⟨List.Perm.refl _, rfl, rfl, fun h => h, fun _ h => h, hready⟩
  | succ n ih =>
    obtain ⟨i1, i2, i3, -, -, i6⟩ := ih
    obtain ⟨s1, s2, s3, s4⟩ := rotateHistory_step (Nat.iterate rotateHistory n s) i6
    rw [Function.iterate_succ_apply']
    have hperm := s1.trans i1
    exact ⟨hperm, s2.trans i2, s3.trans i3, fun h => hperm.nodup_iff.mpr h,
      fun t h => hperm.mem_iff.mpr h, s4⟩

/-- C26, instance: the rendered sample pipeline, history depth 2, whose histories are
textures 8 and 7.  After one rotation they are textures 7 and 8, after two rotations 8
and 7 again. -/
theorem rotation_permutes_history_witness :
    historyReady renderedState = true ∧ historyIds renderedState = [some 8, some 7] ∧
      historyIds (rotateHistory renderedState) = [some 7, some 8] ∧
      (historyIds (Nat.iterate rotateHistory 2 renderedState)).Perm
        (historyIds renderedState) ∧
      mapKeys (Nat.iterate rotateHistory 2 renderedState).m_passResources =
        mapKeys renderedState.m_passResources :=
  ⟨by decide!, by decide!, by decide!,
    (rotation_permutes_history renderedState 2 (by decide!)).1,
    (rotation_permutes_history renderedState 2 (by decide!)).2.1⟩

/-! ### C27: the table of named resources through the steps of a frame -/

theorem tableOf_logCalls (cs : List Call) (s : State) :
    tableOf (logCalls cs s) = tableOf s := rfl

theorem tableOf_DestroyTargets (s : State) : tableOf (DestroyTargets s) = tableOf s := by
  unfold DestroyTargets
  split <;> rfl

theorem tableOf_ClearRenderTargetView (v : Option RenderTargetView) (s : State) :
    tableOf (ClearRenderTargetView v s) = tableOf s := by
  unfold ClearRenderTargetView
  split <;> rfl

theorem tableOf_captureGeometry (inp : FrameInput) (texture : CapturedTexture) (s : State) :
    tableOf (captureGeometry inp texture s).1 = tableOf s := by
  unfold captureGeometry
  dsimp only
  split
  · dsimp only
    split <;> rfl
  · split <;> rfl

theorem tableOf_acquireDisplay (clientRect : RECT) (s : State) :
    tableOf (acquireDisplay clientRect s) = tableOf s := rfl

theorem tableOf_TryResizeSwapChain (clientRect : RECT) (force : Bool) (s : State) :
    tableOf (TryResizeSwapChain clientRect force s).1 = tableOf s := by
  unfold TryResizeSwapChain
  split
  · dsimp only
    split
    · dsimp only
      rw [tableOf_acquireDisplay]
      exact tableOf_DestroyTargets s
    · exact tableOf_DestroyTargets s
  · rfl

theorem tableOf_consumeRescaleFlags (s : State) :
    tableOf (consumeRescaleFlags s).1 = tableOf s := by
  unfold consumeRescaleFlags
  dsimp only
  split
  · split
    · dsimp only
      rw [tableOf_DestroyTargets]; rfl
    · dsimp only
      rw [tableOf_ClearRenderTargetView]; rfl
  · rfl

theorem tableOf_createPreprocessed (texture : CapturedTexture) (ow oh : Nat)
    (flags : FrameFlags) (s : State) :
    tableOf (createPreprocessed texture ow oh flags s).1 = tableOf s := by
  unfold createPreprocessed
  dsimp only [CreateTexture2D, CreateShaderResourceView, CreateRenderTargetView]
  split <;> split <;> rfl

theorem tableOf_updateTransform (g : Geometry) (outputResized : Bool) (dw dh : Int)
    (s : State) : tableOf (updateTransform g outputResized dw dh s) = tableOf s := by
  unfold updateTransform
  split <;> rfl

theorem tableOf_renderPass (texture : CapturedTexture) (s : State) (p : Nat) :
    tableOf (renderPass texture s p) = tableOf s := by
  unfold renderPass
  dsimp only
  split
  · split <;> rfl
  · rfl

theorem tableOf_renderPreprocess (texture : CapturedTexture) (s : State) :
    tableOf (renderPreprocess texture s) = tableOf s := by
  unfold renderPreprocess
  dsimp only
  split <;> rfl

theorem tableOf_renderPasses (texture : CapturedTexture) (s : State) :
    tableOf (renderPasses texture s) = tableOf s := by
  unfold renderPasses
  dsimp only
  refine foldl_preserves (fun x => tableOf x = tableOf s) (renderPass texture) _
    (fun a b ha => by beta_reduce; rw [tableOf_renderPass]; exact ha) _ ?_
  beta_reduce
  rw [tableOf_renderPreprocess]
  split
  · rw [tableOf_logCalls, tableOf_ClearRenderTargetView]
  · rfl

theorem tableOf_copyPassFeedback (s : State) (q : Nat) :
    tableOf (copyPassFeedback s q) = tableOf s := by
  unfold copyPassFeedback
  split <;> rfl

theorem tableOf_copyDisplayFeedback (s : State) :
    tableOf (copyDisplayFeedback s) = tableOf s := by
  unfold copyDisplayFeedback
  split
  · rfl
  · dsimp only
    repeat' split
    all_goals rfl

theorem tableOf_copyFeedback (s : State) : tableOf (copyFeedback s) = tableOf s := by
  unfold copyFeedback
  split
  · rw [tableOf_copyDisplayFeedback]
    exact foldl_preserves (fun x => tableOf x = tableOf s) copyPassFeedback _
      (fun a b ha => by beta_reduce; rw [tableOf_copyPassFeedback]; exact ha) s rfl
  · rfl

theorem tableOf_finishFrame (ticks : Nat) (s : State) :
    tableOf (finishFrame ticks s) = tableOf s := by
  unfold finishFrame
  dsimp only
  split <;> rfl

theorem lookupsFound_iff (s : State) :
    lookupsFound s = true ↔
      (s.m_requiresFeedback = true →
        (∀ q, q < s.m_shaderPasses.length - 1 →
          (mapFind s.m_passResources (Name.passOutput q)).isSome = true ∧
          (mapFind s.m_passResources (Name.passFeedback q)).isSome = true) ∧
        (mapFind s.m_passResources
          (Name.passFeedback (s.m_shaderPasses.length - 1))).isSome = true) ∧
      (s.m_requiresHistory ≠ 0 →
        (mapFind s.m_passResources (Name.originalHistory s.m_requiresHistory)).isSome = true ∧
        (mapFind s.m_passResources Name.original).isSome = true) := by
  unfold lookupsFound
  cases s.m_requiresFeedback <;>
    simp [Bool.and_eq_true, List.all_eq_true, List.mem_range, or_iff_not_imp_left]

theorem lookupsFound_mono (a b : State)
    (hlen : b.m_shaderPasses.length = a.m_shaderPasses.length)
    (hfb : b.m_requiresFeedback = a.m_requiresFeedback)
    (hN : b.m_requiresHistory = a.m_requiresHistory)
    (hpres : ∀ k, (mapFind a.m_passResources k).isSome = true →
      (mapFind b.m_passResources k).isSome = true)
    (h : lookupsFound a = true) : lookupsFound b = true := by
  rw [lookupsFound_iff] at h ⊢
  rw [hlen, hfb, hN]
  obtain ⟨h1, h2⟩ := h
  refine ⟨fun hf => ?_, fun hn => ?_⟩
  · obtain ⟨f1, f2⟩ := h1 hf
    exact ⟨fun q hq => ⟨hpres _ (f1 q hq).1, hpres _ (f1 q hq).2⟩, hpres _ f2⟩
  · exact ⟨hpres _ (h2 hn).1, hpres _ (h2 hn).2⟩

theorem lookupsFound_congr (a b : State) (h : tableOf b = tableOf a)
    (ha : lookupsFound a = true) : lookupsFound b = true := by
  simp only [tableOf, Prod.mk.injEq] at h
  obtain ⟨h1, h2, h3, h4⟩ := h
  exact lookupsFound_mono a b h2 h3 h4 (fun k hk => by rw [h1]; exact hk) ha

theorem tableOf_resizePasses (texture : CapturedTexture) (ow oh vw vh : Nat) (s : State) :
    tableOf (resizePasses texture ow oh vw vh s) = tableOf s := by
  have h := resizePasses_length texture ow oh vw vh s
  unfold tableOf
  rw [h]
  rfl

theorem mapSubscript_present {κ ν : Type} [DecidableEq κ] (m : List (κ × Option ν)) (k k2 : κ)
    (h : (mapFind m k2).isSome = true) : (mapFind (mapSubscript m k).1 k2).isSome = true := by
  unfold mapSubscript
  split
  · exact h
  · obtain ⟨v, hv⟩ := Option.isSome_iff_exists.mp h
    show (mapFind (mapInsert m k none) k2).isSome = true
    rw [mapFind_mapInsert_keeps _ _ _ _ _ hv]
    rfl

theorem remapHistory_present (n : Nat) (m : List (Name × Option ShaderResourceView)) (k : Name)
    (h : (mapFind m k).isSome = true) : (mapFind (remapHistory m n) k).isSome = true := by
  induction n generalizing m with
  | zero => exact h
  | succ n ih =>
    unfold remapHistory
    split
    · apply ih
      unfold remapHistoryStep
      exact mapFind_mapAssign_isSome _ _ _ _ (mapSubscript_present _ _ _ h)
    · exact h

theorem rotateHistory_present (s : State) (k : Name)
    (h : (mapFind s.m_passResources k).isSome = true) :
    (mapFind (rotateHistory s).m_passResources k).isSome = true := by
  unfold rotateHistory
  split
  · split
    · dsimp only
      split
      · split
        · exact mapFind_mapAssign_isSome _ _ _ _ (remapHistory_present _ _ _ h)
        · exact remapHistory_present _ _ _ h
      · exact remapHistory_present _ _ _ h
    · exact h
  · exact h

theorem rotateHistory_flags (s : State) :
    (rotateHistory s).m_shaderPasses.length = s.m_shaderPasses.length ∧
      (rotateHistory s).m_requiresFeedback = s.m_requiresFeedback ∧
      (rotateHistory s).m_requiresHistory = s.m_requiresHistory := by
  unfold rotateHistory
  split
  · split
    · dsimp only
      split
      · split <;> exact ⟨rfl, rfl, rfl⟩
      · exact ⟨rfl, rfl, rfl⟩
    · exact ⟨rfl, rfl, rfl⟩
  · exact ⟨rfl, rfl, rfl⟩

theorem lookupsFound_rotateHistory (s : State) (h : lookupsFound s = true) :
    lookupsFound (rotateHistory s) = true := by
  obtain ⟨h1, h2, h3⟩ := rotateHistory_flags s
  exact lookupsFound_mono s _ h1 h2 h3 (rotateHistory_present s) h

theorem lookupsFound_tail (ticks : Nat) (texture : CapturedTexture) (s : State)
    (h : lookupsFound s = true) :
    lookupsFound (renderPasses texture s) = true ∧
      lookupsFound (copyFeedback (renderPasses texture s)) = true ∧
      lookupsFound (finishFrame ticks (rotateHistory (copyFeedback (renderPasses texture s)))) =
        true := by
  have h1 : lookupsFound (renderPasses texture s) = true :=
    lookupsFound_congr s _ (tableOf_renderPasses texture s) h
  have h2 : lookupsFound (copyFeedback (renderPasses texture s)) = true :=
    lookupsFound_congr _ _ (tableOf_copyFeedback _) h1
  exact ⟨h1, h2, lookupsFound_congr _ _ (tableOf_finishFrame ticks _)
    (lookupsFound_rotateHistory _ h2)⟩

theorem createPassTargets_keeps (texture : CapturedTexture) (s : State) (name : Name)
    (v : Option ShaderResourceView) (h : mapFind s.m_passResources name = some v) :
    mapFind (createPassTargets texture s).m_passResources name = some v := by
  unfold createPassTargets
  split
  · rename_i hgt
    obtain ⟨-, -, -, hres, hp, -, -⟩ := requirement_fold s.m_shaderPasses s
    dsimp only
    generalize s.m_shaderPasses.foldl requirementStep s = s1 at hres hp ⊢
    obtain ⟨-, hk, -, -⟩ := rebuildPass_loop_wiring texture s1 (s1.m_shaderPasses.length - 1)
      (by rw [hp]; omega)
    exact hk name v (by rw [hres]; exact h)
  · split
    · exact h
    · exact h

theorem createPassTargets_flag (texture : CapturedTexture) (s : State)
    (h0 : s.m_requiresFeedback = false)
    (h : (createPassTargets texture s).m_requiresFeedback = true) :
    2 ≤ s.m_shaderPasses.length := by
  by_contra hcon
  unfold createPassTargets at h
  rw [if_neg (by omega)] at h
  split at h
  · rw [show ∀ n x, (setRequiresHistory n x).m_requiresFeedback = x.m_requiresFeedback from
      fun _ _ => rfl, h0] at h
    cases h
  · rw [h0] at h
    cases h

theorem present_of_find {κ ν : Type} [DecidableEq κ] (m : List (κ × ν)) (k : κ) (v : ν)
    (h : mapFind m k = some v) : (mapFind m k).isSome = true := by
  rw [h]
  rfl

theorem seedResources_original (s : State) :
    (mapFind (seedResources s).m_passResources Name.original).isSome = true :=
  mapFind_mapInsert_present _ _ _

theorem rebuildPassStep_output_present (texture : CapturedTexture) (s : State) (p : Nat)
    (pass : ShaderPass) (hpass : s.m_shaderPasses[p - 1]? = some pass) :
    (mapFind (rebuildPassStep texture s p).m_passResources
      (Name.passOutput (p - 1))).isSome = true := by
  obtain ⟨r1, -, r3, -, -⟩ := rebuildPassStep_resources texture s p pass hpass
  cases hf : mapFind s.m_passResources (Name.passOutput (p - 1)) with
  | none => rw [r3 hf]; rfl
  | some v => rw [r1 _ _ hf]; rfl

theorem rebuildPass_loop_present (texture : CapturedTexture) (s : State) (k : Nat)
    (hk : k + 1 ≤ s.m_shaderPasses.length) (j : Nat) (hj : j < k) :
    (mapFind ((List.range k).foldl (fun st i => rebuildPassStep texture st (i + 1))
      s).m_passResources (Name.passOutput j)).isSome = true := by
  induction k with
  | zero => omega
  | succ k ih =>
    have hlen := (rebuildPass_loop texture s k (by omega)).1
    simp only [foldl_range_succ]
    generalize (List.range k).foldl (fun st i => rebuildPassStep texture st (i + 1)) s = st
      at ih hlen ⊢
    have hk1 : k < st.m_shaderPasses.length := by omega
    obtain ⟨cur, hcur⟩ : ∃ q, st.m_shaderPasses[k + 1 - 1]? = some q :=
      ⟨st.m_shaderPasses[k], by simp [List.getElem?_eq_getElem hk1]⟩
    by_cases hjk : j < k
    · obtain ⟨v, hv⟩ := Option.isSome_iff_exists.mp (ih (by omega) hjk)
      rw [(rebuildPassStep_resources texture st (k + 1) cur hcur).1 _ _ hv]
      rfl
    · have hje : j = k := by omega
      subst hje
      exact rebuildPassStep_output_present texture st (j + 1) cur hcur

theorem createPassTargets_output_present (texture : CapturedTexture) (s : State)
    (hn : 2 ≤ s.m_shaderPasses.length) (i : Nat) (hi : i + 1 < s.m_shaderPasses.length) :
    (mapFind (createPassTargets texture s).m_passResources (Name.passOutput i)).isSome =
      true := by
  unfold createPassTargets
  rw [if_pos (by omega)]
  obtain ⟨-, -, -, -, hp, -, -⟩ := requirement_fold s.m_shaderPasses s
  dsimp only
  generalize s.m_shaderPasses.foldl requirementStep s = s1 at hp ⊢
  exact rebuildPass_loop_present texture s1 (s1.m_shaderPasses.length - 1)
    (by rw [hp]; omega) i (by rw [hp]; omega)

theorem createHistory_loop_present (desc2 : TextureDesc) (s : State) (n k : Nat)
    (h1 : 1 ≤ k) (h2 : k ≤ n) :
    (mapFind ((List.range n).foldl (createHistory desc2) s).m_passResources
      (Name.originalHistory k)).isSome = true := by
  induction n with
  | zero => omega
  | succ n ih =>
    simp only [foldl_range_succ]
    generalize (List.range n).foldl (createHistory desc2) s = st at ih ⊢
    rw [(createHistory_spec desc2 st n).2.2.2.2.2.2]
    by_cases hk : k ≤ n
    · exact mapFind_mapInsert_isSome _ _ _ _ (ih hk)
    · have hkn : k = n + 1 := by omega
      subst hkn
      exact mapFind_mapInsert_present _ _ _

theorem createHistories_present (texture : CapturedTexture) (ow oh : Nat) (s : State)
    (k : Nat) (h1 : 1 ≤ k) (h2 : k ≤ s.m_requiresHistory) :
    (mapFind (createHistories texture ow oh s).m_passResources
      (Name.originalHistory k)).isSome = true := by
  unfold createHistories
  split
  · exact createHistory_loop_present _ s _ k h1 h2
  · rename_i hz
    have hz0 : s.m_requiresHistory = 0 := by simpa using hz
    omega

theorem rebuildGraph_present (texture : CapturedTexture) (ow oh : Nat) (s : State)
    (name : Name)
    (h : (mapFind (createHistories texture ow oh
      (createPassTargets texture (seedResources s))).m_passResources name).isSome = true) :
    (mapFind (rebuildGraph texture ow oh s).m_passResources name).isSome = true := by
  obtain ⟨v, hv⟩ := Option.isSome_iff_exists.mp h
  have hT : mapFind (targetDisplay (createHistories texture ow oh
      (createPassTargets texture (seedResources s)))).m_passResources name = some v := hv
  unfold rebuildGraph
  dsimp only
  split
  · exact present_of_find _ _ _ (createLastFeedback_keeps texture _ name v hT)
  · exact present_of_find _ _ _ hT

theorem lookupsFound_rebuildGraph (texture : CapturedTexture) (ow oh : Nat) (s : State) :
    lookupsFound (rebuildGraph texture ow oh s) = true := by
  obtain ⟨-, gN, gF, gP, -⟩ := rebuildGraph_fields texture ow oh s
  have hlenC := (createPassTargets_passes texture (seedResources s)).1
  have hseed : (seedResources s).m_shaderPasses = s.m_shaderPasses := rfl
  rw [hseed] at hlenC
  have hlen : (rebuildGraph texture ow oh s).m_shaderPasses.length = s.m_shaderPasses.length := by
    rw [gP, modifyAt_length, hlenC]
  rw [lookupsFound_iff, hlen, gF, gN]
  refine ⟨fun hf => ?_, fun hn => ?_⟩
  · have hn2 := createPassTargets_flag texture (seedResources s) rfl hf
    rw [hseed] at hn2
    refine ⟨fun q hq => ?_, ?_⟩
    · have hq2 : q < s.m_shaderPasses.length := by omega
      obtain ⟨pass, hpass⟩ : ∃ p, (seedResources s).m_shaderPasses[q]? = some p :=
        ⟨s.m_shaderPasses[q], by rw [hseed]; exact List.getElem?_eq_getElem hq2⟩
      obtain ⟨t, -, -, -, -, -, -, w7⟩ := createPassTargets_wiring texture (seedResources s)
        hn2 q pass (by rw [hseed]; omega) hpass
      obtain ⟨o, ho⟩ := Option.isSome_iff_exists.mp
        (createPassTargets_output_present texture (seedResources s) hn2 q
          (by rw [hseed]; omega))
      obtain ⟨v, hv⟩ := Option.isSome_iff_exists.mp (w7 hf)
      exact ⟨present_of_find _ _ _ (rebuildGraph_keeps texture ow oh s _ _ ho),
        present_of_find _ _ _ (rebuildGraph_keeps texture ow oh s _ _ hv)⟩
    · have hT : (targetDisplay (createHistories texture ow oh
          (createPassTargets texture (seedResources s)))).m_requiresFeedback = true := by
        rw [(targetDisplay_fields _).2.2.1, (createHistories_fields _ _ _ _).2.2.1]
        exact hf
      have hTlen : (targetDisplay (createHistories texture ow oh
          (createPassTargets texture (seedResources s)))).m_shaderPasses.length =
          s.m_shaderPasses.length := by
        rw [(targetDisplay_fields _).2.2.2.2.2, modifyAt_length,
          (createHistories_fields _ _ _ _).2.2.2.1, hlenC]
      unfold rebuildGraph
      dsimp only
      rw [if_pos hT]
      unfold createLastFeedback
      dsimp only
      rw [hTlen]
      have hlt : s.m_shaderPasses.length - 1 < (targetDisplay (createHistories texture ow oh
          (createPassTargets texture (seedResources s)))).m_shaderPasses.length := by
        rw [hTlen]; omega
      rw [List.getElem?_eq_getElem hlt]
      exact createFeedback_present _ _ _ _
  · obtain ⟨o, ho⟩ := Option.isSome_iff_exists.mp (seedResources_original s)
    have hO := createPassTargets_keeps texture (seedResources s) _ _ ho
    exact ⟨rebuildGraph_present texture ow oh s _
        (createHistories_present texture ow oh _ _ (by omega) (le_refl _)),
      present_of_find _ _ _ (rebuildGraph_keeps texture ow oh s _ _ hO)⟩

theorem tableOf_if (b : Bool) (x y s : State) (hx : tableOf x = tableOf s)
    (hy : tableOf y = tableOf s) : tableOf (if b = true then x else y) = tableOf s := by
  cases b
  · exact hy
  · exact hx

theorem stage_table (inp : FrameInput) (texture : CapturedTexture) (s : State)
    (htx : inp.texture = some texture) :
    (rebuildsPasses inp s = true ∧
      ∃ ow oh s2, (transformStage inp texture s).state = rebuildGraph texture ow oh s2) ∨
    (rebuildsPasses inp s = false ∧
      tableOf (transformStage inp texture s).state = tableOf s) := by
  cases hr : rebuildsPasses inp s
  · right
    refine ⟨rfl, ?_⟩
    unfold rebuildsPasses at hr
    rw [htx] at hr
    dsimp only at hr
    obtain ⟨e1, e2, -⟩ := createPreprocessed_noRebuild _ _ _ _ _ hr
    have hsp : (swapPreset (consumeRescaleFlags (setBox
        (castLong (letterbox (TryResizeSwapChain
          (captureGeometry inp texture (setFrameCounter (s.m_frameCounter + 1) s)).2.clientRect
          (captureGeometry inp texture
            (setFrameCounter (s.m_frameCounter + 1) s)).1.m_outputRescaled
          (captureGeometry inp texture (setFrameCounter (s.m_frameCounter + 1) s)).1).1
          (captureGeometry inp texture (setFrameCounter (s.m_frameCounter + 1) s)).2).boxX)
        (castLong (letterbox (TryResizeSwapChain
          (captureGeometry inp texture (setFrameCounter (s.m_frameCounter + 1) s)).2.clientRect
          (captureGeometry inp texture
            (setFrameCounter (s.m_frameCounter + 1) s)).1.m_outputRescaled
          (captureGeometry inp texture (setFrameCounter (s.m_frameCounter + 1) s)).1).1
          (captureGeometry inp texture (setFrameCounter (s.m_frameCounter + 1) s)).2).boxY)
        (TryResizeSwapChain
          (captureGeometry inp texture (setFrameCounter (s.m_frameCounter + 1) s)).2.clientRect
          (captureGeometry inp texture
            (setFrameCounter (s.m_frameCounter + 1) s)).1.m_outputRescaled
          (captureGeometry inp texture (setFrameCounter (s.m_frameCounter + 1) s)).1).1)).1).2 =
        false := by
      cases hb : (swapPreset _).2
      · rfl
      · rw [hb] at e2
        cases e2
    have hsp1 := swapPreset_false _ hsp
    have hbase : tableOf (swapPreset (consumeRescaleFlags (setBox
        (castLong (letterbox (TryResizeSwapChain
          (captureGeometry inp texture (setFrameCounter (s.m_frameCounter + 1) s)).2.clientRect
          (captureGeometry inp texture
            (setFrameCounter (s.m_frameCounter + 1) s)).1.m_outputRescaled
          (captureGeometry inp texture (setFrameCounter (s.m_frameCounter + 1) s)).1).1
          (captureGeometry inp texture (setFrameCounter (s.m_frameCounter + 1) s)).2).boxX)
        (castLong (letterbox (TryResizeSwapChain
          (captureGeometry inp texture (setFrameCounter (s.m_frameCounter + 1) s)).2.clientRect
          (captureGeometry inp texture
            (setFrameCounter (s.m_frameCounter + 1) s)).1.m_outputRescaled
          (captureGeometry inp texture (setFrameCounter (s.m_frameCounter + 1) s)).1).1
          (captureGeometry inp texture (setFrameCounter (s.m_frameCounter + 1) s)).2).boxY)
        (TryResizeSwapChain
          (captureGeometry inp texture (setFrameCounter (s.m_frameCounter + 1) s)).2.clientRect
          (captureGeometry inp texture
            (setFrameCounter (s.m_frameCounter + 1) s)).1.m_outputRescaled
          (captureGeometry inp texture (setFrameCounter (s.m_frameCounter + 1) s)).1).1)).1).1 =
        tableOf s := by
      rw [hsp1, tableOf_consumeRescaleFlags]
      have e : ∀ bx by_ (x : State), tableOf (setBox bx by_ x) = tableOf x := fun _ _ _ => rfl
      rw [e, tableOf_TryResizeSwapChain, tableOf_captureGeometry]
      rfl
    unfold transformStage
    dsimp only
    rw [hr, e1]
    dsimp only
    rw [if_neg (by decide)]
    apply tableOf_if
    · rw [tableOf_resizePasses]
      exact hbase
    · exact hbase
  · left
    refine ⟨rfl, ?_⟩
    unfold rebuildsPasses at hr
    rw [htx] at hr
    dsimp only at hr
    unfold transformStage
    dsimp only
    rw [hr, if_pos rfl]
    exact ⟨_, _, _, rfl⟩

theorem tableOf_dropped (inp : FrameInput) (s : State)
    (hc : (ProcessTraced inp s).2 ≠ Outcome.completed) :
    tableOf (Process inp s) = tableOf s := by
  unfold Process
  unfold ProcessTraced at hc ⊢
  dsimp only at hc ⊢
  split
  · rfl
  · rename_i h0
    rw [if_neg h0] at hc
    split
    · rfl
    · rename_i texture htx
      rw [htx] at hc
      dsimp only at hc
      split
      · rfl
      · rename_i hlock
        rw [if_neg hlock] at hc
        unfold processLocked at hc ⊢
        dsimp only at hc ⊢
        split
        · have e : ∀ x : State, tableOf (PresentFrame x) = tableOf x := fun _ => rfl
          rw [e, tableOf_TryResizeSwapChain, tableOf_captureGeometry]
          rfl
        · rename_i h1
          rw [if_neg h1] at hc
          split
          · have e : ∀ bx by_ (x : State), tableOf (setBox bx by_ x) = tableOf x :=
              fun _ _ _ => rfl
            rw [e, tableOf_TryResizeSwapChain, tableOf_captureGeometry]
            rfl
          · rename_i h2
            rw [if_neg h2] at hc
            exact absurd rfl hc

/-- C27. A call of `Process` that completes its frame, on a pipeline that either rebuilds
its topology in this call or already has every key the lookups need (as the constructor
and every earlier call leave it).  When the frame reaches the feedback copy-back of source
line 865 and when it reaches the history rotation of line 924, every key these steps look
up with `find` is present: with the feedback flag set, `PassOutput<q>` and
`PassFeedback<q>` for every `q` below the index of the last pass and `PassFeedback` of
the last pass; with a positive history depth `N`, `OriginalHistory<N>` and `Original`.
The same holds of the state the call returns, so it holds in every later call, whether
that call completes its frame or drops it. -/
theorem lookups_find_their_keys (inp : FrameInput) (s : State)
    (hinv : rebuildsPasses inp s = true ∨ lookupsFound s = true) :
    ((ProcessTraced inp s).2 = Outcome.completed →
      ∃ texture atCopyBack, inp.texture = some texture ∧
        Process inp s = finishFrame inp.ticks (rotateHistory (copyFeedback atCopyBack)) ∧
        lookupsFound atCopyBack = true ∧ lookupsFound (copyFeedback atCopyBack) = true ∧
        lookupsFound (Process inp s) = true) ∧
      (lookupsFound s = true → lookupsFound (Process inp s) = true) := by
  have main : (ProcessTraced inp s).2 = Outcome.completed →
      (rebuildsPasses inp s = true ∨ lookupsFound s = true) →
      ∃ texture atCopyBack, inp.texture = some texture ∧
        Process inp s = finishFrame inp.ticks (rotateHistory (copyFeedback atCopyBack)) ∧
        lookupsFound atCopyBack = true ∧ lookupsFound (copyFeedback atCopyBack) = true ∧
        lookupsFound (Process inp s) = true := by
    intro hc hi
    obtain ⟨texture, htx, hp⟩ := completed_from_stage inp s hc
    have hstage : lookupsFound (transformStage inp texture s).state = true := by
      rcases stage_table inp texture s htx with ⟨-, ow, oh, s2, e⟩ | ⟨hr, e⟩
      · rw [e]
        exact lookupsFound_rebuildGraph texture ow oh s2
      · rcases hi with h | h
        · rw [hr] at h
          cases h
        · exact lookupsFound_congr s _ e h
    have hupd : lookupsFound (updateTransform (transformStage inp texture s).g
        (transformStage inp texture s).outputResized (transformStage inp texture s).destWidth
        (transformStage inp texture s).destHeight (transformStage inp texture s).state) =
        true := lookupsFound_congr _ _ (tableOf_updateTransform _ _ _ _ _) hstage
    obtain ⟨t1, t2, t3⟩ := lookupsFound_tail inp.ticks texture _ hupd
    exact ⟨texture, _, htx, hp, t1, t2, by rw [hp]; exact t3⟩
  refine ⟨fun hc => main hc hinv, fun h => ?_⟩
  by_cases hc : (ProcessTraced inp s).2 = Outcome.completed
  · obtain ⟨_, _, _, _, _, _, h5⟩ := main hc (Or.inr h)
    exact h5
  · exact lookupsFound_congr s _ (tableOf_dropped inp s hc) h

/-- C27, instance: the first frame of the sample pipeline rebuilds the topology of its
three passes, of which one asks for feedback and for two frames of history, and the
second frame does not.  Both complete, and the keys are present in the state each of
them returns. -/
theorem lookups_find_their_keys_witness :
    (ProcessTraced (sampleInput 1 800 600) sampleState).2 = Outcome.completed ∧
      rebuildsPasses (sampleInput 1 800 600) sampleState = true ∧
      renderedState.m_requiresFeedback = true ∧ renderedState.m_requiresHistory = 2 ∧
      lookupsFound renderedState = true ∧
      (ProcessTraced (sampleInput 2 800 600) renderedState).2 = Outcome.completed ∧
      rebuildsPasses (sampleInput 2 800 600) renderedState = false ∧
      lookupsFound (Process (sampleInput 2 800 600) renderedState) = true :=
  ⟨by decide!, by decide!, by decide!, by decide!,
    (lookups_find_their_keys (sampleInput 1 800 600) sampleState
      (Or.inl (by decide!))).2 (by decide!),
    by decide!, by decide!,
    (lookups_find_their_keys (sampleInput 2 800 600) renderedState
      (Or.inr (by decide!))).2 (by decide!)⟩

/-- What `UpdateShaderPreset` does on a manager with a pipeline and an empty queue whose
last preset differs from the selected one: the selected preset is handed over without
values, and only `m_lastPreset` and the pipeline change. -/
theorem UpdateShaderPreset_other (m : CaptureManager) (sg : State) (d : PresetDef)
    (hg : m.m_shaderGlass = some sg)
    (hd : m.m_presetList[m.m_options.presetNo]? = some d)
    (hq : m.m_queuedParams = [])
    (hne : m.m_lastPreset ≠ m.m_options.presetNo) :
    m.UpdateShaderPreset = some { m with
      m_shaderGlass := some (SetShaderPreset (Preset.ofDef d) [] sg),
      m_queuedParams := [],
      m_lastPreset := m.m_options.presetNo } := by
  unfold CaptureManager.UpdateShaderPreset
  rw [hg]
  dsimp only
  have hguard : (m.m_lastPreset == m.m_options.presetNo && m.m_queuedParams.length == 0 &&
      m.m_lastParams.length != 0) = false := by
    have : (m.m_lastPreset == m.m_options.presetNo) = false := by simpa using hne
    rw [this]
    rfl
  rw [hguard]
  simp only [Bool.false_eq_true, if_false]
  rw [hd, hq]

/-- What `UpdateShaderPreset` does on a manager with a pipeline, an empty queue and a
snapshot, whose last preset is the selected one: the snapshot is handed over with the
preset and cleared. -/
theorem UpdateShaderPreset_same (m : CaptureManager) (sg : State) (d : PresetDef)
    (hg : m.m_shaderGlass = some sg)
    (hd : m.m_presetList[m.m_options.presetNo]? = some d)
    (hq : m.m_queuedParams = [])
    (he : m.m_lastPreset = m.m_options.presetNo)
    (hl : m.m_lastParams ≠ []) :
    m.UpdateShaderPreset = some { m with
      m_shaderGlass := some (SetShaderPreset (Preset.ofDef d) m.m_lastParams sg),
      m_queuedParams := [],
      m_lastParams := [],
      m_lastPreset := m.m_options.presetNo } := by
  unfold CaptureManager.UpdateShaderPreset
  rw [hg]
  dsimp only
  have hguard : (m.m_lastPreset == m.m_options.presetNo && m.m_queuedParams.length == 0 &&
      m.m_lastParams.length != 0) = true := by
    rw [he, hq]
    have : m.m_lastParams.length ≠ 0 := fun h => hl (List.length_eq_zero.mp h)
    simpa using this
  rw [hguard]
  simp only [if_true]
  unfold CaptureManager.SetParams CaptureManager.ForgetLastPreset
  dsimp only
  rw [hd]

/-- C25. A manager with a pipeline and an empty queue holds a snapshot `m_lastParams`
taken under its last preset, and a different preset is selected.  The first
`UpdateShaderPreset` hands the selected preset over without values, keeps the snapshot
and makes the selected preset the last one; a second `UpdateShaderPreset` on the same
selection then hands the snapshot of the other preset to the selected preset and clears
it. -/
theorem snapshot_outlives_its_preset (m : CaptureManager) (sg : State) (d : PresetDef)
    (hg : m.m_shaderGlass = some sg)
    (hd : m.m_presetList[m.m_options.presetNo]? = some d)
    (hq : m.m_queuedParams = [])
    (hne : m.m_lastPreset ≠ m.m_options.presetNo)
    (hl : m.m_lastParams ≠ []) :
    ∃ m1 m2, m.UpdateShaderPreset = some m1 ∧
      m1.handed = some (some (Preset.ofDef d), []) ∧
      m1.m_lastParams = m.m_lastParams ∧ m1.m_lastPreset = m.m_options.presetNo ∧
      m1.UpdateShaderPreset = some m2 ∧
      m2.handed = some (some (Preset.ofDef d), m.m_lastParams) ∧
      m2.m_lastParams = [] ∧ m2.m_lastPreset = m.m_options.presetNo := by
  refine ⟨_, _, UpdateShaderPreset_other m sg d hg hd hq hne, rfl, rfl, rfl,
    UpdateShaderPreset_same _ (SetShaderPreset (Preset.ofDef d) [] sg) d rfl hd rfl rfl hl,
    rfl, rfl, rfl⟩

/-- C25, instance: the session of `pairedManager` runs preset 0 with `gamma` at 2.2 in
pass 0 and at 2.4 in pass 1.  The quick toggle snapshots these values and selects the
pass-through preset 2; selecting preset 2 once more hands it the snapshot of preset 0.
The same happens across a restart: stop the session, select preset 1, start, select
preset 1 again; preset 1 is handed the four values of preset 0, and when the pipeline
swaps it in its `gamma` is 2.2 and not its default 1. -/
theorem snapshot_outlives_its_preset_witness :
    pairedManager.m_lastPreset = 0 ∧
      pairedManager.StopSession.m_lastParams =
        [(0, "gamma", 11 / 5), (0, "bright", 3), (1, "gamma", 12 / 5), (1, "bright", 3)] ∧
      (∃ m1 m2, (pairedManager.RememberLastPreset.setPresetNo 2).UpdateShaderPreset = some m1 ∧
        m1.handed = some (some (Preset.ofDef samplePassthrough), []) ∧
        m1.m_lastParams = pairedManager.RememberLastPreset.m_lastParams ∧
        m1.m_lastPreset = 2 ∧
        m1.UpdateShaderPreset = some m2 ∧
        m2.handed = some (some (Preset.ofDef samplePassthrough),
          pairedManager.RememberLastPreset.m_lastParams) ∧
        m2.m_lastParams = [] ∧ m2.m_lastPreset = 2) ∧
      reselected.bind CaptureManager.handed =
        some (some softPreset,
          [(0, "gamma", 11 / 5), (0, "bright", 3), (1, "gamma", 12 / 5), (1, "bright", 3)]) ∧
      (reselected.bind (fun m => m.m_shaderGlass)).map (fun sg =>
          currentParams (swapPreset sg).1) = some [(0, "gamma", 11 / 5), (0, "bright", 3)] ∧
      currentParams (swapPreset (SetShaderPreset softPreset [] sampleState)).1 =
        [(0, "gamma", 1), (0, "bright", 3)] :=
  ⟨by decide!, by decide!,
    snapshot_outlives_its_preset (pairedManager.RememberLastPreset.setPresetNo 2)
      (swapPreset queuedState).1 samplePassthrough (by decide!) (by decide!) (by decide!)
      (by decide!) (by decide!),
    by decide!, by decide!, by decide!⟩

/-- A decimal digit character is a digit with the value it stands for, and neither a
minus sign, a plus sign nor whitespace. -/
theorem digitChar_facts (d : Nat) (hd : d < 10) :
    (Nat.digitChar d).isDigit = true ∧ ((Nat.digitChar d).toNat : Int) - 48 = d ∧
      Nat.digitChar d ≠ '-' ∧ Nat.digitChar d ≠ '+' ∧ isspace (Nat.digitChar d) = false := by
  interval_cases d <;> decide

theorem toDigitsCore_numeral : ∀ (fuel n : Nat) (acc : List Char), n < fuel →
    ∃ ds, Nat.toDigitsCore 10 fuel n acc = ds ++ acc ∧ numeral ds n := by
  intro fuel
  induction fuel with
  | zero => intro n acc h; omega
  | succ fuel ih =>
    intro n acc h
    have hd := digitChar_facts (n % 10) (Nat.mod_lt _ (by decide))
    unfold Nat.toDigitsCore
    dsimp only
    split
    · rename_i h0
      refine ⟨[Nat.digitChar (n % 10)], rfl, by simp, ?_, ?_⟩
      · intro c hc
        rw [List.mem_singleton] at hc
        rw [hc]
        exact ⟨hd.1, hd.2.2.1, hd.2.2.2.1, hd.2.2.2.2⟩
      · simp only [List.foldl_cons, List.foldl_nil]
        rw [hd.2.1]
        have : n % 10 = n := by omega
        rw [this]
        simp
    · rename_i h0
      have hlt : n / 10 < fuel := by omega
      obtain ⟨ds, e, h1, h2, h3⟩ := ih (n / 10) (Nat.digitChar (n % 10) :: acc) hlt
      refine ⟨ds ++ [Nat.digitChar (n % 10)], by rw [e]; simp, by simp, ?_, ?_⟩
      · intro c hc
        rw [List.mem_append, List.mem_singleton] at hc
        rcases hc with hc | hc
        · exact h2 c hc
        · rw [hc]
          exact ⟨hd.1, hd.2.2.1, hd.2.2.2.1, hd.2.2.2.2⟩
      · rw [List.foldl_append, h3]
        simp only [List.foldl_cons, List.foldl_nil]
        rw [hd.2.1]
        have := Nat.div_add_mod n 10
        push_cast
        omega

theorem toDigits_numeral (n : Nat) : numeral (Nat.toDigits 10 n) n := by
  obtain ⟨ds, e, h⟩ := toDigitsCore_numeral (n + 1) n [] (Nat.lt_succ_self n)
  unfold Nat.toDigits
  rw [e, List.append_nil]
  exact h

theorem takeWhile_append_stop (p : Char → Bool) (a : Char) (r : List Char) (ha : p a = false) :
    ∀ l : List Char, (∀ c ∈ l, p c = true) → (l ++ a :: r).takeWhile p = l := by
  intro l
  induction l with
  | nil => intro _; simp [List.takeWhile, ha]
  | cons x l ih =>
    intro h
    have hx := h x (List.mem_cons_self _ _)
    rw [List.cons_append, List.takeWhile_cons, hx,
      ih (fun c hc => h c (List.mem_cons_of_mem _ hc))]
    rfl

theorem takeWhile_all (p : Char → Bool) :
    ∀ l : List Char, (∀ c ∈ l, p c = true) → l.takeWhile p = l := by
  intro l
  induction l with
  | nil => intro _; rfl
  | cons x l ih =>
    intro h
    have hx := h x (List.mem_cons_self _ _)
    rw [List.takeWhile_cons, hx, ih (fun c hc => h c (List.mem_cons_of_mem _ hc))]
    rfl

theorem indexOf_append_stop (a : Char) (r : List Char) :
    ∀ l : List Char, (∀ c ∈ l, c ≠ a) → (l ++ a :: r).indexOf a = l.length := by
  intro l
  induction l with
  | nil => intro _; simp
  | cons x l ih =>
    intro h
    have hx := h x (List.mem_cons_self _ _)
    rw [List.cons_append, List.indexOf_cons_ne _ hx,
      ih (fun c hc => h c (List.mem_cons_of_mem _ hc))]
    rfl

/-- The function `std::stoi` reads a decimal numeral within the range of `int` back. -/
theorem stoi_numeral (ds : List Char) (n : Nat) (h : numeral ds n) (hn : n < 2 ^ 31) :
    stoi ds = some (n : Int) := by
  obtain ⟨h1, h2, h3⟩ := h
  obtain ⟨x, l, rfl⟩ := List.exists_cons_of_ne_nil h1
  have hx := h2 x (List.mem_cons_self _ _)
  have hdrop : (x :: l).dropWhile isspace = x :: l := by
    simp [List.dropWhile, hx.2.2.2]
  have htake : (x :: l).takeWhile Char.isDigit = x :: l :=
    takeWhile_all _ _ (fun c hc => (h2 c hc).1)
  unfold stoi
  dsimp only
  rw [hdrop]
  have e1 : ((x :: l).head? == some '-') = false := by
    simp only [List.head?_cons]
    simpa using hx.2.1
  have e2 : ((x :: l).head? == some '+') = false := by
    simp only [List.head?_cons]
    simpa using hx.2.2.1
  rw [e1, e2]
  simp only [Bool.or_false, Bool.false_eq_true, if_false]
  rw [htake, h3]
  simp only [List.isEmpty_cons, Bool.false_eq_true, if_false]
  have : ¬ (((n : Int) < -(2 ^ 31) || (n : Int) > 2 ^ 31 - 1) = true) := by
    simp only [Bool.or_eq_true, decide_eq_true_eq, not_or, not_lt]
    constructor
    · have : (0 : Int) ≤ n := Int.ofNat_nonneg n
      omega
    · have : (n : Int) < 2 ^ 31 := by exact_mod_cast hn
      omega
  rw [if_neg this]

/-- The branch for `Param-` keys on a key `Param-<digits>-<name>`. -/
theorem parseParamKey_shape (ds name : List Char) (n : Nat) (h : numeral ds n)
    (hn : n < 2 ^ 31) (hname : name ≠ []) :
    parseParamKey ("Param-".data ++ ds ++ "-".data ++ name) = some ((n : Int), name) := by
  have hst := stoi_numeral ds n h hn
  obtain ⟨h1, h2, -⟩ := h
  have hlen : 1 ≤ ds.length := List.length_pos.mpr h1
  have hlen2 : 1 ≤ name.length := List.length_pos.mpr hname
  have hkey : "Param-".data ++ ds ++ "-".data ++ name =
      'P' :: 'a' :: 'r' :: 'a' :: 'm' :: '-' :: (ds ++ '-' :: name) := by
    show ['P', 'a', 'r', 'a', 'm', '-'] ++ ds ++ ['-'] ++ name = _
    simp
  rw [hkey]
  have hidx := indexOf_append_stop '-' name ds (fun c hc => (h2 c hc).2.1)
  have hL : ('P' :: 'a' :: 'r' :: 'a' :: 'm' :: '-' :: (ds ++ '-' :: name)).length =
      6 + ds.length + 1 + name.length := by
    simp only [List.length_cons, List.length_append]
    omega
  have hsub : substr ('P' :: 'a' :: 'r' :: 'a' :: 'm' :: '-' :: (ds ++ '-' :: name)) 0
      (some 6) = some "Param-".data := by
    unfold substr
    simp
  have hfind : find ('P' :: 'a' :: 'r' :: 'a' :: 'm' :: '-' :: (ds ++ '-' :: name)) '-' 6 =
      some (6 + ds.length) := by
    unfold find
    simp only [List.drop_succ_cons, List.drop_zero]
    rw [hidx]
    simp
  have hsub2 : substr ('P' :: 'a' :: 'r' :: 'a' :: 'm' :: '-' :: (ds ++ '-' :: name)) 6
      (some (6 + ds.length - 6)) = some ds := by
    unfold substr
    simp
  have hsub3 : substr ('P' :: 'a' :: 'r' :: 'a' :: 'm' :: '-' :: (ds ++ '-' :: name))
      (6 + ds.length + 1) none = some name := by
    unfold substr
    have : ¬ (6 + ds.length + 1 >
        ('P' :: 'a' :: 'r' :: 'a' :: 'm' :: '-' :: (ds ++ '-' :: name)).length) := by
      rw [hL]
      omega
    rw [if_neg this]
    have e : 6 + ds.length + 1 = (ds.length + 1) + 6 := by omega
    rw [e]
    simp only [List.drop_succ_cons, List.drop_zero]
    have e2 : ds ++ '-' :: name = (ds ++ ['-']) ++ name := by simp
    rw [e2]
    have e3 : ds.length + 1 = (ds ++ ['-']).length := by simp
    rw [e3, List.drop_left]
  unfold parseParamKey
  dsimp only
  rw [hsub, hfind, hL]
  have hguard : ((some "Param-".data == some "Param-".data) &&
      decide (6 + ds.length + 1 + name.length ≥ 9)) = true := by
    have : 6 + ds.length + 1 + name.length ≥ 9 := by omega
    simp [this]
  rw [if_pos hguard]
  dsimp only
  have hcond : ((6 + ds.length == 6 + ds.length + 1 + name.length - 1) ||
      (6 + ds.length == 6)) = false := by
    have a1 : 6 + ds.length ≠ 6 + ds.length + 1 + name.length - 1 := by omega
    have a2 : 6 + ds.length ≠ 6 := by omega
    simp [a1, a2, hname, h1]
  rw [hcond]
  simp only [Bool.false_eq_true, if_false]
  rw [hsub2, hsub3]
  show (match stoi ds with
    | none => none
    | some passNo => some (passNo, name)) = some ((n : Int), name)
  rw [hst]

/-- The branch for `Param-` keys skips a key with nothing between `Param-` and the next
minus sign. -/
theorem parseParamKey_no_index (rest : List Char) :
    parseParamKey ("Param-".data ++ "-".data ++ rest) = none := by
  have hkey : "Param-".data ++ "-".data ++ rest =
      'P' :: 'a' :: 'r' :: 'a' :: 'm' :: '-' :: '-' :: rest := rfl
  rw [hkey]
  have hfind : find ('P' :: 'a' :: 'r' :: 'a' :: 'm' :: '-' :: '-' :: rest) '-' 6 =
      some 6 := by
    unfold find
    simp
  unfold parseParamKey
  split
  · dsimp only
    rw [hfind]
    dsimp only
    have : ((6 == ('P' :: 'a' :: 'r' :: 'a' :: 'm' :: '-' :: '-' :: rest).length - 1) ||
        (6 == 6)) = true := by simp
    rw [if_pos this]
  · rfl

/-- The branch for `Param-` keys skips a key with nothing after the minus sign that ends
the index. -/
theorem parseParamKey_no_name (index : List Char) (h : ∀ c ∈ index, c ≠ '-') :
    parseParamKey ("Param-".data ++ index ++ "-".data) = none := by
  have hkey : "Param-".data ++ index ++ "-".data =
      'P' :: 'a' :: 'r' :: 'a' :: 'm' :: '-' :: (index ++ '-' :: []) := by
    show ['P', 'a', 'r', 'a', 'm', '-'] ++ index ++ ['-'] = _
    simp
  rw [hkey]
  have hidx := indexOf_append_stop '-' [] index h
  have hL : ('P' :: 'a' :: 'r' :: 'a' :: 'm' :: '-' :: (index ++ '-' :: [])).length =
      6 + index.length + 1 := by
    simp only [List.length_cons, List.length_append, List.length_nil]
    omega
  have hfind : find ('P' :: 'a' :: 'r' :: 'a' :: 'm' :: '-' :: (index ++ '-' :: [])) '-' 6 =
      some (6 + index.length) := by
    unfold find
    simp only [List.drop_succ_cons, List.drop_zero]
    rw [hidx]
    simp
  unfold parseParamKey
  split
  · dsimp only
    rw [hfind]
    dsimp only
    rw [hL]
    have : ((6 + index.length == 6 + index.length + 1 - 1) || (6 + index.length == 6)) =
        true := by simp
    rw [if_pos this]
  · rfl

/-- The extraction of the key from a line that starts with a key free of whitespace and
a space. -/
theorem readToken_key (key rest : List Char) (hk : key ≠ [])
    (hw : ∀ c ∈ key, isspace c = false) :
    (readToken (key ++ " ".data ++ rest)).1 = key := by
  obtain ⟨x, l, rfl⟩ := List.exists_cons_of_ne_nil hk
  have hx := hw x (List.mem_cons_self _ _)
  unfold readToken
  dsimp only
  have e : x :: l ++ " ".data ++ rest = x :: (l ++ ' ' :: rest) := by
    show x :: l ++ [' '] ++ rest = _
    simp
  rw [e]
  have hdrop : (x :: (l ++ ' ' :: rest)).dropWhile isspace = x :: (l ++ ' ' :: rest) := by
    simp [List.dropWhile, hx]
  rw [hdrop]
  have := takeWhile_append_stop (fun c => !isspace c) ' ' rest (by decide) (x :: l)
    (fun c hc => by simp [hw c hc])
  simpa using this

/-- The key written for a pass index that is not negative is free of whitespace when the
name is. -/
theorem paramKey_no_space (n : Nat) (name : List Char)
    (hw : ∀ c ∈ name, isspace c = false) :
    ∀ c ∈ paramKey (n : Int) name, isspace c = false := by
  obtain ⟨-, h2, -⟩ := toDigits_numeral n
  intro c hc
  unfold paramKey formatInt at hc
  have hneg : ¬ ((n : Int) < 0) := not_lt.mpr (Int.ofNat_nonneg n)
  rw [if_neg hneg, Int.natAbs_ofNat] at hc
  simp only [List.mem_append] at hc
  rcases hc with ((hc | hc) | hc) | hc
  · revert c
    decide
  · exact (h2 c hc).2.2.2
  · revert c
    decide
  · exact hw c hc

/-- C30. For a pass index `s` of type `int` that is not negative and a name that is not
empty and has no whitespace: the line `SaveProfile` writes for the parameter starts with
the key `Param-<s>-<name>`, the extraction `infile >> key` of `LoadProfile` reads this
key back, and the branch for `Param-` keys takes it apart into exactly `s` and `name`
and, when the value converts, appends them with the value to `params`.  The name may
contain minus signs.  A key with nothing between `Param-` and the next minus sign, and a
key with nothing after the minus sign that ends the index, is skipped: nothing is
appended. -/
theorem param_key_round_trip (s : Int) (name valueText rest : List Char)
    (hs0 : 0 ≤ s) (hs1 : s < 2 ^ 31) (hname : name ≠ [])
    (hw : ∀ c ∈ name, isspace c = false) :
    (readToken (saveParam s name valueText ++ rest)).1 = paramKey s name ∧
      parseParamKey (paramKey s name) = some (s, name) ∧
      (∀ (stod : List Char → Option ℚ) (value : List Char) (v : ℚ)
          (params : List (Int × String × ℚ)), stod value = some v →
        handleParam stod (paramKey s name) value params =
          params ++ [(s, String.mk name, v)]) ∧
      (∀ tail : List Char, parseParamKey ("Param-".data ++ "-".data ++ tail) = none) ∧
      (∀ index : List Char, (∀ c ∈ index, c ≠ '-') →
        parseParamKey ("Param-".data ++ index ++ "-".data) = none) ∧
      (∀ (stod : List Char → Option ℚ) (key value : List Char)
          (params : List (Int × String × ℚ)), parseParamKey key = none →
        handleParam stod key value params = params) := by
  obtain ⟨n, rfl⟩ := Int.eq_ofNat_of_zero_le hs0
  have hn : n < 2 ^ 31 := by exact_mod_cast hs1
  have hkey : paramKey (n : Int) name = "Param-".data ++ Nat.toDigits 10 n ++ "-".data ++ name := by
    unfold paramKey formatInt
    have hneg : ¬ ((n : Int) < 0) := not_lt.mpr (Int.ofNat_nonneg n)
    rw [if_neg hneg, Int.natAbs_ofNat]
  have hparse : parseParamKey (paramKey (n : Int) name) = some ((n : Int), name) := by
    rw [hkey]
    exact parseParamKey_shape _ name n (toDigits_numeral n) hn hname
  refine ⟨?_, hparse, ?_, parseParamKey_no_index, parseParamKey_no_name, ?_⟩
  · have hne : paramKey (n : Int) name ≠ [] := by
      rw [hkey]
      simp [hname]
    have e : saveParam (n : Int) name valueText ++ rest =
        paramKey (n : Int) name ++ " ".data ++ (quoted valueText ++ [Char.ofNat 10] ++ rest) := by
      unfold saveParam
      simp only [List.append_assoc]
    rw [e]
    exact readToken_key _ _ hne (paramKey_no_space n name hw)
  · intro stod value v params hv
    unfold handleParam
    rw [hparse]
    dsimp only
    rw [hv]
  · intro stod key value params hk
    unfold handleParam
    rw [hk]

/-- C30, instance: the parameter `scan-lines` of pass 3 with the value text `2.400000`.
The key written is `Param-3-scan-lines`, and it is read back as pass 3 and name
`scan-lines`; the keys `Param--scan` and `Param-12-` are skipped. -/
theorem param_key_round_trip_witness :
    paramKey 3 "scan-lines".data = "Param-3-scan-lines".data ∧
      parseParamKey "Param--scan".data = none ∧ parseParamKey "Param-12-".data = none ∧
      ((readToken (saveParam 3 "scan-lines".data "2.400000".data ++ [])).1 =
          paramKey 3 "scan-lines".data ∧
        parseParamKey (paramKey 3 "scan-lines".data) = some (3, "scan-lines".data) ∧
        (∀ (stod : List Char → Option ℚ) (value : List Char) (v : ℚ)
            (params : List (Int × String × ℚ)), stod value = some v →
          handleParam stod (paramKey 3 "scan-lines".data) value params =
            params ++ [(3, String.mk "scan-lines".data, v)]) ∧
        (∀ tail : List Char, parseParamKey ("Param-".data ++ "-".data ++ tail) = none) ∧
        (∀ index : List Char, (∀ c ∈ index, c ≠ '-') →
          parseParamKey ("Param-".data ++ index ++ "-".data) = none) ∧
        (∀ (stod : List Char → Option ℚ) (key value : List Char)
            (params : List (Int × String × ℚ)), parseParamKey key = none →
          handleParam stod key value params = params)) :=
  ⟨by decide, by decide, by decide,
    param_key_round_trip 3 "scan-lines".data "2.400000".data [] (by decide) (by decide)
      (by decide) (by decide)⟩

/-- `UpdateShaderPreset` reads neither the session nor the activity flag. -/
theorem UpdateShaderPreset_session (m : CaptureManager) (session : Option CaptureSession)
    (active : Bool) :
    ((m.setSession session).setActive active).UpdateShaderPreset =
      m.UpdateShaderPreset.map (fun r => (r.setSession session).setActive active) := by
  unfold CaptureManager.UpdateShaderPreset
  cases hg : m.m_shaderGlass with
  | none => rfl
  | some sg =>
    dsimp only
    by_cases hc : (m.m_lastPreset == m.m_options.presetNo && m.m_queuedParams.length == 0 &&
        m.m_lastParams.length != 0) = true
    · rw [if_pos hc, if_pos hc]
      unfold CaptureManager.SetParams CaptureManager.ForgetLastPreset
      dsimp only
      cases m.m_presetList[m.m_options.presetNo]? <;> rfl
    · rw [if_neg hc, if_neg hc]
      dsimp only
      cases m.m_presetList[m.m_options.presetNo]? <;> rfl

theorem StartSession_session (env : StartEnv) (m : CaptureManager)
    (hitem : (m.m_options.imageFile.length == 0 && !env.captureItem) = false) :
    m.StartSession env = m.withoutSession.StartSession env := by
  unfold CaptureManager.StartSession
  dsimp only
  have h1 : ((m.setDevice true).m_options.imageFile.length == 0 && !env.captureItem) = false :=
    hitem
  have h2 : ((m.withoutSession.setDevice true).m_options.imageFile.length == 0 &&
      !env.captureItem) = false := hitem
  rw [h1, h2]
  simp only [Bool.false_eq_true, if_false]
  have e : ∀ sg : State,
      (((m.setDevice true).setPipeline (some sg)).UpdatePixelSize.UpdateOutputSize.UpdateOutputFlip) =
        (((((m.withoutSession.setDevice true).setPipeline
          (some sg)).UpdatePixelSize.UpdateOutputSize.UpdateOutputFlip).setSession
            m.m_session).setActive m.m_active) := fun _ => rfl
  have hopt : (m.withoutSession.setDevice true).m_options = (m.setDevice true).m_options := rfl
  rw [hopt, e, UpdateShaderPreset_session]
  cases ((((m.withoutSession.setDevice true).setPipeline (some (Initialize env.init
      ((m.setDevice true).m_options.captureWindow != 0) ((m.setDevice true).m_options.monitor != 0)
      (m.setDevice true).m_options.clone ((m.setDevice true).m_options.imageFile.length != 0)
      (constructed env.passthrough)))).UpdatePixelSize.UpdateOutputSize.UpdateOutputFlip).UpdateShaderPreset) with
  | none => rfl
  | some m2 =>
    simp only [Option.map_some']
    have hf : ∀ (f : State → State) (x : CaptureManager),
        ((x.setSession m.m_session).setActive m.m_active).onPipeline f =
          ((x.onPipeline f).setSession m.m_session).setActive m.m_active := by
      intro f x
      unfold CaptureManager.onPipeline
      cases hx : x.m_shaderGlass <;> rfl
    unfold CaptureManager.UpdateFrameSkip CaptureManager.UpdateLockedArea
    rw [hf]
    have hopt2 : ∀ x : CaptureManager,
        ((x.setSession m.m_session).setActive m.m_active).m_options = x.m_options := fun _ => rfl
    rw [hopt2, hf]
    split
    · unfold CaptureManager.UpdatePixelSize CaptureManager.onPipeline
      dsimp only
      split <;> rfl
    · rfl

theorem StartSession_result (env : StartEnv) (m : CaptureManager)
    (hitem : (m.m_options.imageFile.length == 0 && !env.captureItem) = false) :
    ∀ m2 result, m.StartSession env = some (m2, result) →
      result = true ∧ m2.m_active = true ∧ m2.m_session.isSome = true := by
  intro m2 result hm
  unfold CaptureManager.StartSession at hm
  dsimp only at hm
  have h1 : ((m.setDevice true).m_options.imageFile.length == 0 && !env.captureItem) = false :=
    hitem
  rw [h1] at hm
  simp only [Bool.false_eq_true, if_false] at hm
  split at hm
  · cases hm
  · rename_i m3 _
    simp only [Option.some.injEq, Prod.mk.injEq] at hm
    obtain ⟨hm, rfl⟩ := hm
    refine ⟨rfl, ?_, ?_⟩
    · rw [← hm]
      unfold CaptureManager.UpdateCursor
      split <;> rfl
    · rw [← hm]
      unfold CaptureManager.UpdateCursor
      split
      · rfl
      · rename_i hnone
        exfalso
        revert hnone
        dsimp only
        split
        · unfold CaptureManager.UpdatePixelSize CaptureManager.onPipeline
          dsimp only
          split <;> (intro hh; cases hh)
        · intro hh
          cases hh

/-- C18. `CaptureManager::StartSession` does not look at a running session.  When the
capture item can be created (or an image file is set), the call on a manager with an
active session does exactly what it does on the same manager without session and
pipeline: whenever it returns, it returns true and leaves a manager with a session that
is active, so a new session and a new pipeline are in the place of the running ones.
Only `ShaderWindow::Start` refuses: on a window whose manager has an active session it
returns false and leaves the window as it was. -/
theorem StartSession_ignores_running_session (env : WindowEnv) (w : ShaderWindow)
    (h : w.m_captureManager.IsActive = true)
    (hitem : (w.m_captureManager.m_options.imageFile.length == 0 &&
      !env.start.captureItem) = false) :
    w.m_captureManager.StartSession env.start =
        w.m_captureManager.withoutSession.StartSession env.start ∧
      (∀ m result, w.m_captureManager.StartSession env.start = some (m, result) →
        result = true ∧ m.m_active = true ∧ m.m_session.isSome = true) ∧
      w.Start env = some (w, false) := by
  refine ⟨StartSession_session env.start _ hitem, StartSession_result env.start _ hitem, ?_⟩
  unfold ShaderWindow.Start
  split <;> rfl

/-- C18, instance: the sample window runs a session and is minimised, which stops the
session and marks it paused; the pause hotkey starts a session, which processes a frame;
the window is restored.  The `WM_SIZE` case calls `StartSession` on the manager with the
active session: it returns true, the pipeline that had processed the frame is replaced by
one that has processed none, and the paused mark is cleared. -/
theorem StartSession_ignores_running_session_witness :
    minimisedRestarted.map (fun w => (w.m_captureManager.IsActive,
        w.m_captureManager.m_options.paused,
        w.m_captureManager.m_shaderGlass.map (fun sg => sg.m_frameCounter))) =
        some (true, true, some 1) ∧
      (minimisedRestarted.bind (ShaderWindow.onSize sampleWindowEnv SizeKind.restored)).map
        (fun w => (w.m_captureManager.IsActive, w.m_captureManager.m_options.paused,
          w.m_captureManager.m_shaderGlass.map (fun sg => sg.m_frameCounter))) =
        some (true, false, some 0) ∧
      (sampleManager.StartSession sampleStartEnv).map (fun r => r.2) = some true ∧
      (sampleWindow.m_captureManager.StartSession sampleWindowEnv.start =
          sampleWindow.m_captureManager.withoutSession.StartSession sampleWindowEnv.start ∧
        (∀ m result,
          sampleWindow.m_captureManager.StartSession sampleWindowEnv.start = some (m, result) →
          result = true ∧ m.m_active = true ∧ m.m_session.isSome = true) ∧
        sampleWindow.Start sampleWindowEnv = some (sampleWindow, false)) :=
  ⟨by decide!, by decide!, by decide!,
    StartSession_ignores_running_session sampleWindowEnv sampleWindow (by decide) (by decide)⟩

/-- C4, failing input: a window capture at input scale 3.  The first frame, of a client
area of 400 by 270, creates the preprocessed texture with 133 by 90.  The captured window
is enlarged to 400 by 370 and a preset is selected; the frame that swaps it in rebuilds
the topology and creates the two history textures with the new logical input size 133 by
123, while the preprocessed texture, which line 529 creates only when there is none, keeps
133 by 90.  The history has the shape a rebuild gives it, the next two frames complete
without a rebuild, and each rotation calls `CopyResource` with a history texture and an
Original texture of different heights: neither `OriginalHistory1` nor `OriginalHistory2`
holds the Original of a frame. -/
theorem history_copy_with_other_size :
    (ProcessTraced (windowFrame 100) windowState).2 = Outcome.completed ∧
      (ProcessTraced (windowFrame 0) (SetShaderPreset samplePreset [] windowRendered)).2 =
        Outcome.completed ∧
      rebuildsPasses (windowFrame 0) (SetShaderPreset samplePreset [] windowRendered) = true ∧
      windowSwapped.m_preprocessedTexture.map (fun t => (t.desc.Width, t.desc.Height)) =
        some (133, 90) ∧
      (viewOf windowSwapped Name.original).map
        (fun v => (v.texture.desc.Width, v.texture.desc.Height)) = some (133, 90) ∧
      (viewOf windowSwapped (Name.originalHistory 1)).map
        (fun v => (v.texture.desc.Width, v.texture.desc.Height)) = some (133, 123) ∧
      (viewOf windowSwapped (Name.originalHistory 2)).map
        (fun v => (v.texture.desc.Width, v.texture.desc.Height)) = some (133, 123) ∧
      windowSwapped.m_requiresHistory = 2 ∧
      historyWF windowSwapped = true ∧ historySized windowSwapped = false ∧
      steadyFrames windowSwapped [windowFrame 0, windowFrame 0] = true ∧
      (viewOf (runFrames windowSwapped [windowFrame 0, windowFrame 0])
        (Name.originalHistory 1)).map (fun v =>
          pixelsOf (runFrames windowSwapped [windowFrame 0, windowFrame 0]) v.texture.id) =
        some Pixels.undefined ∧
      (viewOf (runFrames windowSwapped [windowFrame 0, windowFrame 0])
        (Name.originalHistory 2)).map (fun v =>
          pixelsOf (runFrames windowSwapped [windowFrame 0, windowFrame 0]) v.texture.id) =
        some Pixels.undefined := by
  decide!

end ShaderGlass
